import Mathlib

/-!
# AmNuPlayer: playback controller state machine

A shallow embedding of `media/Am-NuPlayer/AmNuPlayer.cpp`: the controller's
message handler, its deferred-action queue and its flush / shutdown protocol.

Conventions of the embedding:

* The C++ object `AmNuPlayer` becomes the record `Player`; every member function
  becomes a function on `Player`.  A function that can hit `CHECK`,
  `LOG_ALWAYS_FATAL_IF`, `TRESPASS` or a call through a null `sp<>` returns
  `Except Abort Player`.
* Collaborators (Source, Decoder, Renderer, driver, looper) are not modelled
  internally.  Every effectful call made on them is appended to `Player.trace`
  (a history variable, chronological order); every value they return is read from
  the record `Env`, which is fixed for the handling of one message.
* `int32_t` counters are `Int` with explicit wrap-around (`inc32`).
-/

namespace AmNuPlayer

/-! ## Data model -/

/-- Modelled from the spec: the enum `FlushStatus` is declared in `AmNuPlayer.h`,
which is not part of the sources; the constructors are listed in the order the
specification gives. -/
inductive FlushStatus where
  | NONE
  | FLUSHING_DECODER
  | FLUSHING_DECODER_SHUTDOWN
  | SHUTTING_DOWN_DECODER
  | FLUSHED
  | SHUT_DOWN
  deriving DecidableEq

/-- Modelled from the spec: the enum `FlushCommand` is declared in `AmNuPlayer.h`;
its three values are the ones used by `performDecoderFlush`. -/
inductive FlushCommand where
  | FLUSH_CMD_NONE
  | FLUSH_CMD_FLUSH
  | FLUSH_CMD_SHUTDOWN
  deriving DecidableEq

/-- The member functions that the source wraps in a `SimpleAction`. -/
inductive ActionFunc where
  | performReset
  | performScanSources
  deriving DecidableEq

/-- The subclasses of `AmNuPlayer::Action` (lines 71-176), as a tagged variant.
A native window wrapper, and a message to post, are represented by an identifier. -/
inductive Action where
  | SeekAction (mSeekTimeUs : Int) (mNeedNotify : Bool)
  | ResumeDecoderAction (mNeedNotify : Bool)
  | SetSurfaceAction (mWrapper : Option Nat)
  | FlushDecoderAction (mAudio : FlushCommand) (mVideo : FlushCommand)
  | PostMessageAction (mMessage : Nat)
  | SimpleAction (mFunc : ActionFunc)
  deriving DecidableEq

/-- The sign of a `float`; the controller only ever compares `mFrameRate` with `0.0`. -/
inductive FloatSign where
  | negative
  | zero
  | positive
  | nan
  deriving DecidableEq

/-- The bits of `mSourceFlags` that the controller tests (`Source::FLAG_*`). -/
structure SourceFlags where
  FLAG_CAN_SEEK : Bool
  FLAG_DYNAMIC_DURATION : Bool
  FLAG_SECURE : Bool
  FLAG_PROTECTED : Bool
  deriving DecidableEq

/-- The fields of a format message (`sp<AMessage>`) that the controller reads. -/
structure Format where
  mime : Bool
  width : Option Int
  height : Option Int
  crop : Option (Int × Int × Int × Int)
  sarWidth : Option Int
  sarHeight : Option Int
  rotationDegrees : Option Int
  deriving DecidableEq

/-- A 16-bit string written to a reply parcel. -/
inductive Str16 where
  | audioSlash
  | videoSlash
  | text (id : Nat)
  deriving DecidableEq

/-- The fields of a track-info message read by `writeTrackInfo`. -/
structure TrackInfo where
  type : Option Int
  mime : Option Nat
  language : Option Nat
  isAuto : Option Int
  isDefault : Option Int
  isForced : Option Int
  deriving DecidableEq

/-- The meta data of an `ABuffer` handed over by the Source or the CC decoder. -/
structure Buffer where
  trackIndex : Option Int
  timeUs : Option Int
  durationUs : Option Int
  mime : Option Bool
  size : Nat
  deriving DecidableEq

/-- The calls `notifyListener(msg, ext1, ext2, in)` made by the controller, one
constructor per message code used in the source (the code
`MEDIA_INFO_AMLOGIC_SHOW_DTS_HD_MASTER_AUDIO_` is written with a trailing
underscore). -/
inductive ListenerMsg where
  | MEDIA_ERROR_UNKNOWN (err : Int)
  | MEDIA_PLAYBACK_COMPLETE
  | MEDIA_STARTED
  | MEDIA_SET_VIDEO_SIZE (width : Int) (height : Int)
  | MEDIA_BUFFERING_UPDATE (percentage : Int)
  | MEDIA_INFO_RENDERING_START
  | MEDIA_INFO_BUFFERING_START
  | MEDIA_INFO_BUFFERING_END
  | MEDIA_INFO_NETWORK_BANDWIDTH (kbps : Int)
  | MEDIA_INFO_METADATA_UPDATE
  | MEDIA_INFO_NOT_SEEKABLE
  | MEDIA_INFO_AMLOGIC_SHOW_DTS_ASSET
  | MEDIA_INFO_AMLOGIC_SHOW_DTS_EXPRESS
  | MEDIA_INFO_AMLOGIC_SHOW_DTS_HD_MASTER_AUDIO_
  | MEDIA_INFO_AMLOGIC_SHOW_DTS_MULASSETHINT
  | MEDIA_INFO_AMLOGIC_SHOW_DTS_HPS_NOTSUPPORT
  | MEDIA_SUBTITLE_DATA (trackIndex : Int) (timeUs : Int) (durationUs : Int) (size : Nat)
  | MEDIA_META_DATA (timeUs : Int) (size : Nat)
  | MEDIA_TIMED_TEXT
  | SOURCE_READY (err : Int)
  deriving DecidableEq

/-- Effectful calls made on the Source. -/
inductive SourceCall where
  | setParentThreadId (tid : Nat)
  | prepareAsync
  | start
  | stop
  | pause
  | resume
  | disconnect
  | release
  | seekTo (timeUs : Int)
  | feedMoreTSData
  | selectTrack (trackIndex : Nat) (select : Bool) (timeUs : Int)
  | setBuffers
  deriving DecidableEq

/-- Calls made on a decoder (`new Decoder` / `new DecoderPassThrough` included). -/
inductive DecoderCall where
  | create (generation : Int) (passThrough : Bool)
  | init
  | configure
  | setRenderer
  | signalFlush
  | signalResume (needNotify : Bool)
  | initiateShutdown
  deriving DecidableEq

/-- Calls made on the renderer and on its looper. -/
inductive RendererCall where
  | create (generation : Int) (realTime : Bool) (offload : Bool)
  | looperStart
  | looperStop
  | setVideoFrameRate (rate : Int)
  | setHasMedia (audio : Bool)
  | queueEOS (audio : Bool) (err : Int)
  | flush (audio : Bool) (notifyComplete : Bool)
  | pause
  | resume
  | signalEnableOffloadAudio
  | signalDisableOffloadAudio
  | openAudioSink (hasVideo : Bool)
  | closeAudioSink
  deriving DecidableEq

/-- Calls made on the driver, i.e. everything the client can observe. -/
inductive DriverCall where
  | notifySetDataSourceCompleted (err : Int)
  | notifyDuration (durationUs : Int)
  | notifyPrepareCompleted (err : Int)
  | notifySeekComplete
  | notifyResetComplete
  | notifySetSurfaceComplete
  | notifyFlagsChanged (flags : SourceFlags)
  | notifyListener (msg : ListenerMsg)
  deriving DecidableEq

/-- Messages posted by the controller (to itself, to a requester, to a caller). -/
inductive Post where
  | scanSources (generation : Int) (scanNum : Option Int) (delayUs : Int)
  | pollDuration (generation : Int) (delayUs : Int)
  | timedTextData (generation : Int) (buffer : Buffer) (delayUs : Int)
  | reply (id : Nat) (err : Option Int)
  | message (id : Nat)
  | response (err : Option Int)
  deriving DecidableEq

/-- Entries of the history variable `Player.trace`: effectful calls made by the
controller on its collaborators, messages it posts, and the one conditional
error log of `flushDecoder`.  The constructor `actionExecute` records the call
`action->execute(this)` made by `processDeferredActions`. -/
inductive Event where
  | source (call : SourceCall)
  | decoder (audio : Bool) (call : DecoderCall)
  | ccDecoderNew
  | ccDecoderSelectTrack (trackIndex : Nat) (select : Bool)
  | renderer (call : RendererCall)
  | driver (call : DriverCall)
  | post (p : Post)
  | sendMetaDataToHal
  | nativeWindowSetScalingMode (mode : Int)
  | sysfsSetAutoSwitch (value : Int)
  | parcelWriteInt32 (value : Int)
  | parcelWriteString16 (value : Str16)
  | logFlushDecoderCalledInState (audio : Bool) (state : FlushStatus)
  | actionExecute (action : Action)
  deriving DecidableEq

/-- Ways in which the process dies while a message is handled.  `fuel` is the
only value that does not come from the source: it is returned by the bounded
loop `processDeferredActionsLoop` when its bound is used up (shown impossible
in `processDeferredActionsLoop_fuel`). -/
inductive Abort where
  | check
  | logAlwaysFatal
  | trespass
  | nullDeref
  | divideByZero
  | fuel
  deriving DecidableEq

/-- The instance `new Decoder(notify, ...)`: its `notify` message carries the
generation under which the decoder was created. -/
structure DecoderObj where
  generation : Int
  passThrough : Bool
  deriving DecidableEq

/-- The instance `new Renderer(mAudioSink, notify, flags)`. -/
structure RendererObj where
  generation : Int
  deriving DecidableEq

/-- The array `bool mFlushComplete[2][2]`, indexed `[audio][isDecoder]`. -/
structure FlushComplete where
  videoRenderer : Bool
  videoDecoder : Bool
  audioRenderer : Bool
  audioDecoder : Bool
  deriving DecidableEq

/-- The member and static variables of `AmNuPlayer` read or written by the message
handler, and the history variable `trace`. -/
structure Player where
  mDriver : Bool
  mSource : Option Nat
  mSourceFlags : SourceFlags
  mNativeWindow : Option Nat
  mAudioSink : Option Nat
  mAudioDecoder : Option DecoderObj
  mVideoDecoder : Option DecoderObj
  mCCDecoder : Bool
  mRenderer : Option RendererObj
  mRendererLooper : Bool
  mOffloadAudio : Bool
  mAudioDecoderGeneration : Int
  mVideoDecoderGeneration : Int
  mRendererGeneration : Int
  mAudioEOS : Bool
  mVideoEOS : Bool
  mScanSourcesPending : Bool
  mScanSourcesGeneration : Int
  mPollDurationGeneration : Int
  mTimedTextGeneration : Int
  mFlushingAudio : FlushStatus
  mFlushingVideo : FlushStatus
  mFlushComplete : FlushComplete
  mDeferredActions : List Action
  mResumePending : Bool
  mVideoScalingMode : Int
  mNewSurface : Option Nat
  mEnableFrameRate : Bool
  mFrameRate : FloatSign
  mWaitSeconds : Int
  mStarted : Bool
  mPaused : Bool
  mPausedByClient : Bool
  mAutoSwitch : Int
  mStartTimeUs : Int
  mSelfThreadId : Nat
  mStrCurrentAudioCodecIsDTS : Bool
  DtshdApreTotal : Int
  DtsHdStreamType : Int
  DtsHdMulAssetHint : Int
  DtsHdHpsHint : Int
  mThreadId : List Nat
  trace : List Event
  deriving DecidableEq

/-- Values returned by the collaborators and by the platform while one message is
handled (queries have no effect on the collaborator and are not logged). -/
structure Env where
  threadId : Nat
  driverAlive : Bool
  nowUs : Int
  audioFormat : Bool
  videoFormat : Option Format
  isRealTime : Bool
  fileMetaFrameRate : Option Int
  canOffloadStream : Bool
  openAudioSinkErr : Int
  openAudioSinkOffload : Bool
  feedMoreTSDataErr : Int
  getInputBuffersErr : Int
  setBuffersErr : Int
  duration : Option Int
  rendererPosition : Int × Int
  driverPositionMs : Int
  sysfsAutoSwitch : Int
  setScalingModeRet : Int
  inbandTracks : List TrackInfo
  ccTracks : List TrackInfo
  selectTrackErr : Int
  ccSelectTrackErr : Int
  selectedTrack : Int
  dtsStreamType : Int
  dtsTotalApre : Int
  dtsMulAssetHint : Int
  dtsHpsHint : Int
  deriving DecidableEq

/-! ## Platform constants

Android status codes (`utils/Errors.h`, `media/stagefright/MediaErrors.h`); they
are not defined in this repository. -/

/-- The status `OK`. -/
def OK : Int := 0
/-- The status `UNKNOWN_ERROR` (`INT32_MIN`). -/
def UNKNOWN_ERROR : Int := -2147483648
/-- The status `NO_INIT` (`-ENODEV`). -/
def NO_INIT : Int := -19
/-- The status `INVALID_OPERATION` (`-ENOSYS`). -/
def INVALID_OPERATION : Int := -38
/-- The status `BAD_VALUE` (`-EINVAL`). -/
def BAD_VALUE : Int := -22
/-- The status `BAD_TYPE`. -/
def BAD_TYPE : Int := -2147483647
/-- The status `-EWOULDBLOCK`. -/
def EWOULDBLOCK_NEG : Int := -11
/-- The status `ERROR_END_OF_STREAM`. -/
def ERROR_END_OF_STREAM : Int := -1011
/-- The status `INFO_DISCONTINUITY`. -/
def INFO_DISCONTINUITY : Int := -1013
/-- The status `ERROR_DRM_NO_LICENSE`. -/
def ERROR_DRM_NO_LICENSE : Int := -2001
/-- The track type `MEDIA_TRACK_TYPE_VIDEO`. -/
def MEDIA_TRACK_TYPE_VIDEO : Int := 1
/-- The track type `MEDIA_TRACK_TYPE_AUDIO_`, written with a trailing underscore. -/
def MEDIA_TRACK_TYPE_AUDIO_ : Int := 2
/-- The track type `MEDIA_TRACK_TYPE_TIMEDTEXT`. -/
def MEDIA_TRACK_TYPE_TIMEDTEXT : Int := 3
/-- The track type `MEDIA_TRACK_TYPE_SUBTITLE`. -/
def MEDIA_TRACK_TYPE_SUBTITLE : Int := 4
/-- The default of `mVideoScalingMode`, `NATIVE_WINDOW_SCALING_MODE_SCALE_TO_WINDOW`. -/
def NATIVE_WINDOW_SCALING_MODE_SCALE_TO_WINDOW : Int := 1

/-- Reduction of an integer to the range of `int32_t`. -/
def wrap32 (x : Int) : Int := (x + 2147483648) % 4294967296 - 2147483648

/-- The statement `++g` on an `int32_t`. -/
def inc32 (g : Int) : Int := wrap32 (g + 1)

/-! ## Small helpers (inline functions of `AmNuPlayer.h`, logging of calls) -/

/-- Append one entry to the history variable. -/
def emit (e : Event) (s : Player) : Player :=
  { s with trace := s.trace ++ [e] }

/-- Read `mFlushComplete[audio][isDecoder]`. -/
def FlushComplete.get (m : FlushComplete) (audio isDecoder : Bool) : Bool :=
  match audio, isDecoder with
  | false, false => m.videoRenderer
  | false, true => m.videoDecoder
  | true, false => m.audioRenderer
  | true, true => m.audioDecoder

/-- Write `mFlushComplete[audio][isDecoder] = v`. -/
def FlushComplete.set (m : FlushComplete) (audio isDecoder v : Bool) : FlushComplete :=
  match audio, isDecoder with
  | false, false => { m with videoRenderer := v }
  | false, true => { m with videoDecoder := v }
  | true, false => { m with audioRenderer := v }
  | true, true => { m with audioDecoder := v }

/-- Modelled from the spec: `clearFlushComplete()` is an inline function of
`AmNuPlayer.h`, which is not part of the sources; it sets the four entries of
the completion matrix to `false`. -/
def clearFlushComplete (s : Player) : Player :=
  { s with mFlushComplete := ⟨false, false, false, false⟩ }

/-- Modelled from the spec: `getDecoder(audio)` is an inline function of
`AmNuPlayer.h`; it returns `mAudioDecoder` for `audio` and `mVideoDecoder`
otherwise. -/
def getDecoder (audio : Bool) (s : Player) : Option DecoderObj :=
  if audio then s.mAudioDecoder else s.mVideoDecoder

/-- The flush status of one track (`audio ? mFlushingAudio : mFlushingVideo`). -/
def flushing (audio : Bool) (s : Player) : FlushStatus :=
  if audio then s.mFlushingAudio else s.mFlushingVideo

/-- Assignment through `FlushStatus *flushing = audio ? &mFlushingAudio : &mFlushingVideo`. -/
def setFlushing (audio : Bool) (v : FlushStatus) (s : Player) : Player :=
  if audio then { s with mFlushingAudio := v } else { s with mFlushingVideo := v }

/-- The call `driver->f(...)` guarded by `mDriver != NULL` and by a successful
`mDriver.promote()`. -/
def callDriver (env : Env) (c : DriverCall) (s : Player) : Player :=
  if s.mDriver && env.driverAlive then emit (.driver c) s else s

/-- `AmNuPlayer::notifyListener` (lines 1899-1911). -/
def notifyListener (env : Env) (msg : ListenerMsg) (s : Player) : Player :=
  if s.mDriver = false then s
  else if env.driverAlive = false then s
  else emit (.driver (.notifyListener msg)) s

/-- `AmNuPlayer::thread_interrupt` (lines 232-251): register the calling thread
unless it is registered already. -/
def thread_interrupt (env : Env) (s : Player) : Player :=
  if s.mThreadId.isEmpty then
    { s with mThreadId := s.mThreadId ++ [env.threadId] }
  else if s.mThreadId.indexOf env.threadId = s.mThreadId.length then
    { s with mThreadId := s.mThreadId ++ [env.threadId] }
  else s

/-- `AmNuPlayer::thread_uninterrupt` (lines 254-266): remove the first entry equal
to the calling thread. -/
def thread_uninterrupt (env : Env) (s : Player) : Player :=
  { s with mThreadId := s.mThreadId.eraseIdx (s.mThreadId.indexOf env.threadId) }

/-- `AmNuPlayer::interrupt_callback` (lines 269-282). -/
def interrupt_callback (thread_id : Nat) (s : Player) : Int :=
  if s.mThreadId.isEmpty then 0
  else if s.mThreadId.indexOf thread_id < s.mThreadId.length then 1
  else 0

/-! ## Scan-sources and poll-duration scheduling -/

/-- `AmNuPlayer::postScanSources` (lines 1712-1722). -/
def postScanSources (s : Player) : Player :=
  if s.mScanSourcesPending then s
  else
    let s := emit (.post (.scanSources s.mScanSourcesGeneration none 0)) s
    { s with mScanSourcesPending := true }

/-- `AmNuPlayer::schedulePollDuration` (lines 2075-2079). -/
def schedulePollDuration (s : Player) : Player :=
  emit (.post (.pollDuration s.mPollDurationGeneration 0)) s

/-- `AmNuPlayer::cancelPollDuration` (lines 2081-2083). -/
def cancelPollDuration (s : Player) : Player :=
  { s with mPollDurationGeneration := inc32 s.mPollDurationGeneration }

/-! ## Flushing a decoder -/

/-- `AmNuPlayer::flushDecoder` (lines 1913-1944). -/
def flushDecoder (audio needShutdown : Bool) (s : Player) : Player :=
  match getDecoder audio s with
  | none => s
  | some _ =>
    let s := { s with mScanSourcesGeneration := inc32 s.mScanSourcesGeneration }
    let s := { s with mScanSourcesPending := false }
    let s := emit (.decoder audio .signalFlush) s
    let newStatus : FlushStatus :=
      if needShutdown then .FLUSHING_DECODER_SHUTDOWN else .FLUSHING_DECODER
    let s := { s with mFlushComplete := s.mFlushComplete.set audio false s.mRenderer.isNone }
    let s := { s with mFlushComplete := s.mFlushComplete.set audio true false }
    if audio then
      let s := if s.mFlushingAudio ≠ .NONE then
          emit (.logFlushDecoderCalledInState true s.mFlushingAudio) s else s
      { s with mFlushingAudio := newStatus }
    else
      let s := if s.mFlushingVideo ≠ .NONE then
          emit (.logFlushDecoderCalledInState false s.mFlushingVideo) s else s
      { s with mFlushingVideo := newStatus }

/-- `AmNuPlayer::performDecoderFlush` (lines 2132-2148). -/
def performDecoderFlush (audio video : FlushCommand) (s : Player) : Player :=
  if (audio = .FLUSH_CMD_NONE ∨ s.mAudioDecoder = none)
      ∧ (video = .FLUSH_CMD_NONE ∨ s.mVideoDecoder = none) then s
  else
    let s := if audio ≠ .FLUSH_CMD_NONE ∧ s.mAudioDecoder ≠ none then
        flushDecoder true (audio = .FLUSH_CMD_SHUTDOWN) s else s
    let s := if video ≠ .FLUSH_CMD_NONE ∧ s.mVideoDecoder ≠ none then
        flushDecoder false (video = .FLUSH_CMD_SHUTDOWN) s else s
    s

/-! ## The operations behind the deferred actions -/

/-- `AmNuPlayer::performSeek` (lines 2108-2130). -/
def performSeek (env : Env) (seekTimeUs : Int) (_needNotify : Bool) (s : Player) :
    Except Abort Player :=
  if s.mSource = none then
    if s.mAudioDecoder ≠ none ∨ s.mVideoDecoder ≠ none then .error .logAlwaysFatal
    else .ok s
  else
    let s := thread_interrupt env s
    let s := emit (.source (.seekTo seekTimeUs)) s
    let s := thread_uninterrupt env s
    .ok { s with mTimedTextGeneration := inc32 s.mTimedTextGeneration }

/-- `AmNuPlayer::performReset` (lines 2150-2187). -/
def performReset (env : Env) (s : Player) : Except Abort Player :=
  if s.mAudioDecoder ≠ none then .error .check
  else if s.mVideoDecoder ≠ none then .error .check
  else
    let s := cancelPollDuration s
    let s := { s with mScanSourcesGeneration := inc32 s.mScanSourcesGeneration }
    let s := { s with mScanSourcesPending := false }
    let s := if s.mRendererLooper then
        { emit (.renderer .looperStop) s with mRendererLooper := false } else s
    let s := { s with mRenderer := none }
    let s := { s with mRendererGeneration := inc32 s.mRendererGeneration }
    let s := if s.mSource ≠ none then
        let s := thread_interrupt env s
        let s := emit (.source .stop) s
        let s := { s with mSource := none }
        thread_uninterrupt env s
      else s
    let s := callDriver env .notifyResetComplete s
    .ok { s with mStarted := false }

/-- `AmNuPlayer::performScanSources` (lines 2189-2199). -/
def performScanSources (s : Player) : Player :=
  if !s.mStarted then s
  else if s.mAudioDecoder = none ∨ s.mVideoDecoder = none then postScanSources s
  else s

/-- `AmNuPlayer::setVideoScalingMode` (lines 1963-1975); returns the status too. -/
def setVideoScalingMode (env : Env) (mode : Int) (s : Player) : Int × Player :=
  let s := { s with mVideoScalingMode := mode }
  if s.mNativeWindow ≠ none then
    let s := emit (.nativeWindowSetScalingMode s.mVideoScalingMode) s
    if env.setScalingModeRet ≠ OK then (env.setScalingModeRet, s) else (OK, s)
  else (OK, s)

/-- `AmNuPlayer::performSetSurface` (lines 2201-2215). -/
def performSetSurface (env : Env) (wrapper : Option Nat) (s : Player) : Player :=
  let s := { s with mNativeWindow := wrapper }
  let s := (setVideoScalingMode env s.mVideoScalingMode s).2
  callDriver env .notifySetSurfaceComplete s

/-- `AmNuPlayer::finishResume` (lines 2241-2251). -/
def finishResume (env : Env) (s : Player) : Player :=
  if s.mResumePending then
    let s := { s with mResumePending := false }
    callDriver env .notifySeekComplete s
  else s

/-- `AmNuPlayer::performResumeDecoders` (lines 2217-2239). -/
def performResumeDecoders (env : Env) (needNotify : Bool) (s : Player) : Player :=
  let s := if needNotify then
      let s := { s with mResumePending := true }
      if s.mVideoDecoder = none then finishResume env s else s
    else s
  let s := if s.mVideoDecoder ≠ none then
      emit (.decoder false (.signalResume needNotify)) s else s
  let s := if s.mAudioDecoder ≠ none then
      emit (.decoder true (.signalResume false)) s else s
  s

/-- The virtual call `action->execute(player)` (lines 86-170). -/
def Action.execute (env : Env) (a : Action) (s : Player) : Except Abort Player :=
  match a with
  | .SeekAction seekTimeUs needNotify => performSeek env seekTimeUs needNotify s
  | .ResumeDecoderAction needNotify => .ok (performResumeDecoders env needNotify s)
  | .SetSurfaceAction wrapper => .ok (performSetSurface env wrapper s)
  | .FlushDecoderAction audio video => .ok (performDecoderFlush audio video s)
  | .PostMessageAction msg => .ok (emit (.post (.message msg)) s)
  | .SimpleAction .performReset => performReset env s
  | .SimpleAction .performScanSources => .ok (performScanSources s)

/-! ## The deferred-action queue -/

/-- The head of the loop of `processDeferredActions` (lines 2086-2102): `none`
when the loop is left (queue empty, or the `break` taken because a track is
flushing); otherwise the action taken from the front and the state in which it
is about to be executed. -/
def nextDeferredAction (s : Player) : Option (Action × Player) :=
  match s.mDeferredActions with
  | [] => none
  | action :: rest =>
    if s.mFlushingAudio ≠ .NONE ∨ s.mFlushingVideo ≠ .NONE then none
    else some (action, { s with mDeferredActions := rest })

/-- The `while` loop of `processDeferredActions`, bounded by `fuel` iterations. -/
def processDeferredActionsLoop (env : Env) : Nat → Player → Except Abort Player
  | 0, _ => .error .fuel
  | fuel + 1, s =>
    match nextDeferredAction s with
    | none => .ok s
    | some (action, s) =>
      (action.execute env (emit (.actionExecute action) s)).bind
        (processDeferredActionsLoop env fuel)

/-- `AmNuPlayer::processDeferredActions` (lines 2085-2106).  No action touches
the queue, so the loop makes at most one iteration per queued action and one
more to find the queue empty. -/
def processDeferredActions (env : Env) (s : Player) : Except Abort Player :=
  processDeferredActionsLoop env (s.mDeferredActions.length + 1) s

/-! ## Flush completion -/

/-- `AmNuPlayer::handleFlushComplete` (lines 1652-1689). -/
def handleFlushComplete (audio isDecoder : Bool) (s : Player) : Except Abort Player :=
  let s := { s with mFlushComplete := s.mFlushComplete.set audio isDecoder true }
  if !s.mFlushComplete.get audio (!isDecoder) then .ok s
  else
    match flushing audio s with
    | .FLUSHING_DECODER => .ok (setFlushing audio .FLUSHED s)
    | .FLUSHING_DECODER_SHUTDOWN =>
      let s := setFlushing audio .SHUTTING_DOWN_DECODER s
      let s := if !audio then
          if s.mSource ≠ none ∧ s.mSourceFlags.FLAG_SECURE then emit (.source .stop) s else s
        else s
      if getDecoder audio s = none then .error .nullDeref
      else .ok (emit (.decoder audio .initiateShutdown) s)
    | _ => if isDecoder then .error .logAlwaysFatal else .ok s

/-- `AmNuPlayer::finishFlushIfPossible` (lines 1691-1710). -/
def finishFlushIfPossible (env : Env) (s : Player) : Except Abort Player :=
  if s.mFlushingAudio ≠ .NONE ∧ s.mFlushingAudio ≠ .FLUSHED
      ∧ s.mFlushingAudio ≠ .SHUT_DOWN then .ok s
  else if s.mFlushingVideo ≠ .NONE ∧ s.mFlushingVideo ≠ .FLUSHED
      ∧ s.mFlushingVideo ≠ .SHUT_DOWN then .ok s
  else
    let s := { s with mFlushingAudio := .NONE }
    let s := { s with mFlushingVideo := .NONE }
    let s := clearFlushComplete s
    processDeferredActions env s

/-! ## Decoder instantiation, start, pause, resume -/

/-- `AmNuPlayer::tryOpenAudioSinkForOffload` (lines 1724-1738). -/
def tryOpenAudioSinkForOffload (env : Env) (hasVideo : Bool) (s : Player) :
    Except Abort Player :=
  if s.mRenderer = none then .error .nullDeref
  else
    let s := emit (.renderer (.openAudioSink hasVideo)) s
    let s := { s with mOffloadAudio := env.openAudioSinkOffload }
    if env.openAudioSinkErr ≠ OK then .ok { s with mOffloadAudio := false }
    else if s.mOffloadAudio then .ok (emit .sendMetaDataToHal s)
    else .ok s

/-- `AmNuPlayer::closeAudioSink` (lines 1740-1742). -/
def closeAudioSink (s : Player) : Except Abort Player :=
  if s.mRenderer = none then .error .nullDeref
  else .ok (emit (.renderer .closeAudioSink) s)

/-- `AmNuPlayer::instantiateDecoder` (lines 1744-1831), called with
`&mAudioDecoder` for `audio` and with `&mVideoDecoder` otherwise; returns the
status together with the new state. -/
def instantiateDecoder (env : Env) (audio : Bool) (s : Player) :
    Except Abort (Int × Player) :=
  if getDecoder audio s ≠ none then .ok (OK, s)
  else if s.mSource = none then .error .nullDeref
  else if audio then
    if !env.audioFormat then .ok (EWOULDBLOCK_NEG, s)
    else
      let s := { s with mAudioDecoderGeneration := inc32 s.mAudioDecoderGeneration }
      let s := emit (.decoder true (.create s.mAudioDecoderGeneration s.mOffloadAudio)) s
      let s := { s with mAudioDecoder := some ⟨s.mAudioDecoderGeneration, s.mOffloadAudio⟩ }
      if s.mRenderer = none then .error .nullDeref
      else
        let s := emit (.renderer (.setHasMedia true)) s
        let s := emit (.decoder true .init) s
        let s := emit (.decoder true .configure) s
        .ok (OK, s)
  else
    match env.videoFormat with
    | none => .ok (EWOULDBLOCK_NEG, s)
    | some format =>
      if !format.mime then .error .check
      else
        let s := if !s.mCCDecoder then { emit .ccDecoderNew s with mCCDecoder := true } else s
        let s := { s with mVideoDecoderGeneration := inc32 s.mVideoDecoderGeneration }
        let s := emit (.decoder false (.create s.mVideoDecoderGeneration false)) s
        let s := { s with mVideoDecoder := some ⟨s.mVideoDecoderGeneration, false⟩ }
        if s.mRenderer = none then .error .nullDeref
        else
          let s := emit (.renderer (.setHasMedia false)) s
          let s := emit (.decoder false .init) s
          let s := emit (.decoder false .configure) s
          if s.mSourceFlags.FLAG_SECURE then
            if env.getInputBuffersErr ≠ OK then .error .check
            else
              let s := emit (.source .setBuffers) s
              if env.setBuffersErr ≠ OK then .ok (env.setBuffersErr, s) else .ok (OK, s)
          else .ok (OK, s)

/-- `AmNuPlayer::audioDecoderStillNeeded` (lines 1647-1650). -/
def audioDecoderStillNeeded (s : Player) : Bool :=
  s.mFlushingAudio ≠ .SHUT_DOWN ∧ s.mFlushingAudio ≠ .SHUTTING_DOWN_DECODER

/-- `AmNuPlayer::onResume` (lines 1519-1539). -/
def onResume (env : Env) (s : Player) : Except Abort Player :=
  if !s.mPaused then .ok s
  else
    let s := { s with mPaused := false }
    let s := if s.mSource ≠ none then emit (.source .resume) s else s
    (if audioDecoderStillNeeded s ∧ s.mAudioDecoder = none then instantiateDecoder env true s
      else .ok (OK, s)).bind fun r =>
    let s := r.2
    .ok (if s.mRenderer ≠ none then emit (.renderer .resume) s else s)

/-- `AmNuPlayer::onPause` (lines 1630-1645). -/
def onPause (s : Player) : Player :=
  if s.mPaused then s
  else
    let s := { s with mPaused := true }
    let s := if s.mSource ≠ none then emit (.source .pause) s else s
    let s := if s.mRenderer ≠ none then emit (.renderer .pause) s else s
    s

/-- `AmNuPlayer::onInstantiateSecureDecoders` (lines 1541-1568). -/
def onInstantiateSecureDecoders (env : Env) (s : Player) : Except Abort (Int × Player) :=
  if !s.mSourceFlags.FLAG_SECURE then .ok (BAD_TYPE, s)
  else if s.mRenderer ≠ none then .ok (UNKNOWN_ERROR, s)
  else
    (if s.mNativeWindow ≠ none then instantiateDecoder env false s else .ok (OK, s)).bind
      fun r =>
    let err := r.1
    let s := r.2
    if err ≠ OK then .ok (err, s)
    else
      (if s.mAudioSink ≠ none then instantiateDecoder env true s else .ok (OK, s)).bind
        fun r =>
      let err := r.1
      let s := r.2
      if err ≠ OK then .ok (err, s) else .ok (OK, s)

/-- `AmNuPlayer::onStart` (lines 1570-1628). -/
def onStart (env : Env) (s : Player) : Except Abort Player :=
  let s := { s with mOffloadAudio := false }
  let s := { s with mAudioEOS := false }
  let s := { s with mVideoEOS := false }
  let s := { s with mStarted := true }
  if s.mSource = none then .error .nullDeref
  else
    let s := emit (.source .start) s
    let s := { s with mOffloadAudio := env.canOffloadStream }
    let s := { s with mRendererGeneration := inc32 s.mRendererGeneration }
    let s := emit (.renderer (.create s.mRendererGeneration env.isRealTime s.mOffloadAudio)) s
    let s := { s with mRenderer := some ⟨s.mRendererGeneration⟩ }
    let s := { emit (.renderer .looperStart) s with mRendererLooper := true }
    let s : Player := match env.fileMetaFrameRate with
      | some rate => if rate > 0 then emit (.renderer (.setVideoFrameRate rate)) s else s
      | none => s
    let s := if s.mVideoDecoder ≠ none then
        emit (.renderer (.setHasMedia false)) (emit (.decoder false .setRenderer) s) else s
    let s := if s.mAudioDecoder ≠ none then
        emit (.renderer (.setHasMedia true)) (emit (.decoder true .setRenderer) s) else s
    let s := { s with mStartTimeUs := env.nowUs }
    .ok (postScanSources s)

/-! ## Video size, position, track info -/

/-- `AmNuPlayer::updateVideoSize` (lines 1833-1897); `int32_t` arithmetic, the
division truncating and undefined for a zero divisor. -/
def updateVideoSize (env : Env) (inputFormat outputFormat : Option Format) (s : Player) :
    Except Abort Player :=
  match inputFormat with
  | none => .ok (notifyListener env (.MEDIA_SET_VIDEO_SIZE 0 0) s)
  | some input =>
    ((match outputFormat with
      | some output =>
        match output.width, output.height, output.crop with
        | some _, some _, some (cropLeft, cropTop, cropRight, cropBottom) =>
          .ok (wrap32 (wrap32 (cropRight - cropLeft) + 1),
               wrap32 (wrap32 (cropBottom - cropTop) + 1))
        | _, _, _ => .error .check
      | none =>
        match input.width, input.height with
        | some w, some h => .ok (w, h)
        | _, _ => .error .check) : Except Abort (Int × Int)).bind fun size =>
    let displayHeight := size.2
    ((match input.sarWidth, input.sarHeight with
      | some sarWidth, some sarHeight =>
        if sarHeight = 0 then .error .divideByZero
        else .ok (wrap32 ((wrap32 (size.1 * sarWidth)).tdiv sarHeight))
      | _, _ => .ok size.1) : Except Abort Int).bind fun displayWidth =>
    let rotationDegrees : Int := input.rotationDegrees.getD 0
    if rotationDegrees = 90 ∨ rotationDegrees = 270 then
      .ok (notifyListener env (.MEDIA_SET_VIDEO_SIZE displayHeight displayWidth) s)
    else
      .ok (notifyListener env (.MEDIA_SET_VIDEO_SIZE displayWidth displayHeight) s)

/-- The first DTS check of `getCurrentPosition` (lines 2032-2036): the number of
audio presentations changed. -/
def dtsCheckTotalApre (env : Env) (s : Player) : Player :=
  if env.dtsTotalApre ≠ s.DtshdApreTotal ∧ env.dtsTotalApre > 0 then
    notifyListener env .MEDIA_INFO_AMLOGIC_SHOW_DTS_ASSET
      { s with DtshdApreTotal := env.dtsTotalApre }
  else s

/-- The second DTS check of `getCurrentPosition` (lines 2037-2046): the stream
type changed. -/
def dtsCheckStreamType (env : Env) (s : Player) : Player :=
  if env.dtsStreamType ≠ s.DtsHdStreamType then
    let s := { s with DtsHdStreamType := env.dtsStreamType }
    let s := if s.DtsHdStreamType = 0 then
        notifyListener env .MEDIA_INFO_AMLOGIC_SHOW_DTS_ASSET s else s
    if s.DtsHdStreamType = 1 then
      notifyListener env .MEDIA_INFO_AMLOGIC_SHOW_DTS_EXPRESS s
    else if s.DtsHdStreamType = 2 then
      notifyListener env .MEDIA_INFO_AMLOGIC_SHOW_DTS_HD_MASTER_AUDIO_ s
    else s
  else s

/-- The third DTS check of `getCurrentPosition` (lines 2047-2051). -/
def dtsCheckMulAssetHint (env : Env) (s : Player) : Player :=
  if s.DtsHdMulAssetHint ≠ env.dtsMulAssetHint ∧ env.dtsMulAssetHint ≠ 0 then
    { notifyListener env .MEDIA_INFO_AMLOGIC_SHOW_DTS_MULASSETHINT s with
      DtsHdMulAssetHint := env.dtsMulAssetHint }
  else s

/-- The fourth DTS check of `getCurrentPosition` (lines 2053-2056). -/
def dtsCheckHpsHint (env : Env) (s : Player) : Player :=
  if env.dtsHpsHint ≠ 0 ∧ s.DtsHdHpsHint = 0 then
    { notifyListener env .MEDIA_INFO_AMLOGIC_SHOW_DTS_HPS_NOTSUPPORT s with DtsHdHpsHint := 1 }
  else s

/-- `AmNuPlayer::getCurrentPosition` (lines 2019-2059); returns the status, the
position written to `*mediaUs`, and the new state. -/
def getCurrentPosition (env : Env) (s : Player) : Int × Int × Player :=
  if s.mRenderer = none then (NO_INIT, 0, s)
  else
    let s : Player :=
      if s.mStrCurrentAudioCodecIsDTS then
        dtsCheckHpsHint env (dtsCheckMulAssetHint env (dtsCheckStreamType env
          (dtsCheckTotalApre env s)))
      else s
    (env.rendererPosition.1, env.rendererPosition.2, s)

/-- `AmNuPlayer::writeTrackInfo` (lines 825-863). -/
def writeTrackInfo (format : TrackInfo) (s : Player) : Except Abort Player :=
  match format.type with
  | none => .error .check
  | some trackType =>
    ((match format.mime with
      | some m => .ok (.text m)
      | none =>
        if trackType = MEDIA_TRACK_TYPE_AUDIO_ then .ok .audioSlash
        else if trackType = MEDIA_TRACK_TYPE_VIDEO then .ok .videoSlash
        else .error .trespass) : Except Abort Str16).bind fun mime =>
    match format.language with
    | none => .error .check
    | some lang =>
      let s := emit (.parcelWriteInt32 2) s
      let s := emit (.parcelWriteInt32 trackType) s
      let s := emit (.parcelWriteString16 mime) s
      let s := emit (.parcelWriteString16 (.text lang)) s
      if trackType = MEDIA_TRACK_TYPE_SUBTITLE then
        match format.isAuto, format.isDefault, format.isForced with
        | some isAuto, some isDefault, some isForced =>
          let s := emit (.parcelWriteInt32 isAuto) s
          let s := emit (.parcelWriteInt32 isDefault) s
          .ok (emit (.parcelWriteInt32 isForced) s)
        | _, _, _ => .error .check
      else .ok s

/-- The two loops of `kWhatGetTrackInfo` that call `writeTrackInfo` on every track. -/
def writeTrackInfos : List TrackInfo → Player → Except Abort Player
  | [], s => .ok s
  | format :: rest, s => (writeTrackInfo format s).bind (writeTrackInfos rest)

/-- `AmNuPlayer::sendSubtitleData` (lines 2522-2538). -/
def sendSubtitleData (env : Env) (buffer : Buffer) (baseIndex : Int) (s : Player) :
    Except Abort Player :=
  match buffer.trackIndex, buffer.timeUs, buffer.durationUs with
  | some trackIndex, some timeUs, some durationUs =>
    .ok (notifyListener env
      (.MEDIA_SUBTITLE_DATA (wrap32 (trackIndex + baseIndex)) timeUs durationUs buffer.size) s)
  | _, _, _ => .error .check

/-- `AmNuPlayer::sendTimedMetaData` (lines 2540-2551). -/
def sendTimedMetaData (env : Env) (buffer : Buffer) (s : Player) : Except Abort Player :=
  match buffer.timeUs with
  | some timeUs => .ok (notifyListener env (.MEDIA_META_DATA timeUs buffer.size) s)
  | none => .error .check

/-- `AmNuPlayer::sendTimedTextData` (lines 2553-2579); the parcel stays empty, so
the empty timed text is always the one sent. -/
def sendTimedTextData (env : Env) (buffer : Buffer) (s : Player) : Except Abort Player :=
  match buffer.mime with
  | none => .error .check
  | some is3gpp =>
    if !is3gpp then .error .check
    else if buffer.size > 0 ∧ buffer.timeUs = none then .error .check
    else .ok (notifyListener env .MEDIA_TIMED_TEXT s)

/-- The statement `mDeferredActions.push_back(action)`. -/
def pushAction (action : Action) (s : Player) : Player :=
  { s with mDeferredActions := s.mDeferredActions ++ [action] }

/-- `AmNuPlayer::queueDecoderShutdown` (lines 1946-1961). -/
def queueDecoderShutdown (env : Env) (audio video : Bool) (reply : Nat) (s : Player) :
    Except Abort Player :=
  let s := pushAction (.FlushDecoderAction
    (if audio then .FLUSH_CMD_SHUTDOWN else .FLUSH_CMD_NONE)
    (if video then .FLUSH_CMD_SHUTDOWN else .FLUSH_CMD_NONE)) s
  let s := pushAction (.SimpleAction .performScanSources) s
  let s := pushAction (.PostMessageAction reply) s
  processDeferredActions env s

/-! ## Messages

Messages are typed: a field that the handler reads through `CHECK(msg->find...)`
is a mandatory argument of the constructor, a field it reads conditionally is an
`Option`. -/

/-- The `what` of a decoder notification (`DecoderBase::kWhat...`) with its payload. -/
inductive DecoderWhat where
  | kWhatInputDiscontinuity (formatChange : Bool)
  | kWhatEOS (err : Int)
  | kWhatFlushCompleted
  | kWhatVideoSizeChanged (format : Format)
  | kWhatShutdownCompleted
  | kWhatResumeCompleted
  | kWhatError (err : Option Int)
  | unhandled
  deriving DecidableEq

/-- The `what` of a renderer notification (`Renderer::kWhat...`) with its payload. -/
inductive RendererWhat where
  | kWhatEOS (audio : Bool) (finalResult : Int)
  | kWhatFlushComplete (audio : Bool)
  | kWhatVideoRenderingStart
  | kWhatMediaRenderingStart
  | kWhatAudioOffloadTearDown (positionUs : Int) (dueToError : Bool)
  | unhandled
  deriving DecidableEq

/-- The `what` of a source notification (`Source::kWhat...`) with its payload. -/
inductive SourceWhat where
  | kWhatInstantiateSecureDecoders (reply : Nat)
  | kWhatPrepared (err : Int)
  | kWhatFlagsChanged (flags : SourceFlags)
  | kWhatVideoSizeChanged (format : Format)
  | kWhatBufferingUpdate (percentage : Int)
  | kWhatPauseOnBufferingStart
  | kWhatBufferingStart
  | kWhatResumeOnBufferingEnd
  | kWhatBufferingEnd
  | kWhatCacheStats (kbps : Int)
  | kWhatSubtitleData (buffer : Buffer)
  | kWhatTimedMetaData (buffer : Option Buffer)
  | kWhatTimedTextData (generation : Option Int) (buffer : Buffer)
  | kWhatQueueDecoderShutdown (audio : Bool) (video : Bool) (reply : Nat)
  | kWhatDrmNoLicense
  | kWhatSourceReady (err : Int)
  | kWhatFrameRate (frameRate : FloatSign)
  | unhandled
  deriving DecidableEq

/-- The `what` of a closed-caption notification. -/
inductive CCWhat where
  | kWhatClosedCaptionData (buffer : Buffer)
  | kWhatTrackAdded
  | unhandled
  deriving DecidableEq

/-- The messages handled by `AmNuPlayer::onMessageReceived`. -/
inductive Msg where
  | kWhatSetDataSource (source : Option Nat)
  | kWhatPrepare
  | kWhatGetTrackInfo
  | kWhatGetSelectedTrack (type : Int)
  | kWhatSelectTrack (trackIndex : Nat) (select : Bool) (timeUs : Int)
  | kWhatPollDuration (generation : Int)
  | kWhatSetVideoNativeWindow (nativeWindow : Option Nat)
  | kWhatSetAudioSink (sink : Option Nat)
  | kWhatStart
  | kWhatScanSources (generation : Int) (scanNum : Option Int)
  | kWhatVideoNotify (generation : Int) (reply : Option Nat) (what : DecoderWhat)
  | kWhatAudioNotify (generation : Int) (reply : Option Nat) (what : DecoderWhat)
  | kWhatRendererNotify (generation : Int) (what : RendererWhat)
  | kWhatMoreDataQueued
  | kWhatReset
  | kWhatSeek (seekTimeUs : Int) (needNotify : Bool)
  | kWhatPause
  | kWhatSourceNotify (what : SourceWhat)
  | kWhatClosedCaptionNotify (what : CCWhat)
  | unhandled
  deriving DecidableEq

/-! ## Source and closed-caption notifications -/

/-- `AmNuPlayer::onClosedCaptionNotify` (lines 2489-2520). -/
def onClosedCaptionNotify (env : Env) (what : CCWhat) (s : Player) : Except Abort Player :=
  match what with
  | .kWhatClosedCaptionData buffer =>
    let inbandTracks : Nat := if s.mSource ≠ none then env.inbandTracks.length else 0
    sendSubtitleData env buffer (wrap32 inbandTracks) s
  | .kWhatTrackAdded => .ok (notifyListener env .MEDIA_INFO_METADATA_UPDATE s)
  | .unhandled => .error .trespass

/-- `AmNuPlayer::onSourceNotify` (lines 2253-2487). -/
def onSourceNotify (env : Env) (what : SourceWhat) (s : Player) : Except Abort Player :=
  match what with
  | .kWhatInstantiateSecureDecoders reply =>
    if s.mSource = none then .ok s
    else
      (onInstantiateSecureDecoders env s).bind fun r =>
      .ok (emit (.post (.reply reply (some r.1))) r.2)
  | .kWhatPrepared err =>
    if s.mSource = none then .ok s
    else
      (if err ≠ OK then
          processDeferredActions env
            (pushAction (.FlushDecoderAction .FLUSH_CMD_SHUTDOWN .FLUSH_CMD_SHUTDOWN) s)
        else .ok s).bind fun s =>
      let s := match s.mSource, env.duration with
        | some _, some durationUs => callDriver env (.notifyDuration durationUs) s
        | _, _ => s
      .ok (callDriver env (.notifyPrepareCompleted err) s)
  | .kWhatFlagsChanged flags =>
    let s := if !flags.FLAG_CAN_SEEK then
        callDriver env (.notifyListener .MEDIA_INFO_NOT_SEEKABLE) s else s
    let s := callDriver env (.notifyFlagsChanged flags) s
    let s := if s.mSourceFlags.FLAG_DYNAMIC_DURATION ∧ !flags.FLAG_DYNAMIC_DURATION then
        cancelPollDuration s
      else if !s.mSourceFlags.FLAG_DYNAMIC_DURATION ∧ flags.FLAG_DYNAMIC_DURATION
          ∧ (s.mAudioDecoder ≠ none ∨ s.mVideoDecoder ≠ none) then
        schedulePollDuration s
      else s
    .ok { s with mSourceFlags := flags }
  | .kWhatVideoSizeChanged format => updateVideoSize env (some format) none s
  | .kWhatBufferingUpdate percentage =>
    .ok (notifyListener env (.MEDIA_BUFFERING_UPDATE percentage) s)
  | .kWhatPauseOnBufferingStart =>
    let s := if s.mStarted ∧ !s.mPausedByClient then onPause s else s
    .ok (notifyListener env .MEDIA_INFO_BUFFERING_START s)
  | .kWhatBufferingStart => .ok (notifyListener env .MEDIA_INFO_BUFFERING_START s)
  | .kWhatResumeOnBufferingEnd =>
    (if s.mStarted ∧ !s.mPausedByClient then onResume env s else .ok s).bind fun s =>
    .ok (notifyListener env .MEDIA_INFO_BUFFERING_END s)
  | .kWhatBufferingEnd => .ok (notifyListener env .MEDIA_INFO_BUFFERING_END s)
  | .kWhatCacheStats kbps => .ok (notifyListener env (.MEDIA_INFO_NETWORK_BANDWIDTH kbps) s)
  | .kWhatSubtitleData buffer => sendSubtitleData env buffer 0 s
  | .kWhatTimedMetaData buffer =>
    match buffer with
    | none => .ok (notifyListener env .MEDIA_INFO_METADATA_UPDATE s)
    | some buffer => sendTimedMetaData env buffer s
  | .kWhatTimedTextData generation buffer =>
    if generation.isSome ∧ generation ≠ some s.mTimedTextGeneration then .ok s
    else if ¬ (s.mDriver ∧ env.driverAlive) then .ok s
    else
      let posUs : Int := wrap32 (env.driverPositionMs * 1000)
      match buffer.timeUs with
      | none => .error .check
      | some timeUs =>
        if posUs < timeUs then
          .ok (emit (.post (.timedTextData (generation.getD s.mTimedTextGeneration) buffer
            (timeUs - posUs))) s)
        else sendTimedTextData env buffer s
  | .kWhatQueueDecoderShutdown audio video reply => queueDecoderShutdown env audio video reply s
  | .kWhatDrmNoLicense => .ok (notifyListener env (.MEDIA_ERROR_UNKNOWN ERROR_DRM_NO_LICENSE) s)
  | .kWhatSourceReady err => .ok (notifyListener env (.SOURCE_READY err) s)
  | .kWhatFrameRate frameRate => .ok { s with mFrameRate := frameRate }
  | .unhandled => .error .trespass

/-! ## The cases of `AmNuPlayer::onMessageReceived` -/

/-- Case `kWhatSetVideoNativeWindow` (lines 1032-1079). -/
def onSetVideoNativeWindow (env : Env) (obj : Option Nat) (s : Player) : Except Abort Player :=
  if s.mSource = none ∨ env.videoFormat = none then .ok (performSetSurface env obj s)
  else
    let s := pushAction (.FlushDecoderAction .FLUSH_CMD_FLUSH .FLUSH_CMD_SHUTDOWN) s
    let s := pushAction (.SetSurfaceAction obj) s
    let s : Player :=
      if obj ≠ none then
        let s : Player :=
          if s.mStarted then
            let (err, currentPositionUs, s) := getCurrentPosition env s
            if err = OK then pushAction (.SeekAction currentPositionUs false) s else s
          else s
        pushAction (.SimpleAction .performScanSources) s
      else s
    let s := pushAction (.ResumeDecoderAction false) s
    processDeferredActions env s

/-- The block of case `kWhatScanSources` that opens the audio sink for offload
and instantiates the audio decoder (lines 1140-1156). -/
def scanSourcesAudio (env : Env) (s : Player) : Except Abort Player :=
  if s.mAudioSink ≠ none ∧ s.mAudioDecoder = none then
    if s.mSource = none then .error .nullDeref
    else
      let hasVideo : Bool := env.videoFormat.isSome
      (if env.canOffloadStream then
          if !s.mOffloadAudio ∧ s.mRenderer = none then .error .nullDeref
          else
            tryOpenAudioSinkForOffload env hasVideo
              (if !s.mOffloadAudio then emit (.renderer .signalEnableOffloadAudio) s else s)
        else .ok s).bind fun s =>
      (instantiateDecoder env true s).bind fun r => .ok r.2
  else .ok s

/-- The end of case `kWhatScanSources`, from `feedMoreTSData` on (lines 1167-1187). -/
def scanSourcesFeed (env : Env) (generation : Int) (scanNum : Option Int) (s : Player) :
    Except Abort Player :=
  if s.mSource = none then .error .nullDeref
  else
    let s := emit (.source .feedMoreTSData) s
    if env.feedMoreTSDataErr ≠ OK then
      if s.mAudioDecoder = none ∧ s.mVideoDecoder = none then
        if env.feedMoreTSDataErr = ERROR_END_OF_STREAM then
          .ok (notifyListener env .MEDIA_PLAYBACK_COMPLETE s)
        else .ok (notifyListener env (.MEDIA_ERROR_UNKNOWN env.feedMoreTSDataErr) s)
      else .ok s
    else if (s.mAudioDecoder = none ∧ s.mAudioSink ≠ none)
        ∨ (s.mVideoDecoder = none ∧ s.mNativeWindow ≠ none) then
      let s := emit (.post (.scanSources generation scanNum 100000)) s
      .ok { s with mScanSourcesPending := true }
    else .ok s

/-- Case `kWhatScanSources` (lines 1104-1188). -/
def onScanSources (env : Env) (generation : Int) (scanNum : Option Int) (s : Player) :
    Except Abort Player :=
  if generation ≠ s.mScanSourcesGeneration then .ok s
  else if s.mEnableFrameRate ∧ s.mFrameRate = .negative
      ∧ scanNum.getD 0 < wrap32 (s.mWaitSeconds * 100) then
    .ok (emit (.post (.scanSources generation (some (inc32 (scanNum.getD 0))) 10000)) s)
  else
    let s := { s with mScanSourcesPending := false }
    let mHadAnySourcesBefore : Bool := s.mAudioDecoder ≠ none ∨ s.mVideoDecoder ≠ none
    (if s.mNativeWindow ≠ none then instantiateDecoder env false s else .ok (OK, s)).bind
      fun r =>
    (scanSourcesAudio env r.2).bind fun s =>
    let s := if !mHadAnySourcesBefore ∧ (s.mAudioDecoder ≠ none ∨ s.mVideoDecoder ≠ none) then
        if s.mSourceFlags.FLAG_DYNAMIC_DURATION then schedulePollDuration s else s
      else s
    scanSourcesFeed env generation scanNum s

/-- The error code of a decoder error notification (lines 1288-1291):
`UNKNOWN_ERROR` when the message carries no code or carries `OK`. -/
def decoderErrorCode (msgErr : Option Int) : Int :=
  match msgErr with
  | none => UNKNOWN_ERROR
  | some e => if e = OK then UNKNOWN_ERROR else e

/-- The branch `what == DecoderBase::kWhatError` of the decoder-notification case
(lines 1287-1345). -/
def onDecoderError (env : Env) (audio : Bool) (msgErr : Option Int) (s : Player) :
    Except Abort Player :=
  let err : Int := decoderErrorCode msgErr
  if s.mNativeWindow ≠ none ∧ s.mNativeWindow ≠ s.mNewSurface ∧ err = -19 then .ok s
  else
    (match flushing audio s with
      | .NONE =>
        processDeferredActions env (pushAction (.FlushDecoderAction
          (if audio then .FLUSH_CMD_SHUTDOWN else .FLUSH_CMD_NONE)
          (if audio then .FLUSH_CMD_NONE else .FLUSH_CMD_SHUTDOWN)) s)
      | .FLUSHING_DECODER => .ok (setFlushing audio .FLUSHING_DECODER_SHUTDOWN s)
      | .FLUSHING_DECODER_SHUTDOWN => .ok s
      | .SHUTTING_DOWN_DECODER => .ok s
      | .FLUSHED =>
        let s := if !audio ∧ s.mSource ≠ none ∧ s.mSourceFlags.FLAG_SECURE then
            emit (.source .stop) s else s
        if getDecoder audio s = none then .error .nullDeref
        else .ok (setFlushing audio .SHUTTING_DOWN_DECODER
          (emit (.decoder audio .initiateShutdown) s))
      | .SHUT_DOWN => finishFlushIfPossible env s).bind fun s =>
    .ok (notifyListener env (.MEDIA_ERROR_UNKNOWN err) s)

/-- Cases `kWhatVideoNotify` and `kWhatAudioNotify` (lines 1190-1356);
`audio` is `msg->what() == kWhatAudioNotify`. -/
def onDecoderNotify (env : Env) (audio : Bool) (requesterGeneration : Int)
    (reply : Option Nat) (what : DecoderWhat) (s : Player) : Except Abort Player :=
  let currentDecoderGeneration : Int :=
    if audio then s.mAudioDecoderGeneration else s.mVideoDecoderGeneration
  if requesterGeneration ≠ currentDecoderGeneration then
    match reply with
    | none => .ok s
    | some reply => .ok (emit (.post (.reply reply (some INFO_DISCONTINUITY))) s)
  else
    let s : Player :=
      if s.mEnableFrameRate ∧ !audio ∧ s.mAutoSwitch > 0 then
        { emit (.sysfsSetAutoSwitch s.mAutoSwitch) s with mAutoSwitch := -1 }
      else s
    match what with
    | .kWhatInputDiscontinuity formatChange =>
      let s := if formatChange then
          pushAction (.FlushDecoderAction
            (if audio then .FLUSH_CMD_SHUTDOWN else .FLUSH_CMD_NONE)
            (if audio then .FLUSH_CMD_NONE else .FLUSH_CMD_SHUTDOWN)) s
        else s
      let s := pushAction (.SimpleAction .performScanSources) s
      processDeferredActions env s
    | .kWhatEOS err =>
      if s.mRenderer = none then .error .nullDeref
      else .ok (emit (.renderer (.queueEOS audio err)) s)
    | .kWhatFlushCompleted =>
      (handleFlushComplete audio true s).bind (finishFlushIfPossible env)
    | .kWhatVideoSizeChanged format =>
      if s.mSource = none then .error .nullDeref
      else updateVideoSize env env.videoFormat (some format) s
    | .kWhatShutdownCompleted =>
      if audio then
        let s := { s with mAudioDecoder := none }
        let s := { s with mAudioDecoderGeneration := inc32 s.mAudioDecoderGeneration }
        if s.mFlushingAudio ≠ .SHUTTING_DOWN_DECODER then .error .check
        else finishFlushIfPossible env { s with mFlushingAudio := .SHUT_DOWN }
      else
        let s := { s with mVideoDecoder := none }
        let s := { s with mVideoDecoderGeneration := inc32 s.mVideoDecoderGeneration }
        if s.mFlushingVideo ≠ .SHUTTING_DOWN_DECODER then .error .check
        else finishFlushIfPossible env { s with mFlushingVideo := .SHUT_DOWN }
    | .kWhatResumeCompleted => .ok (finishResume env s)
    | .kWhatError err => onDecoderError env audio err s
    | .unhandled => .ok s

/-- Case `kWhatRendererNotify` (lines 1358-1434). -/
def onRendererNotify (env : Env) (requesterGeneration : Int) (what : RendererWhat)
    (s : Player) : Except Abort Player :=
  if requesterGeneration ≠ s.mRendererGeneration then .ok s
  else
    match what with
    | .kWhatEOS audio finalResult =>
      let s := if audio then { s with mAudioEOS := true } else { s with mVideoEOS := true }
      let s := if finalResult = ERROR_END_OF_STREAM then s
        else notifyListener env (.MEDIA_ERROR_UNKNOWN finalResult) s
      if (s.mAudioEOS ∨ s.mAudioDecoder = none) ∧ (s.mVideoEOS ∨ s.mVideoDecoder = none) then
        .ok (notifyListener env .MEDIA_PLAYBACK_COMPLETE s)
      else .ok s
    | .kWhatFlushComplete audio =>
      (handleFlushComplete audio false s).bind (finishFlushIfPossible env)
    | .kWhatVideoRenderingStart => .ok (notifyListener env .MEDIA_INFO_RENDERING_START s)
    | .kWhatMediaRenderingStart => .ok (notifyListener env .MEDIA_STARTED s)
    | .kWhatAudioOffloadTearDown positionUs dueToError =>
      (closeAudioSink s).bind fun s =>
      let s := { s with mAudioDecoder := none }
      let s := { s with mAudioDecoderGeneration := inc32 s.mAudioDecoderGeneration }
      let s := emit (.renderer (.flush true false)) s
      let s := if s.mVideoDecoder ≠ none then emit (.renderer (.flush false false)) s else s
      (performSeek env positionUs false s).bind fun s =>
      if dueToError then
        let s := emit (.renderer .signalDisableOffloadAudio) s
        let s := { s with mOffloadAudio := false }
        (instantiateDecoder env true s).bind fun r => .ok r.2
      else .ok s
    | .unhandled => .ok s

/-- Case `kWhatSelectTrack` (lines 960-1008). -/
def onSelectTrack (env : Env) (trackIndex : Nat) (select : Bool) (timeUs : Int) (s : Player) :
    Except Abort Player :=
  let inbandTracks : Nat := if s.mSource ≠ none then env.inbandTracks.length else 0
  let ccTracks : Nat := if s.mCCDecoder then env.ccTracks.length else 0
  let r : Int × Player :=
    if trackIndex < inbandTracks then
      let s := emit (.source (.selectTrack trackIndex select timeUs)) s
      let err := env.selectTrackErr
      if !select ∧ err = OK then
        match env.inbandTracks.get? trackIndex with
        | some info =>
          if info.type = some MEDIA_TRACK_TYPE_TIMEDTEXT then
            (err, { s with mTimedTextGeneration := inc32 s.mTimedTextGeneration })
          else (err, s)
        | none => (err, s)
      else (err, s)
    else if trackIndex - inbandTracks < ccTracks then
      (env.ccSelectTrackErr, emit (.ccDecoderSelectTrack (trackIndex - inbandTracks) select) s)
    else (INVALID_OPERATION, s)
  .ok (emit (.post (.response (some r.1))) r.2)

/-- `AmNuPlayer::onMessageReceived` (lines 865-1517). -/
def onMessageReceived (env : Env) (msg : Msg) (s : Player) : Except Abort Player :=
  match msg with
  | .kWhatSetDataSource obj =>
    if s.mSource ≠ none then .error .check
    else
      let r : Int × Player := match obj with
        | some source =>
          let s := { s with mSource := some source }
          let s := { s with mSelfThreadId := env.threadId }
          (OK, emit (.source (.setParentThreadId s.mSelfThreadId)) s)
        | none => (UNKNOWN_ERROR, s)
      if r.2.mDriver = false then .error .check
      else .ok (callDriver env (.notifySetDataSourceCompleted r.1) r.2)
  | .kWhatPrepare =>
    if s.mSource = none then .error .nullDeref else .ok (emit (.source .prepareAsync) s)
  | .kWhatGetTrackInfo =>
    let inbandTracks : List TrackInfo := if s.mSource ≠ none then env.inbandTracks else []
    let ccTracks : List TrackInfo := if s.mCCDecoder then env.ccTracks else []
    let s := emit (.parcelWriteInt32 (wrap32 (inbandTracks.length + ccTracks.length))) s
    (writeTrackInfos inbandTracks s).bind fun s =>
    (writeTrackInfos ccTracks s).bind fun s =>
    .ok (emit (.post (.response none)) s)
  | .kWhatGetSelectedTrack _ =>
    if s.mSource ≠ none then
      .ok (emit (.post (.response (some OK))) (emit (.parcelWriteInt32 (wrap32 env.selectedTrack)) s))
    else .ok (emit (.post (.response (some INVALID_OPERATION))) s)
  | .kWhatSelectTrack trackIndex select timeUs => onSelectTrack env trackIndex select timeUs s
  | .kWhatPollDuration generation =>
    if generation ≠ s.mPollDurationGeneration then .ok s
    else
      let s := match s.mSource, env.duration with
        | some _, some durationUs => callDriver env (.notifyDuration durationUs) s
        | _, _ => s
      .ok (emit (.post (.pollDuration generation 1000000)) s)
  | .kWhatSetVideoNativeWindow obj => onSetVideoNativeWindow env obj s
  | .kWhatSetAudioSink obj => .ok { s with mAudioSink := obj }
  | .kWhatStart =>
    (if s.mStarted then onResume env s else onStart env s).bind fun s =>
    .ok { s with mPausedByClient := false }
  | .kWhatScanSources generation scanNum => onScanSources env generation scanNum s
  | .kWhatVideoNotify generation reply what => onDecoderNotify env false generation reply what s
  | .kWhatAudioNotify generation reply what => onDecoderNotify env true generation reply what s
  | .kWhatRendererNotify generation what => onRendererNotify env generation what s
  | .kWhatMoreDataQueued => .ok s
  | .kWhatReset =>
    let s := pushAction (.FlushDecoderAction .FLUSH_CMD_SHUTDOWN .FLUSH_CMD_SHUTDOWN) s
    let s := pushAction (.SimpleAction .performReset) s
    processDeferredActions env s
  | .kWhatSeek seekTimeUs needNotify =>
    let s : Player :=
      if s.mEnableFrameRate ∧ s.mFrameRate = .positive then
        if env.nowUs - s.mStartTimeUs > 100000 then
          emit (.sysfsSetAutoSwitch 0) { s with mAutoSwitch := env.sysfsAutoSwitch }
        else s
      else s
    let s := pushAction (.FlushDecoderAction .FLUSH_CMD_FLUSH .FLUSH_CMD_FLUSH) s
    let s := pushAction (.SeekAction seekTimeUs needNotify) s
    let s := pushAction (.ResumeDecoderAction needNotify) s
    processDeferredActions env s
  | .kWhatPause => .ok { onPause s with mPausedByClient := true }
  | .kWhatSourceNotify what => onSourceNotify env what s
  | .kWhatClosedCaptionNotify what => onClosedCaptionNotify env what s
  | .unhandled => .error .trespass

/-! ## Construction, calls made outside the looper, runs -/

/-- The constructor `AmNuPlayer::AmNuPlayer` (lines 184-219).  `waitSeconds` is the
value left in `mWaitSeconds` (10, or the property `media.hls.wait-seconds`);
`threads` is the content of the static registry `mThreadId`. -/
def initial (waitSeconds : Int) (threads : List Nat) : Player :=
  { mDriver := false
    mSource := none
    mSourceFlags := ⟨false, false, false, false⟩
    mNativeWindow := none
    mAudioSink := none
    mAudioDecoder := none
    mVideoDecoder := none
    mCCDecoder := false
    mRenderer := none
    mRendererLooper := false
    mOffloadAudio := false
    mAudioDecoderGeneration := 0
    mVideoDecoderGeneration := 0
    mRendererGeneration := 0
    mAudioEOS := false
    mVideoEOS := false
    mScanSourcesPending := false
    mScanSourcesGeneration := 0
    mPollDurationGeneration := 0
    mTimedTextGeneration := 0
    mFlushingAudio := .NONE
    mFlushingVideo := .NONE
    mFlushComplete := ⟨false, false, false, false⟩
    mDeferredActions := []
    mResumePending := false
    mVideoScalingMode := NATIVE_WINDOW_SCALING_MODE_SCALE_TO_WINDOW
    mNewSurface := none
    mEnableFrameRate := false
    mFrameRate := .negative
    mWaitSeconds := waitSeconds
    mStarted := false
    mPaused := false
    mPausedByClient := false
    mAutoSwitch := -1
    mStartTimeUs := 0
    mSelfThreadId := 0
    mStrCurrentAudioCodecIsDTS := false
    DtshdApreTotal := 0
    DtsHdStreamType := 0
    DtsHdMulAssetHint := 0
    DtsHdHpsHint := 0
    mThreadId := threads
    trace := [] }

/-- The public member functions that touch the state on the caller's thread,
before (or without) posting a message to the looper. -/
inductive Api where
  | setDriver (driver : Bool)
  | setDataSourceAsync (enableFrameRate : Bool)
  | setVideoSurfaceTextureAsync (bufferProducer : Option Nat)
  | resetAsync
  | getCurrentPosition
  | setVideoScalingMode (mode : Int)
  | updateMediaInfo (audioIsDTSHD : Bool)
  deriving DecidableEq

/-- The effect on the state of the calls of `Api`: `setDriver` (lines 677-679),
`setDataSourceAsync` (lines 699-745), `setVideoSurfaceTextureAsync` (lines 770-787),
`resetAsync` (lines 803-815), `getCurrentPosition`, `setVideoScalingMode`,
`updateMediaInfo` (lines 489-569, the assignment of `mStrCurrentAudioCodec`). -/
def onApi (env : Env) (call : Api) (s : Player) : Player :=
  match call with
  | .setDriver driver => { s with mDriver := driver }
  | .setDataSourceAsync enableFrameRate => { s with mEnableFrameRate := enableFrameRate }
  | .setVideoSurfaceTextureAsync bufferProducer =>
    match bufferProducer with
    | none => s
    | some surface => if s.mNativeWindow ≠ none then { s with mNewSurface := some surface } else s
  | .resetAsync => if s.mSource ≠ none then emit (.source .disconnect) s else s
  | .getCurrentPosition => (getCurrentPosition env s).2.2
  | .setVideoScalingMode mode => (setVideoScalingMode env mode s).2
  | .updateMediaInfo audioIsDTSHD =>
    if audioIsDTSHD then { s with mStrCurrentAudioCodecIsDTS := true } else s

/-- One input of the controller: a message taken from the looper, or a call made
on a client thread. -/
inductive Input where
  | message (msg : Msg)
  | call (api : Api)
  deriving DecidableEq

/-- Handling of one input. -/
def step (env : Env) (input : Input) (s : Player) : Except Abort Player :=
  match input with
  | .message msg => onMessageReceived env msg s
  | .call api => .ok (onApi env api s)

/-- Handling of a sequence of inputs, each with the answers of the collaborators
during its handling; the run stops at the first abort. -/
def run : List (Env × Input) → Player → Except Abort Player
  | [], s => .ok s
  | (env, input) :: rest, s =>
    (step env input s).bind (run rest)

/-- The states the controller can be in: those reached from a freshly constructed
player by handling inputs without abort. -/
inductive Reachable : Player → Prop where
  | init (waitSeconds : Int) (threads : List Nat) : Reachable (initial waitSeconds threads)
  | step {s t : Player} (env : Env) (input : Input) :
      Reachable s → step env input s = .ok t → Reachable t

/-! ## Observations on the history variable -/

/-- The actions executed so far, in order of execution. -/
def executed (s : Player) : List Action :=
  s.trace.filterMap fun e => match e with
    | .actionExecute a => some a
    | _ => none

/-- The error-log entries of `flushDecoder` recorded so far. -/
def flushLogs (s : Player) : List (Bool × FlushStatus) :=
  s.trace.filterMap fun e => match e with
    | .logFlushDecoderCalledInState audio state => some (audio, state)
    | _ => none

/-- The part of the state on which the deferred-action queue and the flush protocol
operate: the two flush statuses, the completion matrix, the queue, and the two
observations `executed` and `flushLogs` of the history variable. -/
structure FlushCore where
  mFlushingAudio : FlushStatus
  mFlushingVideo : FlushStatus
  mFlushComplete : FlushComplete
  mDeferredActions : List Action
  executed : List Action
  flushLogs : List (Bool × FlushStatus)
  deriving DecidableEq

/-- Projection of a player state on its flush core. -/
def core (s : Player) : FlushCore :=
  ⟨s.mFlushingAudio, s.mFlushingVideo, s.mFlushComplete, s.mDeferredActions, executed s,
    flushLogs s⟩

/-- Partial-correctness assertion on a fallible computation: whenever `x` returns
a value without abort, the value satisfies `P`. -/
def okThen {α : Type} (x : Except Abort α) (P : α → Prop) : Prop :=
  ∀ a, x = .ok a → P a

/-- The gate of the specification: a track is mid-flush when its status is
`FLUSHING_DECODER`, `FLUSHING_DECODER_SHUTDOWN` or `SHUTTING_DOWN_DECODER`. -/
def FlushStatus.midFlush : FlushStatus → Bool
  | .FLUSHING_DECODER => true
  | .FLUSHING_DECODER_SHUTDOWN => true
  | .SHUTTING_DOWN_DECODER => true
  | _ => false

/-- The moments at which the loop of `processDeferredActions` executes an action:
the action together with the state in which `action->execute(this)` is called,
for every iteration of `processDeferredActionsLoop env fuel s`. -/
def executionMoments (env : Env) : Nat → Player → List (Action × Player)
  | 0, _ => []
  | fuel + 1, s =>
    match nextDeferredAction s with
    | none => []
    | some (action, s) =>
      (action, s) ::
        match action.execute env (emit (.actionExecute action) s) with
        | .error _ => []
        | .ok s => executionMoments env fuel s

/-- The effect of `flushDecoder` on the flush core when the track's decoder is
present: the track's row of the completion matrix is re-initialised, the error
log fires when the track's status is not `NONE`, and the status is set. -/
def FlushCore.flushTrack (c : FlushCore) (audio needShutdown rendererAbsent : Bool) :
    FlushCore :=
  let newStatus : FlushStatus :=
    if needShutdown then .FLUSHING_DECODER_SHUTDOWN else .FLUSHING_DECODER
  let matrix := (c.mFlushComplete.set audio false rendererAbsent).set audio true false
  if audio then
    { c with
      mFlushComplete := matrix
      flushLogs := if c.mFlushingAudio ≠ .NONE then c.flushLogs ++ [(true, c.mFlushingAudio)]
        else c.flushLogs
      mFlushingAudio := newStatus }
  else
    { c with
      mFlushComplete := matrix
      flushLogs := if c.mFlushingVideo ≠ .NONE then c.flushLogs ++ [(false, c.mFlushingVideo)]
        else c.flushLogs
      mFlushingVideo := newStatus }

/-- The statuses a track can have when the loop of `processDeferredActions` stops
after having started an iteration (both tracks were `NONE` then). -/
def FlushStatus.freshlyFlushing (f : FlushStatus) : Prop :=
  f = .NONE ∨ f = .FLUSHING_DECODER ∨ f = .FLUSHING_DECODER_SHUTDOWN

/-- The relation between the state `s` in which `processDeferredActions` is
called and the state `t` it returns: the list `done` of executed actions is a
prefix of the queue, the rest stays queued, no error log of `flushDecoder` fires,
and the loop stops on an empty queue or on a closed gate. -/
def Drained (s t : Player) : Prop :=
  ∃ done : List Action,
    s.mDeferredActions = done ++ t.mDeferredActions ∧
    executed t = executed s ++ done ∧
    flushLogs t = flushLogs s ∧
    (t.mDeferredActions = [] ∨ t.mFlushingAudio ≠ .NONE ∨ t.mFlushingVideo ≠ .NONE) ∧
    (done = [] → t = s) ∧
    (done ≠ [] → s.mFlushingAudio = .NONE ∧ s.mFlushingVideo = .NONE ∧
      t.mFlushingAudio.freshlyFlushing ∧ t.mFlushingVideo.freshlyFlushing ∧
      (t.mFlushingAudio = .NONE → t.mFlushingVideo = .NONE →
        t.mFlushComplete = s.mFlushComplete))

/-- The effect of `handleFlushComplete` on the flush core (when it does not abort):
the acknowledgement is recorded, and once both acknowledgements of the track are
recorded a flushing status advances. -/
def FlushCore.ack (c : FlushCore) (audio isDecoder : Bool) : FlushCore :=
  let c := { c with mFlushComplete := c.mFlushComplete.set audio isDecoder true }
  if !c.mFlushComplete.get audio (!isDecoder) then c
  else if audio then
    match c.mFlushingAudio with
    | .FLUSHING_DECODER => { c with mFlushingAudio := .FLUSHED }
    | .FLUSHING_DECODER_SHUTDOWN => { c with mFlushingAudio := .SHUTTING_DOWN_DECODER }
    | _ => c
  else
    match c.mFlushingVideo with
    | .FLUSHING_DECODER => { c with mFlushingVideo := .FLUSHED }
    | .FLUSHING_DECODER_SHUTDOWN => { c with mFlushingVideo := .SHUTTING_DOWN_DECODER }
    | _ => c

/-- Assignment of one track's status, on the flush core. -/
def FlushCore.setFlushing (c : FlushCore) (audio : Bool) (v : FlushStatus) : FlushCore :=
  if audio then { c with mFlushingAudio := v } else { c with mFlushingVideo := v }

/-- The status of one track, on the flush core. -/
def FlushCore.flushing (c : FlushCore) (audio : Bool) : FlushStatus :=
  if audio then c.mFlushingAudio else c.mFlushingVideo

/-- What the handling of an input does to the queue and to the flush protocol, as
one of seven shapes. -/
inductive Script where
  | frame
  | pushDrain (actions : List Action)
  | ackFinish (audio : Bool) (isDecoder : Bool)
  | errorUpgrade (audio : Bool)
  | errorShutdown (audio : Bool)
  | errorFinish
  | shutdownCompleted (audio : Bool)
  deriving DecidableEq

/-- The meaning of a script as a relation between the state before and the state
after the input; states written `s1`, `t1` are intermediate states of the handler. -/
def Script.Rel (env : Env) : Script → Player → Player → Prop
  | .frame, s, t => core t = core s
  | .pushDrain actions, s, t =>
    ∃ s1 t1, core s1 = { core s with mDeferredActions := s.mDeferredActions ++ actions } ∧
      processDeferredActions env s1 = .ok t1 ∧ core t = core t1
  | .ackFinish audio isDecoder, s, t =>
    ∃ s1 s2 t1, core s1 = core s ∧ handleFlushComplete audio isDecoder s1 = .ok s2 ∧
      finishFlushIfPossible env s2 = .ok t1 ∧ core t = core t1
  | .errorUpgrade audio, s, t =>
    (core s).flushing audio = .FLUSHING_DECODER ∧
      core t = (core s).setFlushing audio .FLUSHING_DECODER_SHUTDOWN
  | .errorShutdown audio, s, t =>
    (core s).flushing audio = .FLUSHED ∧
      core t = (core s).setFlushing audio .SHUTTING_DOWN_DECODER
  | .errorFinish, s, t =>
    ∃ s1 t1, core s1 = core s ∧ finishFlushIfPossible env s1 = .ok t1 ∧ core t = core t1
  | .shutdownCompleted audio, s, t =>
    (core s).flushing audio = .SHUTTING_DOWN_DECODER ∧
      ∃ s1 t1, core s1 = (core s).setFlushing audio .SHUT_DOWN ∧
        finishFlushIfPossible env s1 = .ok t1 ∧ core t = core t1

/-- The flush command of a decoder-initiated shutdown of one track. -/
def shutdownOnly (audio : Bool) : Action :=
  .FlushDecoderAction (if audio then .FLUSH_CMD_SHUTDOWN else .FLUSH_CMD_NONE)
    (if audio then .FLUSH_CMD_NONE else .FLUSH_CMD_SHUTDOWN)

/-- The script of a decoder notification (cases `kWhatVideoNotify`, `kWhatAudioNotify`). -/
def decoderScript (audio : Bool) (generation : Int) (what : DecoderWhat) (s : Player) : Script :=
  if generation ≠ (if audio then s.mAudioDecoderGeneration else s.mVideoDecoderGeneration) then
    .frame
  else
    match what with
    | .kWhatInputDiscontinuity formatChange =>
      .pushDrain ((if formatChange then [shutdownOnly audio] else [])
        ++ [.SimpleAction .performScanSources])
    | .kWhatFlushCompleted => .ackFinish audio true
    | .kWhatShutdownCompleted =>
      if flushing audio s = .SHUTTING_DOWN_DECODER then .shutdownCompleted audio else .frame
    | .kWhatError err =>
      if s.mNativeWindow ≠ none ∧ s.mNativeWindow ≠ s.mNewSurface
          ∧ decoderErrorCode err = -19 then .frame
      else
        match flushing audio s with
        | .NONE => .pushDrain [shutdownOnly audio]
        | .FLUSHING_DECODER => .errorUpgrade audio
        | .FLUSHED => .errorShutdown audio
        | .SHUT_DOWN => .errorFinish
        | _ => .frame
    | _ => .frame

/-- The script of an input, read off the handler of the input. -/
def script (env : Env) (input : Input) (s : Player) : Script :=
  match input with
  | .call _ => .frame
  | .message msg =>
    match msg with
    | .kWhatSetVideoNativeWindow obj =>
      if s.mSource = none ∨ env.videoFormat = none then .frame
      else
        .pushDrain ([.FlushDecoderAction .FLUSH_CMD_FLUSH .FLUSH_CMD_SHUTDOWN,
            .SetSurfaceAction obj]
          ++ (if obj ≠ none then
                (if s.mStarted ∧ s.mRenderer ≠ none ∧ env.rendererPosition.1 = OK then
                  [.SeekAction env.rendererPosition.2 false] else [])
                ++ [.SimpleAction .performScanSources]
              else [])
          ++ [.ResumeDecoderAction false])
    | .kWhatVideoNotify generation _ what => decoderScript false generation what s
    | .kWhatAudioNotify generation _ what => decoderScript true generation what s
    | .kWhatRendererNotify generation what =>
      if generation ≠ s.mRendererGeneration then .frame
      else
        match what with
        | .kWhatFlushComplete audio => .ackFinish audio false
        | _ => .frame
    | .kWhatReset =>
      .pushDrain [.FlushDecoderAction .FLUSH_CMD_SHUTDOWN .FLUSH_CMD_SHUTDOWN,
        .SimpleAction .performReset]
    | .kWhatSeek seekTimeUs needNotify =>
      .pushDrain [.FlushDecoderAction .FLUSH_CMD_FLUSH .FLUSH_CMD_FLUSH,
        .SeekAction seekTimeUs needNotify, .ResumeDecoderAction needNotify]
    | .kWhatSourceNotify (.kWhatPrepared err) =>
      if s.mSource = none then .frame
      else if err ≠ OK then
        .pushDrain [.FlushDecoderAction .FLUSH_CMD_SHUTDOWN .FLUSH_CMD_SHUTDOWN]
      else .frame
    | .kWhatSourceNotify (.kWhatQueueDecoderShutdown audio video reply) =>
      .pushDrain [.FlushDecoderAction
          (if audio then .FLUSH_CMD_SHUTDOWN else .FLUSH_CMD_NONE)
          (if video then .FLUSH_CMD_SHUTDOWN else .FLUSH_CMD_NONE),
        .SimpleAction .performScanSources, .PostMessageAction reply]
    | _ => .frame

/-! ## Enqueued actions -/

/-- The actions a script appends to the queue. -/
def Script.pushed : Script → List Action
  | .pushDrain actions => actions
  | _ => []

/-- The actions appended to the queue while a sequence of inputs is handled, in
the order in which they are appended. -/
def enqueued : List (Env × Input) → Player → List Action
  | [], _ => []
  | (env, input) :: rest, s =>
    (script env input s).pushed ++
      match step env input s with
      | .ok t => enqueued rest t
      | .error _ => []

/-- The order-preserving transfer from the queue to the execution log, between two
flush cores: actions leave the front of the queue of `s`, extended by `pushed`,
and arrive at the end of the execution log; the error log of `flushDecoder` does
not grow. -/
def Fifo (pushed : List Action) (s t : FlushCore) : Prop :=
  ∃ done : List Action, s.mDeferredActions ++ pushed = done ++ t.mDeferredActions ∧
    t.executed = s.executed ++ done ∧ t.flushLogs = s.flushLogs

/-! ## A concrete session

Answers of the collaborators and a start-up sequence, on which the theorems are
instantiated: a source with an audio and a video track is set, a sink and a
surface are attached, playback starts, and the first scan of the sources
instantiates both decoders. -/

/-- Answers of the collaborators in the concrete session. -/
def exampleEnv : Env :=
  { threadId := 7, driverAlive := true, nowUs := 0, audioFormat := true,
    videoFormat := some ⟨true, some 640, some 480, none, none, none, none⟩,
    isRealTime := false, fileMetaFrameRate := none, canOffloadStream := false,
    openAudioSinkErr := 0, openAudioSinkOffload := false, feedMoreTSDataErr := 0,
    getInputBuffersErr := 0, setBuffersErr := 0, duration := none,
    rendererPosition := (0, 0), driverPositionMs := 0, sysfsAutoSwitch := 0,
    setScalingModeRet := 0, inbandTracks := [], ccTracks := [],
    selectTrackErr := 0, ccSelectTrackErr := 0, selectedTrack := 0,
    dtsStreamType := 0, dtsTotalApre := 0, dtsMulAssetHint := 0, dtsHpsHint := 0 }

/-- The start-up sequence of the concrete session. -/
def startup : List (Env × Input) :=
  [ (exampleEnv, .call (.setDriver true)),
    (exampleEnv, .message (.kWhatSetDataSource (some 1))),
    (exampleEnv, .message (.kWhatSetAudioSink (some 1))),
    (exampleEnv, .message (.kWhatSetVideoNativeWindow (some 1))),
    (exampleEnv, .message .kWhatStart),
    (exampleEnv, .message (.kWhatScanSources 0 none)) ]

/-- The state after a sequence of inputs, from a freshly constructed player (the
fresh player itself when the sequence aborts). -/
def after (inputs : List (Env × Input)) : Player :=
  match run inputs (initial 10 []) with
  | .ok s => s
  | .error _ => initial 10 []

/-- The concrete session while playing: both decoders and the renderer exist, no
flush is in progress, the queue is empty. -/
def playing : Player := after startup

/-- The concrete session after a seek request to position 5: both tracks are
flushing and the rest of the seek is queued. -/
def seeking : Player := after (startup ++ [(exampleEnv, .message (.kWhatSeek 5 true))])

/-- The playing session with a repositioning and a resumption queued by hand. -/
def queued : Player :=
  pushAction (.ResumeDecoderAction false) (pushAction (.SeekAction 5 false) playing)

/-! ## Session state and client notifications -/

/-- The session state proper: every field except the history variable. -/
def session (s : Player) : Player :=
  { s with trace := [] }

/-- The calls made on the driver so far, that is, the notifications sent to the
client. -/
def clientNotifications (s : Player) : List DriverCall :=
  s.trace.filterMap fun e => match e with
    | .driver c => some c
    | _ => none

/-- The concrete session after the seek request and the flush acknowledgement of
the audio decoder alone. -/
def halfAcked : Player :=
  after (startup ++ [(exampleEnv, .message (.kWhatSeek 5 true)),
    (exampleEnv, .message (.kWhatAudioNotify 1 none .kWhatFlushCompleted))])

/-- The playing session in the middle of the handling of a flush-complete
notification of the renderer for the audio track that no flush asked for:
`handleFlushComplete` has recorded the acknowledgement and
`finishFlushIfPossible` is about to be called. -/
def strayAck : Player :=
  { playing with mFlushComplete := ⟨false, false, true, false⟩ }

/-- The seeking session at the moment both tracks have become `FLUSHED`. -/
def bothFlushed : Player :=
  { seeking with mFlushingAudio := .FLUSHED, mFlushingVideo := .FLUSHED,
                 mFlushComplete := ⟨true, true, true, true⟩ }

/-- The state `processDeferredActions` returns for the session `queued`. -/
def queuedDrained : Player :=
  match processDeferredActions exampleEnv queued with
  | .ok t => t
  | .error _ => queued

/-! ## Waiting for a flush acknowledgement -/

/-- The track is flushing and one of its two acknowledgements (that of the decoder
for `isDecoder`, that of the renderer otherwise) is not recorded yet. -/
def awaiting (audio isDecoder : Bool) (c : FlushCore) : Prop :=
  (c.flushing audio = .FLUSHING_DECODER ∨ c.flushing audio = .FLUSHING_DECODER_SHUTDOWN) ∧
    c.mFlushComplete.get audio isDecoder = false

/-- The input is a flush acknowledgement for the track `audio`: the decoder's
`kWhatFlushCompleted` for `isDecoder`, the renderer's `kWhatFlushComplete`
otherwise. -/
def Input.isFlushAck (audio isDecoder : Bool) : Input → Bool
  | .message (.kWhatAudioNotify _ _ .kWhatFlushCompleted) => audio && isDecoder
  | .message (.kWhatVideoNotify _ _ .kWhatFlushCompleted) => !audio && isDecoder
  | .message (.kWhatRendererNotify _ (.kWhatFlushComplete a)) => (a == audio) && !isDecoder
  | _ => false

/-- The decoder shutdowns initiated so far (`true` for the audio decoder). -/
def shutdownsInitiated (s : Player) : List Bool :=
  s.trace.filterMap fun e => match e with
    | .decoder audio .initiateShutdown => some audio
    | _ => none

/-- A session in which the audio decoder exists while no renderer does: the
situation line 1933 of `flushDecoder` tests for (`mRenderer == NULL`) and
`onInstantiateSecureDecoders` is written for (line 1552).  The state is given
directly, not as the result of a run. -/
def noRenderer : Player :=
  { initial 10 [] with mSource := some 1, mAudioDecoder := some ⟨1, false⟩,
                       mAudioDecoderGeneration := 1 }

/-- The state `finishFlushIfPossible` returns for the session `bothFlushed`. -/
def resumed : Player :=
  match finishFlushIfPossible exampleEnv bothFlushed with
  | .ok t => t
  | .error _ => bothFlushed

/-- The concrete session after the seek request, the flush acknowledgement of the
renderer for the audio track and that of the video decoder: the acknowledgement
of the audio decoder is still missing. -/
def rendererAcked : Player :=
  after (startup ++ [(exampleEnv, .message (.kWhatSeek 5 true)),
    (exampleEnv, .message (.kWhatRendererNotify 1 (.kWhatFlushComplete true))),
    (exampleEnv, .message (.kWhatVideoNotify 1 none .kWhatFlushCompleted))])

/-! ## The seek round trip -/

/-- The events a seek round trip is about: the flush and resume signals sent to
the decoders and the repositioning of the source. -/
def Event.inRoundTrip : Event → Bool
  | .decoder _ .signalFlush => true
  | .decoder _ (.signalResume _) => true
  | .source (.seekTo _) => true
  | _ => false

/-- The part of the history that a seek round trip is about. -/
def seekLog (s : Player) : List Event :=
  s.trace.filter Event.inRoundTrip

/-- The flush acknowledgement for the track `audio`, from the decoder
(`isDecoder`) or from the renderer, tagged with the current generation of its
sender in the state `s`. -/
def ackMsg (s : Player) (audio isDecoder : Bool) : Input :=
  .message
    (if isDecoder then
      if audio then .kWhatAudioNotify s.mAudioDecoderGeneration none .kWhatFlushCompleted
      else .kWhatVideoNotify s.mVideoDecoderGeneration none .kWhatFlushCompleted
    else .kWhatRendererNotify s.mRendererGeneration (.kWhatFlushComplete audio))

/-- A sequence of flush acknowledgements, each handled with its own answers of
the collaborators, as inputs tagged with the generations of the state `s`. -/
def ackInputs (s : Player) (acks : List (Env × Bool × Bool)) : List (Env × Input) :=
  acks.map fun a => (a.1, ackMsg s a.2.1 a.2.2)

/-- The four flush acknowledgements of a flush of both tracks. -/
def fourAcks : List (Bool × Bool) :=
  [(true, true), (true, false), (false, true), (false, false)]

/-- The situation between a seek request handled in the state that led to `t` and
the last of the four acknowledgements: the repositioning and the resumption are
queued, a track is `FLUSHED` exactly when both its acknowledgements are
recorded, and nothing of the round trip has happened since `t`. -/
def SeekPending (T : Int) (n : Bool) (t u : Player) : Prop :=
  u.mSource ≠ none ∧ u.mAudioDecoder ≠ none ∧ u.mVideoDecoder ≠ none ∧
  u.mAudioDecoderGeneration = t.mAudioDecoderGeneration ∧
  u.mVideoDecoderGeneration = t.mVideoDecoderGeneration ∧
  u.mRendererGeneration = t.mRendererGeneration ∧
  u.mDeferredActions = [.SeekAction T n, .ResumeDecoderAction n] ∧
  u.mFlushingAudio = (if u.mFlushComplete.audioDecoder && u.mFlushComplete.audioRenderer
    then .FLUSHED else .FLUSHING_DECODER) ∧
  u.mFlushingVideo = (if u.mFlushComplete.videoDecoder && u.mFlushComplete.videoRenderer
    then .FLUSHED else .FLUSHING_DECODER) ∧
  seekLog u = seekLog t ∧ executed u = executed t

/-- The end of a seek round trip that was pending in `t`: the source has been
repositioned, then the video decoder and the audio decoder have been resumed. -/
def SeekDone (T : Int) (n : Bool) (t u : Player) : Prop :=
  seekLog u = seekLog t ++ [.source (.seekTo T), .decoder false (.signalResume n),
    .decoder true (.signalResume false)] ∧
  executed u = executed t ++ [.SeekAction T n, .ResumeDecoderAction n] ∧
  u.mDeferredActions = [] ∧ u.mFlushingAudio = .NONE ∧ u.mFlushingVideo = .NONE

/-! ## Termination of the model -/

/-- The computation does not stop for lack of loop iterations: the only abort of
the model that does not stand for an abort of the program. -/
def NoFuel {α : Type} (x : Except Abort α) : Prop :=
  x ≠ .error .fuel

/-! ## Observations on the calls made -/

/-- The calls made so far on the decoder of one track (`true` for audio). -/
def callsOn (audio : Bool) (s : Player) : List DecoderCall :=
  s.trace.filterMap fun e => match e with
    | .decoder a c => if a = audio then some c else none
    | _ => none

/-- The calls made so far on the source. -/
def sourceCalls (s : Player) : List SourceCall :=
  s.trace.filterMap fun e => match e with
    | .source c => some c
    | _ => none

/-- The calls made so far on a source, on a decoder, or on the renderer and its
looper. -/
def collaboratorCalls (s : Player) : List Event :=
  s.trace.filter fun e => match e with
    | .source _ => true
    | .decoder _ _ => true
    | .renderer _ => true
    | _ => false

/-- The codes of the `MEDIA_ERROR` / `MEDIA_ERROR_UNKNOWN` notifications sent to
the client so far. -/
def errorsNotified (s : Player) : List Int :=
  s.trace.filterMap fun e => match e with
    | .driver (.notifyListener (.MEDIA_ERROR_UNKNOWN err)) => some err
    | _ => none

/-- What a call on the driver appends to the notifications of the client: the
call, when a driver is attached (`mDriver != NULL`) and can be promoted. -/
def delivered (env : Env) (s : Player) (c : DriverCall) : List DriverCall :=
  if s.mDriver && env.driverAlive then [c] else []

/-- A notification of a decoder, as an input: `kWhatAudioNotify` for the audio
track and `kWhatVideoNotify` for the video track. -/
def decoderNotify (audio : Bool) (generation : Int) (reply : Option Nat) (what : DecoderWhat) :
    Input :=
  .message (if audio then .kWhatAudioNotify generation reply what
    else .kWhatVideoNotify generation reply what)

/-- The current generation of the decoder of one track. -/
def decoderGeneration (audio : Bool) (s : Player) : Int :=
  if audio then s.mAudioDecoderGeneration else s.mVideoDecoderGeneration

/-- The guard of lines 1296-1300: a decoder error is dropped when a native window
is set whose surface is not `mNewSurface` and the error code is `-19`. -/
def errorDropped (err : Option Int) (s : Player) : Prop :=
  s.mNativeWindow ≠ none ∧ s.mNativeWindow ≠ s.mNewSurface ∧ decoderErrorCode err = -19

instance (err : Option Int) (s : Player) : Decidable (errorDropped err s) := by
  unfold errorDropped
  exact inferInstance

/-! ## Concrete sessions around a reset -/

/-- The playing session with a seek to position 9 requested right after a reset:
the inputs are the reset, the seek, the four flush acknowledgements and the two
shutdown completions. -/
def resetThenSeek : List (Env × Input) :=
  [ (exampleEnv, .message .kWhatReset),
    (exampleEnv, .message (.kWhatSeek 9 true)),
    (exampleEnv, .message (.kWhatAudioNotify 1 none .kWhatFlushCompleted)),
    (exampleEnv, .message (.kWhatRendererNotify 1 (.kWhatFlushComplete true))),
    (exampleEnv, .message (.kWhatVideoNotify 1 none .kWhatFlushCompleted)),
    (exampleEnv, .message (.kWhatRendererNotify 1 (.kWhatFlushComplete false))),
    (exampleEnv, .message (.kWhatAudioNotify 1 none .kWhatShutdownCompleted)),
    (exampleEnv, .message (.kWhatVideoNotify 1 none .kWhatShutdownCompleted)) ]

/-- The concrete session after `resetThenSeek`. -/
def afterResetThenSeek : Player := after (startup ++ resetThenSeek)

/-- The concrete session after a reset that has completed. -/
def afterReset : Player :=
  after (startup ++ [ (exampleEnv, .message .kWhatReset),
    (exampleEnv, .message (.kWhatAudioNotify 1 none .kWhatFlushCompleted)),
    (exampleEnv, .message (.kWhatRendererNotify 1 (.kWhatFlushComplete true))),
    (exampleEnv, .message (.kWhatVideoNotify 1 none .kWhatFlushCompleted)),
    (exampleEnv, .message (.kWhatRendererNotify 1 (.kWhatFlushComplete false))),
    (exampleEnv, .message (.kWhatAudioNotify 1 none .kWhatShutdownCompleted)),
    (exampleEnv, .message (.kWhatVideoNotify 1 none .kWhatShutdownCompleted)) ])

/-- A freshly constructed player with a driver, a source, and a repositioning
queued behind the teardown that is about to run. -/
def teardownWithSeekBehind : Player :=
  { initial 10 [] with mDriver := true, mSource := some 1,
                       mDeferredActions := [.SeekAction 9 true] }

/-- The playing session once both decoders have been shut down: the kind of state
in which the teardown of a reset runs. -/
def decodersGone : Player :=
  { playing with mAudioDecoder := none, mVideoDecoder := none }

/-- A freshly constructed player with a driver and a source, in whose queue a
repositioning stands behind the teardown of a reset. -/
def teardownQueued : Player :=
  { initial 10 [] with mDriver := true, mSource := some 1,
                       mDeferredActions := [.SimpleAction .performReset, .SeekAction 9 true] }

/-- The state `processDeferredActions` returns for the session `teardownQueued`. -/
def teardownDrained : Player :=
  match processDeferredActions exampleEnv teardownQueued with
  | .ok t => t
  | .error _ => teardownQueued

/-- Answers of the collaborators while the source has no audio format yet. -/
def noAudioYet : Env :=
  { exampleEnv with audioFormat := false }

/-- Start-up of a streaming session: as `startup`, but at the first scan of the
sources the audio format is not available yet, so that only the video decoder is
instantiated and the scan is posted again. -/
def streamStart : List (Env × Input) :=
  [ (exampleEnv, .call (.setDriver true)),
    (exampleEnv, .message (.kWhatSetDataSource (some 1))),
    (exampleEnv, .message (.kWhatSetAudioSink (some 1))),
    (exampleEnv, .message (.kWhatSetVideoNativeWindow (some 1))),
    (exampleEnv, .message .kWhatStart),
    (noAudioYet, .message (.kWhatScanSources 0 none)) ]

/-- The source pauses playback for buffering and the client resets the player;
the source then reports the end of buffering, by now with an audio format; the
flush of the video decoder is acknowledged. -/
def resetRaceBegin : List (Env × Input) :=
  [ (exampleEnv, .message (.kWhatSourceNotify .kWhatPauseOnBufferingStart)),
    (exampleEnv, .call .resetAsync),
    (exampleEnv, .message .kWhatReset),
    (exampleEnv, .message (.kWhatSourceNotify .kWhatResumeOnBufferingEnd)),
    (exampleEnv, .message (.kWhatVideoNotify 1 none .kWhatFlushCompleted)),
    (exampleEnv, .message (.kWhatRendererNotify 1 (.kWhatFlushComplete false))) ]

/-- The streaming session right before the shutdown of the video decoder
completes. -/
def resetRaceState : Player := after (streamStart ++ resetRaceBegin)

/-! ## Between flush cycles -/

/-- Between the handling of two messages no track rests in a terminal status of a
flush cycle once the cycle of the other is over: either both statuses are
`NONE`, or a track is mid-flush. -/
def Settled (c : FlushCore) : Prop :=
  (c.mFlushingAudio = .NONE ∧ c.mFlushingVideo = .NONE) ∨
    c.mFlushingAudio.midFlush = true ∨ c.mFlushingVideo.midFlush = true

/-- The concrete session after the seek request and both flush acknowledgements
of the audio track: the audio track is `FLUSHED`, the video track still
flushing. -/
def audioFlushed : Player :=
  after (startup ++ [(exampleEnv, .message (.kWhatSeek 5 true)),
    (exampleEnv, .message (.kWhatAudioNotify 1 none .kWhatFlushCompleted)),
    (exampleEnv, .message (.kWhatRendererNotify 1 (.kWhatFlushComplete true)))])

/-! ## The shutdown of one track -/

/-- The state in which the case `kWhatShutdownCompleted` calls
`finishFlushIfPossible` (lines 1270-1281): the decoder of the track is released,
its generation advanced and the status of the track set to `SHUT_DOWN`. -/
def releaseDecoder (audio : Bool) (s : Player) : Player :=
  if audio then
    { s with mAudioDecoder := none, mAudioDecoderGeneration := inc32 s.mAudioDecoderGeneration,
             mFlushingAudio := .SHUT_DOWN }
  else
    { s with mVideoDecoder := none, mVideoDecoderGeneration := inc32 s.mVideoDecoderGeneration,
             mFlushingVideo := .SHUT_DOWN }

/-- A decoder error, both acknowledgements of the flush it starts, and the
completion of the shutdown, all for the audio track. -/
def errorShutdownRun : List (Env × Input) :=
  [ (exampleEnv, decoderNotify true 1 none (.kWhatError (some (-5)))),
    (exampleEnv, .message (.kWhatAudioNotify 1 none .kWhatFlushCompleted)),
    (exampleEnv, .message (.kWhatRendererNotify 1 (.kWhatFlushComplete true))),
    (exampleEnv, .message (.kWhatAudioNotify 1 none .kWhatShutdownCompleted)) ]

/-- The concrete session after `errorShutdownRun`. -/
def afterErrorShutdown : Player := after (startup ++ errorShutdownRun)

/-! ## End of stream -/

/-- The number of `MEDIA_PLAYBACK_COMPLETE` notifications sent to the client so
far. -/
def playbackCompletes (s : Player) : Nat :=
  (clientNotifications s).count (.notifyListener .MEDIA_PLAYBACK_COMPLETE)

/-- The end-of-stream notification of the renderer for one track, tagged with the
current renderer generation of the state `s`. -/
def rendererEOS (s : Player) (audio : Bool) (finalResult : Int) : Input :=
  .message (.kWhatRendererNotify s.mRendererGeneration (.kWhatEOS audio finalResult))

/-- The condition under which case `Renderer::kWhatEOS` reports the end of
playback (lines 1393-1396), read in the state in which it is tested. -/
def allTracksEnded (s : Player) : Prop :=
  (s.mAudioEOS = true ∨ s.mAudioDecoder = none) ∧ (s.mVideoEOS = true ∨ s.mVideoDecoder = none)

instance (s : Player) : Decidable (allTracksEnded s) := by
  unfold allTracksEnded
  exact inferInstance

/-- The concrete session after the renderer has reported the end of the audio
track. -/
def audioEnded : Player :=
  after (startup ++ [(exampleEnv, rendererEOS playing true ERROR_END_OF_STREAM)])

/-! ## A change of the video surface -/

/-- The actions a change of the video surface to `w` is specified to enqueue: the
flush of the audio decoder with the shutdown of the video decoder, the setting of
the surface, for a non-null surface a repositioning to the current position (when
playback is started and the position is available) and a scan of the sources,
and the resumption of the decoders. -/
def surfaceChangeActions (env : Env) (w : Option Nat) (s : Player) : List Action :=
  [.FlushDecoderAction .FLUSH_CMD_FLUSH .FLUSH_CMD_SHUTDOWN, .SetSurfaceAction w]
    ++ (if w ≠ none ∧ s.mStarted = true ∧ (getCurrentPosition env s).1 = OK then
        [.SeekAction (getCurrentPosition env s).2.1 false] else [])
    ++ (if w ≠ none then [.SimpleAction .performScanSources] else [])
    ++ [.ResumeDecoderAction false]

/-! ## Scanning the sources -/

/-- The decoders created so far, by track (`true` for audio), in order of
creation. -/
def creations (s : Player) : List Bool :=
  s.trace.filterMap fun e => match e with
    | .decoder audio (.create _ _) => some audio
    | _ => none

/-- The scan-sources messages posted so far: generation, scan number, delay. -/
def scanPosts (s : Player) : List (Int × Option Int × Int) :=
  s.trace.filterMap fun e => match e with
    | .post (.scanSources generation scanNum delayUs) => some (generation, scanNum, delayUs)
    | _ => none

/-- The test at the end of case `kWhatScanSources` (lines 1181-1182): a decoder is
missing although its output is set. -/
def decoderMissing (s : Player) : Prop :=
  (s.mAudioDecoder = none ∧ s.mAudioSink ≠ none) ∨
    (s.mVideoDecoder = none ∧ s.mNativeWindow ≠ none)

instance (s : Player) : Decidable (decoderMissing s) := by
  unfold decoderMissing
  exact inferInstance

/-- The test of case `kWhatScanSources` that defers the scan while the frame rate
is awaited (lines 1113-1116). -/
def scanWaits (scanNum : Option Int) (s : Player) : Prop :=
  s.mEnableFrameRate = true ∧ s.mFrameRate = .negative
    ∧ scanNum.getD 0 < wrap32 (s.mWaitSeconds * 100)

instance (scanNum : Option Int) (s : Player) : Decidable (scanWaits scanNum s) := by
  unfold scanWaits
  exact inferInstance

/-- The concrete session after start, before the first scan of the sources. -/
def started : Player := after (startup.take 5)

/-! ## HTTPLiveSource

A shallow embedding of `AmNuPlayer::HTTPLiveSource::selectTrack`
(`media/Am-NuPlayer/AmHTTPLiveSource.cpp`), with the same conventions: calls made
on the live session and messages posted are appended to a history variable, the
answers of the live session are read from a record. -/

/-- The track type `MEDIA_TRACK_TYPE_METADATA`. -/
def MEDIA_TRACK_TYPE_METADATA : Int := 5

/-- The notifications the live source posts to the player (`dupNotify()` ...
`post()`, `notifyFlagsChanged`, `notifyPrepared`, `notifyVideoSizeChanged`). -/
inductive LiveNotify where
  | kWhatSourceReady (err : Int)
  | kWhatVideoSizeChanged (hasFormat : Bool)
  | kWhatFlagsChanged (canSeek : Bool) (dynamicDuration : Bool)
  | kWhatPrepared (err : Int)
  | kWhatQueueDecoderShutdown (audio : Bool) (video : Bool) (reply : Nat)
  | kWhatFrameRate
  | kWhatTimedMetaData
  deriving DecidableEq

/-- Entries of the history variable of the live source. -/
inductive LiveEvent where
  | sessionSelectTrack (trackIndex : Nat) (select : Bool)
  | sessionSetSubTrackIndex (trackIndex : Nat)
  | postFetchSubtitleData (generation : Int)
  | postFetchMetaData (generation : Int)
  | sessionCreate
  | sessionSetParentThreadId
  | sessionConnectAsync
  | notify (n : LiveNotify)
  deriving DecidableEq

/-- The members of `HTTPLiveSource` read or written by `selectTrack`, and the
history variable `trace`; `mLiveSession` records whether the session exists. -/
structure HTTPLiveSource where
  mLiveSession : Bool
  mHasMetadata : Bool
  mMetadataSelected : Bool
  mHasSub : Bool
  mFetchSubtitleDataGeneration : Int
  mFetchMetaDataGeneration : Int
  trace : List LiveEvent
  deriving DecidableEq

/-- Answers of the live session during one call: the track count, the status of
`LiveSession::selectTrack`, the `type` entry of the track info (none when the
info is null or has no type); `sizeModulus` is the number of values of `size_t`. -/
structure LiveEnv where
  trackCount : Nat
  sizeModulus : Nat
  selectTrackErr : Int
  trackType : Option Int
  deriving DecidableEq

/-- The members as the constructor leaves them (lines 38-57). -/
def HTTPLiveSource.initial : HTTPLiveSource :=
  { mLiveSession := false, mHasMetadata := false, mMetadataSelected := false, mHasSub := false,
    mFetchSubtitleDataGeneration := 0, mFetchMetaDataGeneration := 0, trace := [] }

/-- Append one entry to the history variable of the live source. -/
def HTTPLiveSource.emit (e : LiveEvent) (s : HTTPLiveSource) : HTTPLiveSource :=
  { s with trace := s.trace ++ [e] }

/-- The expression `mLiveSession->getTrackCount() - 1`, in `size_t` arithmetic. -/
def LiveEnv.lastTrack (env : LiveEnv) : Nat :=
  (env.trackCount + env.sizeModulus - 1) % env.sizeModulus

/-- `AmNuPlayer::HTTPLiveSource::selectTrack` (lines 216-280); returns the status
together with the new state. -/
def HTTPLiveSource.selectTrack (env : LiveEnv) (trackIndex : Nat) (select : Bool)
    (s : HTTPLiveSource) : Int × HTTPLiveSource :=
  if !s.mLiveSession then (INVALID_OPERATION, s)
  else
    let r : Int × Bool × HTTPLiveSource :=
      if !s.mHasMetadata ∨ trackIndex ≠ env.lastTrack then
        (env.selectTrackErr, select, s.emit (.sessionSelectTrack trackIndex select))
      else
        let e : Int × Bool :=
          if s.mMetadataSelected ∧ !select then (OK, false)
          else if !s.mMetadataSelected ∧ select then (OK, true)
          else (BAD_VALUE, false)
        (e.1, e.2, { s with mMetadataSelected := select })
    let err := r.1
    let postFetchMsg := r.2.1
    let s := r.2.2
    let s : HTTPLiveSource :=
      if err = OK then
        let isSub : Bool := env.trackType = some MEDIA_TRACK_TYPE_SUBTITLE
        let isMetaData : Bool := !isSub ∧ env.trackType = some MEDIA_TRACK_TYPE_METADATA
        let s : HTTPLiveSource :=
          if isSub then
            { s with mFetchSubtitleDataGeneration := inc32 s.mFetchSubtitleDataGeneration }
          else if isMetaData then
            { s with mFetchMetaDataGeneration := inc32 s.mFetchMetaDataGeneration }
          else s
        if postFetchMsg then
          if isSub then
            let s := { s with mHasSub := true }
            let s := s.emit (.sessionSetSubTrackIndex trackIndex)
            s.emit (.postFetchSubtitleData s.mFetchSubtitleDataGeneration)
          else if isMetaData then
            let s := { s with mHasSub := false }
            s.emit (.postFetchMetaData s.mFetchMetaDataGeneration)
          else { s with mHasSub := false }
        else s
      else s
    (if err = OK ∨ err = BAD_VALUE then OK else err, s)

/-- The fetch messages posted so far by the live source. -/
def HTTPLiveSource.fetchPosts (s : HTTPLiveSource) : List LiveEvent :=
  s.trace.filter fun e => match e with
    | .postFetchSubtitleData _ => true
    | .postFetchMetaData _ => true
    | _ => false

/-- Answers of a live session with three tracks, the last being the metadata
track, that reports a redundant selection. -/
def liveRedundant : LiveEnv :=
  { trackCount := 3, sizeModulus := 4294967296, selectTrackErr := BAD_VALUE,
    trackType := some MEDIA_TRACK_TYPE_SUBTITLE }

/-- A live source with a session, metadata detected and the metadata track
selected. -/
def liveWithMetadata : HTTPLiveSource :=
  { HTTPLiveSource.initial with
    mLiveSession := true, mHasMetadata := true, mMetadataSelected := true }

/-! ## Generation counters -/

/-- The counter value `b` is reached from `a` by at most `n` increments
(`++` on an `int32_t`). -/
def Within (n : Nat) (a b : Int) : Prop :=
  ∃ k, k ≤ n ∧ b = Nat.iterate inc32 k a

/-- An instance (a decoder or the renderer) and the generation counter of its
role, before (`g`, `d`) and after (`g2`, `d2`) an operation: the counter has been
incremented `k` times, at most `n`; without an increment the instance is the
same; after an increment an instance that is present carries the current value
of the counter in its notifications. -/
def Tracked {α : Type} (tag : α → Int) (n : Nat) (g : Int) (d : Option α) (g2 : Int)
    (d2 : Option α) : Prop :=
  ∃ k, k ≤ n ∧ g2 = Nat.iterate inc32 k g ∧ (k = 0 → d2 = d) ∧
    (0 < k → ∀ x, d2 = some x → tag x = g2)

/-- The six generation counters, the decoders and the renderer across an
operation: at most `m` increments of each decoder counter, at most `n` of each
other counter. -/
def GenStep (m n : Nat) (s t : Player) : Prop :=
  Tracked DecoderObj.generation m s.mAudioDecoderGeneration s.mAudioDecoder
    t.mAudioDecoderGeneration t.mAudioDecoder ∧
  Tracked DecoderObj.generation m s.mVideoDecoderGeneration s.mVideoDecoder
    t.mVideoDecoderGeneration t.mVideoDecoder ∧
  Tracked RendererObj.generation n s.mRendererGeneration s.mRenderer
    t.mRendererGeneration t.mRenderer ∧
  Within n s.mScanSourcesGeneration t.mScanSourcesGeneration ∧
  Within n s.mPollDurationGeneration t.mPollDurationGeneration ∧
  Within n s.mTimedTextGeneration t.mTimedTextGeneration

/-- Every instance that is present carries the current generation of its role. -/
def Tagged (s : Player) : Prop :=
  (∀ d, s.mAudioDecoder = some d → d.generation = s.mAudioDecoderGeneration) ∧
  (∀ d, s.mVideoDecoder = some d → d.generation = s.mVideoDecoderGeneration) ∧
  (∀ r, s.mRenderer = some r → r.generation = s.mRendererGeneration)

/-- The result of handling a decoder notification that carries another generation
than the current one (lines 1200-1212): the message is dropped, and a reply it
carries is answered with `INFO_DISCONTINUITY`. -/
def rejectedAsStale (reply : Option Nat) (s : Player) : Player :=
  match reply with
  | none => s
  | some reply => emit (.post (.reply reply (some INFO_DISCONTINUITY))) s

/-- The generation counters across the handling of one input that executes `j`
deferred actions: at most two increments of each decoder counter, at most
`2 + 2 * j` of each other counter. -/
def StepGens (s t : Player) : Prop :=
  GenStep 2 (2 + 2 * ((executed t).length - (executed s).length)) s t

/-- The generation counters across a run of `processDeferredActions`: nothing
happens to the decoder counters, and each other counter is incremented at most
twice per executed action. -/
def DrainGens (s t : Player) : Prop :=
  ∃ done : List Action, executed t = executed s ++ done ∧ GenStep 0 (2 * done.length) s t

/-- The six generation counters, each decoder and the renderer next to the
counter of its role. -/
def gens (s : Player) :
    (Int × Option DecoderObj) × (Int × Option DecoderObj) × (Int × Option RendererObj) ×
      Int × Int × Int :=
  ((s.mAudioDecoderGeneration, s.mAudioDecoder), (s.mVideoDecoderGeneration, s.mVideoDecoder),
    (s.mRendererGeneration, s.mRenderer), s.mScanSourcesGeneration, s.mPollDurationGeneration,
    s.mTimedTextGeneration)

/-- The concrete session right before the shutdown of the audio decoder completes:
`errorShutdownRun` without its last input. -/
def shutdownPending : Player := after (startup ++ errorShutdownRun.take 3)

/-! ## The order of the flush statuses -/

/-- The position of a status in the order `NONE`, `FLUSHING_DECODER`,
`FLUSHING_DECODER_SHUTDOWN`, `SHUTTING_DOWN_DECODER`, `FLUSHED`, `SHUT_DOWN` in
which the specification lists the statuses. -/
def FlushStatus.rank : FlushStatus → Nat
  | .NONE => 0
  | .FLUSHING_DECODER => 1
  | .FLUSHING_DECODER_SHUTDOWN => 2
  | .SHUTTING_DOWN_DECODER => 3
  | .FLUSHED => 4
  | .SHUT_DOWN => 5

/-- The inputs in whose handling `finishFlushIfPossible` is called (lines 1259,
1284, 1342 and 1404): the decoder notifications `kWhatFlushCompleted`,
`kWhatShutdownCompleted` and `kWhatError`, and the renderer notification
`kWhatFlushComplete`. -/
def Input.callsFinish : Input → Bool
  | .message (.kWhatAudioNotify _ _ .kWhatFlushCompleted) => true
  | .message (.kWhatAudioNotify _ _ .kWhatShutdownCompleted) => true
  | .message (.kWhatAudioNotify _ _ (.kWhatError _)) => true
  | .message (.kWhatVideoNotify _ _ .kWhatFlushCompleted) => true
  | .message (.kWhatVideoNotify _ _ .kWhatShutdownCompleted) => true
  | .message (.kWhatVideoNotify _ _ (.kWhatError _)) => true
  | .message (.kWhatRendererNotify _ (.kWhatFlushComplete _)) => true
  | _ => false

/-- Whether an input is the notification `DecoderBase::kWhatError` of the decoder
of one track. -/
def Input.isErrorOf (audio : Bool) : Input → Bool
  | .message (.kWhatAudioNotify _ _ (.kWhatError _)) => audio
  | .message (.kWhatVideoNotify _ _ (.kWhatError _)) => !audio
  | _ => false

/-! ## The video size reported to the client -/

/-- The size `(W, H)` from which `updateVideoSize` starts, in the words of the
specification: taken from the crop rectangle of the output format as
`(right - left + 1, bottom - top + 1)` when an output format is given, and from
width and height of the input format when it is not; `none` when a key is missing
that the code checks for. -/
def videoSizeOf (input : Format) (output : Option Format) : Option (Int × Int) :=
  match output with
  | some out =>
    match out.width, out.height, out.crop with
    | some _, some _, some (left, top, right, bottom) =>
      some (wrap32 (wrap32 (right - left) + 1), wrap32 (wrap32 (bottom - top) + 1))
    | _, _, _ => none
  | none =>
    match input.width, input.height with
    | some w, some h => some (w, h)
    | _, _ => none

/-- The pair reported for a display size `(W, H)`: `(H, W)` exactly when the
rotation of the input format is 90 or 270 degrees. -/
def reportedSize (input : Format) (W H : Int) : Int × Int :=
  if input.rotationDegrees.getD 0 = 90 ∨ input.rotationDegrees.getD 0 = 270 then (H, W)
  else (W, H)

/-- Answers of the collaborators when the video format of the source carries the
sample aspect ratio 1 : 0. -/
def zeroSarEnv : Env :=
  { exampleEnv with
    videoFormat := some ⟨true, some 640, some 480, none, some 1, some 0, none⟩ }

/-- The output format of a 640 x 480 video decoder. -/
def outputFormat640 : Format :=
  ⟨true, some 640, some 480, some (0, 0, 639, 479), none, none, none⟩

/-! ## Actions left in the queue -/

/-- No action is stranded: the queue is empty, or a track is mid-flush (so that an
acknowledgement is still to come that will run the queue). -/
def Unstranded (c : FlushCore) : Prop :=
  c.mDeferredActions = [] ∨ c.mFlushingAudio.midFlush = true ∨ c.mFlushingVideo.midFlush = true

/-! ## An offload tear-down during a flush -/

/-- Answers of the collaborators when the audio stream is played in offload
mode. -/
def offloadEnv : Env :=
  { exampleEnv with canOffloadStream := true, openAudioSinkOffload := true }

/-- Start-up of a session in offload mode: as `startup`, with the answers of
`offloadEnv`. -/
def offloadStartup : List (Env × Input) :=
  [ (offloadEnv, .call (.setDriver true)),
    (offloadEnv, .message (.kWhatSetDataSource (some 1))),
    (offloadEnv, .message (.kWhatSetAudioSink (some 1))),
    (offloadEnv, .message (.kWhatSetVideoNativeWindow (some 1))),
    (offloadEnv, .message .kWhatStart),
    (offloadEnv, .message (.kWhatScanSources 0 none)) ]

/-- The client resets the player, the audio decoder acknowledges its flush, and
the renderer tears the offloaded audio down (not because of an error) before
its own acknowledgement of the flush arrives. -/
def offloadTearDownRun : List (Env × Input) :=
  [ (offloadEnv, .call .resetAsync),
    (offloadEnv, .message .kWhatReset),
    (offloadEnv, .message (.kWhatAudioNotify 1 none .kWhatFlushCompleted)),
    (offloadEnv, .message (.kWhatRendererNotify 1 (.kWhatAudioOffloadTearDown 0 false))) ]

/-- The session in offload mode after `offloadTearDownRun`. -/
def tornDown : Player := after (offloadStartup ++ offloadTearDownRun)

/-! ## The metadata track of the live source -/

/-- The notifications of the live session handled by `onSessionNotify` (lines
371-495), each with the payload the handler reads and, for `kWhatPrepared`, the
answers of the session during the handling: whether the video format has width
and height, `isSeekable()` and `hasDynamicDuration()`. -/
inductive SessionWhat where
  | kWhatPrepared (hasSize : Bool) (seekable : Bool) (dynamicDuration : Bool)
  | kWhatPreparationFailed (err : Int)
  | kWhatStreamsChanged (audio : Bool) (video : Bool) (reply : Nat)
  | kWhatError (unsupported : Bool)
  | kWhatSourceReady (err : Int)
  | kWhatSetFrameRate
  | kWhatMetadataDetected
  | unhandled
  deriving DecidableEq

/-- `AmNuPlayer::HTTPLiveSource::prepareAsync` (lines 91-115): a new live session
is created and asked to connect; the looper of the source is not modelled. -/
def HTTPLiveSource.prepareAsync (s : HTTPLiveSource) : HTTPLiveSource :=
  let s := { s.emit .sessionCreate with mLiveSession := true }
  let s := s.emit .sessionSetParentThreadId
  s.emit .sessionConnectAsync

/-- `AmNuPlayer::HTTPLiveSource::onSessionNotify` (lines 371-495). -/
def HTTPLiveSource.onSessionNotify (what : SessionWhat) (s : HTTPLiveSource) :
    Except Abort HTTPLiveSource :=
  match what with
  | .kWhatPrepared hasSize seekable dynamicDuration =>
    let s := s.emit (.notify (.kWhatSourceReady 0))
    let s := s.emit (.notify (.kWhatVideoSizeChanged hasSize))
    let s := s.emit (.notify (.kWhatFlagsChanged seekable dynamicDuration))
    .ok (s.emit (.notify (.kWhatPrepared OK)))
  | .kWhatPreparationFailed err => .ok (s.emit (.notify (.kWhatPrepared err)))
  | .kWhatStreamsChanged audio video reply =>
    .ok (s.emit (.notify (.kWhatQueueDecoderShutdown audio video reply)))
  | .kWhatError unsupported =>
    if unsupported then .ok (s.emit (.notify (.kWhatSourceReady 1))) else .ok s
  | .kWhatSourceReady err => .ok (s.emit (.notify (.kWhatSourceReady err)))
  | .kWhatSetFrameRate => .ok (s.emit (.notify .kWhatFrameRate))
  | .kWhatMetadataDetected =>
    if !s.mHasMetadata then
      let s := { s with mHasMetadata := true }
      .ok (s.emit (.notify .kWhatTimedMetaData))
    else .ok s
  | .unhandled => .error .trespass

/-- The conversion of a `size_t` value to `ssize_t`, for `m` values of `size_t`. -/
def toSsize (m : Nat) (x : Nat) : Int :=
  if 2 * x < m then (x : Int) else (x : Int) - (m : Int)

/-- `AmNuPlayer::HTTPLiveSource::getSelectedTrack` (lines 204-214);
`sessionSelected` is the answer of `mLiveSession->getSelectedTrack(type)`. The
conditional expression of line 210 has the type `size_t`, so both of its values
are converted to `ssize_t` on return. -/
def HTTPLiveSource.getSelectedTrack (env : LiveEnv) (sessionSelected : Int) (type : Int)
    (s : HTTPLiveSource) : Int :=
  if !s.mLiveSession then -1
  else if type = MEDIA_TRACK_TYPE_METADATA then
    toSsize env.sizeModulus
      (if s.mMetadataSelected then env.lastTrack else (env.sizeModulus - 1) % env.sizeModulus)
  else sessionSelected

/-- The calls and notifications the live source handles in this model. -/
inductive LiveInput where
  | prepareAsync
  | selectTrack (trackIndex : Nat) (select : Bool)
  | sessionNotify (what : SessionWhat)
  deriving DecidableEq

/-- Handling of one input of the live source, with the answers of the session. -/
def HTTPLiveSource.step (env : LiveEnv) (input : LiveInput) (s : HTTPLiveSource) :
    Except Abort HTTPLiveSource :=
  match input with
  | .prepareAsync => .ok s.prepareAsync
  | .selectTrack trackIndex select => .ok (s.selectTrack env trackIndex select).2
  | .sessionNotify what => s.onSessionNotify what

/-- The states of the live source reachable from construction. -/
inductive LiveReachable : HTTPLiveSource → Prop where
  | init : LiveReachable HTTPLiveSource.initial
  | step {s t : HTTPLiveSource} (env : LiveEnv) (input : LiveInput) :
      LiveReachable s → s.step env input = .ok t → LiveReachable t

/-- Answers of a live session with three tracks, the last being the metadata
track. -/
def liveMeta : LiveEnv :=
  { trackCount := 3, sizeModulus := 4294967296, selectTrackErr := OK,
    trackType := some MEDIA_TRACK_TYPE_METADATA }

/-- The live source after `prepareAsync` and the detection of metadata. -/
def metadataDetected : HTTPLiveSource :=
  match HTTPLiveSource.initial.prepareAsync.onSessionNotify .kWhatMetadataDetected with
  | .ok s => s
  | .error _ => HTTPLiveSource.initial

/-- The live source `metadataDetected` after the selection of the metadata
track. -/
def metadataSelected : HTTPLiveSource :=
  (metadataDetected.selectTrack liveMeta 2 true).2

/-! ## The frame-rate wait -/

/-- The part of case `kWhatScanSources` that follows the frame-rate wait (lines
1126-1188): the scan proper. -/
def scanSourcesBody (env : Env) (generation : Int) (scanNum : Option Int) (s : Player) :
    Except Abort Player :=
  let s := { s with mScanSourcesPending := false }
  let mHadAnySourcesBefore : Bool := s.mAudioDecoder ≠ none ∨ s.mVideoDecoder ≠ none
  (if s.mNativeWindow ≠ none then instantiateDecoder env false s else .ok (OK, s)).bind
    fun r =>
  (scanSourcesAudio env r.2).bind fun s =>
  let s := if !mHadAnySourcesBefore ∧ (s.mAudioDecoder ≠ none ∨ s.mVideoDecoder ≠ none) then
      if s.mSourceFlags.FLAG_DYNAMIC_DURATION then schedulePollDuration s else s
    else s
  scanSourcesFeed env generation scanNum s

/-- The entry `scan-num` of a scan message that has been deferred `k` times: the
message posted by `postScanSources` carries none, and each deferral stores the
incremented counter (lines 1114-1119). -/
def scanNumAfter : Nat → Option Int
  | 0 => none
  | k + 1 => some (inc32 ((scanNumAfter k).getD 0))

/-- The inputs of a session with the frame-rate detection enabled, up to the
request to start. -/
def frameRateStartup : List (Env × Input) :=
  [ (exampleEnv, .call (.setDriver true)),
    (exampleEnv, .call (.setDataSourceAsync true)),
    (exampleEnv, .message (.kWhatSetDataSource (some 1))),
    (exampleEnv, .message (.kWhatSetAudioSink (some 1))),
    (exampleEnv, .message (.kWhatSetVideoNativeWindow (some 1))),
    (exampleEnv, .message .kWhatStart) ]

/-- The concrete session after start with the frame-rate detection enabled, no
frame rate received, and a wait of one second (`mWaitSeconds` is 1). -/
def awaitingFrameRate : Player :=
  match run frameRateStartup (initial 1 []) with
  | .ok s => s
  | .error _ => initial 1 []

/-! ## The gate of the deferred-action queue -/

/-- The gate of the loop of `processDeferredActions` as the code evaluates it
(lines 2095-2099): closed when some status is not `NONE`. -/
def codeGate (s : Player) : Bool :=
  decide (s.mFlushingAudio ≠ .NONE ∨ s.mFlushingVideo ≠ .NONE)

/-- The gate as the specification states it: closed when some track is
`FLUSHING_DECODER`, `FLUSHING_DECODER_SHUTDOWN` or `SHUTTING_DOWN_DECODER`. -/
def specGate (s : Player) : Bool :=
  s.mFlushingAudio.midFlush || s.mFlushingVideo.midFlush

/-- The head of the loop of `processDeferredActions` with the gate of the
specification in place of the test of lines 2095-2099. -/
def nextDeferredActionSpec (s : Player) : Option (Action × Player) :=
  match s.mDeferredActions with
  | [] => none
  | action :: rest =>
    if specGate s then none
    else some (action, { s with mDeferredActions := rest })

/-- The loop of `processDeferredActions` with the gate of the specification. -/
def processDeferredActionsLoopSpec (env : Env) : Nat → Player → Except Abort Player
  | 0, _ => .error .fuel
  | fuel + 1, s =>
    match nextDeferredActionSpec s with
    | none => .ok s
    | some (action, s) =>
      (action.execute env (emit (.actionExecute action) s)).bind
        (processDeferredActionsLoopSpec env fuel)

/-- The drain `processDeferredActions` with the gate of the specification. -/
def processDeferredActionsSpec (env : Env) (s : Player) : Except Abort Player :=
  processDeferredActionsLoopSpec env (s.mDeferredActions.length + 1) s

/-- The function `finishFlushIfPossible` with the drain of the specification. -/
def finishFlushIfPossibleSpec (env : Env) (s : Player) : Except Abort Player :=
  if s.mFlushingAudio.midFlush then .ok s
  else if s.mFlushingVideo.midFlush then .ok s
  else
    let s := { s with mFlushingAudio := .NONE }
    let s := { s with mFlushingVideo := .NONE }
    let s := clearFlushComplete s
    processDeferredActionsSpec env s

/-- The states in which the loop of `processDeferredActions` evaluates its gate,
in order: one for every iteration of `processDeferredActionsLoop env fuel s` that
finds the queue non-empty (lines 2086-2099). -/
def gateEvaluations (env : Env) : Nat → Player → List Player
  | 0, _ => []
  | fuel + 1, s =>
    match s.mDeferredActions with
    | [] => []
    | _ :: _ =>
      s ::
        match nextDeferredAction s with
        | none => []
        | some (action, s) =>
          match action.execute env (emit (.actionExecute action) s) with
          | .error _ => []
          | .ok s => gateEvaluations env fuel s

/-- The gate evaluations of a call of `processDeferredActions`. -/
def drainGateEvaluations (env : Env) (s : Player) : List Player :=
  gateEvaluations env (s.mDeferredActions.length + 1) s

/-- The gate evaluations of a call of `finishFlushIfPossible`: those of the drain
it ends with, when it does not return early (lines 1691-1710). -/
def finishGateEvaluations (env : Env) (s : Player) : List Player :=
  if s.mFlushingAudio ≠ .NONE ∧ s.mFlushingAudio ≠ .FLUSHED
      ∧ s.mFlushingAudio ≠ .SHUT_DOWN then []
  else if s.mFlushingVideo ≠ .NONE ∧ s.mFlushingVideo ≠ .FLUSHED
      ∧ s.mFlushingVideo ≠ .SHUT_DOWN then []
  else
    let s := { s with mFlushingAudio := .NONE }
    let s := { s with mFlushingVideo := .NONE }
    let s := clearFlushComplete s
    drainGateEvaluations env s

/-- The two gates decide the same way in every state of a list. -/
def GatesAgree (l : List Player) : Prop :=
  ∀ u ∈ l, codeGate u = specGate u

/-- The relation of a script between the state before and the state after an
input, together with what the script says about the gate: every drain of the
handler returns the same state with the gate of the specification, and the two
gates decide the same way at every evaluation of the gate during the drain. -/
def Script.GateRel (env : Env) : Script → Player → Player → Prop
  | .frame, s, t => core t = core s
  | .pushDrain actions, s, t =>
    ∃ s1 t1, core s1 = { core s with mDeferredActions := s.mDeferredActions ++ actions } ∧
      processDeferredActions env s1 = .ok t1 ∧ processDeferredActionsSpec env s1 = .ok t1 ∧
      GatesAgree (drainGateEvaluations env s1) ∧ core t = core t1
  | .ackFinish audio isDecoder, s, t =>
    ∃ s1 s2 t1, core s1 = core s ∧ handleFlushComplete audio isDecoder s1 = .ok s2 ∧
      finishFlushIfPossible env s2 = .ok t1 ∧ finishFlushIfPossibleSpec env s2 = .ok t1 ∧
      GatesAgree (finishGateEvaluations env s2) ∧ core t = core t1
  | .errorUpgrade audio, s, t =>
    (core s).flushing audio = .FLUSHING_DECODER ∧
      core t = (core s).setFlushing audio .FLUSHING_DECODER_SHUTDOWN
  | .errorShutdown audio, s, t =>
    (core s).flushing audio = .FLUSHED ∧
      core t = (core s).setFlushing audio .SHUTTING_DOWN_DECODER
  | .errorFinish, s, t =>
    ∃ s1 t1, core s1 = core s ∧ finishFlushIfPossible env s1 = .ok t1 ∧
      finishFlushIfPossibleSpec env s1 = .ok t1 ∧
      GatesAgree (finishGateEvaluations env s1) ∧ core t = core t1
  | .shutdownCompleted audio, s, t =>
    (core s).flushing audio = .SHUTTING_DOWN_DECODER ∧
      ∃ s1 t1, core s1 = (core s).setFlushing audio .SHUT_DOWN ∧
        finishFlushIfPossible env s1 = .ok t1 ∧ finishFlushIfPossibleSpec env s1 = .ok t1 ∧
        GatesAgree (finishGateEvaluations env s1) ∧ core t = core t1

/-- A state with one queued action in which the audio track rests in `FLUSHED`
and the video track in `NONE`. -/
def flushedIdle : Player :=
  { playing with mFlushingAudio := .FLUSHED
                 mDeferredActions := [.SimpleAction .performScanSources] }

/-! ## Members no handler assigns -/

/-- The two members no handler assigns: `mWaitSeconds`, written by the
constructor (lines 204-218), and the registry `mThreadId`, written by
`thread_interrupt` and `thread_uninterrupt` only. -/
def statics (s : Player) : Int × List Nat := (s.mWaitSeconds, s.mThreadId)

/-- Across an operation `mWaitSeconds` keeps its value and a registry without
duplicates stays without duplicates. -/
def Steady (s t : Player) : Prop :=
  t.mWaitSeconds = s.mWaitSeconds ∧ (s.mThreadId.Nodup → t.mThreadId.Nodup)

/-! ## A flush finds a renderer -/

/-- The decoders and the renderer. -/
def objs (s : Player) : Option DecoderObj × Option DecoderObj × Option RendererObj :=
  (s.mAudioDecoder, s.mVideoDecoder, s.mRenderer)

/-- A decoder exists only together with a renderer: `instantiateDecoder` calls
`mRenderer->setHasMedia` on the renderer it hands to the new decoder (lines
1776-1792), and `performReset` clears the renderer after the check that both
decoders are gone (lines 2153-2169). -/
def Rendered (s : Player) : Prop :=
  (s.mAudioDecoder ≠ none ∨ s.mVideoDecoder ≠ none) → s.mRenderer ≠ none

instance (s : Player) : Decidable (Rendered s) := by
  unfold Rendered
  exact inferInstance

/-- Across an operation: when every decoder had a renderer before it, every
decoder has a renderer after it. -/
def Kept (s t : Player) : Prop := Rendered s → Rendered t

/-- The two statuses in which a track waits for its flush acknowledgements. -/
def FlushStatus.flushingDecoder (f : FlushStatus) : Prop :=
  f = .FLUSHING_DECODER ∨ f = .FLUSHING_DECODER_SHUTDOWN

instance (f : FlushStatus) : Decidable f.flushingDecoder := by
  unfold FlushStatus.flushingDecoder
  exact inferInstance

/-- The track is flushing and neither of its two acknowledgements is recorded. -/
def Unacked (audio : Bool) (c : FlushCore) : Prop :=
  awaiting audio true c ∧ awaiting audio false c

/-- A track that is flushing in the state `t` after an operation either has none
of its acknowledgements recorded, or it was flushing in the state `s` before the
operation already and the operation executed no deferred action (so that
`flushDecoder`, which only the deferred action `FlushDecoderAction` calls, did
not run). -/
def Guarded (s t : Player) : Prop :=
  ∀ audio, (flushing audio t).flushingDecoder →
    Unacked audio (core t) ∨
      ((flushing audio s).flushingDecoder ∧ executed t = executed s)

/-! ## A decoder error dropped after a seek -/

/-- The start-up sequence of the concrete session with the frame-rate detection
enabled and a positive frame rate received from the source, followed by a seek
request more than 100 ms after the start, handled while the sysfs entry of the
automatic frame-rate switch reads 1. -/
def autoSwitchSeek : List (Env × Input) :=
  [ (exampleEnv, .call (.setDriver true)),
    (exampleEnv, .call (.setDataSourceAsync true)),
    (exampleEnv, .message (.kWhatSetDataSource (some 1))),
    (exampleEnv, .message (.kWhatSetAudioSink (some 1))),
    (exampleEnv, .message (.kWhatSetVideoNativeWindow (some 1))),
    (exampleEnv, .message .kWhatStart),
    (exampleEnv, .message (.kWhatSourceNotify (.kWhatFrameRate .positive))),
    (exampleEnv, .message (.kWhatScanSources 0 none)),
    ({ exampleEnv with nowUs := 200000, sysfsAutoSwitch := 1 },
      .message (.kWhatSeek 5 true)) ]

/-- The concrete session after `autoSwitchSeek`: both tracks are flushing and
`mAutoSwitch` holds the value 1 saved by the seek. -/
def autoSwitchSaved : Player := after autoSwitchSeek


/-! # Theorems -/

/-! ## Projections of a conditional state -/

@[simp] theorem ite_mDriver (c : Prop) [Decidable c] (a b : Player) :
    (if c then a else b).mDriver = if c then a.mDriver else b.mDriver := apply_ite _ _ _ _

@[simp] theorem ite_mSource (c : Prop) [Decidable c] (a b : Player) :
    (if c then a else b).mSource = if c then a.mSource else b.mSource := apply_ite _ _ _ _

@[simp] theorem ite_mSourceFlags (c : Prop) [Decidable c] (a b : Player) :
    (if c then a else b).mSourceFlags = if c then a.mSourceFlags else b.mSourceFlags := apply_ite _ _ _ _

@[simp] theorem ite_mNativeWindow (c : Prop) [Decidable c] (a b : Player) :
    (if c then a else b).mNativeWindow = if c then a.mNativeWindow else b.mNativeWindow := apply_ite _ _ _ _

@[simp] theorem ite_mAudioSink (c : Prop) [Decidable c] (a b : Player) :
    (if c then a else b).mAudioSink = if c then a.mAudioSink else b.mAudioSink := apply_ite _ _ _ _

@[simp] theorem ite_mAudioDecoder (c : Prop) [Decidable c] (a b : Player) :
    (if c then a else b).mAudioDecoder = if c then a.mAudioDecoder else b.mAudioDecoder := apply_ite _ _ _ _

@[simp] theorem ite_mVideoDecoder (c : Prop) [Decidable c] (a b : Player) :
    (if c then a else b).mVideoDecoder = if c then a.mVideoDecoder else b.mVideoDecoder := apply_ite _ _ _ _

@[simp] theorem ite_mCCDecoder (c : Prop) [Decidable c] (a b : Player) :
    (if c then a else b).mCCDecoder = if c then a.mCCDecoder else b.mCCDecoder := apply_ite _ _ _ _

@[simp] theorem ite_mRenderer (c : Prop) [Decidable c] (a b : Player) :
    (if c then a else b).mRenderer = if c then a.mRenderer else b.mRenderer := apply_ite _ _ _ _

@[simp] theorem ite_mRendererLooper (c : Prop) [Decidable c] (a b : Player) :
    (if c then a else b).mRendererLooper = if c then a.mRendererLooper else b.mRendererLooper := apply_ite _ _ _ _

@[simp] theorem ite_mOffloadAudio (c : Prop) [Decidable c] (a b : Player) :
    (if c then a else b).mOffloadAudio = if c then a.mOffloadAudio else b.mOffloadAudio := apply_ite _ _ _ _

@[simp] theorem ite_mAudioDecoderGeneration (c : Prop) [Decidable c] (a b : Player) :
    (if c then a else b).mAudioDecoderGeneration = if c then a.mAudioDecoderGeneration else b.mAudioDecoderGeneration := apply_ite _ _ _ _

@[simp] theorem ite_mVideoDecoderGeneration (c : Prop) [Decidable c] (a b : Player) :
    (if c then a else b).mVideoDecoderGeneration = if c then a.mVideoDecoderGeneration else b.mVideoDecoderGeneration := apply_ite _ _ _ _

@[simp] theorem ite_mRendererGeneration (c : Prop) [Decidable c] (a b : Player) :
    (if c then a else b).mRendererGeneration = if c then a.mRendererGeneration else b.mRendererGeneration := apply_ite _ _ _ _

@[simp] theorem ite_mAudioEOS (c : Prop) [Decidable c] (a b : Player) :
    (if c then a else b).mAudioEOS = if c then a.mAudioEOS else b.mAudioEOS := apply_ite _ _ _ _

@[simp] theorem ite_mVideoEOS (c : Prop) [Decidable c] (a b : Player) :
    (if c then a else b).mVideoEOS = if c then a.mVideoEOS else b.mVideoEOS := apply_ite _ _ _ _

@[simp] theorem ite_mScanSourcesPending (c : Prop) [Decidable c] (a b : Player) :
    (if c then a else b).mScanSourcesPending = if c then a.mScanSourcesPending else b.mScanSourcesPending := apply_ite _ _ _ _

@[simp] theorem ite_mScanSourcesGeneration (c : Prop) [Decidable c] (a b : Player) :
    (if c then a else b).mScanSourcesGeneration = if c then a.mScanSourcesGeneration else b.mScanSourcesGeneration := apply_ite _ _ _ _

@[simp] theorem ite_mPollDurationGeneration (c : Prop) [Decidable c] (a b : Player) :
    (if c then a else b).mPollDurationGeneration = if c then a.mPollDurationGeneration else b.mPollDurationGeneration := apply_ite _ _ _ _

@[simp] theorem ite_mTimedTextGeneration (c : Prop) [Decidable c] (a b : Player) :
    (if c then a else b).mTimedTextGeneration = if c then a.mTimedTextGeneration else b.mTimedTextGeneration := apply_ite _ _ _ _

@[simp] theorem ite_mFlushingAudio (c : Prop) [Decidable c] (a b : Player) :
    (if c then a else b).mFlushingAudio = if c then a.mFlushingAudio else b.mFlushingAudio := apply_ite _ _ _ _

@[simp] theorem ite_mFlushingVideo (c : Prop) [Decidable c] (a b : Player) :
    (if c then a else b).mFlushingVideo = if c then a.mFlushingVideo else b.mFlushingVideo := apply_ite _ _ _ _

@[simp] theorem ite_mFlushComplete (c : Prop) [Decidable c] (a b : Player) :
    (if c then a else b).mFlushComplete = if c then a.mFlushComplete else b.mFlushComplete := apply_ite _ _ _ _

@[simp] theorem ite_mDeferredActions (c : Prop) [Decidable c] (a b : Player) :
    (if c then a else b).mDeferredActions = if c then a.mDeferredActions else b.mDeferredActions := apply_ite _ _ _ _

@[simp] theorem ite_mResumePending (c : Prop) [Decidable c] (a b : Player) :
    (if c then a else b).mResumePending = if c then a.mResumePending else b.mResumePending := apply_ite _ _ _ _

@[simp] theorem ite_mVideoScalingMode (c : Prop) [Decidable c] (a b : Player) :
    (if c then a else b).mVideoScalingMode = if c then a.mVideoScalingMode else b.mVideoScalingMode := apply_ite _ _ _ _

@[simp] theorem ite_mNewSurface (c : Prop) [Decidable c] (a b : Player) :
    (if c then a else b).mNewSurface = if c then a.mNewSurface else b.mNewSurface := apply_ite _ _ _ _

@[simp] theorem ite_mEnableFrameRate (c : Prop) [Decidable c] (a b : Player) :
    (if c then a else b).mEnableFrameRate = if c then a.mEnableFrameRate else b.mEnableFrameRate := apply_ite _ _ _ _

@[simp] theorem ite_mFrameRate (c : Prop) [Decidable c] (a b : Player) :
    (if c then a else b).mFrameRate = if c then a.mFrameRate else b.mFrameRate := apply_ite _ _ _ _

@[simp] theorem ite_mWaitSeconds (c : Prop) [Decidable c] (a b : Player) :
    (if c then a else b).mWaitSeconds = if c then a.mWaitSeconds else b.mWaitSeconds := apply_ite _ _ _ _

@[simp] theorem ite_mStarted (c : Prop) [Decidable c] (a b : Player) :
    (if c then a else b).mStarted = if c then a.mStarted else b.mStarted := apply_ite _ _ _ _

@[simp] theorem ite_mPaused (c : Prop) [Decidable c] (a b : Player) :
    (if c then a else b).mPaused = if c then a.mPaused else b.mPaused := apply_ite _ _ _ _

@[simp] theorem ite_mPausedByClient (c : Prop) [Decidable c] (a b : Player) :
    (if c then a else b).mPausedByClient = if c then a.mPausedByClient else b.mPausedByClient := apply_ite _ _ _ _

@[simp] theorem ite_mAutoSwitch (c : Prop) [Decidable c] (a b : Player) :
    (if c then a else b).mAutoSwitch = if c then a.mAutoSwitch else b.mAutoSwitch := apply_ite _ _ _ _

@[simp] theorem ite_mStartTimeUs (c : Prop) [Decidable c] (a b : Player) :
    (if c then a else b).mStartTimeUs = if c then a.mStartTimeUs else b.mStartTimeUs := apply_ite _ _ _ _

@[simp] theorem ite_mSelfThreadId (c : Prop) [Decidable c] (a b : Player) :
    (if c then a else b).mSelfThreadId = if c then a.mSelfThreadId else b.mSelfThreadId := apply_ite _ _ _ _

@[simp] theorem ite_mStrCurrentAudioCodecIsDTS (c : Prop) [Decidable c] (a b : Player) :
    (if c then a else b).mStrCurrentAudioCodecIsDTS = if c then a.mStrCurrentAudioCodecIsDTS else b.mStrCurrentAudioCodecIsDTS := apply_ite _ _ _ _

@[simp] theorem ite_DtshdApreTotal (c : Prop) [Decidable c] (a b : Player) :
    (if c then a else b).DtshdApreTotal = if c then a.DtshdApreTotal else b.DtshdApreTotal := apply_ite _ _ _ _

@[simp] theorem ite_DtsHdStreamType (c : Prop) [Decidable c] (a b : Player) :
    (if c then a else b).DtsHdStreamType = if c then a.DtsHdStreamType else b.DtsHdStreamType := apply_ite _ _ _ _

@[simp] theorem ite_DtsHdMulAssetHint (c : Prop) [Decidable c] (a b : Player) :
    (if c then a else b).DtsHdMulAssetHint = if c then a.DtsHdMulAssetHint else b.DtsHdMulAssetHint := apply_ite _ _ _ _

@[simp] theorem ite_DtsHdHpsHint (c : Prop) [Decidable c] (a b : Player) :
    (if c then a else b).DtsHdHpsHint = if c then a.DtsHdHpsHint else b.DtsHdHpsHint := apply_ite _ _ _ _

@[simp] theorem ite_mThreadId (c : Prop) [Decidable c] (a b : Player) :
    (if c then a else b).mThreadId = if c then a.mThreadId else b.mThreadId := apply_ite _ _ _ _

@[simp] theorem ite_trace (c : Prop) [Decidable c] (a b : Player) :
    (if c then a else b).trace = if c then a.trace else b.trace := apply_ite _ _ _ _


/-! ## Frame lemmas: operations that leave the flush core alone -/

theorem executed_emit (e : Event) (s : Player) :
    executed (emit e s) = executed s ++ (match e with | .actionExecute a => [a] | _ => []) := by
  cases e <;> simp [executed, emit, List.filterMap_append]

theorem flushLogs_emit (e : Event) (s : Player) :
    flushLogs (emit e s) = flushLogs s ++
      (match e with | .logFlushDecoderCalledInState a st => [(a, st)] | _ => []) := by
  cases e <;> simp [flushLogs, emit, List.filterMap_append]

theorem core_emit (e : Event) (s : Player)
    (h1 : ∀ a, e ≠ .actionExecute a) (h2 : ∀ a st, e ≠ .logFlushDecoderCalledInState a st) :
    core (emit e s) = core s := by
  cases e <;> simp_all [core, executed_emit, flushLogs_emit] <;> simp [emit]

@[simp] theorem core_ite (c : Prop) [Decidable c] (a b : Player) :
    core (if c then a else b) = if c then core a else core b := apply_ite _ _ _ _

@[simp] theorem core_emit_source (c : SourceCall) (s : Player) :
    core (emit (.source c) s) = core s := core_emit _ _ (by simp) (by simp)

@[simp] theorem core_emit_decoder (a : Bool) (c : DecoderCall) (s : Player) :
    core (emit (.decoder a c) s) = core s := core_emit _ _ (by simp) (by simp)

@[simp] theorem core_emit_renderer (c : RendererCall) (s : Player) :
    core (emit (.renderer c) s) = core s := core_emit _ _ (by simp) (by simp)

@[simp] theorem core_emit_driver (c : DriverCall) (s : Player) :
    core (emit (.driver c) s) = core s := core_emit _ _ (by simp) (by simp)

@[simp] theorem core_emit_post (p : Post) (s : Player) :
    core (emit (.post p) s) = core s := core_emit _ _ (by simp) (by simp)

@[simp] theorem core_emit_ccDecoderNew (s : Player) :
    core (emit .ccDecoderNew s) = core s := core_emit _ _ (by simp) (by simp)

@[simp] theorem core_emit_ccDecoderSelectTrack (i : Nat) (b : Bool) (s : Player) :
    core (emit (.ccDecoderSelectTrack i b) s) = core s := core_emit _ _ (by simp) (by simp)

@[simp] theorem core_emit_sendMetaDataToHal (s : Player) :
    core (emit .sendMetaDataToHal s) = core s := core_emit _ _ (by simp) (by simp)

@[simp] theorem core_emit_nativeWindowSetScalingMode (m : Int) (s : Player) :
    core (emit (.nativeWindowSetScalingMode m) s) = core s := core_emit _ _ (by simp) (by simp)

@[simp] theorem core_emit_sysfsSetAutoSwitch (v : Int) (s : Player) :
    core (emit (.sysfsSetAutoSwitch v) s) = core s := core_emit _ _ (by simp) (by simp)

@[simp] theorem core_emit_parcelWriteInt32 (v : Int) (s : Player) :
    core (emit (.parcelWriteInt32 v) s) = core s := core_emit _ _ (by simp) (by simp)

@[simp] theorem core_emit_parcelWriteString16 (v : Str16) (s : Player) :
    core (emit (.parcelWriteString16 v) s) = core s := core_emit _ _ (by simp) (by simp)

@[simp] theorem core_callDriver (env : Env) (c : DriverCall) (s : Player) :
    core (callDriver env c s) = core s := by
  unfold callDriver; split
  · exact core_emit _ _ (by simp) (by simp)
  · rfl

@[simp] theorem core_notifyListener (env : Env) (m : ListenerMsg) (s : Player) :
    core (notifyListener env m s) = core s := by
  unfold notifyListener; split_ifs
  · rfl
  · rfl
  · exact core_emit _ _ (by simp) (by simp)

@[simp] theorem core_thread_interrupt (env : Env) (s : Player) :
    core (thread_interrupt env s) = core s := by
  unfold thread_interrupt; split_ifs <;> rfl

@[simp] theorem core_thread_uninterrupt (env : Env) (s : Player) :
    core (thread_uninterrupt env s) = core s := rfl

@[simp] theorem core_postScanSources (s : Player) : core (postScanSources s) = core s := by
  simp [postScanSources, emit, core, executed, flushLogs]
  split_ifs <;> simp

@[simp] theorem core_schedulePollDuration (s : Player) :
    core (schedulePollDuration s) = core s := by
  simp [schedulePollDuration, emit, core, executed, flushLogs]

@[simp] theorem core_cancelPollDuration (s : Player) :
    core (cancelPollDuration s) = core s := rfl

@[simp] theorem core_performScanSources (s : Player) :
    core (performScanSources s) = core s := by
  unfold performScanSources; split_ifs <;> simp

@[simp] theorem core_setVideoScalingMode (env : Env) (m : Int) (s : Player) :
    core (setVideoScalingMode env m s).2 = core s := by
  simp [setVideoScalingMode, emit, core, executed, flushLogs]
  split_ifs <;> simp

@[simp] theorem core_performSetSurface (env : Env) (w : Option Nat) (s : Player) :
    core (performSetSurface env w s) = core s := by
  simp [performSetSurface]; rfl

@[simp] theorem core_finishResume (env : Env) (s : Player) :
    core (finishResume env s) = core s := by
  unfold finishResume; split_ifs
  · simp; rfl
  · rfl

@[simp] theorem core_performResumeDecoders (env : Env) (n : Bool) (s : Player) :
    core (performResumeDecoders env n s) = core s := by
  simp [performResumeDecoders, finishResume, callDriver, emit, core, executed, flushLogs]
  split_ifs <;> simp


/-! ## Rules for `okThen` -/

@[simp] theorem okThen_ok {α : Type} (a : α) (P : α → Prop) :
    okThen (.ok a : Except Abort α) P ↔ P a := by
  simp [okThen]

@[simp] theorem okThen_error {α : Type} (e : Abort) (P : α → Prop) :
    okThen (.error e : Except Abort α) P ↔ True := by
  simp [okThen]

@[simp] theorem okThen_bind {α β : Type} (x : Except Abort α) (k : α → Except Abort β)
    (P : β → Prop) : okThen (x.bind k) P ↔ okThen x (fun a => okThen (k a) P) := by
  cases x <;> simp [okThen, Except.bind]

theorem okThen_mono {α : Type} {x : Except Abort α} {P Q : α → Prop}
    (h : okThen x Q) (hPQ : ∀ a, Q a → P a) : okThen x P :=
  fun a ha => hPQ a (h a ha)

theorem okThen_ite {α : Type} (c : Prop) [Decidable c] (x y : Except Abort α) (P : α → Prop) :
    okThen (if c then x else y) P ↔ (c → okThen x P) ∧ (¬ c → okThen y P) := by
  split_ifs with h <;> simp [h]


theorem frame_performSeek (env : Env) (ts : Int) (n : Bool) (s : Player) :
    okThen (performSeek env ts n s) (fun t => core t = core s) := by
  simp [performSeek, thread_interrupt, thread_uninterrupt, emit]
  split_ifs <;> simp [core, executed, flushLogs]

theorem frame_performReset (env : Env) (s : Player) :
    okThen (performReset env s) (fun t => core t = core s) := by
  simp [performReset, thread_interrupt, thread_uninterrupt, emit, callDriver, cancelPollDuration]
  split_ifs <;> simp [core, executed, flushLogs]

theorem frame_tryOpenAudioSinkForOffload (env : Env) (hv : Bool) (s : Player) :
    okThen (tryOpenAudioSinkForOffload env hv s) (fun t => core t = core s) := by
  simp [tryOpenAudioSinkForOffload, emit]
  split_ifs <;> simp [core, executed, flushLogs]

theorem frame_closeAudioSink (s : Player) :
    okThen (closeAudioSink s) (fun t => core t = core s) := by
  simp [closeAudioSink, emit]
  split_ifs <;> simp [core, executed, flushLogs]

theorem frame_instantiateDecoder (env : Env) (audio : Bool) (s : Player) :
    okThen (instantiateDecoder env audio s) (fun r => core r.2 = core s) := by
  cases h : env.videoFormat <;> cases audio <;>
    simp [instantiateDecoder, emit, h, getDecoder]
  all_goals (split_ifs <;> simp [core, executed, flushLogs])

@[simp] theorem core_onPause (s : Player) : core (onPause s) = core s := by
  simp [onPause, emit, core, executed, flushLogs]
  split_ifs <;> simp

theorem frame_onStart (env : Env) (s : Player) :
    okThen (onStart env s) (fun t => core t = core s) := by
  cases h : env.fileMetaFrameRate <;> simp [onStart, h, postScanSources, emit]
  all_goals (split_ifs <;> simp [core, executed, flushLogs])

theorem frame_onResume (env : Env) (s : Player) :
    okThen (onResume env s) (fun t => core t = core s) := by
  simp only [onResume, emit, audioDecoderStillNeeded]
  split_ifs
  all_goals (try simp only [okThen_bind])
  all_goals (try (refine okThen_mono (frame_instantiateDecoder _ _ _) fun r hr => ?_))
  all_goals (simp [core, executed, flushLogs] at *)
  all_goals (try (split_ifs <;> simp_all))

theorem frame_onInstantiateSecureDecoders (env : Env) (s : Player) :
    okThen (onInstantiateSecureDecoders env s) (fun r => core r.2 = core s) := by
  simp only [onInstantiateSecureDecoders]
  split_ifs
  all_goals (try simp only [okThen_bind])
  all_goals (try (refine okThen_mono (frame_instantiateDecoder _ _ _) fun r hr => ?_))
  all_goals (try simp only [okThen_ok])
  all_goals (try split_ifs)
  all_goals (try simp only [okThen_bind])
  all_goals (try (refine okThen_mono (frame_instantiateDecoder _ _ _) fun q hq => ?_))
  all_goals (try simp only [okThen_ok])
  all_goals (try split_ifs)
  all_goals (try simp only [okThen_ok])
  all_goals (try simp_all)
theorem frame_updateVideoSize (env : Env) (i o : Option Format) (s : Player) :
    okThen (updateVideoSize env i o s) (fun t => core t = core s) := by
  unfold updateVideoSize
  split
  · simp
  · simp only [okThen_bind]
    intro a _ b _
    split_ifs <;> simp

theorem core_mk (a1 a2 a3 a4 a5 a6 a7 a8 a9 a10 a11 a12 a13 a14 a15 a16 a17 a18 a19 a20 a21 a22
    a23 a24 a25 a26 a27 a28 a29 a30 a31 a32 a33 a34 a35 a36 a37 a38 a39 a40 a41 a42 : _)
    (s : Player) :
    core ⟨a1, a2, a3, a4, a5, a6, a7, a8, a9, a10, a11, a12, a13, a14, a15, a16, a17, a18, a19,
      a20, a21, a22, a23, a24, a25, a26, a27, a28, a29, a30, a31, a32, a33, a34, a35, a36, a37,
      a38, a39, a40, a41, a42, s.trace⟩ =
      ⟨a21, a22, a23, a24, (core s).executed, (core s).flushLogs⟩ := rfl

theorem mFlushingAudio_core (s : Player) : s.mFlushingAudio = (core s).mFlushingAudio := rfl
theorem mFlushingVideo_core (s : Player) : s.mFlushingVideo = (core s).mFlushingVideo := rfl
theorem mFlushComplete_core (s : Player) : s.mFlushComplete = (core s).mFlushComplete := rfl
theorem mDeferredActions_core (s : Player) :
    s.mDeferredActions = (core s).mDeferredActions := rfl

@[simp] theorem core_dtsCheckTotalApre (env : Env) (s : Player) :
    core (dtsCheckTotalApre env s) = core s := by
  simp [dtsCheckTotalApre, notifyListener, emit, core, executed, flushLogs]
  split_ifs <;> simp

@[simp] theorem core_dtsCheckStreamType (env : Env) (s : Player) :
    core (dtsCheckStreamType env s) = core s := by
  simp [dtsCheckStreamType, notifyListener, emit, core, executed, flushLogs]
  split_ifs <;> simp

@[simp] theorem core_dtsCheckMulAssetHint (env : Env) (s : Player) :
    core (dtsCheckMulAssetHint env s) = core s := by
  simp [dtsCheckMulAssetHint, notifyListener, emit, core, executed, flushLogs]
  split_ifs <;> simp

@[simp] theorem core_dtsCheckHpsHint (env : Env) (s : Player) :
    core (dtsCheckHpsHint env s) = core s := by
  simp [dtsCheckHpsHint, notifyListener, emit, core, executed, flushLogs]
  split_ifs <;> simp

@[simp] theorem core_getCurrentPosition (env : Env) (s : Player) :
    core (getCurrentPosition env s).2.2 = core s := by
  unfold getCurrentPosition
  split_ifs <;> simp

theorem frame_writeTrackInfo (f : TrackInfo) (s : Player) :
    okThen (writeTrackInfo f s) (fun t => core t = core s) := by
  unfold writeTrackInfo
  split
  · simp
  · simp only [okThen_bind]
    intro a _
    split
    · simp
    · split_ifs
      · split <;> simp
      · simp

theorem frame_writeTrackInfos (l : List TrackInfo) (s : Player) :
    okThen (writeTrackInfos l s) (fun t => core t = core s) := by
  induction l generalizing s with
  | nil => simp [writeTrackInfos]
  | cons f rest ih =>
    simp only [writeTrackInfos, okThen_bind]
    refine okThen_mono (frame_writeTrackInfo f s) fun t ht => ?_
    exact okThen_mono (ih t) fun u hu => hu.trans ht

theorem frame_sendSubtitleData (env : Env) (b : Buffer) (i : Int) (s : Player) :
    okThen (sendSubtitleData env b i s) (fun t => core t = core s) := by
  unfold sendSubtitleData
  split <;> simp

theorem frame_sendTimedMetaData (env : Env) (b : Buffer) (s : Player) :
    okThen (sendTimedMetaData env b s) (fun t => core t = core s) := by
  unfold sendTimedMetaData
  split <;> simp

theorem frame_sendTimedTextData (env : Env) (b : Buffer) (s : Player) :
    okThen (sendTimedTextData env b s) (fun t => core t = core s) := by
  unfold sendTimedTextData
  split
  · simp
  · split_ifs <;> simp

theorem frame_onClosedCaptionNotify (env : Env) (w : CCWhat) (s : Player) :
    okThen (onClosedCaptionNotify env w s) (fun t => core t = core s) := by
  unfold onClosedCaptionNotify
  split
  · exact frame_sendSubtitleData _ _ _ _
  · simp
  · simp

theorem frame_onSelectTrack (env : Env) (i : Nat) (b : Bool) (ts : Int) (s : Player) :
    okThen (onSelectTrack env i b ts s) (fun t => core t = core s) := by
  simp only [onSelectTrack, okThen_ok, emit]
  split_ifs
  all_goals (try split)
  all_goals (try split_ifs)
  all_goals simp [core, executed, flushLogs]

@[simp] theorem core_onApi (env : Env) (c : Api) (s : Player) :
    core (onApi env c s) = core s := by
  cases c <;> simp only [onApi]
  all_goals (try split)
  all_goals (try split_ifs)
  all_goals (first | rfl | simp)
theorem frame_scanSourcesAudio (env : Env) (s : Player) :
    okThen (scanSourcesAudio env s) (fun t => core t = core s) := by
  simp only [scanSourcesAudio]
  split_ifs
  all_goals (try simp only [okThen_bind])
  all_goals (try (refine okThen_mono (frame_tryOpenAudioSinkForOffload _ _ _) fun q hq => ?_))
  all_goals (try simp only [okThen_ok, okThen_bind])
  all_goals (try (refine okThen_mono (frame_instantiateDecoder _ _ _) fun r hr => ?_))
  all_goals (try simp only [okThen_ok, okThen_error])
  all_goals (try simp_all)

theorem frame_scanSourcesFeed (env : Env) (g : Int) (n : Option Int) (s : Player) :
    okThen (scanSourcesFeed env g n s) (fun t => core t = core s) := by
  simp only [scanSourcesFeed]
  split_ifs
  all_goals (first | (simp; done) | simp [emit, core, executed, flushLogs])

theorem frame_onScanSources (env : Env) (g : Int) (n : Option Int) (s : Player) :
    okThen (onScanSources env g n s) (fun t => core t = core s) := by
  simp only [onScanSources]
  split_ifs
  · simp
  · simp
  all_goals simp only [okThen_bind]
  · refine okThen_mono (frame_instantiateDecoder _ _ _) fun r hr => ?_
    refine okThen_mono (frame_scanSourcesAudio _ _) fun q hq => ?_
    refine okThen_mono (frame_scanSourcesFeed _ _ _ _) fun u hu => ?_
    rw [hu]
    have : core r.2 = core s := hr
    split_ifs <;> simp [hq, this]
  · simp only [okThen_ok]
    refine okThen_mono (frame_scanSourcesAudio _ _) fun q hq => ?_
    refine okThen_mono (frame_scanSourcesFeed _ _ _ _) fun u hu => ?_
    rw [hu]
    have : core q = core s := hq
    split_ifs <;> simp [this]

theorem core_flushDecoder (audio needShutdown : Bool) (s : Player) :
    core (flushDecoder audio needShutdown s) =
      if getDecoder audio s = none then core s
      else (core s).flushTrack audio needShutdown s.mRenderer.isNone := by
  cases h : getDecoder audio s <;> cases audio <;> cases needShutdown <;>
    simp [flushDecoder, h, emit, core, executed, flushLogs, FlushCore.flushTrack] <;>
    split_ifs <;> simp

theorem flushDecoder_objs (audio needShutdown : Bool) (s : Player) :
    (flushDecoder audio needShutdown s).mAudioDecoder = s.mAudioDecoder ∧
    (flushDecoder audio needShutdown s).mVideoDecoder = s.mVideoDecoder ∧
    (flushDecoder audio needShutdown s).mRenderer = s.mRenderer := by
  cases h : getDecoder audio s <;> cases audio <;> cases needShutdown <;>
    simp [flushDecoder, h, emit]

theorem core_performDecoderFlush (audio video : FlushCommand) (s : Player) :
    core (performDecoderFlush audio video s) =
      let c := if audio ≠ .FLUSH_CMD_NONE ∧ s.mAudioDecoder ≠ none then
          (core s).flushTrack true (audio = .FLUSH_CMD_SHUTDOWN) s.mRenderer.isNone
        else core s
      if video ≠ .FLUSH_CMD_NONE ∧ s.mVideoDecoder ≠ none then
        c.flushTrack false (video = .FLUSH_CMD_SHUTDOWN) s.mRenderer.isNone
      else c := by
  have hv := (flushDecoder_objs true (audio = .FLUSH_CMD_SHUTDOWN) s).2.1
  have hr := (flushDecoder_objs true (audio = .FLUSH_CMD_SHUTDOWN) s).2.2
  by_cases hA : audio ≠ .FLUSH_CMD_NONE ∧ s.mAudioDecoder ≠ none <;>
    by_cases hV : video ≠ .FLUSH_CMD_NONE ∧ s.mVideoDecoder ≠ none
  · have h0 : ¬ ((audio = .FLUSH_CMD_NONE ∨ s.mAudioDecoder = none)
        ∧ (video = .FLUSH_CMD_NONE ∨ s.mVideoDecoder = none)) := by tauto
    simp only [performDecoderFlush, if_neg h0, if_pos hA, hv, if_pos hV, core_flushDecoder,
      getDecoder, hr]
    simp [hA.2, hV.2]
  · have h0 : ¬ ((audio = .FLUSH_CMD_NONE ∨ s.mAudioDecoder = none)
        ∧ (video = .FLUSH_CMD_NONE ∨ s.mVideoDecoder = none)) := by tauto
    simp only [performDecoderFlush, if_neg h0, if_pos hA, hv, if_neg hV, core_flushDecoder,
      getDecoder]
    simp [hA.2]
  · have h0 : ¬ ((audio = .FLUSH_CMD_NONE ∨ s.mAudioDecoder = none)
        ∧ (video = .FLUSH_CMD_NONE ∨ s.mVideoDecoder = none)) := by tauto
    simp only [performDecoderFlush, if_neg h0, if_neg hA, if_pos hV, core_flushDecoder,
      getDecoder]
    simp [hV.2]
  · have h0 : ((audio = .FLUSH_CMD_NONE ∨ s.mAudioDecoder = none)
        ∧ (video = .FLUSH_CMD_NONE ∨ s.mVideoDecoder = none)) := by tauto
    simp only [performDecoderFlush, if_pos h0, if_neg hA, if_neg hV]

/-- An action other than a flush of the decoders leaves the flush core alone. -/
theorem execute_nonflush (env : Env) (a : Action) (s : Player)
    (h : ∀ x y, a ≠ .FlushDecoderAction x y) :
    okThen (a.execute env s) (fun t => core t = core s) := by
  cases a with
  | SeekAction ts n => exact frame_performSeek env ts n s
  | ResumeDecoderAction n => simp [Action.execute]
  | SetSurfaceAction w => simp [Action.execute]
  | FlushDecoderAction x y => exact absurd rfl (h x y)
  | PostMessageAction m => simp [Action.execute]
  | SimpleAction f =>
    cases f with
    | performReset => exact frame_performReset env s
    | performScanSources => simp [Action.execute]

theorem flushTrack_twice (c : FlushCore) (pa pv : Prop) [Decidable pa] [Decidable pv]
    (na nv r : Bool) :
    let c1 := if pa then c.flushTrack true na r else c
    let c2 := if pv then c1.flushTrack false nv r else c1
    c2.mDeferredActions = c.mDeferredActions ∧ c2.executed = c.executed ∧
    (c.mFlushingAudio = .NONE → c.mFlushingVideo = .NONE →
      c2.flushLogs = c.flushLogs ∧
      (c2.mFlushingAudio = .NONE ∨ c2.mFlushingAudio = .FLUSHING_DECODER
        ∨ c2.mFlushingAudio = .FLUSHING_DECODER_SHUTDOWN) ∧
      (c2.mFlushingVideo = .NONE ∨ c2.mFlushingVideo = .FLUSHING_DECODER
        ∨ c2.mFlushingVideo = .FLUSHING_DECODER_SHUTDOWN) ∧
      (c2.mFlushingAudio = .NONE → c2.mFlushingVideo = .NONE →
        c2.mFlushComplete = c.mFlushComplete)) := by
  by_cases ha : pa <;> by_cases hv : pv <;> cases na <;> cases nv <;>
    simp [FlushCore.flushTrack, ha, hv] <;> intro h1 h2 <;> simp [h1, h2]

/-- What the execution of any action guarantees about the flush core. -/
theorem execute_core (env : Env) (a : Action) (s : Player) :
    okThen (a.execute env s) (fun t =>
      t.mDeferredActions = s.mDeferredActions ∧ executed t = executed s ∧
      (s.mFlushingAudio = .NONE → s.mFlushingVideo = .NONE →
        flushLogs t = flushLogs s ∧
        (t.mFlushingAudio = .NONE ∨ t.mFlushingAudio = .FLUSHING_DECODER
          ∨ t.mFlushingAudio = .FLUSHING_DECODER_SHUTDOWN) ∧
        (t.mFlushingVideo = .NONE ∨ t.mFlushingVideo = .FLUSHING_DECODER
          ∨ t.mFlushingVideo = .FLUSHING_DECODER_SHUTDOWN) ∧
        (t.mFlushingAudio = .NONE → t.mFlushingVideo = .NONE →
          t.mFlushComplete = s.mFlushComplete))) := by
  by_cases h : ∀ x y, a ≠ .FlushDecoderAction x y
  · refine okThen_mono (execute_nonflush env a s h) fun t ht => ?_
    have h1 : t.mDeferredActions = s.mDeferredActions := congrArg FlushCore.mDeferredActions ht
    have h2 : executed t = executed s := congrArg FlushCore.executed ht
    have h3 : flushLogs t = flushLogs s := congrArg FlushCore.flushLogs ht
    have h4 : t.mFlushingAudio = s.mFlushingAudio := congrArg FlushCore.mFlushingAudio ht
    have h5 : t.mFlushingVideo = s.mFlushingVideo := congrArg FlushCore.mFlushingVideo ht
    have h6 : t.mFlushComplete = s.mFlushComplete := congrArg FlushCore.mFlushComplete ht
    refine ⟨h1, h2, fun ha hv => ⟨h3, ?_, ?_, fun _ _ => h6⟩⟩
    · rw [h4, ha]; simp
    · rw [h5, hv]; simp
  · push_neg at h
    obtain ⟨x, y, rfl⟩ := h
    simp only [Action.execute, okThen_ok]
    have hc := core_performDecoderFlush x y s
    have key := flushTrack_twice (core s) (x ≠ .FLUSH_CMD_NONE ∧ s.mAudioDecoder ≠ none)
      (y ≠ .FLUSH_CMD_NONE ∧ s.mVideoDecoder ≠ none) (x = .FLUSH_CMD_SHUTDOWN)
      (y = .FLUSH_CMD_SHUTDOWN) s.mRenderer.isNone
    simp only [] at hc key
    rw [← hc] at key
    exact key
/-! ## The loop of `processDeferredActions` -/

theorem nextDeferredAction_none (s : Player) :
    nextDeferredAction s = none ↔
      s.mDeferredActions = [] ∨ s.mFlushingAudio ≠ .NONE ∨ s.mFlushingVideo ≠ .NONE := by
  unfold nextDeferredAction
  split
  · simp_all
  · split_ifs <;> simp_all

theorem nextDeferredAction_some {s t : Player} {a : Action}
    (h : nextDeferredAction s = some (a, t)) :
    s.mFlushingAudio = .NONE ∧ s.mFlushingVideo = .NONE ∧
      s.mDeferredActions = a :: t.mDeferredActions ∧
      t = { s with mDeferredActions := t.mDeferredActions } := by
  unfold nextDeferredAction at h
  split at h
  · cases h
  · rename_i b rest hq
    split_ifs at h with hc
    simp only [Option.some.injEq, Prod.mk.injEq] at h
    obtain ⟨rfl, rfl⟩ := h
    push_neg at hc
    exact ⟨hc.1, hc.2, hq, rfl⟩

theorem execute_ne_fuel (env : Env) (a : Action) (s : Player) :
    a.execute env s ≠ .error .fuel := by
  cases a with
  | SeekAction ts n => simp only [Action.execute, performSeek]; split_ifs <;> simp
  | ResumeDecoderAction n => simp [Action.execute]
  | SetSurfaceAction w => simp [Action.execute]
  | FlushDecoderAction x y => simp [Action.execute]
  | PostMessageAction m => simp [Action.execute]
  | SimpleAction f =>
    cases f with
    | performReset => simp only [Action.execute, performReset]; split_ifs <;> simp
    | performScanSources => simp [Action.execute]

/-- The loop never runs out of fuel when it is given more iterations than there
are queued actions. -/
theorem processDeferredActionsLoop_fuel (env : Env) (fuel : Nat) (s : Player)
    (h : s.mDeferredActions.length < fuel) :
    processDeferredActionsLoop env fuel s ≠ .error .fuel := by
  induction fuel generalizing s with
  | zero => omega
  | succ n ih =>
    unfold processDeferredActionsLoop
    cases hn : nextDeferredAction s with
    | none => simp
    | some p =>
      obtain ⟨a, t⟩ := p
      obtain ⟨_, _, hq, _⟩ := nextDeferredAction_some hn
      simp only []
      cases he : a.execute env (emit (.actionExecute a) t) with
      | error e =>
        simp only [Except.bind]
        intro hc
        cases hc
        exact execute_ne_fuel env a _ he
      | ok u =>
        simp only [Except.bind]
        apply ih
        have := (execute_core env a _ u he).1
        rw [this]
        simp only [emit]
        rw [hq] at h
        simp at h
        omega

/-- With enough fuel the result of the loop does not depend on the fuel. -/
theorem processDeferredActionsLoop_eq (env : Env) (f1 f2 : Nat) (s : Player)
    (h1 : s.mDeferredActions.length < f1) (h2 : s.mDeferredActions.length < f2) :
    processDeferredActionsLoop env f1 s = processDeferredActionsLoop env f2 s := by
  induction f1 generalizing s f2 with
  | zero => omega
  | succ n ih =>
    cases f2 with
    | zero => omega
    | succ m =>
      unfold processDeferredActionsLoop
      cases hn : nextDeferredAction s with
      | none => rfl
      | some p =>
        obtain ⟨a, t⟩ := p
        obtain ⟨_, _, hq, _⟩ := nextDeferredAction_some hn
        simp only []
        cases he : a.execute env (emit (.actionExecute a) t) with
        | error e => rfl
        | ok u =>
          simp only [Except.bind]
          have := (execute_core env a _ u he).1
          simp only [emit] at this
          rw [hq] at h1 h2
          simp at h1 h2
          apply ih <;> rw [this] <;> omega
theorem processDeferredActionsLoop_drained (env : Env) (fuel : Nat) (s : Player) :
    okThen (processDeferredActionsLoop env fuel s) (Drained s) := by
  induction fuel generalizing s with
  | zero => simp [processDeferredActionsLoop]
  | succ n ih =>
    unfold processDeferredActionsLoop
    cases hn : nextDeferredAction s with
    | none =>
      simp only [okThen_ok]
      exact ⟨[], by simp, by simp, rfl, (nextDeferredAction_none s).1 hn, fun _ => rfl,
        fun h => absurd rfl h⟩
    | some p =>
      obtain ⟨a, s1⟩ := p
      obtain ⟨ha, hv, hq, hs1⟩ := nextDeferredAction_some hn
      simp only [okThen_bind]
      refine okThen_mono (execute_core env a _) fun t1 ht1 => ?_
      refine okThen_mono (ih t1) fun t ht => ?_
      obtain ⟨e1, e2, e3⟩ := ht1
      have hs1a : s1.mFlushingAudio = .NONE := by rw [hs1]; exact ha
      have hs1v : s1.mFlushingVideo = .NONE := by rw [hs1]; exact hv
      have hs1m : s1.mFlushComplete = s.mFlushComplete := by rw [hs1]
      have hs1t : s1.trace = s.trace := by rw [hs1]
      obtain ⟨e4, e5, e6, e7⟩ := e3 hs1a hs1v
      obtain ⟨done, d1, d2, d3, d4, d5, d6⟩ := ht
      have x0 : executed s1 = executed s := by simp only [executed, hs1t]
      have x1 : executed (emit (.actionExecute a) s1) = executed s ++ [a] := by
        rw [executed_emit, x0]
      have y0 : flushLogs s1 = flushLogs s := by simp only [flushLogs, hs1t]
      have x2 : flushLogs (emit (.actionExecute a) s1) = flushLogs s := by
        rw [flushLogs_emit, y0]; simp
      refine ⟨a :: done, ?_, ?_, ?_, d4, ?_, ?_⟩
      · have e1b : s1.mDeferredActions = t1.mDeferredActions := e1.symm
        rw [hq, e1b, d1]; rfl
      · rw [d2, e2, x1]; simp
      · rw [d3, e4, x2]
      · intro h; cases h
      · intro _
        refine ⟨ha, hv, ?_⟩
        by_cases hd : done = []
        · have := d5 hd
          subst this
          exact ⟨e5, e6, fun h1 h2 => (e7 h1 h2).trans hs1m⟩
        · obtain ⟨f1, f2, f3, f4, f5⟩ := d6 hd
          exact ⟨f3, f4, fun h1 h2 => (f5 h1 h2).trans ((e7 f1 f2).trans hs1m)⟩

/-- The call `processDeferredActions` returns (it never runs out of iterations). -/
theorem processDeferredActions_ne_fuel (env : Env) (s : Player) :
    processDeferredActions env s ≠ .error .fuel :=
  processDeferredActionsLoop_fuel env _ s (Nat.lt_succ_self _)

theorem processDeferredActions_drained (env : Env) (s : Player) :
    okThen (processDeferredActions env s) (Drained s) :=
  processDeferredActionsLoop_drained env _ s

/-- When the gate is closed, or the queue is empty, `processDeferredActions`
returns the state unchanged. -/
theorem processDeferredActions_closed (env : Env) (s : Player)
    (h : s.mDeferredActions = [] ∨ s.mFlushingAudio ≠ .NONE ∨ s.mFlushingVideo ≠ .NONE) :
    processDeferredActions env s = .ok s := by
  unfold processDeferredActions processDeferredActionsLoop
  rw [(nextDeferredAction_none s).2 h]

/-! ## Flush completion -/

theorem frame_handleFlushComplete (audio isDecoder : Bool) (s : Player) :
    okThen (handleFlushComplete audio isDecoder s) (fun t =>
      core t = (core s).ack audio isDecoder) := by
  cases audio
  · cases isDecoder <;> cases hv : s.mFlushingVideo <;>
      simp [handleFlushComplete, flushing, setFlushing, getDecoder, emit, hv,
        FlushComplete.get, FlushComplete.set] <;>
      (try split_ifs) <;>
      simp [core, executed, flushLogs, FlushCore.ack, FlushComplete.get, FlushComplete.set, *]
  · cases isDecoder <;> cases ha : s.mFlushingAudio <;>
      simp [handleFlushComplete, flushing, setFlushing, getDecoder, emit, ha,
        FlushComplete.get, FlushComplete.set] <;>
      (try split_ifs) <;>
      simp [core, executed, flushLogs, FlushCore.ack, FlushComplete.get, FlushComplete.set, *]

/-- When a track is mid-flush, `finishFlushIfPossible` returns the state unchanged. -/
theorem finishFlushIfPossible_mid (env : Env) (s : Player)
    (h : s.mFlushingAudio.midFlush = true ∨ s.mFlushingVideo.midFlush = true) :
    finishFlushIfPossible env s = .ok s := by
  unfold finishFlushIfPossible
  rcases h with h | h
  · cases ha : s.mFlushingAudio <;> simp_all [FlushStatus.midFlush]
  · cases hv : s.mFlushingVideo <;> simp_all [FlushStatus.midFlush]

/-- When no track is mid-flush, `finishFlushIfPossible` resets both statuses,
clears the completion matrix and drains the queue. -/
theorem finishFlushIfPossible_terminal (env : Env) (s : Player)
    (ha : s.mFlushingAudio.midFlush = false) (hv : s.mFlushingVideo.midFlush = false) :
    finishFlushIfPossible env s =
      processDeferredActions env
        (clearFlushComplete { s with mFlushingAudio := .NONE, mFlushingVideo := .NONE }) := by
  unfold finishFlushIfPossible
  cases h1 : s.mFlushingAudio <;> cases h2 : s.mFlushingVideo <;>
    simp_all [FlushStatus.midFlush]

/-! ## Every handler follows its script -/

theorem core_pushAction (a : Action) (s : Player) :
    core (pushAction a s) = { core s with mDeferredActions := s.mDeferredActions ++ [a] } := rfl

theorem core_setFlushing (audio : Bool) (v : FlushStatus) (s : Player) :
    core (setFlushing audio v s) = (core s).setFlushing audio v := by
  cases audio <;> rfl

theorem core_flushing (audio : Bool) (s : Player) :
    (core s).flushing audio = flushing audio s := by
  cases audio <;> rfl

/-- A handler that pushes `actions` and then calls `processDeferredActions`. -/
theorem rel_pushDrain (env : Env) (actions : List Action) (s s1 : Player)
    (h : core s1 = { core s with mDeferredActions := s.mDeferredActions ++ actions }) :
    okThen (processDeferredActions env s1) (fun t => (Script.pushDrain actions).Rel env s t) :=
  fun t ht => ⟨s1, t, h, ht, rfl⟩

theorem getCurrentPosition_fst (env : Env) (s : Player) :
    (getCurrentPosition env s).1 = if s.mRenderer = none then NO_INIT
      else env.rendererPosition.1 := by
  unfold getCurrentPosition; split_ifs <;> rfl

theorem getCurrentPosition_snd_fst (env : Env) (s : Player) :
    (getCurrentPosition env s).2.1 = if s.mRenderer = none then 0
      else env.rendererPosition.2 := by
  unfold getCurrentPosition; split_ifs <;> rfl

theorem NO_INIT_ne_OK : NO_INIT ≠ OK := by decide

theorem script_onSetVideoNativeWindow (env : Env) (obj : Option Nat) (s : Player) :
    okThen (onSetVideoNativeWindow env obj s) (fun t =>
      (script env (.message (.kWhatSetVideoNativeWindow obj)) s).Rel env s t) := by
  by_cases h1 : s.mSource = none ∨ env.videoFormat = none
  · simp only [onSetVideoNativeWindow, script, if_pos h1]
    simp [Script.Rel]
  · simp only [onSetVideoNativeWindow, script, if_neg h1]
    refine rel_pushDrain env _ s _ ?_
    have e1 : ∀ a x, (pushAction a x).mStarted = x.mStarted := fun _ _ => rfl
    have e2 : ∀ a x, (pushAction a x).mRenderer = x.mRenderer := fun _ _ => rfl
    have e3 : ∀ a (x : Player), (pushAction a x).mDeferredActions = x.mDeferredActions ++ [a] :=
      fun _ _ => rfl
    have e4 : ∀ x, (getCurrentPosition env x).2.2.mDeferredActions = x.mDeferredActions :=
      fun x => congrArg FlushCore.mDeferredActions (core_getCurrentPosition env x)
    cases obj with
    | none => simp [core_pushAction, e3]
    | some w =>
      by_cases hs : s.mStarted = true <;> by_cases hr : s.mRenderer = none <;>
        by_cases he : env.rendererPosition.1 = OK <;>
        simp [core_pushAction, e1, e2, e3, e4, hs, hr, he, getCurrentPosition_fst,
          getCurrentPosition_snd_fst, NO_INIT_ne_OK]

theorem rel_finish (env : Env) (s s1 : Player) (h : core s1 = core s) :
    okThen (finishFlushIfPossible env s1) (fun t => Script.errorFinish.Rel env s t) :=
  fun t ht => ⟨s1, t, h, ht, rfl⟩

/-- A frame step may follow a script step. -/
theorem rel_then_frame (env : Env) (sc : Script) (s t u : Player)
    (h : sc.Rel env s t) (hu : core u = core t) : sc.Rel env s u := by
  cases sc with
  | frame => exact hu.trans h
  | pushDrain actions =>
    obtain ⟨s1, t1, h1, h2, h3⟩ := h
    exact ⟨s1, t1, h1, h2, hu.trans h3⟩
  | ackFinish audio isDecoder =>
    obtain ⟨s1, s2, t1, h1, h2, h3, h4⟩ := h
    exact ⟨s1, s2, t1, h1, h2, h3, hu.trans h4⟩
  | errorUpgrade audio => exact ⟨h.1, hu.trans h.2⟩
  | errorShutdown audio => exact ⟨h.1, hu.trans h.2⟩
  | errorFinish =>
    obtain ⟨s1, t1, h1, h2, h3⟩ := h
    exact ⟨s1, t1, h1, h2, hu.trans h3⟩
  | shutdownCompleted audio =>
    obtain ⟨h0, s1, t1, h1, h2, h3⟩ := h
    exact ⟨h0, s1, t1, h1, h2, hu.trans h3⟩

/-- A frame step may precede a script step, when the script is read in either state. -/
theorem rel_after_frame (env : Env) (sc : Script) (s s0 t : Player)
    (h0 : core s0 = core s) (h : sc.Rel env s0 t) : sc.Rel env s t := by
  have hq : s0.mDeferredActions = s.mDeferredActions := congrArg FlushCore.mDeferredActions h0
  cases sc with
  | frame => exact Eq.trans h h0
  | pushDrain actions =>
    obtain ⟨s1, t1, h1, h2, h3⟩ := h
    exact ⟨s1, t1, by rw [h1, h0, hq], h2, h3⟩
  | ackFinish audio isDecoder =>
    obtain ⟨s1, s2, t1, h1, h2, h3, h4⟩ := h
    exact ⟨s1, s2, t1, h1.trans h0, h2, h3, h4⟩
  | errorUpgrade audio => exact ⟨by rw [← h0]; exact h.1, by rw [← h0]; exact h.2⟩
  | errorShutdown audio => exact ⟨by rw [← h0]; exact h.1, by rw [← h0]; exact h.2⟩
  | errorFinish =>
    obtain ⟨s1, t1, h1, h2, h3⟩ := h
    exact ⟨s1, t1, h1.trans h0, h2, h3⟩
  | shutdownCompleted audio =>
    obtain ⟨hf, s1, t1, h1, h2, h3⟩ := h
    exact ⟨by rw [← h0]; exact hf, s1, t1, by rw [h1, h0], h2, h3⟩

theorem script_onDecoderError (env : Env) (audio : Bool) (err : Option Int) (s : Player) :
    okThen (onDecoderError env audio err s) (fun t =>
      (if s.mNativeWindow ≠ none ∧ s.mNativeWindow ≠ s.mNewSurface
          ∧ decoderErrorCode err = -19 then Script.frame
        else
          match flushing audio s with
          | .NONE => .pushDrain [shutdownOnly audio]
          | .FLUSHING_DECODER => .errorUpgrade audio
          | .FLUSHED => .errorShutdown audio
          | .SHUT_DOWN => .errorFinish
          | _ => .frame).Rel env s t) := by
  by_cases h1 : s.mNativeWindow ≠ none ∧ s.mNativeWindow ≠ s.mNewSurface
      ∧ decoderErrorCode err = -19
  · simp only [onDecoderError, if_pos h1]
    simp [Script.Rel]
  · simp only [onDecoderError, if_neg h1, okThen_bind, okThen_ok]
    cases hf : flushing audio s <;> simp only []
    · refine okThen_mono (rel_pushDrain env [shutdownOnly audio] s _ rfl) fun t ht => ?_
      exact rel_then_frame env _ s t _ ht (core_notifyListener _ _ _)
    · simp only [okThen_ok]
      refine ⟨by rw [core_flushing]; exact hf, ?_⟩
      rw [core_notifyListener, core_setFlushing]
    · simp [Script.Rel]
    · simp [Script.Rel]
    · have hc : (core s).flushing audio = .FLUSHED := by rw [core_flushing]; exact hf
      split_ifs <;>
        simp [Script.Rel, hc, core_notifyListener, core_setFlushing]
    · refine okThen_mono (rel_finish env s s rfl) fun t ht => ?_
      exact rel_then_frame env _ s t _ ht (core_notifyListener _ _ _)

theorem script_onDecoderNotify (env : Env) (audio : Bool) (generation : Int)
    (reply : Option Nat) (what : DecoderWhat) (s : Player) :
    okThen (onDecoderNotify env audio generation reply what s) (fun t =>
      (decoderScript audio generation what s).Rel env s t) := by
  by_cases hg : generation ≠
      (if audio then s.mAudioDecoderGeneration else s.mVideoDecoderGeneration)
  · simp only [onDecoderNotify, decoderScript, if_pos hg]
    cases reply <;> simp [Script.Rel]
  · simp only [onDecoderNotify, decoderScript, if_neg hg]
    obtain ⟨s0, hs0, hc, hw, hn⟩ : ∃ s0 : Player,
        s0 = (if s.mEnableFrameRate ∧ !audio ∧ s.mAutoSwitch > 0 then
          { emit (.sysfsSetAutoSwitch s.mAutoSwitch) s with mAutoSwitch := -1 } else s) ∧
        core s0 = core s ∧ s0.mNativeWindow = s.mNativeWindow ∧
        s0.mNewSurface = s.mNewSurface := by
      refine ⟨_, rfl, ?_, ?_, ?_⟩ <;> split_ifs <;> simp [core, executed, flushLogs, emit]
    rw [← hs0]
    clear hs0
    have e3 : ∀ a (x : Player), (pushAction a x).mDeferredActions = x.mDeferredActions ++ [a] :=
      fun _ _ => rfl
    have hfl : flushing audio s0 = flushing audio s := by
      rw [← core_flushing, ← core_flushing, hc]
    have hq : s0.mDeferredActions = s.mDeferredActions :=
      congrArg FlushCore.mDeferredActions hc
    cases what with
    | kWhatInputDiscontinuity formatChange =>
      simp only []
      refine rel_pushDrain env _ s _ ?_
      cases formatChange <;> simp [core_pushAction, hc, hq, e3, shutdownOnly]
    | kWhatEOS err =>
      simp only []
      split_ifs <;> simp [Script.Rel, hc]
    | kWhatFlushCompleted =>
      simp only [okThen_bind]
      intro s2 h2 t ht
      exact ⟨s0, s2, t, hc, h2, ht, rfl⟩
    | kWhatVideoSizeChanged format =>
      simp only []
      split_ifs
      · simp
      · exact okThen_mono (frame_updateVideoSize _ _ _ _) fun t ht => ht.trans hc
    | kWhatShutdownCompleted =>
      simp only []
      cases audio <;> simp only [Bool.false_eq_true, if_false, if_true]
      · split_ifs with h1 h2 h2
        · simp
        · simp
        · intro t ht
          refine ⟨?_, _, t, ?_, ht, rfl⟩
          · rw [core_flushing]; exact h2
          · simp [core, executed, flushLogs, FlushCore.setFlushing] at hc ⊢
            simp [hc]
        · exfalso
          apply h2
          have := hfl
          simp only [flushing, setFlushing, Bool.false_eq_true, if_false] at this
          simpa [this, flushing] using h1
      · split_ifs with h1 h2 h2
        · simp
        · simp
        · intro t ht
          refine ⟨?_, _, t, ?_, ht, rfl⟩
          · rw [core_flushing]; exact h2
          · simp [core, executed, flushLogs, FlushCore.setFlushing] at hc ⊢
            simp [hc]
        · exfalso
          apply h2
          have := hfl
          simp only [flushing, setFlushing, if_true] at this
          simpa [this, flushing] using h1
    | kWhatResumeCompleted =>
      simp [Script.Rel, core_finishResume, hc]
    | kWhatError err =>
      simp only []
      have := script_onDecoderError env audio err s0
      rw [hw, hn, hfl] at this
      refine okThen_mono this fun t ht => ?_
      exact rel_after_frame env _ s s0 t hc ht
    | unhandled => simp [Script.Rel, hc]

theorem script_onRendererNotify (env : Env) (generation : Int) (what : RendererWhat)
    (s : Player) :
    okThen (onRendererNotify env generation what s) (fun t =>
      (script env (.message (.kWhatRendererNotify generation what)) s).Rel env s t) := by
  by_cases hg : generation ≠ s.mRendererGeneration
  · simp only [onRendererNotify, script, if_pos hg]
    simp [Script.Rel]
  · simp only [onRendererNotify, script, if_neg hg]
    cases what with
    | kWhatEOS audio finalResult =>
      simp only [Script.Rel]
      have h1 : core (if audio then { s with mAudioEOS := true }
          else { s with mVideoEOS := true }) = core s := by
        cases audio <;> simp [core, executed, flushLogs]
      have h2 : ∀ x : Player, core (if finalResult = ERROR_END_OF_STREAM then x
          else notifyListener env (.MEDIA_ERROR_UNKNOWN finalResult) x) = core x := by
        intro x
        split_ifs <;> simp [core_notifyListener]
      rw [okThen_ite]
      constructor <;> intro _ <;> simp only [okThen_ok, core_notifyListener, h2, h1]
    | kWhatFlushComplete audio =>
      simp only [okThen_bind]
      intro s2 h2 t ht
      exact ⟨s, s2, t, rfl, h2, ht, rfl⟩
    | kWhatVideoRenderingStart => simp [Script.Rel, core_notifyListener]
    | kWhatMediaRenderingStart => simp [Script.Rel, core_notifyListener]
    | kWhatAudioOffloadTearDown positionUs dueToError =>
      simp only [okThen_bind, Script.Rel]
      intro s1 h1
      have c1 := frame_closeAudioSink s s1 h1
      refine okThen_mono (frame_performSeek _ _ _ _) fun s2 c2 => ?_
      have c3 : core s2 = core s := by
        rw [c2, ← c1]
        split_ifs <;> simp [core, executed, flushLogs, emit]
      cases dueToError
      · simpa using c3
      · simp only [if_true, okThen_bind]
        refine okThen_mono (frame_instantiateDecoder _ _ _) fun r c4 => ?_
        simp only [okThen_ok]
        rw [c4, ← c3]
        simp [core, executed, flushLogs, emit]
    | unhandled => simp [Script.Rel]

theorem script_queueDecoderShutdown (env : Env) (audio video : Bool) (reply : Nat)
    (s : Player) :
    okThen (queueDecoderShutdown env audio video reply s) (fun t =>
      (script env (.message (.kWhatSourceNotify
        (.kWhatQueueDecoderShutdown audio video reply))) s).Rel env s t) := by
  simp only [queueDecoderShutdown, script]
  refine rel_pushDrain env _ s _ ?_
  have e3 : ∀ a (x : Player), (pushAction a x).mDeferredActions = x.mDeferredActions ++ [a] :=
    fun _ _ => rfl
  simp [core_pushAction, e3]

theorem script_onSourceNotify (env : Env) (what : SourceWhat) (s : Player) :
    okThen (onSourceNotify env what s) (fun t =>
      (script env (.message (.kWhatSourceNotify what)) s).Rel env s t) := by
  cases what with
  | kWhatInstantiateSecureDecoders reply =>
    simp only [onSourceNotify, script, Script.Rel]
    split_ifs
    · simp
    · simp only [okThen_bind]
      refine okThen_mono (frame_onInstantiateSecureDecoders _ _) fun r hr => ?_
      simp [hr]
  | kWhatPrepared err =>
    simp only [onSourceNotify, script]
    by_cases h1 : s.mSource = none
    · simp [h1, Script.Rel]
    · simp only [if_neg h1, okThen_bind]
      have tail : ∀ x : Player, core (callDriver env (.notifyPrepareCompleted err)
          (match x.mSource, env.duration with
            | some _, some durationUs => callDriver env (.notifyDuration durationUs) x
            | _, _ => x)) = core x := by
        intro x
        rw [core_callDriver]
        split <;> simp [core_callDriver]
      by_cases h2 : err ≠ OK
      · simp only [if_pos h2]
        refine okThen_mono (rel_pushDrain env
          [.FlushDecoderAction .FLUSH_CMD_SHUTDOWN .FLUSH_CMD_SHUTDOWN] s _ ?_) fun t ht => ?_
        · simp [core_pushAction]
        · simp only [okThen_ok]
          exact rel_then_frame env _ s t _ ht (tail t)
      · simp only [if_neg h2, okThen_ok, Script.Rel]
        exact tail s
  | kWhatFlagsChanged flags =>
    simp only [onSourceNotify, script, Script.Rel, okThen_ok]
    simp [core, executed, flushLogs, callDriver, cancelPollDuration, schedulePollDuration, emit]
    split_ifs <;> simp
  | kWhatVideoSizeChanged format =>
    simp only [onSourceNotify, script, Script.Rel]
    exact frame_updateVideoSize _ _ _ _
  | kWhatBufferingUpdate percentage =>
    simp [onSourceNotify, script, Script.Rel, core_notifyListener]
  | kWhatPauseOnBufferingStart =>
    simp only [onSourceNotify, script, Script.Rel, okThen_ok, core_notifyListener]
    split_ifs <;> simp [core_onPause]
  | kWhatBufferingStart =>
    simp [onSourceNotify, script, Script.Rel, core_notifyListener]
  | kWhatResumeOnBufferingEnd =>
    simp only [onSourceNotify, script, Script.Rel, okThen_bind, okThen_ok, core_notifyListener]
    split_ifs
    · exact frame_onResume _ _
    · simp
  | kWhatBufferingEnd =>
    simp [onSourceNotify, script, Script.Rel, core_notifyListener]
  | kWhatCacheStats kbps =>
    simp [onSourceNotify, script, Script.Rel, core_notifyListener]
  | kWhatSubtitleData buffer =>
    simp only [onSourceNotify, script, Script.Rel]
    exact frame_sendSubtitleData _ _ _ _
  | kWhatTimedMetaData buffer =>
    simp only [onSourceNotify, script, Script.Rel]
    cases buffer with
    | none => simp [core_notifyListener]
    | some b => exact frame_sendTimedMetaData _ _ _
  | kWhatTimedTextData generation buffer =>
    simp only [onSourceNotify, script, Script.Rel]
    rw [okThen_ite]
    refine ⟨fun _ => by simp, fun _ => ?_⟩
    rw [okThen_ite]
    refine ⟨fun _ => by simp, fun _ => ?_⟩
    cases buffer.timeUs with
    | none => simp
    | some timeUs =>
      simp only []
      rw [okThen_ite]
      exact ⟨fun _ => by simp, fun _ => frame_sendTimedTextData _ _ _⟩
  | kWhatQueueDecoderShutdown audio video reply =>
    simp only [onSourceNotify]
    exact script_queueDecoderShutdown env audio video reply s
  | kWhatDrmNoLicense =>
    simp [onSourceNotify, script, Script.Rel, core_notifyListener]
  | kWhatSourceReady err =>
    simp [onSourceNotify, script, Script.Rel, core_notifyListener]
  | kWhatFrameRate frameRate =>
    simp [onSourceNotify, script, Script.Rel, core, executed, flushLogs]
  | unhandled => simp [onSourceNotify]

theorem script_onMessageReceived (env : Env) (msg : Msg) (s : Player) :
    okThen (onMessageReceived env msg s) (fun t =>
      (script env (.message msg) s).Rel env s t) := by
  have tail : ∀ x : Player, core
      (match x.mSource, env.duration with
        | some _, some durationUs => callDriver env (.notifyDuration durationUs) x
        | _, _ => x) = core x := by
    intro x
    split <;> simp [core_callDriver]
  have e3 : ∀ a (x : Player), (pushAction a x).mDeferredActions = x.mDeferredActions ++ [a] :=
    fun _ _ => rfl
  cases msg with
  | kWhatSetDataSource obj =>
    simp only [onMessageReceived, script, Script.Rel]
    rw [okThen_ite]
    refine ⟨fun _ => by simp, fun _ => ?_⟩
    rw [okThen_ite]
    refine ⟨fun _ => by simp, fun _ => ?_⟩
    cases obj with
    | none => simp only [okThen_ok, core_callDriver]
    | some source =>
      simp only [okThen_ok, core_callDriver]
      simp [core, executed, flushLogs, emit]
  | kWhatPrepare =>
    simp only [onMessageReceived, script, Script.Rel]
    split_ifs <;> simp
  | kWhatGetTrackInfo =>
    simp only [onMessageReceived, script, Script.Rel, okThen_bind]
    refine okThen_mono (frame_writeTrackInfos _ _) fun s1 c1 => ?_
    refine okThen_mono (frame_writeTrackInfos _ _) fun s2 c2 => ?_
    simp [c2, c1]
  | kWhatGetSelectedTrack _ =>
    simp only [onMessageReceived, script, Script.Rel]
    split_ifs <;> simp
  | kWhatSelectTrack trackIndex select timeUs =>
    simp only [onMessageReceived, script, Script.Rel]
    exact frame_onSelectTrack _ _ _ _ _
  | kWhatPollDuration generation =>
    simp only [onMessageReceived, script, Script.Rel]
    split_ifs
    · simp
    · simp only [okThen_ok, core_emit_post]
      exact tail s
  | kWhatSetVideoNativeWindow obj =>
    exact script_onSetVideoNativeWindow env obj s
  | kWhatSetAudioSink obj =>
    simp [onMessageReceived, script, Script.Rel, core, executed, flushLogs]
  | kWhatStart =>
    simp only [onMessageReceived, script, Script.Rel, okThen_bind]
    have hp : ∀ x : Player, core { x with mPausedByClient := false } = core x :=
      fun x => by simp [core, executed, flushLogs]
    split_ifs
    · refine okThen_mono (frame_onResume _ _) fun s1 c1 => ?_
      simp only [okThen_ok, hp, c1]
    · refine okThen_mono (frame_onStart _ _) fun s1 c1 => ?_
      simp only [okThen_ok, hp, c1]
  | kWhatScanSources generation scanNum =>
    simp only [onMessageReceived, script, Script.Rel]
    exact frame_onScanSources _ _ _ _
  | kWhatVideoNotify generation reply what =>
    exact script_onDecoderNotify env false generation reply what s
  | kWhatAudioNotify generation reply what =>
    exact script_onDecoderNotify env true generation reply what s
  | kWhatRendererNotify generation what =>
    exact script_onRendererNotify env generation what s
  | kWhatMoreDataQueued => simp [onMessageReceived, script, Script.Rel]
  | kWhatReset =>
    simp only [onMessageReceived, script]
    refine rel_pushDrain env _ s _ ?_
    simp [core_pushAction, e3]
  | kWhatSeek seekTimeUs needNotify =>
    simp only [onMessageReceived, script]
    refine rel_pushDrain env _ s _ ?_
    have h0 : ∀ x : Player, core x = core s → x.mDeferredActions = s.mDeferredActions :=
      fun x hx => congrArg FlushCore.mDeferredActions hx
    have hc : core (if s.mEnableFrameRate ∧ s.mFrameRate = .positive then
        if env.nowUs - s.mStartTimeUs > 100000 then
          emit (.sysfsSetAutoSwitch 0) { s with mAutoSwitch := env.sysfsAutoSwitch }
        else s
      else s) = core s := by
      split_ifs <;> simp [core, executed, flushLogs, emit]
    simp [core_pushAction, e3, hc, h0 _ hc]
  | kWhatPause =>
    simp only [onMessageReceived, script, Script.Rel, okThen_ok]
    rw [← core_onPause s]
    simp [core, executed, flushLogs]
  | kWhatSourceNotify what =>
    exact script_onSourceNotify env what s
  | kWhatClosedCaptionNotify what =>
    simp only [onMessageReceived, script, Script.Rel]
    exact frame_onClosedCaptionNotify _ _ _
  | unhandled => simp [onMessageReceived]

/-- Every input is handled according to its script. -/
theorem step_script (env : Env) (input : Input) (s : Player) :
    okThen (step env input s) (fun t => (script env input s).Rel env s t) := by
  cases input with
  | message msg => exact script_onMessageReceived env msg s
  | call api => simp [step, script, Script.Rel, core_onApi]

/-! ## What a script implies for the queue and for the error log -/

theorem Fifo.refl (c : FlushCore) : Fifo [] c c :=
  ⟨[], by simp, by simp, rfl⟩

theorem drained_fifo {s t : Player} (h : Drained s t) : Fifo [] (core s) (core t) := by
  obtain ⟨done, h1, h2, h3, _⟩ := h
  exact ⟨done, by simpa [core] using h1, h2, h3⟩

theorem finishFlushIfPossible_fifo (env : Env) (s : Player) :
    okThen (finishFlushIfPossible env s) (fun t => Fifo [] (core s) (core t)) := by
  by_cases h : s.mFlushingAudio.midFlush = true ∨ s.mFlushingVideo.midFlush = true
  · rw [finishFlushIfPossible_mid env s h]
    simp only [okThen_ok]
    exact Fifo.refl _
  · push_neg at h
    rw [finishFlushIfPossible_terminal env s (by simpa using h.1) (by simpa using h.2)]
    refine okThen_mono (processDeferredActions_drained env _) fun t ht => ?_
    obtain ⟨done, h1, h2, h3⟩ := drained_fifo ht
    exact ⟨done, h1, h2, h3⟩

theorem ack_fifo (c : FlushCore) (audio isDecoder : Bool) :
    Fifo [] c (c.ack audio isDecoder) := by
  refine ⟨[], ?_, ?_, ?_⟩ <;>
    (simp only [FlushCore.ack]
     split_ifs <;> (try split) <;> simp)

theorem setFlushing_fifo (c : FlushCore) (audio : Bool) (v : FlushStatus) :
    Fifo [] c (c.setFlushing audio v) := by
  refine ⟨[], ?_, ?_, ?_⟩ <;> (simp only [FlushCore.setFlushing]; split_ifs <;> simp)

theorem Fifo.trans {p : List Action} {a b c : FlushCore} (h1 : Fifo p a b) (h2 : Fifo [] b c) :
    Fifo p a c := by
  obtain ⟨d1, q1, e1, l1⟩ := h1
  obtain ⟨d2, q2, e2, l2⟩ := h2
  refine ⟨d1 ++ d2, ?_, ?_, l2.trans l1⟩
  · simp only [List.append_nil] at q2
    rw [q1, q2, List.append_assoc]
  · rw [e2, e1, List.append_assoc]

/-- Whatever the script, the handling of an input moves actions from the front of
the queue (extended by the pushed actions) to the end of the execution log, and
does not make the error log of `flushDecoder` fire. -/
theorem rel_fifo (env : Env) (sc : Script) (s t : Player) (h : sc.Rel env s t) :
    Fifo sc.pushed (core s) (core t) := by
  cases sc with
  | frame =>
    simp only [Script.Rel] at h
    rw [h]
    exact Fifo.refl _
  | pushDrain actions =>
    obtain ⟨s1, t1, h1, h2, h3⟩ := h
    have hd := drained_fifo (processDeferredActions_drained env s1 t1 h2)
    rw [h3]
    obtain ⟨done, q, e, l⟩ := hd
    refine ⟨done, ?_, ?_, ?_⟩
    · rw [h1] at q
      simpa [Script.pushed] using q
    · rw [h1] at e
      exact e
    · rw [h1] at l
      exact l
  | ackFinish audio isDecoder =>
    obtain ⟨s1, s2, t1, h1, h2, h3, h4⟩ := h
    have a1 := frame_handleFlushComplete audio isDecoder s1 s2 h2
    have a2 := finishFlushIfPossible_fifo env s2 t1 h3
    rw [h4]
    rw [a1, h1] at a2
    exact Fifo.trans (ack_fifo _ _ _) a2
  | errorUpgrade audio =>
    rw [h.2]
    exact setFlushing_fifo _ _ _
  | errorShutdown audio =>
    rw [h.2]
    exact setFlushing_fifo _ _ _
  | errorFinish =>
    obtain ⟨s1, t1, h1, h2, h3⟩ := h
    have a2 := finishFlushIfPossible_fifo env s1 t1 h2
    rw [h3]
    rw [h1] at a2
    exact a2
  | shutdownCompleted audio =>
    obtain ⟨_, s1, t1, h1, h2, h3⟩ := h
    have a2 := finishFlushIfPossible_fifo env s1 t1 h2
    rw [h3]
    rw [h1] at a2
    exact Fifo.trans (setFlushing_fifo _ _ _) a2

theorem step_fifo (env : Env) (input : Input) (s : Player) :
    okThen (step env input s) (fun t => Fifo (script env input s).pushed (core s) (core t)) :=
  fun t ht => rel_fifo env _ s t (step_script env input s t ht)

theorem run_fifo (inputs : List (Env × Input)) (s : Player) :
    okThen (run inputs s) (fun t =>
      executed t ++ t.mDeferredActions
        = executed s ++ s.mDeferredActions ++ enqueued inputs s ∧
      flushLogs t = flushLogs s) := by
  induction inputs generalizing s with
  | nil => simp [run, enqueued]
  | cons p rest ih =>
    obtain ⟨env, input⟩ := p
    simp only [run, okThen_bind]
    intro s1 h1
    refine okThen_mono (ih s1) fun t ht => ?_
    obtain ⟨done, q, e, l⟩ := step_fifo env input s s1 h1
    simp only [core] at q e l
    simp only [enqueued, h1]
    refine ⟨?_, ht.2.trans l⟩
    rw [ht.1, e]
    simp only [List.append_assoc]
    rw [← List.append_assoc done, ← q]
    simp

theorem initial_trace (w : Int) (l : List Nat) : (initial w l).trace = [] := rfl

theorem reachable_flushLogs {s : Player} (h : Reachable s) : flushLogs s = [] := by
  induction h with
  | init w l => simp [flushLogs, initial_trace]
  | step env input _ hst ih =>
    obtain ⟨_, _, _, l⟩ := step_fifo env input _ _ hst
    simp only [core] at l
    rw [l, ih]

/-! ## The handlers never run out of loop iterations -/

@[simp] theorem nofuel_ok {α : Type} (a : α) : NoFuel (.ok a : Except Abort α) := by
  simp [NoFuel]

@[simp] theorem nofuel_error {α : Type} (e : Abort) :
    NoFuel (.error e : Except Abort α) ↔ e ≠ .fuel := by
  simp [NoFuel]

@[simp] theorem nofuel_bind {α β : Type} (x : Except Abort α) (f : α → Except Abort β) :
    NoFuel (x.bind f) ↔ NoFuel x ∧ ∀ a, x = .ok a → NoFuel (f a) := by
  cases x <;> simp [NoFuel, Except.bind]

theorem nofuel_ite {α : Type} (c : Prop) [Decidable c] (x y : Except Abort α) :
    NoFuel (if c then x else y) ↔ (c → NoFuel x) ∧ (¬ c → NoFuel y) := by
  split_ifs with h <;> simp [h]

@[simp] theorem nofuel_processDeferredActions (env : Env) (s : Player) :
    NoFuel (processDeferredActions env s) :=
  processDeferredActions_ne_fuel env s

@[simp] theorem nofuel_finishFlushIfPossible (env : Env) (s : Player) :
    NoFuel (finishFlushIfPossible env s) := by
  simp only [finishFlushIfPossible, nofuel_ite, nofuel_ok, nofuel_processDeferredActions,
    implies_true, and_self]

@[simp] theorem nofuel_handleFlushComplete (audio isDecoder : Bool) (s : Player) :
    NoFuel (handleFlushComplete audio isDecoder s) := by
  simp only [handleFlushComplete, nofuel_ite, nofuel_ok, implies_true, true_and]
  intro _
  split <;> simp [nofuel_ite]

@[simp] theorem nofuel_performSeek (env : Env) (T : Int) (n : Bool) (s : Player) :
    NoFuel (performSeek env T n s) := by
  simp [performSeek, nofuel_ite]

@[simp] theorem nofuel_tryOpenAudioSinkForOffload (env : Env) (hv : Bool) (s : Player) :
    NoFuel (tryOpenAudioSinkForOffload env hv s) := by
  simp only [tryOpenAudioSinkForOffload, nofuel_ite, nofuel_ok, nofuel_error]
  simp

@[simp] theorem nofuel_closeAudioSink (s : Player) : NoFuel (closeAudioSink s) := by
  simp [closeAudioSink, nofuel_ite]

@[simp] theorem nofuel_instantiateDecoder (env : Env) (audio : Bool) (s : Player) :
    NoFuel (instantiateDecoder env audio s) := by
  simp only [instantiateDecoder, nofuel_ite, nofuel_ok, nofuel_error]
  refine ⟨fun _ => trivial, fun _ => ⟨fun _ => by simp, fun _ => ⟨fun _ => ?_, fun _ => ?_⟩⟩⟩
  · simp
  · split <;> simp [nofuel_ite]

@[simp] theorem nofuel_onResume (env : Env) (s : Player) : NoFuel (onResume env s) := by
  simp only [onResume, nofuel_ite, nofuel_bind, nofuel_ok, nofuel_instantiateDecoder]
  simp

@[simp] theorem nofuel_onInstantiateSecureDecoders (env : Env) (s : Player) :
    NoFuel (onInstantiateSecureDecoders env s) := by
  simp only [onInstantiateSecureDecoders, nofuel_ite, nofuel_bind, nofuel_ok,
    nofuel_instantiateDecoder]
  simp

@[simp] theorem nofuel_onStart (env : Env) (s : Player) : NoFuel (onStart env s) := by
  simp only [onStart, nofuel_ite, nofuel_ok, nofuel_error]
  simp

@[simp] theorem nofuel_performReset (env : Env) (s : Player) :
    NoFuel (performReset env s) := by
  simp only [performReset, nofuel_ite, nofuel_ok, nofuel_error]
  simp

@[simp] theorem nofuel_updateVideoSize (env : Env) (i o : Option Format) (s : Player) :
    NoFuel (updateVideoSize env i o s) := by
  unfold updateVideoSize
  split
  · simp
  · simp only [nofuel_bind, nofuel_ite, nofuel_ok, implies_true, and_self, and_true]
    constructor
    · split
      · split <;> simp
      · split <;> simp
    · intro _ _
      split
      · simp [nofuel_ite]
      · simp

@[simp] theorem nofuel_writeTrackInfo (f : TrackInfo) (s : Player) :
    NoFuel (writeTrackInfo f s) := by
  unfold writeTrackInfo
  split
  · simp
  · simp only [nofuel_bind]
    constructor
    · split
      · simp
      · simp [nofuel_ite]
    · intro _ _
      split
      · simp
      · simp only [nofuel_ite, nofuel_ok, implies_true, and_true]
        intro _
        split <;> simp

@[simp] theorem nofuel_writeTrackInfos (l : List TrackInfo) (s : Player) :
    NoFuel (writeTrackInfos l s) := by
  induction l generalizing s with
  | nil => simp [writeTrackInfos]
  | cons f rest ih => simp [writeTrackInfos, ih]

@[simp] theorem nofuel_sendSubtitleData (env : Env) (b : Buffer) (i : Int) (s : Player) :
    NoFuel (sendSubtitleData env b i s) := by
  unfold sendSubtitleData
  split <;> simp

@[simp] theorem nofuel_sendTimedMetaData (env : Env) (b : Buffer) (s : Player) :
    NoFuel (sendTimedMetaData env b s) := by
  unfold sendTimedMetaData
  split <;> simp

@[simp] theorem nofuel_sendTimedTextData (env : Env) (b : Buffer) (s : Player) :
    NoFuel (sendTimedTextData env b s) := by
  unfold sendTimedTextData
  split <;> simp [nofuel_ite]

@[simp] theorem nofuel_queueDecoderShutdown (env : Env) (a v : Bool) (r : Nat) (s : Player) :
    NoFuel (queueDecoderShutdown env a v r s) := by
  simp only [queueDecoderShutdown, nofuel_processDeferredActions]

@[simp] theorem nofuel_onClosedCaptionNotify (env : Env) (w : CCWhat) (s : Player) :
    NoFuel (onClosedCaptionNotify env w s) := by
  cases w <;> simp [onClosedCaptionNotify]

@[simp] theorem nofuel_onSourceNotify (env : Env) (w : SourceWhat) (s : Player) :
    NoFuel (onSourceNotify env w s) := by
  cases w <;> simp only [onSourceNotify, nofuel_ite, nofuel_bind, nofuel_ok, nofuel_error,
    nofuel_processDeferredActions, nofuel_onInstantiateSecureDecoders, nofuel_updateVideoSize,
    nofuel_onResume, nofuel_sendSubtitleData, nofuel_queueDecoderShutdown, implies_true,
    and_self]
  all_goals (try simp)
  all_goals (try (split <;> simp [nofuel_ite]))

@[simp] theorem nofuel_onSetVideoNativeWindow (env : Env) (o : Option Nat) (s : Player) :
    NoFuel (onSetVideoNativeWindow env o s) := by
  simp only [onSetVideoNativeWindow, nofuel_ite, nofuel_ok, nofuel_processDeferredActions,
    implies_true, and_self]

@[simp] theorem nofuel_scanSourcesAudio (env : Env) (s : Player) :
    NoFuel (scanSourcesAudio env s) := by
  simp only [scanSourcesAudio, nofuel_ite, nofuel_bind, nofuel_ok, nofuel_error,
    nofuel_instantiateDecoder, nofuel_tryOpenAudioSinkForOffload, implies_true, and_self]
  simp

@[simp] theorem nofuel_scanSourcesFeed (env : Env) (g : Int) (n : Option Int) (s : Player) :
    NoFuel (scanSourcesFeed env g n s) := by
  simp only [scanSourcesFeed, nofuel_ite, nofuel_ok, nofuel_error, implies_true, and_self]
  simp

@[simp] theorem nofuel_onScanSources (env : Env) (g : Int) (n : Option Int) (s : Player) :
    NoFuel (onScanSources env g n s) := by
  simp only [onScanSources, nofuel_ite, nofuel_bind, nofuel_ok, nofuel_instantiateDecoder,
    nofuel_scanSourcesAudio, nofuel_scanSourcesFeed, implies_true, and_self]

@[simp] theorem nofuel_onDecoderError (env : Env) (a : Bool) (e : Option Int) (s : Player) :
    NoFuel (onDecoderError env a e s) := by
  simp only [onDecoderError, nofuel_ite, nofuel_bind, nofuel_ok, implies_true, and_true,
    true_and]
  intro _
  split <;> simp [nofuel_ite]

@[simp] theorem nofuel_onDecoderNotify (env : Env) (a : Bool) (g : Int) (r : Option Nat)
    (w : DecoderWhat) (s : Player) : NoFuel (onDecoderNotify env a g r w s) := by
  simp only [onDecoderNotify, nofuel_ite]
  constructor
  · intro _
    split <;> simp
  · intro _
    cases w <;> simp [nofuel_ite]

@[simp] theorem nofuel_onRendererNotify (env : Env) (g : Int) (w : RendererWhat) (s : Player) :
    NoFuel (onRendererNotify env g w s) := by
  simp only [onRendererNotify, nofuel_ite, nofuel_ok, true_and, implies_true]
  intro _
  cases w <;> simp [nofuel_ite]

@[simp] theorem nofuel_onSelectTrack (env : Env) (i : Nat) (b : Bool) (T : Int) (s : Player) :
    NoFuel (onSelectTrack env i b T s) := by
  simp only [onSelectTrack, nofuel_ok]

theorem nofuel_onMessageReceived (env : Env) (msg : Msg) (s : Player) :
    NoFuel (onMessageReceived env msg s) := by
  cases msg <;> simp only [onMessageReceived, nofuel_ite, nofuel_bind, nofuel_ok, nofuel_error,
    nofuel_processDeferredActions, nofuel_onSelectTrack, nofuel_onSetVideoNativeWindow,
    nofuel_onScanSources, nofuel_onDecoderNotify, nofuel_onRendererNotify, nofuel_onSourceNotify,
    nofuel_onClosedCaptionNotify, nofuel_onResume, nofuel_onStart, nofuel_writeTrackInfos,
    implies_true, and_self]
  all_goals (try simp)

/-- No input makes the model stop for lack of loop iterations. -/
theorem step_ne_fuel (env : Env) (input : Input) (s : Player) :
    step env input s ≠ .error .fuel := by
  cases input with
  | message msg => exact nofuel_onMessageReceived env msg s
  | call api => simp [step]

/-- No sequence of inputs makes the model stop for lack of loop iterations. -/
theorem run_ne_fuel (inputs : List (Env × Input)) (s : Player) :
    run inputs s ≠ .error .fuel := by
  induction inputs generalizing s with
  | nil => simp [run]
  | cons p rest ih =>
    obtain ⟨env, input⟩ := p
    have h := (nofuel_bind (step env input s) (run rest)).2
      ⟨step_ne_fuel env input s, fun a _ => ih a⟩
    exact h

/-! ## The moments of execution -/

theorem executionMoments_gate (env : Env) (fuel : Nat) (s : Player) :
    ∀ p ∈ executionMoments env fuel s,
      p.2.mFlushingAudio = .NONE ∧ p.2.mFlushingVideo = .NONE := by
  induction fuel generalizing s with
  | zero => simp [executionMoments]
  | succ n ih =>
    unfold executionMoments
    cases hn : nextDeferredAction s with
    | none => simp
    | some q =>
      obtain ⟨a, s1⟩ := q
      obtain ⟨ha, hv, _, hs1⟩ := nextDeferredAction_some hn
      simp only []
      intro p hp
      rcases List.mem_cons.1 hp with rfl | hp
      · constructor
        · show s1.mFlushingAudio = _
          rw [hs1]; exact ha
        · show s1.mFlushingVideo = _
          rw [hs1]; exact hv
      · cases he : a.execute env (emit (.actionExecute a) s1) with
        | error e => rw [he] at hp; simp at hp
        | ok u => rw [he] at hp; exact ih u p hp

theorem executionMoments_closed (env : Env) (fuel : Nat) (s : Player)
    (h : s.mDeferredActions = [] ∨ s.mFlushingAudio ≠ .NONE ∨ s.mFlushingVideo ≠ .NONE) :
    executionMoments env fuel s = [] := by
  cases fuel with
  | zero => rfl
  | succ n =>
    unfold executionMoments
    rw [(nextDeferredAction_none s).2 h]

theorem executionMoments_executed (env : Env) (fuel : Nat) (s : Player) :
    okThen (processDeferredActionsLoop env fuel s) (fun t =>
      executed t = executed s ++ (executionMoments env fuel s).map Prod.fst) := by
  induction fuel generalizing s with
  | zero => simp [processDeferredActionsLoop]
  | succ n ih =>
    unfold processDeferredActionsLoop executionMoments
    cases hn : nextDeferredAction s with
    | none => simp
    | some q =>
      obtain ⟨a, s1⟩ := q
      obtain ⟨_, _, _, hs1⟩ := nextDeferredAction_some hn
      simp only [okThen_bind]
      intro u hu
      rw [hu]
      refine okThen_mono (ih u) fun t ht => ?_
      have e := (execute_core env a _ u hu).2.1
      have hs1t : s1.trace = s.trace := by rw [hs1]
      have x0 : executed s1 = executed s := by simp only [executed, hs1t]
      rw [ht, e, executed_emit, x0]
      simp

theorem midFlush_ne_none {f : FlushStatus} (h : f.midFlush = true) : f ≠ .NONE := by
  cases f <;> simp_all [FlushStatus.midFlush]

theorem reachable_run {s t : Player} (inputs : List (Env × Input)) (hs : Reachable s)
    (h : run inputs s = .ok t) : Reachable t := by
  induction inputs generalizing s with
  | nil =>
    simp only [run] at h
    cases h
    exact hs
  | cons p rest ih =>
    obtain ⟨env, input⟩ := p
    simp only [run] at h
    cases h1 : step env input s with
    | error e => rw [h1] at h; cases h
    | ok u =>
      rw [h1] at h
      exact ih (Reachable.step env input hs h1) h

theorem reachable_after (inputs : List (Env × Input)) : Reachable (after inputs) := by
  unfold after
  cases h : run inputs (initial 10 []) with
  | error e => exact Reachable.init 10 []
  | ok s => exact reachable_run inputs (Reachable.init 10 []) h

/-! ## The concrete session -/

/-- The start-up sequence is handled without abort. -/
theorem playing_reached : run startup (initial 10 []) = .ok playing := rfl

/-- While playing, the source, the renderer and both decoders exist, no flush is
in progress and the queue is empty. -/
theorem playing_shape :
    playing.mSource ≠ none ∧ playing.mRenderer ≠ none ∧ playing.mAudioDecoder ≠ none ∧
    playing.mVideoDecoder ≠ none ∧ playing.mFlushingAudio = .NONE ∧
    playing.mFlushingVideo = .NONE ∧ playing.mDeferredActions = [] := by
  decide

/-- The seek request is handled without abort and leaves both tracks flushing. -/
theorem seeking_reached :
    step exampleEnv (.message (.kWhatSeek 5 true)) playing = .ok seeking ∧
    seeking.mFlushingAudio = .FLUSHING_DECODER ∧ seeking.mFlushingVideo = .FLUSHING_DECODER ∧
    seeking.mDeferredActions = [.SeekAction 5 true, .ResumeDecoderAction true] :=
  ⟨rfl, rfl, rfl, rfl⟩

/-- The acknowledgement of the audio decoder alone is handled without abort. -/
theorem halfAcked_reached :
    step exampleEnv (.message (.kWhatAudioNotify 1 none .kWhatFlushCompleted)) seeking
      = .ok halfAcked := rfl

/-! ## The claims on the deferred-action queue -/

/-- Claim C1: `processDeferredActions` executes an action only at a moment when
neither track is mid-flush (status `FLUSHING_DECODER`, `FLUSHING_DECODER_SHUTDOWN`
or `SHUTTING_DOWN_DECODER`); the listed moments are exactly the executions that
the call adds to the execution log; and when a track is mid-flush on entry the
call executes nothing and returns the state, queue included, unchanged.  The
call always returns or aborts on a fatal check of an action: its loop never runs
out of iterations. -/
theorem processDeferredActions_gated (env : Env) (s : Player) :
    (∀ p ∈ executionMoments env (s.mDeferredActions.length + 1) s,
      p.2.mFlushingAudio.midFlush = false ∧ p.2.mFlushingVideo.midFlush = false) ∧
    (∀ t, processDeferredActions env s = .ok t →
      executed t = executed s
        ++ (executionMoments env (s.mDeferredActions.length + 1) s).map Prod.fst) ∧
    processDeferredActions env s ≠ .error .fuel ∧
    (s.mFlushingAudio.midFlush = true ∨ s.mFlushingVideo.midFlush = true →
      executionMoments env (s.mDeferredActions.length + 1) s = [] ∧
      processDeferredActions env s = .ok s) := by
  refine ⟨fun p hp => ?_, fun t ht => executionMoments_executed env _ s t ht,
    processDeferredActions_ne_fuel env s, fun h => ?_⟩
  · obtain ⟨ha, hv⟩ := executionMoments_gate env _ s p hp
    rw [ha, hv]
    exact ⟨rfl, rfl⟩
  · have hc : s.mDeferredActions = [] ∨ s.mFlushingAudio ≠ .NONE ∨ s.mFlushingVideo ≠ .NONE :=
      h.elim (fun h => .inr (.inl (midFlush_ne_none h))) (fun h => .inr (.inr (midFlush_ne_none h)))
    exact ⟨executionMoments_closed env _ s hc, processDeferredActions_closed env s hc⟩

theorem processDeferredActions_gated_witness :
    ((Action.SeekAction 5 false, { playing with mDeferredActions := [.ResumeDecoderAction false] })
        ∈ executionMoments exampleEnv (queued.mDeferredActions.length + 1) queued ∧
      playing.mFlushingAudio.midFlush = false ∧ playing.mFlushingVideo.midFlush = false) ∧
    (seeking.mFlushingAudio.midFlush = true ∧
      executionMoments exampleEnv (seeking.mDeferredActions.length + 1) seeking = [] ∧
      processDeferredActions exampleEnv seeking = .ok seeking) :=
  ⟨⟨List.mem_of_mem_head? rfl,
      (processDeferredActions_gated exampleEnv queued).1 _ (List.mem_of_mem_head? rfl)⟩,
    by decide, (processDeferredActions_gated exampleEnv seeking).2.2.2 (.inl (by decide))⟩

/-- Claim C2: deferred actions run in FIFO order.  A call of
`processDeferredActions` executes a prefix of the queue, in queue order, and
leaves the remaining suffix queued; every handler appends the actions it
enqueues at the tail (a seek, a reset and a surface change append their three,
two, and three to five steps in order), and executes a prefix of the extended
queue; so over any sequence of inputs the execution log followed by the queue
is the log and queue at the start followed by the actions in order of
enqueueing: no action runs before one enqueued earlier.  The handling of the
inputs never stops for lack of loop iterations. -/
theorem deferred_actions_fifo (env : Env) (s : Player) :
    (∀ t, processDeferredActions env s = .ok t →
      ∃ done, s.mDeferredActions = done ++ t.mDeferredActions ∧
        executed t = executed s ++ done) ∧
    (∀ input t, step env input s = .ok t →
      ∃ done, s.mDeferredActions ++ (script env input s).pushed = done ++ t.mDeferredActions ∧
        executed t = executed s ++ done) ∧
    (∀ T n, (script env (.message (.kWhatSeek T n)) s).pushed =
      [.FlushDecoderAction .FLUSH_CMD_FLUSH .FLUSH_CMD_FLUSH, .SeekAction T n,
        .ResumeDecoderAction n]) ∧
    (script env (.message .kWhatReset) s).pushed =
      [.FlushDecoderAction .FLUSH_CMD_SHUTDOWN .FLUSH_CMD_SHUTDOWN,
        .SimpleAction .performReset] ∧
    (∀ inputs t, run inputs s = .ok t →
      executed t ++ t.mDeferredActions
        = executed s ++ s.mDeferredActions ++ enqueued inputs s) ∧
    (∀ inputs, run inputs s ≠ .error .fuel) := by
  refine ⟨fun t ht => ?_, fun input t ht => ?_, fun T n => rfl, rfl,
    fun inputs t ht => (run_fifo inputs s t ht).1, fun inputs => run_ne_fuel inputs s⟩
  · obtain ⟨done, h1, h2, _⟩ := processDeferredActions_drained env s t ht
    exact ⟨done, h1, h2⟩
  · obtain ⟨done, h1, h2, _⟩ := step_fifo env input s t ht
    exact ⟨done, h1, h2⟩
theorem deferred_actions_fifo_witness :
    (∃ done, queued.mDeferredActions = done ++ queuedDrained.mDeferredActions ∧
      executed queuedDrained = executed queued ++ done) ∧
    (∃ done, playing.mDeferredActions
        ++ (script exampleEnv (.message (.kWhatSeek 5 true)) playing).pushed
          = done ++ seeking.mDeferredActions ∧
      executed seeking = executed playing ++ done) ∧
    executed halfAcked ++ halfAcked.mDeferredActions
      = executed playing ++ playing.mDeferredActions
        ++ enqueued [(exampleEnv, .message (.kWhatSeek 5 true)),
            (exampleEnv, .message (.kWhatAudioNotify 1 none .kWhatFlushCompleted))] playing :=
  ⟨(deferred_actions_fifo exampleEnv queued).1 queuedDrained rfl,
    (deferred_actions_fifo exampleEnv playing).2.1 _ seeking rfl,
    (deferred_actions_fifo exampleEnv playing).2.2.2.2.1 _ halfAcked rfl⟩

/-- Claim C3: in every state reachable from the initial state the 'called in
state' error log of `flushDecoder` has never fired; the reason is that every
deferred action, a FlushDecoders action in particular, begins executing only
when both tracks have status `NONE` (the previous flush cycle has been reset),
and that a flush begun with both statuses `NONE` applies `flushDecoder` to each
track without the log.  No input is lost to the model for lack of loop
iterations, so the reachable states are those of the program. -/
theorem flushDecoder_only_from_none :
    (∀ s, Reachable s → flushLogs s = []) ∧
    (∀ env fuel s, ∀ p ∈ executionMoments env fuel s,
      p.2.mFlushingAudio = .NONE ∧ p.2.mFlushingVideo = .NONE) ∧
    (∀ audio video s, s.mFlushingAudio = .NONE → s.mFlushingVideo = .NONE →
      flushLogs (performDecoderFlush audio video s) = flushLogs s) ∧
    (∀ env input s, step env input s ≠ .error .fuel) := by
  refine ⟨fun s hs => reachable_flushLogs hs, executionMoments_gate,
    fun audio video s ha hv => ?_, step_ne_fuel⟩
  have h := execute_core (exampleEnv) (.FlushDecoderAction audio video) s
    (performDecoderFlush audio video s) rfl
  exact (h.2.2 ha hv).1

theorem flushDecoder_only_from_none_witness :
    flushLogs seeking = [] ∧
    (playing.mFlushingAudio = .NONE ∧ playing.mFlushingVideo = .NONE) ∧
    flushLogs (performDecoderFlush .FLUSH_CMD_FLUSH .FLUSH_CMD_FLUSH playing) = flushLogs playing :=
  ⟨flushDecoder_only_from_none.1 seeking (reachable_after _),
    flushDecoder_only_from_none.2.1 exampleEnv 3 queued
      (.SeekAction 5 false, { playing with mDeferredActions := [.ResumeDecoderAction false] })
      (List.mem_of_mem_head? rfl),
    flushDecoder_only_from_none.2.2.1 _ _ playing rfl rfl⟩

/-! ## Stale notifications -/

/-- Claim C5: a decoder or renderer notification whose generation differs from
the current generation of its role, and a ScanSources message whose generation
differs from `mScanSourcesGeneration`, is handled without abort, leaves every
field of the session state unchanged and sends no notification to the client. -/
theorem stale_message_ignored (env : Env) (s : Player) :
    (∀ generation reply what, generation ≠ s.mAudioDecoderGeneration →
      ∃ t, step env (.message (.kWhatAudioNotify generation reply what)) s = .ok t ∧
        session t = session s ∧ clientNotifications t = clientNotifications s) ∧
    (∀ generation reply what, generation ≠ s.mVideoDecoderGeneration →
      ∃ t, step env (.message (.kWhatVideoNotify generation reply what)) s = .ok t ∧
        session t = session s ∧ clientNotifications t = clientNotifications s) ∧
    (∀ generation what, generation ≠ s.mRendererGeneration →
      ∃ t, step env (.message (.kWhatRendererNotify generation what)) s = .ok t ∧
        session t = session s ∧ clientNotifications t = clientNotifications s) ∧
    (∀ generation scanNum, generation ≠ s.mScanSourcesGeneration →
      ∃ t, step env (.message (.kWhatScanSources generation scanNum)) s = .ok t ∧
        session t = session s ∧ clientNotifications t = clientNotifications s) := by
  refine ⟨fun g reply what hg => ?_, fun g reply what hg => ?_, fun g what hg => ?_,
    fun g n hg => ?_⟩
  · cases reply <;>
      simp [step, onMessageReceived, onDecoderNotify, hg, session, clientNotifications, emit]
  · cases reply <;>
      simp [step, onMessageReceived, onDecoderNotify, hg, session, clientNotifications, emit]
  · simp [step, onMessageReceived, onRendererNotify, hg]
  · simp [step, onMessageReceived, onScanSources, hg]

theorem stale_message_ignored_witness :
    (∃ t, step exampleEnv (.message (.kWhatAudioNotify 0 (some 3) .kWhatFlushCompleted)) seeking
        = .ok t ∧ session t = session seeking
        ∧ clientNotifications t = clientNotifications seeking) ∧
    (∃ t, step exampleEnv (.message (.kWhatVideoNotify 0 none .kWhatShutdownCompleted)) seeking
        = .ok t ∧ session t = session seeking
        ∧ clientNotifications t = clientNotifications seeking) ∧
    (∃ t, step exampleEnv (.message (.kWhatRendererNotify 0 (.kWhatFlushComplete true))) seeking
        = .ok t ∧ session t = session seeking
        ∧ clientNotifications t = clientNotifications seeking) ∧
    (∃ t, step exampleEnv (.message (.kWhatScanSources 0 none)) seeking
        = .ok t ∧ session t = session seeking
        ∧ clientNotifications t = clientNotifications seeking) :=
  ⟨(stale_message_ignored exampleEnv seeking).1 0 (some 3) .kWhatFlushCompleted (by decide),
    (stale_message_ignored exampleEnv seeking).2.1 0 none .kWhatShutdownCompleted (by decide),
    (stale_message_ignored exampleEnv seeking).2.2.1 0 (.kWhatFlushComplete true) (by decide),
    (stale_message_ignored exampleEnv seeking).2.2.2 0 none (by decide)⟩

/-- Claim C6: a stale decoder notification that carries a reply message posts
that reply once, with `err = INFO_DISCONTINUITY`, and records nothing else; a
stale decoder notification without a reply message records nothing at all. -/
theorem stale_decoder_reply (env : Env) (audio : Bool) (generation : Int)
    (reply : Option Nat) (what : DecoderWhat) (s : Player)
    (h : generation ≠ (if audio then s.mAudioDecoderGeneration else s.mVideoDecoderGeneration)) :
    ∃ t, step env (.message (if audio then .kWhatAudioNotify generation reply what
        else .kWhatVideoNotify generation reply what)) s = .ok t ∧
      t.trace = s.trace ++
        (match reply with
          | some r => [.post (.reply r (some INFO_DISCONTINUITY))]
          | none => []) := by
  cases audio <;> cases reply <;>
    simp_all [step, onMessageReceived, onDecoderNotify, emit]

theorem stale_decoder_reply_witness :
    ∃ t, step exampleEnv (.message (.kWhatAudioNotify 0 (some 3) .kWhatFlushCompleted)) seeking
        = .ok t ∧
      t.trace = seeking.trace ++ [.post (.reply 3 (some INFO_DISCONTINUITY))] :=
  stale_decoder_reply exampleEnv true 0 (some 3) .kWhatFlushCompleted seeking (by decide)

/-! ## The end of a flush cycle -/

theorem terminal_not_mid {f : FlushStatus}
    (h : f = .NONE ∨ f = .FLUSHED ∨ f = .SHUT_DOWN) : f.midFlush = false := by
  rcases h with h | h | h <;> rw [h] <;> rfl

/-- Claim C7: when both statuses are in `NONE`, `FLUSHED`, `SHUT_DOWN`,
`finishFlushIfPossible` sets both statuses to `NONE`, clears the four entries of
the completion matrix and drains the queue in the same call: its result is that
of `processDeferredActions` on the state so reset, a call that does return. -/
theorem finishFlushIfPossible_resets_then_drains (env : Env) (s : Player)
    (ha : s.mFlushingAudio = .NONE ∨ s.mFlushingAudio = .FLUSHED ∨ s.mFlushingAudio = .SHUT_DOWN)
    (hv : s.mFlushingVideo = .NONE ∨ s.mFlushingVideo = .FLUSHED ∨ s.mFlushingVideo = .SHUT_DOWN) :
    finishFlushIfPossible env s =
      processDeferredActions env
        { s with mFlushingAudio := .NONE, mFlushingVideo := .NONE,
                 mFlushComplete := ⟨false, false, false, false⟩ } ∧
    finishFlushIfPossible env s ≠ .error .fuel := by
  have h := finishFlushIfPossible_terminal env s (terminal_not_mid ha) (terminal_not_mid hv)
  have e : clearFlushComplete { s with mFlushingAudio := .NONE, mFlushingVideo := .NONE }
      = { s with mFlushingAudio := .NONE, mFlushingVideo := .NONE,
                 mFlushComplete := ⟨false, false, false, false⟩ } := rfl
  rw [e] at h
  refine ⟨h, ?_⟩
  rw [h]
  exact processDeferredActions_ne_fuel env _

theorem finishFlushIfPossible_resets_then_drains_witness :
    finishFlushIfPossible exampleEnv bothFlushed =
      processDeferredActions exampleEnv
        { bothFlushed with mFlushingAudio := .NONE, mFlushingVideo := .NONE,
                           mFlushComplete := ⟨false, false, false, false⟩ } ∧
    finishFlushIfPossible exampleEnv bothFlushed ≠ .error .fuel :=
  finishFlushIfPossible_resets_then_drains exampleEnv bothFlushed
    (.inr (.inl rfl)) (.inr (.inl rfl))

/-- Claim C8, as stated, fails: in the playing session, the handling of a
flush-complete notification of the renderer that no flush asked for records one
acknowledgement of the audio track, so that neither track has both
acknowledgements recorded, and `finishFlushIfPossible` then clears the
completion matrix. -/
theorem finishFlushIfPossible_partial_acks_not_noop :
    handleFlushComplete true false playing = .ok strayAck ∧
    ¬ (strayAck.mFlushComplete.get true true = true
        ∧ strayAck.mFlushComplete.get true false = true) ∧
    ¬ (strayAck.mFlushComplete.get false true = true
        ∧ strayAck.mFlushComplete.get false false = true) ∧
    ∃ t, finishFlushIfPossible exampleEnv strayAck = .ok t ∧
      t.mFlushComplete ≠ strayAck.mFlushComplete :=
  ⟨rfl, by decide, by decide, playing, rfl, by decide⟩

/-- Claim C8, amended: when the status of at least one track is
`FLUSHING_DECODER`, `FLUSHING_DECODER_SHUTDOWN` or `SHUTTING_DOWN_DECODER`,
`finishFlushIfPossible` is a no-op: it returns the state unchanged, history of
collaborator calls included. -/
theorem finishFlushIfPossible_noop_mid_flush (env : Env) (s : Player)
    (h : s.mFlushingAudio.midFlush = true ∨ s.mFlushingVideo.midFlush = true) :
    finishFlushIfPossible env s = .ok s :=
  finishFlushIfPossible_mid env s h

theorem finishFlushIfPossible_noop_mid_flush_witness :
    finishFlushIfPossible exampleEnv seeking = .ok seeking :=
  finishFlushIfPossible_noop_mid_flush exampleEnv seeking (.inl (by decide))

theorem freshlyFlushing_mid {f : FlushStatus} (h : f.freshlyFlushing) (hn : f ≠ .NONE) :
    f.midFlush = true := by
  rcases h with h | h | h
  · exact absurd h hn
  · rw [h]; rfl
  · rw [h]; rfl

/-- A second call of `finishFlushIfPossible` finds nothing to do. -/
theorem finishFlushIfPossible_stable (env env2 : Env) (s : Player) :
    okThen (finishFlushIfPossible env s) (fun t => finishFlushIfPossible env2 t = .ok t) := by
  by_cases h : s.mFlushingAudio.midFlush = true ∨ s.mFlushingVideo.midFlush = true
  · rw [finishFlushIfPossible_mid env s h]
    simp only [okThen_ok]
    exact finishFlushIfPossible_mid env2 s h
  · push_neg at h
    rw [finishFlushIfPossible_terminal env s (by simpa using h.1) (by simpa using h.2)]
    refine okThen_mono (processDeferredActions_drained env _) fun t ht => ?_
    obtain ⟨done, _, _, _, d4, d5, d6⟩ := ht
    have key : ∀ u : Player, u.mFlushingAudio = .NONE → u.mFlushingVideo = .NONE →
        u.mFlushComplete = ⟨false, false, false, false⟩ → u.mDeferredActions = [] →
        finishFlushIfPossible env2 u = .ok u := by
      intro u ua uv um uq
      rw [finishFlushIfPossible_terminal env2 u (by rw [ua]; rfl) (by rw [uv]; rfl)]
      have e : clearFlushComplete { u with mFlushingAudio := .NONE, mFlushingVideo := .NONE }
          = u := by
        cases u
        simp only [clearFlushComplete] at *
        subst ua uv um
        rfl
      rw [e]
      exact processDeferredActions_closed env2 u (.inl uq)
    by_cases hm : t.mFlushingAudio = .NONE ∧ t.mFlushingVideo = .NONE
    · have hq : t.mDeferredActions = [] := by
        rcases d4 with d4 | d4 | d4
        · exact d4
        · exact absurd hm.1 d4
        · exact absurd hm.2 d4
      by_cases hd : done = []
      · have := d5 hd
        rw [this] at hq ⊢
        exact key _ rfl rfl rfl hq
      · obtain ⟨_, _, _, _, f5⟩ := d6 hd
        exact key t hm.1 hm.2 (f5 hm.1 hm.2) hq
    · have hd : done ≠ [] := by
        intro hd
        apply hm
        rw [d5 hd]
        exact ⟨rfl, rfl⟩
      obtain ⟨_, _, f3, f4, _⟩ := d6 hd
      apply finishFlushIfPossible_mid
      by_cases ha : t.mFlushingAudio = .NONE
      · right
        exact freshlyFlushing_mid f4 fun hv => hm ⟨ha, hv⟩
      · left
        exact freshlyFlushing_mid f3 ha

/-- Claim C9: `finishFlushIfPossible` is idempotent.  It never stops for lack of
loop iterations, and on every state on which it returns, a second application
(whatever the collaborators would answer) returns the state of the first
unchanged, history variable included: it executes no deferred action, makes no
collaborator call and sends no client notification. -/
theorem finishFlushIfPossible_idempotent (env env2 : Env) (s : Player) :
    finishFlushIfPossible env s ≠ .error .fuel ∧
    ∀ t, finishFlushIfPossible env s = .ok t →
      finishFlushIfPossible env2 t = .ok t ∧
      ((finishFlushIfPossible env s).bind (finishFlushIfPossible env2))
        = finishFlushIfPossible env s := by
  refine ⟨nofuel_finishFlushIfPossible env s, fun t h => ?_⟩
  have h2 := finishFlushIfPossible_stable env env2 s t h
  refine ⟨h2, ?_⟩
  rw [h]
  exact h2

/-! ## Both acknowledgements are needed -/

theorem awaiting_mid {audio isDecoder : Bool} {s : Player}
    (h : awaiting audio isDecoder (core s)) :
    s.mFlushingAudio.midFlush = true ∨ s.mFlushingVideo.midFlush = true := by
  obtain ⟨h, _⟩ := h
  cases audio
  · right
    simp only [FlushCore.flushing, core, Bool.false_eq_true, if_false] at h
    rcases h with h | h <;> rw [h] <;> rfl
  · left
    simp only [FlushCore.flushing, core, if_true] at h
    rcases h with h | h <;> rw [h] <;> rfl

theorem awaiting_closed {audio isDecoder : Bool} {s : Player}
    (h : awaiting audio isDecoder (core s)) :
    s.mDeferredActions = [] ∨ s.mFlushingAudio ≠ .NONE ∨ s.mFlushingVideo ≠ .NONE :=
  (awaiting_mid h).elim (fun h => .inr (.inl (midFlush_ne_none h)))
    (fun h => .inr (.inr (midFlush_ne_none h)))

theorem awaiting_queue (audio isDecoder : Bool) (c : FlushCore) (q : List Action) :
    awaiting audio isDecoder { c with mDeferredActions := q } ↔ awaiting audio isDecoder c := by
  simp [awaiting, FlushCore.flushing]

theorem awaiting_ack {a d a2 d2 : Bool} {c : FlushCore} (h : awaiting a d c)
    (hne : ¬ (a2 = a ∧ d2 = d)) : awaiting a d (c.ack a2 d2) := by
  obtain ⟨hs, hm⟩ := h
  obtain ⟨fa, fv, ⟨m1, m2, m3, m4⟩, q, e, l⟩ := c
  cases a <;> cases d <;> cases a2 <;> cases d2 <;>
    simp_all [awaiting, FlushCore.ack, FlushCore.flushing, FlushComplete.get, FlushComplete.set] <;>
    (try split_ifs) <;> (try split) <;> simp_all

theorem awaiting_setFlushing {a d a2 : Bool} {c : FlushCore} {v : FlushStatus}
    (h : awaiting a d c)
    (hv : a2 = a → v = .FLUSHING_DECODER ∨ v = .FLUSHING_DECODER_SHUTDOWN) :
    awaiting a d (c.setFlushing a2 v) := by
  obtain ⟨hs, hm⟩ := h
  cases a <;> cases a2 <;>
    simp_all [awaiting, FlushCore.setFlushing, FlushCore.flushing]

theorem awaiting_finish (env : Env) {a d : Bool} {s t : Player}
    (h : awaiting a d (core s)) (ht : finishFlushIfPossible env s = .ok t) : t = s := by
  rw [finishFlushIfPossible_mid env s (awaiting_mid h)] at ht
  cases ht
  rfl

theorem awaiting_flushing_ne {a d a2 : Bool} {c : FlushCore} {v : FlushStatus}
    (h : awaiting a d c) (h2 : c.flushing a2 = v)
    (hv : v ≠ .FLUSHING_DECODER ∧ v ≠ .FLUSHING_DECODER_SHUTDOWN) : a2 ≠ a := by
  rintro rfl
  rcases h.1 with h1 | h1 <;> rw [h2] at h1
  · exact hv.1 h1
  · exact hv.2 h1

/-- A script other than the acknowledgement itself keeps a track waiting. -/
theorem rel_awaiting (env : Env) (sc : Script) (a d : Bool) (s t : Player)
    (h : sc.Rel env s t) (hw : awaiting a d (core s)) (hne : sc ≠ .ackFinish a d) :
    awaiting a d (core t) := by
  cases sc with
  | frame =>
    simp only [Script.Rel] at h
    rw [h]
    exact hw
  | pushDrain actions =>
    obtain ⟨s1, t1, h1, h2, h3⟩ := h
    have w1 : awaiting a d (core s1) := by
      rw [h1]
      exact (awaiting_queue a d _ _).2 hw
    rw [processDeferredActions_closed env s1 (awaiting_closed w1)] at h2
    cases h2
    rw [h3]
    exact w1
  | ackFinish a2 d2 =>
    obtain ⟨s1, s2, t1, h1, h2, h3, h4⟩ := h
    have c2 := frame_handleFlushComplete a2 d2 s1 s2 h2
    have w2 : awaiting a d (core s2) := by
      rw [c2, h1]
      refine awaiting_ack hw ?_
      rintro ⟨rfl, rfl⟩
      exact hne rfl
    rw [h4, awaiting_finish env w2 h3]
    exact w2
  | errorUpgrade a2 =>
    rw [h.2]
    exact awaiting_setFlushing hw fun _ => .inr rfl
  | errorShutdown a2 =>
    rw [h.2]
    have hn := awaiting_flushing_ne hw h.1 (by decide)
    exact awaiting_setFlushing hw fun e => absurd e hn
  | errorFinish =>
    obtain ⟨s1, t1, h1, h2, h3⟩ := h
    have w1 : awaiting a d (core s1) := by rw [h1]; exact hw
    rw [h3, awaiting_finish env w1 h2]
    exact w1
  | shutdownCompleted a2 =>
    obtain ⟨h0, s1, t1, h1, h2, h3⟩ := h
    have hn := awaiting_flushing_ne hw h0 (by decide)
    have w1 : awaiting a d (core s1) := by
      rw [h1]
      exact awaiting_setFlushing hw fun e => absurd e hn
    rw [h3, awaiting_finish env w1 h2]
    exact w1

theorem script_ackFinish (env : Env) (input : Input) (s : Player) (a d : Bool)
    (h : script env input s = .ackFinish a d) : input.isFlushAck a d = true := by
  cases input with
  | call api => simp [script] at h
  | message msg =>
    cases msg with
    | kWhatVideoNotify g r what =>
      cases what <;> simp only [script, decoderScript] at h <;> (try split_ifs at h) <;>
        (try split at h) <;> simp_all [Input.isFlushAck]
    | kWhatAudioNotify g r what =>
      cases what <;> simp only [script, decoderScript] at h <;> (try split_ifs at h) <;>
        (try split at h) <;> simp_all [Input.isFlushAck]
    | kWhatRendererNotify g what =>
      simp only [script] at h
      split_ifs at h
      cases what <;> simp_all [Input.isFlushAck]
    | kWhatSetVideoNativeWindow obj =>
      simp only [script] at h
      split_ifs at h
    | kWhatSourceNotify what =>
      cases what <;> simp only [script] at h <;> (try split_ifs at h) <;> simp at h
    | _ => simp [script] at h

theorem step_awaiting (env : Env) (input : Input) (a d : Bool) (s : Player)
    (hi : input.isFlushAck a d = false) (hw : awaiting a d (core s)) :
    okThen (step env input s) (fun t => awaiting a d (core t)) := by
  intro t ht
  refine rel_awaiting env _ a d s t (step_script env input s t ht) hw fun hsc => ?_
  rw [script_ackFinish env input s a d hsc] at hi
  cases hi

theorem run_awaiting (inputs : List (Env × Input)) (a d : Bool) (s : Player)
    (hi : ∀ p ∈ inputs, p.2.isFlushAck a d = false) (hw : awaiting a d (core s)) :
    okThen (run inputs s) (fun t => awaiting a d (core t)) := by
  induction inputs generalizing s with
  | nil => simpa [run] using hw
  | cons p rest ih =>
    obtain ⟨env, input⟩ := p
    simp only [run, okThen_bind]
    intro s1 h1
    exact ih s1 (fun p hp => hi p (List.mem_cons_of_mem _ hp))
      (step_awaiting env input a d s (hi _ (List.mem_cons_self _ _)) hw s1 h1)
theorem shutdownsInitiated_emit (e : Event) (s : Player) :
    shutdownsInitiated (emit e s) = shutdownsInitiated s ++
      (match e with
        | .decoder audio .initiateShutdown => [audio]
        | _ => []) := by
  simp only [shutdownsInitiated, emit, List.filterMap_append]
  congr 1
  cases e <;> simp [List.filterMap]
  rename_i a c
  cases c <;> simp

/-- While the other acknowledgement of a flushing track is missing, the handling
of one acknowledgement changes neither status and initiates no shutdown. -/
theorem single_ack (env : Env) (a d : Bool) (input : Input) (s : Player)
    (hi : input.isFlushAck a d = true) (hw : awaiting a (!d) (core s)) :
    okThen (step env input s) (fun t =>
      t.mFlushingAudio = s.mFlushingAudio ∧ t.mFlushingVideo = s.mFlushingVideo ∧
      shutdownsInitiated t = shutdownsInitiated s) := by
  obtain ⟨hs, hm⟩ := hw
  simp only [core, FlushCore.flushing] at hs hm
  cases input with
  | call api => simp [Input.isFlushAck] at hi
  | message msg =>
    cases msg with
    | kWhatAudioNotify g r what =>
      cases what <;> simp [Input.isFlushAck] at hi
      obtain ⟨rfl, rfl⟩ := hi
      simp only [if_true, Bool.not_true] at hs hm
      by_cases hg : g ≠ s.mAudioDecoderGeneration
      · cases r <;>
          simp [step, onMessageReceived, onDecoderNotify, hg, shutdownsInitiated, emit]
      · rcases hs with hs | hs <;>
          simp [step, onMessageReceived, onDecoderNotify, hg, handleFlushComplete, hm, hs,
            FlushComplete.get, FlushComplete.set, finishFlushIfPossible, shutdownsInitiated] <;>
          simp_all [FlushComplete.get]
    | kWhatVideoNotify g r what =>
      cases what <;> simp [Input.isFlushAck] at hi
      obtain ⟨rfl, rfl⟩ := hi
      simp only [Bool.false_eq_true, if_false, Bool.not_true] at hs hm
      by_cases hg : g ≠ s.mVideoDecoderGeneration
      · cases r <;>
          simp [step, onMessageReceived, onDecoderNotify, hg, shutdownsInitiated, emit]
      · rcases hs with hs | hs <;>
          simp [step, onMessageReceived, onDecoderNotify, hg, handleFlushComplete, hm, hs,
            FlushComplete.get, FlushComplete.set, finishFlushIfPossible, emit] <;>
          split_ifs <;>
          simp_all [FlushComplete.get, FlushComplete.set, finishFlushIfPossible,
            shutdownsInitiated]
    | kWhatRendererNotify g what =>
      cases what with
      | kWhatFlushComplete au =>
        simp [Input.isFlushAck] at hi
        obtain ⟨rfl, rfl⟩ := hi
        simp only [Bool.not_false] at hs hm
        by_cases hg : g ≠ s.mRendererGeneration
        · simp [step, onMessageReceived, onRendererNotify, hg]
        · cases au <;> rcases hs with hs | hs <;>
            simp [step, onMessageReceived, onRendererNotify, hg, handleFlushComplete, hm, hs,
              FlushComplete.get, FlushComplete.set, finishFlushIfPossible,
              shutdownsInitiated] <;>
            simp_all [FlushComplete.get]
      | _ => simp [Input.isFlushAck] at hi
    | _ => simp [Input.isFlushAck] at hi
/-! ## The seek round trip -/

theorem seekLog_emit (e : Event) (s : Player) :
    seekLog (emit e s) = seekLog s ++ [e].filter Event.inRoundTrip := by
  simp only [seekLog, emit, List.filter_append]

theorem finish_seek (env : Env) (T : Int) (n : Bool) (v : Player)
    (hsrc : v.mSource ≠ none) (ha : v.mAudioDecoder ≠ none) (hv : v.mVideoDecoder ≠ none)
    (hq : v.mDeferredActions = [.SeekAction T n, .ResumeDecoderAction n])
    (hfa : v.mFlushingAudio = .FLUSHED) (hfv : v.mFlushingVideo = .FLUSHED) :
    ∃ w, finishFlushIfPossible env v = .ok w ∧ SeekDone T n v w := by
  simp [finishFlushIfPossible, hfa, hfv, processDeferredActions, clearFlushComplete, hq,
    processDeferredActionsLoop, nextDeferredAction, Action.execute, performSeek, hsrc,
    performResumeDecoders, Except.bind, emit, thread_interrupt, thread_uninterrupt, ha, hv,
    SeekDone, seekLog, executed, Event.inRoundTrip]

theorem ack_step (env : Env) (T : Int) (n : Bool) (t u : Player) (a d : Bool)
    (hp : SeekPending T n t u) (hm : u.mFlushComplete.get a d = false) :
    ∃ w, step env (ackMsg t a d) u = .ok w ∧
      (u.mFlushComplete.set a d true = ⟨true, true, true, true⟩ → SeekDone T n t w) ∧
      (u.mFlushComplete.set a d true ≠ ⟨true, true, true, true⟩ →
        SeekPending T n t w ∧ w.mFlushComplete = u.mFlushComplete.set a d true) := by
  obtain ⟨hsrc, ha, hv, ga, gv, gr, hq, hfa, hfv, hl, he⟩ := hp
  rcases hM : u.mFlushComplete with ⟨m1, m2, m3, m4⟩
  rw [hM] at hfa hfv hm
  simp only [] at hfa hfv
  simp only [seekLog, executed] at hl he
  cases a <;> cases d <;> cases m1 <;> cases m2 <;> cases m3 <;> cases m4 <;>
    simp only [FlushComplete.get, Bool.false_eq_true, reduceCtorEq] at hm <;>
    simp [step, ackMsg, onMessageReceived, onDecoderNotify, onRendererNotify, ga, gv, gr,
      handleFlushComplete, hM, FlushComplete.get, FlushComplete.set, flushing, setFlushing,
      finishFlushIfPossible, hfa, hfv, processDeferredActions, clearFlushComplete, hq,
      processDeferredActionsLoop, nextDeferredAction, Action.execute, performSeek, hsrc,
      performResumeDecoders, Except.bind, emit, thread_interrupt, thread_uninterrupt, ha, hv,
      SeekDone, SeekPending, seekLog, executed, Event.inRoundTrip, hl, he] <;>
    (try (split_ifs <;> simp [hl, he, Event.inRoundTrip]))

theorem seek_request (env : Env) (T : Int) (n : Bool) (s : Player)
    (hsrc : s.mSource ≠ none) (hr : s.mRenderer ≠ none)
    (ha : s.mAudioDecoder ≠ none) (hv : s.mVideoDecoder ≠ none)
    (hfa : s.mFlushingAudio = .NONE) (hfv : s.mFlushingVideo = .NONE)
    (hq : s.mDeferredActions = []) :
    ∃ t, step env (.message (.kWhatSeek T n)) s = .ok t ∧
      SeekPending T n t t ∧ t.mFlushComplete = ⟨false, false, false, false⟩ ∧
      executed t = executed s ++ [.FlushDecoderAction .FLUSH_CMD_FLUSH .FLUSH_CMD_FLUSH] ∧
      seekLog t = seekLog s ++ [.decoder true .signalFlush, .decoder false .signalFlush] := by
  obtain ⟨ad, had⟩ := Option.ne_none_iff_exists.1 ha
  obtain ⟨vd, hvd⟩ := Option.ne_none_iff_exists.1 hv
  obtain ⟨rd, hrd⟩ := Option.ne_none_iff_exists.1 hr
  simp [step, onMessageReceived, pushAction, processDeferredActions, hq,
    processDeferredActionsLoop, nextDeferredAction, Action.execute, performDecoderFlush,
    flushDecoder, getDecoder, ← had, ← hvd, ← hrd, hfa, hfv, Except.bind, emit, hsrc,
    FlushComplete.get, FlushComplete.set, SeekPending, seekLog, executed, Event.inRoundTrip]
  split_ifs <;>
    simp [hq, processDeferredActionsLoop, nextDeferredAction, Action.execute,
      performDecoderFlush, flushDecoder, getDecoder, ← had, ← hvd, ← hrd, hfa, hfv, Except.bind,
      emit, hsrc, FlushComplete.get, FlushComplete.set, SeekPending, seekLog, executed,
      Event.inRoundTrip]

theorem FlushComplete.get_set (m : FlushComplete) (a d v a2 d2 : Bool) :
    (m.set a d v).get a2 d2 = if a2 = a ∧ d2 = d then v else m.get a2 d2 := by
  cases a <;> cases d <;> cases a2 <;> cases d2 <;> simp [FlushComplete.get, FlushComplete.set]

theorem FlushComplete.all_true (m : FlushComplete)
    (h : ∀ a d, m.get a d = true) : m = ⟨true, true, true, true⟩ := by
  obtain ⟨m1, m2, m3, m4⟩ := m
  have h1 := h false false
  have h2 := h false true
  have h3 := h true false
  have h4 := h true true
  simp only [FlushComplete.get] at h1 h2 h3 h4
  subst h1 h2 h3 h4
  rfl

theorem acks_run (T : Int) (n : Bool) (t : Player) (acks : List (Env × Bool × Bool)) :
    ∀ u : Player, SeekPending T n t u → (acks.map Prod.snd).Nodup →
      (∀ a d, u.mFlushComplete.get a d = false ↔ (a, d) ∈ acks.map Prod.snd) → acks ≠ [] →
      (∀ k, k < acks.length →
        ∃ w, run (ackInputs t (acks.take k)) u = .ok w ∧ SeekPending T n t w) ∧
      ∃ w, run (ackInputs t acks) u = .ok w ∧ SeekDone T n t w := by
  induction acks with
  | nil => intro u _ _ _ h; exact absurd rfl h
  | cons x rest ih =>
    obtain ⟨env, a, d⟩ := x
    intro u hp hnd hmem _
    simp only [List.map_cons, List.nodup_cons] at hnd
    obtain ⟨hnot, hnd⟩ := hnd
    have hm : u.mFlushComplete.get a d = false := (hmem a d).2 (by simp)
    obtain ⟨w, hw, hdone, hpend⟩ := ack_step env T n t u a d hp hm
    by_cases hrest : rest = []
    · subst hrest
      have hall : u.mFlushComplete.set a d true = ⟨true, true, true, true⟩ := by
        apply FlushComplete.all_true
        intro a2 d2
        rw [FlushComplete.get_set]
        split_ifs with h
        · rfl
        · by_contra hc
          have := (hmem a2 d2).1 (by simpa using hc)
          simp only [List.map_cons, List.map_nil, List.mem_singleton, Prod.mk.injEq] at this
          exact h this
      refine ⟨fun k hk => ?_, w, ?_, hdone hall⟩
      · simp only [List.length_singleton, Nat.lt_one_iff] at hk
        subst hk
        exact ⟨u, rfl, hp⟩
      · simp only [ackInputs, List.map_cons, List.map_nil, run, hw]
        rfl
    · have hne : u.mFlushComplete.set a d true ≠ ⟨true, true, true, true⟩ := by
        obtain ⟨y, hy⟩ := List.exists_mem_of_ne_nil _ hrest
        obtain ⟨e2, a2, d2⟩ := y
        have hin : (a2, d2) ∈ rest.map Prod.snd := List.mem_map_of_mem Prod.snd hy
        have hf : u.mFlushComplete.get a2 d2 = false :=
          (hmem a2 d2).2 (List.mem_cons_of_mem _ hin)
        intro hc
        have hg := FlushComplete.get_set u.mFlushComplete a d true a2 d2
        rw [hc] at hg
        have hx : ¬ (a2 = a ∧ d2 = d) := by
          rintro ⟨rfl, rfl⟩
          exact hnot hin
        rw [if_neg hx, hf] at hg
        cases a2 <;> cases d2 <;> simp [FlushComplete.get] at hg
      obtain ⟨hpw, hmw⟩ := hpend hne
      have hmem2 : ∀ a2 d2, w.mFlushComplete.get a2 d2 = false ↔ (a2, d2) ∈ rest.map Prod.snd := by
        intro a2 d2
        rw [hmw, FlushComplete.get_set]
        split_ifs with h
        · obtain ⟨rfl, rfl⟩ := h
          simp only [Bool.true_eq_false, false_iff]
          exact hnot
        · rw [hmem a2 d2]
          simp only [List.map_cons, List.mem_cons, Prod.mk.injEq]
          constructor
          · rintro (h2 | h2)
            · exact absurd h2 h
            · exact h2
          · exact fun h2 => .inr h2
      obtain ⟨ih1, w2, hw2, hd2⟩ := ih w hpw hnd hmem2 hrest
      refine ⟨fun k hk => ?_, w2, ?_, hd2⟩
      · cases k with
        | zero => exact ⟨u, rfl, hp⟩
        | succ k =>
          simp only [List.length_cons, Nat.add_lt_add_iff_right] at hk
          obtain ⟨w3, hw3, hp3⟩ := ih1 k hk
          refine ⟨w3, ?_, hp3⟩
          simp only [ackInputs, List.take_succ_cons, List.map_cons, run, hw]
          exact hw3
      · simp only [ackInputs, List.map_cons, run, hw]
        exact hw2
theorem finishFlushIfPossible_idempotent_witness :
    finishFlushIfPossible exampleEnv resumed = .ok resumed ∧
    ((finishFlushIfPossible exampleEnv bothFlushed).bind (finishFlushIfPossible exampleEnv))
      = finishFlushIfPossible exampleEnv bothFlushed :=
  (finishFlushIfPossible_idempotent exampleEnv exampleEnv bothFlushed).2 resumed rfl

theorem fourAcks_mem (a d : Bool) : (a, d) ∈ fourAcks := by
  cases a <;> cases d <;> simp [fourAcks]

/-- Claim C10: seek round trip.  From a state with source, renderer and both
decoders present, both statuses `NONE` and an empty queue, the handling of a
seek request enqueues the flush of both decoders, the repositioning and the
resumption, in that order; it executes the flush, which signals a flush to both
decoders and makes both tracks `FLUSHING_DECODER`, and leaves the other two
queued, the source not being repositioned.  Then, in whatever order the four
flush acknowledgements are handled, nothing of the round trip happens before
the fourth, and with the fourth the source is repositioned to the requested
time once, after which the video decoder and the audio decoder are resumed. -/
theorem seek_round_trip (env : Env) (T : Int) (needNotify : Bool) (s : Player)
    (hsrc : s.mSource ≠ none) (hr : s.mRenderer ≠ none)
    (ha : s.mAudioDecoder ≠ none) (hv : s.mVideoDecoder ≠ none)
    (hfa : s.mFlushingAudio = .NONE) (hfv : s.mFlushingVideo = .NONE)
    (hq : s.mDeferredActions = []) :
    (script env (.message (.kWhatSeek T needNotify)) s).pushed =
      [.FlushDecoderAction .FLUSH_CMD_FLUSH .FLUSH_CMD_FLUSH, .SeekAction T needNotify,
        .ResumeDecoderAction needNotify] ∧
    ∃ t, step env (.message (.kWhatSeek T needNotify)) s = .ok t ∧
      executed t = executed s ++ [.FlushDecoderAction .FLUSH_CMD_FLUSH .FLUSH_CMD_FLUSH] ∧
      t.mDeferredActions = [.SeekAction T needNotify, .ResumeDecoderAction needNotify] ∧
      t.mFlushingAudio = .FLUSHING_DECODER ∧ t.mFlushingVideo = .FLUSHING_DECODER ∧
      seekLog t = seekLog s ++ [.decoder true .signalFlush, .decoder false .signalFlush] ∧
      ∀ acks : List (Env × Bool × Bool), (acks.map Prod.snd).Perm fourAcks →
        (∀ k, k < 4 →
          ∃ u, run (ackInputs t (acks.take k)) t = .ok u ∧ seekLog u = seekLog t ∧
            u.mDeferredActions = [.SeekAction T needNotify, .ResumeDecoderAction needNotify]) ∧
        ∃ u, run (ackInputs t acks) t = .ok u ∧
          seekLog u = seekLog t ++ [.source (.seekTo T),
            .decoder false (.signalResume needNotify), .decoder true (.signalResume false)] ∧
          executed u = executed t
            ++ [.SeekAction T needNotify, .ResumeDecoderAction needNotify] ∧
          u.mDeferredActions = [] := by
  refine ⟨rfl, ?_⟩
  obtain ⟨t, ht, hp, hm, he, hl⟩ := seek_request env T needNotify s hsrc hr ha hv hfa hfv hq
  have hp0 := hp
  obtain ⟨_, _, _, _, _, _, tq, tfa, tfv, _, _⟩ := hp0
  rw [hm] at tfa tfv
  refine ⟨t, ht, he, tq, tfa, tfv, hl, fun acks hperm => ?_⟩
  have hnd : (acks.map Prod.snd).Nodup := hperm.nodup_iff.2 (by decide)
  have hlen : acks.length = 4 := by
    have := hperm.length_eq
    simpa [fourAcks] using this
  have hmem : ∀ a d, t.mFlushComplete.get a d = false ↔ (a, d) ∈ acks.map Prod.snd := by
    intro a d
    rw [hm]
    constructor
    · intro _
      exact hperm.mem_iff.2 (fourAcks_mem a d)
    · intro _
      cases a <;> cases d <;> rfl
  have hne : acks ≠ [] := by
    intro h
    rw [h] at hlen
    cases hlen
  obtain ⟨h1, u, hu, hd⟩ := acks_run T needNotify t acks t hp hnd hmem hne
  refine ⟨fun k hk => ?_, u, hu, hd.1, hd.2.1, hd.2.2.1⟩
  obtain ⟨w, hw, hpw⟩ := h1 k (by rw [hlen]; exact hk)
  exact ⟨w, hw, hpw.2.2.2.2.2.2.2.2.2.1, hpw.2.2.2.2.2.2.1⟩

theorem seek_round_trip_witness :
    ∃ t, step exampleEnv (.message (.kWhatSeek 5 true)) playing = .ok t ∧
      t.mFlushingAudio = .FLUSHING_DECODER ∧ t.mFlushingVideo = .FLUSHING_DECODER ∧
      seekLog t = seekLog playing ++ [.decoder true .signalFlush, .decoder false .signalFlush] ∧
      ∃ u, run (ackInputs t [(exampleEnv, false, false), (exampleEnv, true, true),
          (exampleEnv, false, true), (exampleEnv, true, false)]) t = .ok u ∧
        seekLog u = seekLog t ++ [.source (.seekTo 5),
          .decoder false (.signalResume true), .decoder true (.signalResume false)] :=
  let ⟨t, h1, _, _, h4, h5, h6, h7⟩ :=
    (seek_round_trip exampleEnv 5 true playing (by decide) (by decide) (by decide) (by decide)
      rfl rfl rfl).2
  let ⟨u, h8, h9, _⟩ := (h7 [(exampleEnv, false, false), (exampleEnv, true, true),
    (exampleEnv, false, true), (exampleEnv, true, false)] (by decide)).2
  ⟨t, h1, h4, h5, h6, u, h8, h9⟩

/-! ## Reset teardown -/

theorem inc32_succ (g : Int) (h1 : -2147483648 ≤ g) (h2 : g < 2147483647) : inc32 g = g + 1 := by
  unfold inc32 wrap32
  have e : (g + 1 + 2147483648) % 4294967296 = g + 1 + 2147483648 :=
    Int.emod_eq_of_lt (by omega) (by omega)
  omega

theorem clientNotifications_emit (e : Event) (s : Player) :
    clientNotifications (emit e s) = clientNotifications s ++
      (match e with
        | .driver c => [c]
        | _ => []) := by
  simp only [clientNotifications, emit, List.filterMap_append]
  congr 1
  cases e <;> simp [List.filterMap]

theorem clientNotifications_callDriver (env : Env) (c : DriverCall) (s : Player) :
    clientNotifications (callDriver env c s) = clientNotifications s ++ delivered env s c := by
  unfold callDriver delivered
  split_ifs <;> simp [clientNotifications_emit]

/-- What `performReset` does when its two checks pass. -/
theorem performReset_effect (env : Env) (s : Player)
    (ha : s.mAudioDecoder = none) (hv : s.mVideoDecoder = none) :
    ∃ t, performReset env s = .ok t ∧
      t.mSource = none ∧ t.mRenderer = none ∧ t.mRendererLooper = false ∧
      t.mAudioDecoder = none ∧ t.mVideoDecoder = none ∧ t.mStarted = false ∧
      t.mRendererGeneration = inc32 s.mRendererGeneration ∧
      t.mScanSourcesGeneration = inc32 s.mScanSourcesGeneration ∧
      t.mPollDurationGeneration = inc32 s.mPollDurationGeneration ∧
      t.mScanSourcesPending = false ∧
      sourceCalls t = sourceCalls s ++ (if s.mSource ≠ none then [.stop] else []) ∧
      clientNotifications t = clientNotifications s ++ delivered env s .notifyResetComplete ∧
      t.mDeferredActions = s.mDeferredActions ∧ t.mFlushingAudio = s.mFlushingAudio ∧
      t.mFlushingVideo = s.mFlushingVideo ∧ t.mDriver = s.mDriver := by
  simp [performReset, ha, hv, cancelPollDuration, thread_interrupt, thread_uninterrupt, emit,
    callDriver, delivered, sourceCalls, clientNotifications]
  split_ifs <;> simp_all

theorem performReset_ok {env : Env} {s t : Player} (h : performReset env s = .ok t) :
    s.mAudioDecoder = none ∧ s.mVideoDecoder = none := by
  by_cases h1 : s.mAudioDecoder ≠ none
  · simp [performReset, h1] at h
  · by_cases h2 : s.mVideoDecoder ≠ none
    · simp [performReset, h1, h2] at h
    · exact ⟨not_not.1 h1, not_not.1 h2⟩

/-- Claim C18: `performReset`, executed with both decoders absent, returns a
state with no source, no renderer, no decoders and `mStarted = false`; the
renderer, scan-sources and poll-duration generations are each incremented once
(`int32_t` increment, which is `+ 1` below `INT32_MAX`); `mScanSourcesPending` is
cleared; `stop` is the one call made on the source, and is made only if a source
was present; one reset-complete notification is sent to the driver (`delivered`:
the call is made when a driver is attached and can be promoted). -/
theorem performReset_teardown (env : Env) (s : Player)
    (ha : s.mAudioDecoder = none) (hv : s.mVideoDecoder = none) :
    (∃ t, performReset env s = .ok t ∧
      t.mSource = none ∧ t.mRenderer = none ∧ t.mAudioDecoder = none ∧
      t.mVideoDecoder = none ∧ t.mStarted = false ∧
      t.mRendererGeneration = inc32 s.mRendererGeneration ∧
      t.mScanSourcesGeneration = inc32 s.mScanSourcesGeneration ∧
      t.mPollDurationGeneration = inc32 s.mPollDurationGeneration ∧
      t.mScanSourcesPending = false ∧
      sourceCalls t = sourceCalls s ++ (if s.mSource ≠ none then [.stop] else []) ∧
      clientNotifications t = clientNotifications s ++ delivered env s .notifyResetComplete) ∧
    (s.mDriver = true → env.driverAlive = true →
      delivered env s .notifyResetComplete = [.notifyResetComplete]) ∧
    (∀ g : Int, -2147483648 ≤ g → g < 2147483647 → inc32 g = g + 1) := by
  refine ⟨?_, fun h1 h2 => by simp [delivered, h1, h2], inc32_succ⟩
  obtain ⟨t, h, h1, h2, _, h3, h4, h5, h6, h7, h8, h9, h10, h11, _⟩ :=
    performReset_effect env s ha hv
  exact ⟨t, h, h1, h2, h3, h4, h5, h6, h7, h8, h9, h10, h11⟩

theorem performReset_teardown_witness :
    (∃ t, performReset exampleEnv decodersGone = .ok t ∧
      t.mSource = none ∧ t.mRenderer = none ∧ t.mAudioDecoder = none ∧
      t.mVideoDecoder = none ∧ t.mStarted = false ∧
      t.mRendererGeneration = inc32 decodersGone.mRendererGeneration ∧
      t.mScanSourcesGeneration = inc32 decodersGone.mScanSourcesGeneration ∧
      t.mPollDurationGeneration = inc32 decodersGone.mPollDurationGeneration ∧
      t.mScanSourcesPending = false ∧
      sourceCalls t = sourceCalls decodersGone
        ++ (if decodersGone.mSource ≠ none then [.stop] else []) ∧
      clientNotifications t = clientNotifications decodersGone
        ++ delivered exampleEnv decodersGone .notifyResetComplete) ∧
    delivered exampleEnv decodersGone .notifyResetComplete = [.notifyResetComplete] ∧
    inc32 decodersGone.mRendererGeneration = decodersGone.mRendererGeneration + 1 :=
  ⟨(performReset_teardown exampleEnv decodersGone rfl rfl).1,
    (performReset_teardown exampleEnv decodersGone rfl rfl).2.1 rfl rfl,
    (performReset_teardown exampleEnv decodersGone rfl rfl).2.2 _ (by decide) (by decide)⟩

theorem collaboratorCalls_emit (e : Event) (s : Player) :
    collaboratorCalls (emit e s) = collaboratorCalls s ++
      (match e with
        | .source _ => [e]
        | .decoder _ _ => [e]
        | .renderer _ => [e]
        | _ => []) := by
  simp only [collaboratorCalls, emit, List.filter_append]
  congr 1
  cases e <;> simp [List.filter]

/-- Claim C17: two consecutive resets.  A completed teardown leaves source,
renderer, its looper and both decoders absent.  In such a state with both
statuses `NONE` and an empty queue, a second `resetAsync` makes no call on the
source, and the handling of the second `kWhatReset` returns: it executes the
flush and `performReset` again, makes no call on a source, a decoder or the
renderer, sends one more reset-complete notification to the driver
(`delivered`: when a driver is attached and can be promoted), and leaves the
session torn down. -/
theorem second_reset (env : Env) (s : Player)
    (hsrc : s.mSource = none) (hr : s.mRenderer = none) (hl : s.mRendererLooper = false)
    (ha : s.mAudioDecoder = none) (hv : s.mVideoDecoder = none)
    (hfa : s.mFlushingAudio = .NONE) (hfv : s.mFlushingVideo = .NONE)
    (hq : s.mDeferredActions = []) :
    (∀ env0 s0 t0, performReset env0 s0 = .ok t0 →
      t0.mSource = none ∧ t0.mRenderer = none ∧ t0.mRendererLooper = false ∧
      t0.mAudioDecoder = none ∧ t0.mVideoDecoder = none) ∧
    onApi env .resetAsync s = s ∧
    ∃ t, step env (.message .kWhatReset) s = .ok t ∧
      executed t = executed s ++ [.FlushDecoderAction .FLUSH_CMD_SHUTDOWN .FLUSH_CMD_SHUTDOWN,
        .SimpleAction .performReset] ∧
      collaboratorCalls t = collaboratorCalls s ∧
      clientNotifications t = clientNotifications s ++ delivered env s .notifyResetComplete ∧
      t.mSource = none ∧ t.mRenderer = none ∧ t.mAudioDecoder = none ∧
      t.mVideoDecoder = none ∧ t.mFlushingAudio = .NONE ∧ t.mFlushingVideo = .NONE ∧
      t.mDeferredActions = [] := by
  refine ⟨fun env0 s0 t0 h0 => ?_, by simp [onApi, hsrc], ?_⟩
  · obtain ⟨a0, v0⟩ := performReset_ok h0
    obtain ⟨t, h, h1, h2, h3, h4, h5, _⟩ := performReset_effect env0 s0 a0 v0
    rw [h0] at h
    cases h
    exact ⟨h1, h2, h3, h4, h5⟩
  · simp [step, onMessageReceived, pushAction, processDeferredActions, hq,
      processDeferredActionsLoop, nextDeferredAction, Action.execute, performDecoderFlush,
      performReset, hsrc, hr, hl, ha, hv, hfa, hfv, Except.bind, emit, cancelPollDuration,
      callDriver, delivered, executed, collaboratorCalls, clientNotifications]
    split_ifs <;> simp_all

theorem second_reset_witness :
    onApi exampleEnv .resetAsync afterReset = afterReset ∧
    ∃ t, step exampleEnv (.message .kWhatReset) afterReset = .ok t ∧
      collaboratorCalls t = collaboratorCalls afterReset ∧
      clientNotifications t = clientNotifications afterReset ++ [.notifyResetComplete] :=
  let h := second_reset exampleEnv afterReset rfl rfl rfl rfl rfl rfl rfl rfl
  let ⟨t, h1, _, h3, h4, _⟩ := h.2.2
  ⟨h.2.1, t, h1, h3, h4⟩
/-- Claim C19, as stated, fails: `performReset` returns the queue as it finds it,
here with the repositioning that stands behind the teardown; and in the playing
session a seek requested right after a reset is not dropped: after the teardown
its three steps are executed, and the client gets a seek-complete notification
after the reset-complete notification. -/
theorem performReset_leaves_queue :
    (∃ t, performReset exampleEnv teardownWithSeekBehind = .ok t ∧
      t.mDeferredActions = [.SeekAction 9 true]) ∧
    run resetThenSeek playing = .ok afterResetThenSeek ∧
    executed afterResetThenSeek = executed playing ++
      [.FlushDecoderAction .FLUSH_CMD_SHUTDOWN .FLUSH_CMD_SHUTDOWN, .SimpleAction .performReset,
        .FlushDecoderAction .FLUSH_CMD_FLUSH .FLUSH_CMD_FLUSH, .SeekAction 9 true,
        .ResumeDecoderAction true] ∧
    clientNotifications afterResetThenSeek = clientNotifications playing ++
      [.notifyResetComplete, .notifySeekComplete] :=
  ⟨⟨_, rfl, rfl⟩, rfl, by decide, by decide⟩

/-- Claim C19, amended: reset teardown does not touch the deferred-action queue.
`performReset` returns the queue unchanged; and when the teardown is at the head
of the queue with no flush in progress, `processDeferredActions` executes it and
then goes on with the actions enqueued behind it, in order, until the queue is
empty or one of them has started a flush. -/
theorem performReset_keeps_queue (env : Env) (s : Player) :
    (∀ t, performReset env s = .ok t → t.mDeferredActions = s.mDeferredActions) ∧
    (∀ rest t, s.mDeferredActions = .SimpleAction .performReset :: rest →
      s.mFlushingAudio = .NONE → s.mFlushingVideo = .NONE →
      processDeferredActions env s = .ok t →
      ∃ done, executed t = executed s ++ .SimpleAction .performReset :: done ∧
        rest = done ++ t.mDeferredActions ∧
        (t.mDeferredActions = [] ∨ t.mFlushingAudio ≠ .NONE ∨ t.mFlushingVideo ≠ .NONE)) := by
  constructor
  · intro t h
    obtain ⟨a0, v0⟩ := performReset_ok h
    obtain ⟨t1, h1, hrest⟩ := performReset_effect env s a0 v0
    rw [h] at h1
    cases h1
    exact hrest.2.2.2.2.2.2.2.2.2.2.2.2.1
  · intro rest t hq hfa hfv h
    obtain ⟨done, d1, d2, _, d4, d5, _⟩ := processDeferredActions_drained env s t h
    cases done with
    | nil =>
      have := d5 rfl
      subst this
      rcases d4 with d4 | d4 | d4
      · rw [hq] at d4; cases d4
      · exact absurd hfa d4
      · exact absurd hfv d4
    | cons a done =>
      rw [hq] at d1
      simp only [List.cons_append, List.cons.injEq] at d1
      obtain ⟨rfl, d1⟩ := d1
      exact ⟨done, d2, d1, d4⟩

theorem performReset_keeps_queue_witness :
    (∃ t, performReset exampleEnv teardownWithSeekBehind = .ok t) ∧
    ∃ done, executed teardownDrained = executed teardownQueued
        ++ .SimpleAction .performReset :: done ∧
      [Action.SeekAction 9 true] = done ++ teardownDrained.mDeferredActions ∧
      (teardownDrained.mDeferredActions = [] ∨ teardownDrained.mFlushingAudio ≠ .NONE
        ∨ teardownDrained.mFlushingVideo ≠ .NONE) :=
  ⟨⟨_, rfl⟩, (performReset_keeps_queue exampleEnv teardownQueued).2 _ teardownDrained
    rfl rfl rfl rfl⟩

/-! ## The second acknowledgement -/

theorem callsOn_emit (audio : Bool) (e : Event) (s : Player) :
    callsOn audio (emit e s) = callsOn audio s ++
      (match e with
        | .decoder a c => if a = audio then [c] else []
        | _ => []) := by
  simp only [callsOn, emit, List.filterMap_append]
  congr 1
  cases e <;> simp [List.filterMap]
  split_ifs <;> simp

/-- Claim C16 fails on the code.  In a streaming session only the video decoder
exists when the source pauses playback for buffering and the client resets the
player.  The reset flushes the video decoder for shutdown and queues the
teardown.  The source then reports the end of buffering, and `onResume`
instantiates the audio decoder (`audioDecoderStillNeeded` looks at the flush
status of the audio track only, which is `NONE`).  When the shutdown of the
video decoder completes, `performReset` is executed with the audio decoder
present, and its first `CHECK` fails. -/
theorem performReset_check_fails :
    run (streamStart ++ resetRaceBegin) (initial 10 []) = .ok resetRaceState ∧
    resetRaceState.mAudioDecoder = some ⟨1, false⟩ ∧
    resetRaceState.mFlushingAudio = .NONE ∧
    resetRaceState.mFlushingVideo = .SHUTTING_DOWN_DECODER ∧
    resetRaceState.mDeferredActions = [.SimpleAction .performReset] ∧
    step exampleEnv (.message (.kWhatVideoNotify 1 none .kWhatShutdownCompleted)) resetRaceState
      = .error .check ∧
    performReset exampleEnv resetRaceState = .error .check :=
  ⟨rfl, rfl, rfl, rfl, rfl, rfl, rfl⟩
/-! ## Error notifications -/

theorem errorsNotified_emit (e : Event) (s : Player) :
    errorsNotified (emit e s) = errorsNotified s ++
      (match e with
        | .driver (.notifyListener (.MEDIA_ERROR_UNKNOWN err)) => [err]
        | _ => []) := by
  simp only [errorsNotified, emit, List.filterMap_append]
  congr 1
  cases e with
  | driver c =>
    cases c with
    | notifyListener m => cases m <;> rfl
    | _ => rfl
  | _ => rfl

/-- The part of the state that decides which error notifications have reached
the client and whether a further one will. -/
theorem errs_emit_other (e : Event) (s : Player)
    (h : ∀ err, e ≠ .driver (.notifyListener (.MEDIA_ERROR_UNKNOWN err))) :
    errorsNotified (emit e s) = errorsNotified s := by
  rw [errorsNotified_emit]
  split
  · rename_i err
    exact absurd rfl (h err)
  · simp

theorem errorsNotified_notifyListener (env : Env) (msg : ListenerMsg) (s : Player) :
    errorsNotified (notifyListener env msg s) = errorsNotified s ++
      (match msg with
        | .MEDIA_ERROR_UNKNOWN err => if s.mDriver && env.driverAlive then [err] else []
        | _ => []) := by
  unfold notifyListener
  cases hd : s.mDriver <;> cases ha : env.driverAlive <;> cases msg <;>
    simp [errorsNotified_emit]

theorem execute_errs (env : Env) (a : Action) (s : Player) :
    okThen (a.execute env s) (fun t =>
      errorsNotified t = errorsNotified s ∧ t.mDriver = s.mDriver) := by
  cases a with
  | SeekAction T n =>
    simp [Action.execute, performSeek, thread_interrupt, thread_uninterrupt, emit,
      errorsNotified]
    split_ifs <;> simp
  | ResumeDecoderAction n =>
    simp [Action.execute, performResumeDecoders, finishResume, callDriver, emit,
      errorsNotified]
    split_ifs <;> simp
  | SetSurfaceAction w =>
    simp [Action.execute, performSetSurface, setVideoScalingMode, callDriver, emit,
      errorsNotified]
    split_ifs <;> simp
  | FlushDecoderAction x y =>
    simp only [Action.execute, okThen_ok]
    have h1 : ∀ a n (u : Player), errorsNotified (flushDecoder a n u) = errorsNotified u ∧
        (flushDecoder a n u).mDriver = u.mDriver := by
      intro a n u
      cases h : getDecoder a u <;> cases a <;> cases n <;>
        simp [flushDecoder, h, emit, errorsNotified] <;> split_ifs <;> simp
    simp only [performDecoderFlush]
    split_ifs <;> simp [h1]
  | PostMessageAction m =>
    simp [Action.execute, emit, errorsNotified]
  | SimpleAction f =>
    cases f with
    | performReset =>
      simp [Action.execute, performReset, thread_interrupt, thread_uninterrupt, emit,
        callDriver, cancelPollDuration, errorsNotified]
      split_ifs <;> simp
    | performScanSources =>
      simp [Action.execute, performScanSources, postScanSources, emit, errorsNotified]
      split_ifs <;> simp

theorem loop_errs (env : Env) (fuel : Nat) (s : Player) :
    okThen (processDeferredActionsLoop env fuel s) (fun t =>
      errorsNotified t = errorsNotified s ∧ t.mDriver = s.mDriver) := by
  induction fuel generalizing s with
  | zero => simp [processDeferredActionsLoop]
  | succ n ih =>
    unfold processDeferredActionsLoop
    cases hn : nextDeferredAction s with
    | none => simp
    | some p =>
      obtain ⟨a, s1⟩ := p
      obtain ⟨_, _, _, hs1⟩ := nextDeferredAction_some hn
      simp only [okThen_bind]
      refine okThen_mono (execute_errs env a _) fun t1 ht1 => ?_
      refine okThen_mono (ih t1) fun t ht => ?_
      have e1 : errorsNotified (emit (.actionExecute a) s1) = errorsNotified s := by
        rw [errs_emit_other _ _ (by simp), hs1]
        rfl
      have e2 : (emit (.actionExecute a) s1).mDriver = s.mDriver := by
        rw [hs1]
        rfl
      exact ⟨ht.1.trans (ht1.1.trans e1), ht.2.trans (ht1.2.trans e2)⟩

theorem finishFlushIfPossible_errs (env : Env) (s : Player) :
    okThen (finishFlushIfPossible env s) (fun t =>
      errorsNotified t = errorsNotified s ∧ t.mDriver = s.mDriver) := by
  by_cases h : s.mFlushingAudio.midFlush = true ∨ s.mFlushingVideo.midFlush = true
  · rw [finishFlushIfPossible_mid env s h]
    simp
  · push_neg at h
    rw [finishFlushIfPossible_terminal env s (by simpa using h.1) (by simpa using h.2)]
    exact okThen_mono (loop_errs env _ _) fun t ht => ⟨ht.1.trans rfl, ht.2.trans rfl⟩
/-! ## Decoder errors -/

/-- A current-generation decoder error is handled by `onDecoderError`, on the
state itself or on the state after the frame-rate auto-switch has been written. -/
theorem step_decoderError (env : Env) (audio : Bool) (reply : Option Nat) (err : Option Int)
    (s : Player) :
    ∃ s0, step env (decoderNotify audio (decoderGeneration audio s) reply (.kWhatError err)) s
        = onDecoderError env audio err s0 ∧
      (s0 = s ∨ s0 = { emit (.sysfsSetAutoSwitch s.mAutoSwitch) s with mAutoSwitch := -1 }) := by
  cases audio
  · by_cases h : s.mEnableFrameRate = true ∧ s.mAutoSwitch > 0
    · exact ⟨_, by simp [step, decoderNotify, decoderGeneration, onMessageReceived,
        onDecoderNotify, h], Or.inr rfl⟩
    · exact ⟨s, by simp [step, decoderNotify, decoderGeneration, onMessageReceived,
        onDecoderNotify, h], Or.inl rfl⟩
  · exact ⟨s, by simp [step, decoderNotify, decoderGeneration, onMessageReceived,
      onDecoderNotify], Or.inl rfl⟩

theorem onDecoderError_errs (env : Env) (audio : Bool) (err : Option Int) (s : Player)
    (hd : ¬ errorDropped err s) :
    okThen (onDecoderError env audio err s) (fun t =>
      errorsNotified t = errorsNotified s ++
        (if s.mDriver && env.driverAlive then [decoderErrorCode err] else [])) := by
  unfold errorDropped at hd
  unfold onDecoderError
  simp only [hd, if_false, okThen_bind]
  have key : ∀ (x : Except Abort Player),
      okThen x (fun t => errorsNotified t = errorsNotified s ∧ t.mDriver = s.mDriver) →
      okThen x (fun a => okThen (Except.ok (notifyListener env
        (.MEDIA_ERROR_UNKNOWN (decoderErrorCode err)) a) : Except Abort Player) (fun t =>
          errorsNotified t = errorsNotified s ++
            (if s.mDriver && env.driverAlive then [decoderErrorCode err] else []))) := by
    intro x hx
    refine okThen_mono hx fun t ht => ?_
    simp only [okThen_ok, errorsNotified_notifyListener, ht.1, ht.2]
  apply key
  cases hf : flushing audio s
  · refine okThen_mono (loop_errs env _ _) fun t ht => ⟨ht.1.trans rfl, ht.2.trans rfl⟩
  · cases audio <;> simp [setFlushing, errorsNotified]
  · simp
  · simp
  · cases audio <;> simp [setFlushing, emit, errorsNotified, getDecoder] <;>
      split_ifs <;> simp [errorsNotified]
  · exact finishFlushIfPossible_errs env s
theorem performDecoderFlush_queue (x y : FlushCommand) (s : Player) :
    (performDecoderFlush x y s).mDeferredActions = s.mDeferredActions := by
  have h1 : ∀ a n (u : Player), (flushDecoder a n u).mDeferredActions = u.mDeferredActions := by
    intro a n u
    cases h : getDecoder a u <;> cases a <;> simp [flushDecoder, h, emit] 
  simp only [performDecoderFlush]
  split_ifs <;> simp [h1]

/-- With both statuses `NONE` and an empty queue, a pushed flush action is
executed at once and the queue is empty again. -/
theorem drain_flush (env : Env) (x y : FlushCommand) (s : Player)
    (hq : s.mDeferredActions = []) (ha : s.mFlushingAudio = .NONE)
    (hv : s.mFlushingVideo = .NONE) :
    processDeferredActions env (pushAction (.FlushDecoderAction x y) s) =
      .ok (performDecoderFlush x y (emit (.actionExecute (.FlushDecoderAction x y)) s)) := by
  have h1 : nextDeferredAction (pushAction (.FlushDecoderAction x y) s)
      = some (.FlushDecoderAction x y, s) := by
    cases s
    simp_all [nextDeferredAction, pushAction]
  have h2 : nextDeferredAction (performDecoderFlush x y
      (emit (.actionExecute (.FlushDecoderAction x y)) s)) = none := by
    rw [nextDeferredAction_none]
    left
    rw [performDecoderFlush_queue]
    simpa [emit] using hq
  have h3 : (pushAction (.FlushDecoderAction x y) s).mDeferredActions.length + 1 = 1 + 1 := by
    simp [pushAction, hq]
  unfold processDeferredActions
  rw [h3]
  unfold processDeferredActionsLoop
  rw [h1]
  simp only [Action.execute, Except.bind]
  unfold processDeferredActionsLoop
  rw [h2]
theorem onDecoderError_returns (env : Env) (audio : Bool) (err : Option Int) (s : Player) :
    ((flushing audio s).midFlush = true → ∃ t, onDecoderError env audio err s = .ok t) ∧
    (flushing audio s = .FLUSHED → getDecoder audio s ≠ none →
      ∃ t, onDecoderError env audio err s = .ok t) ∧
    (flushing audio s = .NONE ∨ flushing audio s = .SHUT_DOWN → s.mDeferredActions = [] →
      ∃ t, onDecoderError env audio err s = .ok t) := by
  unfold onDecoderError
  by_cases hd : s.mNativeWindow ≠ none ∧ s.mNativeWindow ≠ s.mNewSurface
      ∧ decoderErrorCode err = -19
  · rw [if_pos hd]
    exact ⟨fun _ => ⟨s, rfl⟩, fun _ _ => ⟨s, rfl⟩, fun _ _ => ⟨s, rfl⟩⟩
  · rw [if_neg hd]
    refine ⟨?_, ?_, ?_⟩
    · intro hm
      cases hf : flushing audio s <;> simp_all [FlushStatus.midFlush, Except.bind]
    · intro hf hdec
      simp [hf, hdec, Except.bind]
      split_ifs <;> simp_all [getDecoder, emit]
    · intro hf hq
      rcases hf with hf | hf
      · simp only [hf]
        by_cases hg : s.mFlushingAudio = .NONE ∧ s.mFlushingVideo = .NONE
        · rw [drain_flush env _ _ s hq hg.1 hg.2]
          exact ⟨_, rfl⟩
        · rw [processDeferredActions_closed env (pushAction _ s) (Or.inr (not_and_or.1 hg))]
          exact ⟨_, rfl⟩
      · simp only [hf]
        by_cases hm : s.mFlushingAudio.midFlush = true ∨ s.mFlushingVideo.midFlush = true
        · rw [finishFlushIfPossible_mid env s hm]
          exact ⟨_, rfl⟩
        · push_neg at hm
          rw [finishFlushIfPossible_terminal env s (by simpa using hm.1) (by simpa using hm.2),
            processDeferredActions_closed env _ (Or.inl (by simpa [clearFlushComplete] using hq))]
          exact ⟨_, rfl⟩
/-- Claim C15, counterexample: in the playing session, whose native window was
set once (so `mNewSurface` is still unset), a current-generation error `-19` of
the video decoder is handled without any notification: the state, and with it
the list of error notifications, is unchanged. -/
theorem decoder_error_dropped :
    playing.mVideoDecoderGeneration = 1 ∧ playing.mDriver = true ∧
    exampleEnv.driverAlive = true ∧ playing.mFlushingVideo = .NONE ∧
    decoderErrorCode (some (-19)) = -19 ∧
    step exampleEnv (decoderNotify false 1 none (.kWhatError (some (-19)))) playing
      = .ok playing ∧
    errorsNotified playing = [] :=
  ⟨rfl, rfl, rfl, rfl, rfl, rfl, rfl⟩

/-! ## Between flush cycles -/

theorem drained_settled {s t : Player} (h : Drained s t) (hs : Settled (core s)) :
    Settled (core t) := by
  obtain ⟨done, _, _, _, _, h5, h6⟩ := h
  by_cases hd : done = []
  · rw [h5 hd]
    exact hs
  · obtain ⟨_, _, ha, hv, _⟩ := h6 hd
    unfold FlushStatus.freshlyFlushing at ha hv
    unfold Settled
    simp only [core]
    rcases ha with ha | ha | ha <;> rcases hv with hv | hv | hv <;>
      simp [ha, hv, FlushStatus.midFlush]

theorem finishFlushIfPossible_settled (env : Env) (s : Player) :
    okThen (finishFlushIfPossible env s) (fun t => Settled (core t)) := by
  by_cases h : s.mFlushingAudio.midFlush = true ∨ s.mFlushingVideo.midFlush = true
  · rw [finishFlushIfPossible_mid env s h]
    simp only [okThen_ok]
    exact Or.inr h
  · push_neg at h
    rw [finishFlushIfPossible_terminal env s (by simpa using h.1) (by simpa using h.2)]
    refine okThen_mono (processDeferredActions_drained env _) fun t ht => ?_
    exact drained_settled ht (Or.inl ⟨rfl, rfl⟩)

theorem settled_congr {c d : FlushCore} (h : c = d) (hs : Settled d) : Settled c := h ▸ hs

theorem rel_settled (env : Env) (sc : Script) (s t : Player) (h : sc.Rel env s t)
    (hs : Settled (core s)) : Settled (core t) := by
  cases sc with
  | frame =>
    simp only [Script.Rel] at h
    rw [h]
    exact hs
  | pushDrain actions =>
    obtain ⟨s1, t1, h1, h2, h3⟩ := h
    rw [h3]
    refine drained_settled (processDeferredActions_drained env s1 t1 h2) ?_
    rw [h1]
    exact hs
  | ackFinish audio isDecoder =>
    obtain ⟨s1, s2, t1, _, _, h3, h4⟩ := h
    rw [h4]
    exact finishFlushIfPossible_settled env s2 t1 h3
  | errorUpgrade audio =>
    obtain ⟨_, h2⟩ := h
    rw [h2]
    cases audio <;> simp [Settled, FlushCore.setFlushing, FlushStatus.midFlush]
  | errorShutdown audio =>
    obtain ⟨_, h2⟩ := h
    rw [h2]
    cases audio <;> simp [Settled, FlushCore.setFlushing, FlushStatus.midFlush]
  | errorFinish =>
    obtain ⟨s1, t1, _, h2, h3⟩ := h
    rw [h3]
    exact finishFlushIfPossible_settled env s1 t1 h2
  | shutdownCompleted audio =>
    obtain ⟨_, s1, t1, _, h2, h3⟩ := h
    rw [h3]
    exact finishFlushIfPossible_settled env s1 t1 h2

/-- Between the handling of two messages a track rests in `FLUSHED` or
`SHUT_DOWN` only while the other track is mid-flush. -/
theorem reachable_settled {s : Player} (h : Reachable s) : Settled (core s) := by
  induction h with
  | init w th => exact Or.inl ⟨rfl, rfl⟩
  | step env input _ hstep ih => exact rel_settled env _ _ _ (step_script env input _ _ hstep) ih
theorem onDecoderError_converging (env : Env) (audio : Bool) (err : Option Int) (u : Player)
    (hd : ¬ errorDropped err u)
    (hf : flushing audio u = .FLUSHING_DECODER_SHUTDOWN ∨
      flushing audio u = .SHUTTING_DOWN_DECODER) :
    ∃ t, onDecoderError env audio err u = .ok t ∧
      t.mFlushingAudio = u.mFlushingAudio ∧ t.mFlushingVideo = u.mFlushingVideo ∧
      t.mAudioDecoder = u.mAudioDecoder ∧ t.mVideoDecoder = u.mVideoDecoder ∧
      t.mDeferredActions = u.mDeferredActions ∧ t.mFlushComplete = u.mFlushComplete ∧
      (∀ a, callsOn a t = callsOn a u) := by
  unfold errorDropped at hd
  unfold onDecoderError
  rw [if_neg hd]
  rcases hf with hf | hf <;>
    simp [hf, Except.bind, notifyListener, callsOn, emit] <;>
    split_ifs <;> simp [callsOn]

theorem onDecoderError_flushed (env : Env) (audio : Bool) (err : Option Int) (u : Player)
    (hd : ¬ errorDropped err u) (hf : flushing audio u = .FLUSHED)
    (hdec : getDecoder audio u ≠ none) :
    ∃ t, onDecoderError env audio err u = .ok t ∧
      callsOn audio t = callsOn audio u ++ [.initiateShutdown] ∧
      flushing audio t = .SHUTTING_DOWN_DECODER ∧
      flushing (!audio) t = flushing (!audio) u ∧
      callsOn (!audio) t = callsOn (!audio) u ∧
      t.mAudioDecoder = u.mAudioDecoder ∧ t.mVideoDecoder = u.mVideoDecoder ∧
      t.mDeferredActions = u.mDeferredActions ∧ t.mFlushComplete = u.mFlushComplete := by
  unfold errorDropped at hd
  unfold onDecoderError
  rw [if_neg hd]
  cases audio <;>
    simp_all [Except.bind, notifyListener, callsOn, emit, getDecoder, flushing, setFlushing] <;>
    split_ifs <;> simp_all [callsOn]

theorem onDecoderError_shutDown (env : Env) (audio : Bool) (err : Option Int) (u : Player)
    (hd : ¬ errorDropped err u) (hf : flushing audio u = .SHUT_DOWN) :
    onDecoderError env audio err u = (finishFlushIfPossible env u).bind fun t =>
      .ok (notifyListener env (.MEDIA_ERROR_UNKNOWN (decoderErrorCode err)) t) := by
  unfold errorDropped at hd
  unfold onDecoderError
  rw [if_neg hd]
  simp only [hf]
/-- The state on which a decoder notification is handled differs from the state
before it at most by the written frame-rate auto-switch: the observations used
below coincide. -/
theorem autoSwitch_frame {s s0 : Player}
    (h : s0 = s ∨ s0 = { emit (.sysfsSetAutoSwitch s.mAutoSwitch) s with mAutoSwitch := -1 }) :
    core s0 = core s ∧ (∀ a, callsOn a s0 = callsOn a s) ∧
      (∀ err, errorDropped err s0 ↔ errorDropped err s) ∧
      (∀ a, flushing a s0 = flushing a s) ∧ (∀ a, getDecoder a s0 = getDecoder a s) ∧
      s0.mRenderer = s.mRenderer ∧ s0.mDriver = s.mDriver ∧
      clientNotifications s0 = clientNotifications s ∧
      s0.mAudioDecoderGeneration = s.mAudioDecoderGeneration ∧
      s0.mVideoDecoderGeneration = s.mVideoDecoderGeneration ∧
      s0.mResumePending = s.mResumePending := by
  rcases h with rfl | rfl
  · simp
  · refine ⟨?_, ?_, ?_, ?_, ?_, rfl, rfl, ?_, rfl, rfl, rfl⟩
    · simp [core, executed, flushLogs, emit]
    · intro a
      simp [callsOn, emit]
    · intro err
      simp [errorDropped, emit]
    · intro a
      cases a <;> simp [flushing, emit]
    · intro a
      cases a <;> simp [getDecoder, emit]
    · simp [clientNotifications, emit]

/-- Claim C14, counterexample: in the session whose audio track is `FLUSHED`
(video still flushing), a current-generation error `-19` of the audio decoder
leaves the state unchanged: the status stays `FLUSHED` and no `initiateShutdown`
is called on the decoder. -/
theorem flushed_error_dropped :
    audioFlushed.mFlushingAudio = .FLUSHED ∧ audioFlushed.mAudioDecoder = some ⟨1, false⟩ ∧
    audioFlushed.mAudioDecoderGeneration = 1 ∧
    step exampleEnv (decoderNotify true 1 none (.kWhatError (some (-19)))) audioFlushed
      = .ok audioFlushed ∧
    DecoderCall.initiateShutdown ∉ callsOn true audioFlushed :=
  ⟨rfl, rfl, rfl, rfl, by decide⟩

/-- Claim C14, amended: on a current-generation decoder error that is not dropped
(the code is not `-19`, or no native window is set, or the surface of the window
is `mNewSurface`): with the track in `FLUSHING_DECODER_SHUTDOWN` or
`SHUTTING_DOWN_DECODER` the handling returns and no status, decoder, queue entry,
matrix entry or decoder call changes; with the track `FLUSHED` (its decoder
present) `initiateShutdown` is called on the decoder of the track, once, and the
status becomes `SHUTTING_DOWN_DECODER`, the other track being untouched; with
the track in `SHUT_DOWN` the handling is `finishFlushIfPossible` followed by the
notification, and in every reachable state it returns, leaving statuses, matrix
and queue unchanged. -/
theorem decoder_error_by_status (env : Env) (audio : Bool) (reply : Option Nat)
    (err : Option Int) (s : Player) (hd : ¬ errorDropped err s) :
    (flushing audio s = .FLUSHING_DECODER_SHUTDOWN ∨
        flushing audio s = .SHUTTING_DOWN_DECODER →
      ∃ t, step env (decoderNotify audio (decoderGeneration audio s) reply
          (.kWhatError err)) s = .ok t ∧
        t.mFlushingAudio = s.mFlushingAudio ∧ t.mFlushingVideo = s.mFlushingVideo ∧
        t.mAudioDecoder = s.mAudioDecoder ∧ t.mVideoDecoder = s.mVideoDecoder ∧
        t.mDeferredActions = s.mDeferredActions ∧ t.mFlushComplete = s.mFlushComplete ∧
        (∀ a, callsOn a t = callsOn a s)) ∧
    (flushing audio s = .FLUSHED → getDecoder audio s ≠ none →
      ∃ t, step env (decoderNotify audio (decoderGeneration audio s) reply
          (.kWhatError err)) s = .ok t ∧
        callsOn audio t = callsOn audio s ++ [.initiateShutdown] ∧
        flushing audio t = .SHUTTING_DOWN_DECODER ∧
        flushing (!audio) t = flushing (!audio) s ∧
        callsOn (!audio) t = callsOn (!audio) s ∧
        t.mAudioDecoder = s.mAudioDecoder ∧ t.mVideoDecoder = s.mVideoDecoder ∧
        t.mDeferredActions = s.mDeferredActions ∧ t.mFlushComplete = s.mFlushComplete) ∧
    (flushing audio s = .SHUT_DOWN →
      (∃ s0, core s0 = core s ∧
        step env (decoderNotify audio (decoderGeneration audio s) reply (.kWhatError err)) s
          = (finishFlushIfPossible env s0).bind fun t =>
            .ok (notifyListener env (.MEDIA_ERROR_UNKNOWN (decoderErrorCode err)) t)) ∧
      (Reachable s →
        ∃ t, step env (decoderNotify audio (decoderGeneration audio s) reply
          (.kWhatError err)) s = .ok t ∧ core t = core s)) := by
  obtain ⟨s0, hstep, hs0⟩ := step_decoderError env audio reply err s
  obtain ⟨fc, fcalls, fdrop, ffl, fdec, -, -, -, -, -, -⟩ := autoSwitch_frame hs0
  have hd0 : ¬ errorDropped err s0 := fun h => hd ((fdrop err).1 h)
  have hcore := congrArg FlushCore.mFlushingAudio fc
  have hcore2 := congrArg FlushCore.mFlushingVideo fc
  have hcore3 := congrArg FlushCore.mDeferredActions fc
  have hcore4 := congrArg FlushCore.mFlushComplete fc
  have hda := fdec true
  have hdv := fdec false
  simp only [core] at hcore hcore2 hcore3 hcore4
  simp only [getDecoder, if_true, Bool.false_eq_true, if_false] at hda hdv
  rw [hstep]
  refine ⟨?_, ?_, ?_⟩
  · intro hf
    rw [← ffl] at hf
    obtain ⟨t, h1, h2, h3, h4, h5, h6, h7, h8⟩ := onDecoderError_converging env audio err s0 hd0 hf
    exact ⟨t, h1, h2.trans hcore, h3.trans hcore2, h4.trans hda, h5.trans hdv, h6.trans hcore3,
      h7.trans hcore4, fun a => (h8 a).trans (fcalls a)⟩
  · intro hf hdec
    rw [← ffl] at hf
    rw [← fdec] at hdec
    obtain ⟨t, h1, h2, h3, h4, h5, h6, h7, h8, h9⟩ :=
      onDecoderError_flushed env audio err s0 hd0 hf hdec
    exact ⟨t, h1, h2.trans (by rw [fcalls]), h3, h4.trans (ffl _), h5.trans (fcalls _),
      h6.trans hda, h7.trans hdv, h8.trans hcore3, h9.trans hcore4⟩
  · intro hf
    rw [← ffl] at hf
    rw [onDecoderError_shutDown env audio err s0 hd0 hf]
    refine ⟨⟨s0, fc, rfl⟩, fun hr => ?_⟩
    have hset := reachable_settled hr
    rw [← fc] at hset
    have hmid : s0.mFlushingAudio.midFlush = true ∨ s0.mFlushingVideo.midFlush = true := by
      rcases hset with ⟨h1, h2⟩ | h
      · cases audio <;> simp_all [flushing, core]
      · exact h
    rw [finishFlushIfPossible_mid env s0 hmid]
    exact ⟨_, rfl, by simp [fc]⟩

theorem decoder_error_by_status_witness :
    ¬ errorDropped (some (-5)) audioFlushed ∧
    ∃ t, step exampleEnv (decoderNotify true (decoderGeneration true audioFlushed) none
        (.kWhatError (some (-5)))) audioFlushed = .ok t ∧
      callsOn true t = callsOn true audioFlushed ++ [.initiateShutdown] ∧
      flushing true t = .SHUTTING_DOWN_DECODER ∧
      flushing (!true) t = flushing (!true) audioFlushed ∧
      callsOn (!true) t = callsOn (!true) audioFlushed ∧
      t.mAudioDecoder = audioFlushed.mAudioDecoder ∧
      t.mVideoDecoder = audioFlushed.mVideoDecoder ∧
      t.mDeferredActions = audioFlushed.mDeferredActions ∧
      t.mFlushComplete = audioFlushed.mFlushComplete :=
  ⟨by decide,
    (decoder_error_by_status exampleEnv true none (some (-5)) audioFlushed (by decide)).2.1
      rfl (by decide)⟩

/-! ## Acknowledgements of a shutdown flush -/

theorem handleFlushComplete_shutdown (a d : Bool) (u : Player)
    (hf : flushing a u = .FLUSHING_DECODER_SHUTDOWN) (hdec : getDecoder a u ≠ none) :
    ∃ w, handleFlushComplete a d u = .ok w ∧
      w.mFlushComplete = u.mFlushComplete.set a d true ∧
      flushing (!a) w = flushing (!a) u ∧ callsOn (!a) w = callsOn (!a) u ∧
      w.mAudioDecoder = u.mAudioDecoder ∧ w.mVideoDecoder = u.mVideoDecoder ∧
      w.mAudioDecoderGeneration = u.mAudioDecoderGeneration ∧
      w.mVideoDecoderGeneration = u.mVideoDecoderGeneration ∧
      w.mRendererGeneration = u.mRendererGeneration ∧
      w.mDeferredActions = u.mDeferredActions ∧ executed w = executed u ∧
      clientNotifications w = clientNotifications u ∧
      (flushing a w).midFlush = true ∧
      (u.mFlushComplete.get a (!d) = true →
        flushing a w = .SHUTTING_DOWN_DECODER ∧
        callsOn a w = callsOn a u ++ [.initiateShutdown]) ∧
      (u.mFlushComplete.get a (!d) = false →
        flushing a w = .FLUSHING_DECODER_SHUTDOWN ∧ callsOn a w = callsOn a u) := by
  cases hm : u.mFlushComplete.get a (!d) <;> cases a <;> cases d <;>
    simp_all [handleFlushComplete, FlushComplete.get, FlushComplete.set, flushing, setFlushing,
      emit, getDecoder, callsOn, executed, clientNotifications, FlushStatus.midFlush] <;>
    split_ifs <;> simp

/-- A current-generation flush acknowledgement is handled by `handleFlushComplete`
followed by `finishFlushIfPossible`, on the state itself or on the state after
the frame-rate auto-switch has been written. -/
theorem step_ackMsg (env : Env) (a d : Bool) (u : Player) :
    ∃ u0, step env (ackMsg u a d) u = (handleFlushComplete a d u0).bind
        (finishFlushIfPossible env) ∧
      (u0 = u ∨ u0 = { emit (.sysfsSetAutoSwitch u.mAutoSwitch) u with mAutoSwitch := -1 }) := by
  cases d
  · exact ⟨u, by cases a <;> simp [step, ackMsg, onMessageReceived, onRendererNotify],
      Or.inl rfl⟩
  · cases a
    · by_cases h : u.mEnableFrameRate = true ∧ u.mAutoSwitch > 0
      · exact ⟨_, by simp [step, ackMsg, onMessageReceived, onDecoderNotify, h], Or.inr rfl⟩
      · exact ⟨u, by simp [step, ackMsg, onMessageReceived, onDecoderNotify, h], Or.inl rfl⟩
    · exact ⟨u, by simp [step, ackMsg, onMessageReceived, onDecoderNotify], Or.inl rfl⟩

/-- A flush acknowledgement for a track in `FLUSHING_DECODER_SHUTDOWN` whose
decoder exists: the acknowledgement is recorded; when the other acknowledgement
of the track is recorded already the status becomes `SHUTTING_DOWN_DECODER` and
`initiateShutdown` is called on the decoder, otherwise the status stays and no
call is made; the other track is not touched. -/
theorem shutdown_ack (env : Env) (a d : Bool) (u : Player)
    (hf : flushing a u = .FLUSHING_DECODER_SHUTDOWN) (hdec : getDecoder a u ≠ none) :
    ∃ w, step env (ackMsg u a d) u = .ok w ∧
      w.mFlushComplete = u.mFlushComplete.set a d true ∧
      flushing (!a) w = flushing (!a) u ∧ callsOn (!a) w = callsOn (!a) u ∧
      w.mAudioDecoder = u.mAudioDecoder ∧ w.mVideoDecoder = u.mVideoDecoder ∧
      w.mAudioDecoderGeneration = u.mAudioDecoderGeneration ∧
      w.mVideoDecoderGeneration = u.mVideoDecoderGeneration ∧
      w.mRendererGeneration = u.mRendererGeneration ∧
      w.mDeferredActions = u.mDeferredActions ∧ executed w = executed u ∧
      clientNotifications w = clientNotifications u ∧
      (u.mFlushComplete.get a (!d) = true →
        flushing a w = .SHUTTING_DOWN_DECODER ∧
        callsOn a w = callsOn a u ++ [.initiateShutdown]) ∧
      (u.mFlushComplete.get a (!d) = false →
        flushing a w = .FLUSHING_DECODER_SHUTDOWN ∧ callsOn a w = callsOn a u) := by
  obtain ⟨u0, hstep, hu0⟩ := step_ackMsg env a d u
  obtain ⟨fc, fcalls, -, ffl, fdec, -, -, fcn, fga, fgv, -⟩ := autoSwitch_frame hu0
  have fm := congrArg FlushCore.mFlushComplete fc
  have fq := congrArg FlushCore.mDeferredActions fc
  have fe := congrArg FlushCore.executed fc
  have fda := fdec true
  have fdv := fdec false
  have fgr : u0.mRendererGeneration = u.mRendererGeneration := by
    rcases hu0 with rfl | rfl <;> rfl
  simp only [core] at fm fq fe
  simp only [getDecoder, if_true, Bool.false_eq_true, if_false] at fda fdv
  rw [← ffl] at hf
  rw [← fdec] at hdec
  obtain ⟨w, h1, h2, h3, h4, h5, h6, h7, h8, h9, h10, h11, h12, h13, h14, h15⟩ :=
    handleFlushComplete_shutdown a d u0 hf hdec
  have hmid : w.mFlushingAudio.midFlush = true ∨ w.mFlushingVideo.midFlush = true := by
    cases a
    · exact Or.inr (by simpa [flushing] using h13)
    · exact Or.inl (by simpa [flushing] using h13)
  refine ⟨w, ?_, h2.trans (by rw [fm]), h3.trans (ffl _), h4.trans (fcalls _), h5.trans fda,
    h6.trans fdv, h7.trans fga, h8.trans fgv, h9.trans fgr, h10.trans fq, h11.trans fe,
    h12.trans fcn, ?_, ?_⟩
  · rw [hstep, h1]
    exact finishFlushIfPossible_mid env w hmid
  · intro hm
    rw [← fm] at hm
    exact ⟨(h14 hm).1, (h14 hm).2.trans (by rw [fcalls])⟩
  · intro hm
    rw [← fm] at hm
    exact ⟨(h15 hm).1, (h15 hm).2.trans (fcalls _)⟩
theorem onDecoderError_upgrade (env : Env) (audio : Bool) (err : Option Int) (u : Player)
    (hd : ¬ errorDropped err u) (hf : flushing audio u = .FLUSHING_DECODER) :
    ∃ t, onDecoderError env audio err u = .ok t ∧
      flushing audio t = .FLUSHING_DECODER_SHUTDOWN ∧
      flushing (!audio) t = flushing (!audio) u ∧
      t.mDeferredActions = u.mDeferredActions ∧ t.mFlushComplete = u.mFlushComplete ∧
      executed t = executed u ∧ (∀ a, callsOn a t = callsOn a u) ∧
      (∀ a, getDecoder a t = getDecoder a u) := by
  unfold errorDropped at hd
  unfold onDecoderError
  rw [if_neg hd]
  cases audio <;>
    simp_all [Except.bind, notifyListener, callsOn, emit, getDecoder, flushing, setFlushing,
      executed] <;>
    split_ifs <;> simp_all [callsOn, executed]

/-- Claim C13, counterexample: in the session after a seek request, whose audio
track is in `FLUSHING_DECODER`, a current-generation error `-19` of the audio
decoder leaves the state unchanged: the status stays `FLUSHING_DECODER`. -/
theorem flushing_error_dropped :
    seeking.mFlushingAudio = .FLUSHING_DECODER ∧ seeking.mAudioDecoderGeneration = 1 ∧
    step exampleEnv (decoderNotify true 1 none (.kWhatError (some (-19)))) seeking
      = .ok seeking :=
  ⟨rfl, rfl, rfl⟩

/-- Claim C13, amended: for a track in `FLUSHING_DECODER`, a current-generation
decoder error that is not dropped (the code is not `-19`, or no native window is
set, or the surface of the window is `mNewSurface`) changes the status to
`FLUSHING_DECODER_SHUTDOWN` and leaves the queue, the completion matrix, the
status of the other track, the execution log and the calls on both decoders
unchanged.  Afterwards (the decoder of the track existing) each acknowledgement
for the track is recorded; the one that completes the pair makes the status
`SHUTTING_DOWN_DECODER` and calls `initiateShutdown` on the decoder, the only
call since the error, with nothing enqueued or executed. -/
theorem error_while_flushing (env : Env) (audio : Bool) (reply : Option Nat)
    (err : Option Int) (s : Player) (hd : ¬ errorDropped err s)
    (hf : flushing audio s = .FLUSHING_DECODER) :
    ∃ t, step env (decoderNotify audio (decoderGeneration audio s) reply (.kWhatError err)) s
        = .ok t ∧
      flushing audio t = .FLUSHING_DECODER_SHUTDOWN ∧
      flushing (!audio) t = flushing (!audio) s ∧
      t.mDeferredActions = s.mDeferredActions ∧ t.mFlushComplete = s.mFlushComplete ∧
      executed t = executed s ∧ (∀ a, callsOn a t = callsOn a s) ∧
      (∀ a, getDecoder a t = getDecoder a s) ∧
      (getDecoder audio s ≠ none → ∀ (env2 : Env) (d : Bool),
        ∃ w, step env2 (ackMsg t audio d) t = .ok w ∧
          w.mFlushComplete = s.mFlushComplete.set audio d true ∧
          flushing (!audio) w = flushing (!audio) s ∧
          w.mDeferredActions = s.mDeferredActions ∧ executed w = executed s ∧
          (s.mFlushComplete.get audio (!d) = true →
            flushing audio w = .SHUTTING_DOWN_DECODER ∧
            callsOn audio w = callsOn audio s ++ [.initiateShutdown]) ∧
          (s.mFlushComplete.get audio (!d) = false →
            flushing audio w = .FLUSHING_DECODER_SHUTDOWN ∧
            callsOn audio w = callsOn audio s ∧
            ∀ env3 : Env, ∃ x, step env3 (ackMsg w audio (!d)) w = .ok x ∧
              flushing audio x = .SHUTTING_DOWN_DECODER ∧
              callsOn audio x = callsOn audio s ++ [.initiateShutdown] ∧
              flushing (!audio) x = flushing (!audio) s ∧
              x.mDeferredActions = s.mDeferredActions ∧ executed x = executed s)) := by
  obtain ⟨s0, hstep, hs0⟩ := step_decoderError env audio reply err s
  obtain ⟨fc, fcalls, fdrop, ffl, fdec, -, -, -, -, -, -⟩ := autoSwitch_frame hs0
  have fm := congrArg FlushCore.mFlushComplete fc
  have fq := congrArg FlushCore.mDeferredActions fc
  have fe := congrArg FlushCore.executed fc
  simp only [core] at fm fq fe
  rw [← ffl] at hf
  obtain ⟨t, h1, h2, h3, h4, h5, h6, h7, h8⟩ :=
    onDecoderError_upgrade env audio err s0 (fun h => hd ((fdrop err).1 h)) hf
  have tq := h4.trans fq
  have tm := h5.trans fm
  have te := h6.trans fe
  have tcalls : ∀ a, callsOn a t = callsOn a s := fun a => (h7 a).trans (fcalls a)
  have tfl := h3.trans (ffl _)
  refine ⟨t, hstep.trans h1, h2, tfl, tq, tm, te, tcalls,
    fun a => (h8 a).trans (fdec a), fun hdec env2 d => ?_⟩
  have hdt : getDecoder audio t ≠ none := by
    rw [h8, fdec]
    exact hdec
  obtain ⟨w, w1, w2, w3, w4, w5, w6, w7, w8, w9, w10, w11, w12, w13, w14⟩ :=
    shutdown_ack env2 audio d t h2 hdt
  refine ⟨w, w1, w2.trans (by rw [tm]), w3.trans tfl, w10.trans tq, w11.trans te, ?_, ?_⟩
  · intro hm
    rw [← tm] at hm
    exact ⟨(w13 hm).1, (w13 hm).2.trans (by rw [tcalls])⟩
  · intro hm
    rw [← tm] at hm
    obtain ⟨wf, wc⟩ := w14 hm
    refine ⟨wf, wc.trans (tcalls _), fun env3 => ?_⟩
    have hdw : getDecoder audio w ≠ none := by
      cases audio
      · simpa [getDecoder, w6] using hdt
      · simpa [getDecoder, w5] using hdt
    obtain ⟨x, x1, x2, x3, x4, x5, x6, x7, x8, x9, x10, x11, x12, x13, x14⟩ :=
      shutdown_ack env3 audio (!d) w wf hdw
    have hrec : w.mFlushComplete.get audio (!(!d)) = true := by
      rw [w2, FlushComplete.get_set]
      simp
    refine ⟨x, x1, (x13 hrec).1, ?_, (x3.trans w3).trans tfl, (x10.trans w10).trans tq,
      (x11.trans w11).trans te⟩
    rw [(x13 hrec).2, wc, tcalls]

theorem error_while_flushing_witness :
    ¬ errorDropped (some (-5)) seeking ∧
    ∃ t, step exampleEnv (decoderNotify false (decoderGeneration false seeking) none
        (.kWhatError (some (-5)))) seeking = .ok t ∧
      flushing false t = .FLUSHING_DECODER_SHUTDOWN ∧
      flushing true t = .FLUSHING_DECODER ∧
      t.mDeferredActions = [.SeekAction 5 true, .ResumeDecoderAction true] ∧
      ∃ w, step exampleEnv (ackMsg t false true) t = .ok w ∧
        flushing false w = .FLUSHING_DECODER_SHUTDOWN ∧
        ∃ x, step exampleEnv (ackMsg w false false) w = .ok x ∧
          flushing false x = .SHUTTING_DOWN_DECODER ∧
          callsOn false x = callsOn false seeking ++ [.initiateShutdown] :=
  let ⟨t, h1, h2, h3, h4, _, _, _, _, h9⟩ :=
    error_while_flushing exampleEnv false none (some (-5)) seeking (by decide) rfl
  let ⟨w, w1, _, _, _, _, _, w7⟩ := h9 (by decide) exampleEnv true
  let ⟨x, x1, x2, x3, _⟩ := (w7 rfl).2.2 exampleEnv
  ⟨by decide, t, h1, h2, h3, h4, w, w1, (w7 rfl).1, x, x1, x2, x3⟩
/-! ## The shutdown of one track after a decoder error -/

theorem onDecoderError_none (env : Env) (X : Bool) (err : Option Int) (u : Player)
    (hd : ¬ errorDropped err u) (hX : getDecoder X u ≠ none)
    (hfa : u.mFlushingAudio = .NONE) (hfv : u.mFlushingVideo = .NONE)
    (hq : u.mDeferredActions = []) :
    ∃ t, onDecoderError env X err u = .ok t ∧
      executed t = executed u ++ [shutdownOnly X] ∧ t.mDeferredActions = [] ∧
      flushing X t = .FLUSHING_DECODER_SHUTDOWN ∧ flushing (!X) t = .NONE ∧
      callsOn X t = callsOn X u ++ [.signalFlush] ∧ callsOn (!X) t = callsOn (!X) u ∧
      (∀ a, getDecoder a t = getDecoder a u) ∧
      t.mFlushComplete.get X true = false ∧
      t.mFlushComplete.get X false = u.mRenderer.isNone ∧
      t.mAudioDecoderGeneration = u.mAudioDecoderGeneration ∧
      t.mVideoDecoderGeneration = u.mVideoDecoderGeneration ∧
      t.mRendererGeneration = u.mRendererGeneration := by
  unfold errorDropped at hd
  unfold onDecoderError
  rw [if_neg hd]
  have hf : flushing X u = .NONE := by cases X <;> simp [flushing, hfa, hfv]
  simp only [hf]
  rw [drain_flush env _ _ u hq hfa hfv]
  obtain ⟨dx, hdx⟩ := Option.ne_none_iff_exists.1 hX
  cases X <;> simp only [getDecoder, if_true, Bool.false_eq_true, if_false] at hdx <;>
    simp [Except.bind, notifyListener, performDecoderFlush, flushDecoder, getDecoder, ← hdx,
      emit, hfa, hfv, hq, callsOn, executed, shutdownOnly, flushing, FlushComplete.get,
      FlushComplete.set] <;>
    split_ifs <;>
    simp_all [callsOn, executed, shutdownOnly, emit, FlushComplete.get, FlushComplete.set]
/-- A current-generation shutdown-completed notification of a track in
`SHUTTING_DOWN_DECODER` is handled by `finishFlushIfPossible` on the state in
which the decoder is released and the status is `SHUT_DOWN`. -/
theorem step_shutdownCompleted (env : Env) (X : Bool) (reply : Option Nat) (x : Player)
    (hf : flushing X x = .SHUTTING_DOWN_DECODER) :
    ∃ x0, step env (decoderNotify X (decoderGeneration X x) reply .kWhatShutdownCompleted) x
        = finishFlushIfPossible env (releaseDecoder X x0) ∧
      (x0 = x ∨ x0 = { emit (.sysfsSetAutoSwitch x.mAutoSwitch) x with mAutoSwitch := -1 }) := by
  cases X
  · simp only [flushing, Bool.false_eq_true, if_false] at hf
    by_cases h : x.mEnableFrameRate = true ∧ x.mAutoSwitch > 0
    · refine ⟨_, ?_, Or.inr rfl⟩
      simp [step, decoderNotify, decoderGeneration, onMessageReceived, onDecoderNotify, h, hf,
        releaseDecoder, emit]
    · refine ⟨x, ?_, Or.inl rfl⟩
      simp [step, decoderNotify, decoderGeneration, onMessageReceived, onDecoderNotify, h, hf,
        releaseDecoder]
  · simp only [flushing, if_true] at hf
    refine ⟨x, ?_, Or.inl rfl⟩
    simp [step, decoderNotify, decoderGeneration, onMessageReceived, onDecoderNotify, hf,
      releaseDecoder]

theorem finish_released (env : Env) (X : Bool) (u : Player)
    (ho : flushing (!X) u = .NONE) (hq : u.mDeferredActions = []) :
    ∃ y, finishFlushIfPossible env (releaseDecoder X u) = .ok y ∧
      flushing X (releaseDecoder X u) = .SHUT_DOWN ∧
      flushing (!X) (releaseDecoder X u) = .NONE ∧
      flushing X y = .NONE ∧ flushing (!X) y = .NONE ∧
      getDecoder X y = none ∧ getDecoder (!X) y = getDecoder (!X) u ∧
      (∀ a, callsOn a y = callsOn a u) ∧
      decoderGeneration X y = inc32 (decoderGeneration X u) ∧
      decoderGeneration (!X) y = decoderGeneration (!X) u ∧
      y.mDeferredActions = [] ∧ executed y = executed u ∧
      y.mFlushComplete = ⟨false, false, false, false⟩ ∧
      clientNotifications y = clientNotifications u := by
  have hm1 : (releaseDecoder X u).mFlushingAudio.midFlush = false := by
    cases X <;> simp_all [releaseDecoder, flushing, FlushStatus.midFlush]
  have hm2 : (releaseDecoder X u).mFlushingVideo.midFlush = false := by
    cases X <;> simp_all [releaseDecoder, flushing, FlushStatus.midFlush]
  have hq2 : (releaseDecoder X u).mDeferredActions = [] := by
    cases X <;> simpa [releaseDecoder] using hq
  rw [finishFlushIfPossible_terminal env _ hm1 hm2,
    processDeferredActions_closed env _ (Or.inl (by simpa [clearFlushComplete] using hq2))]
  refine ⟨_, rfl, ?_⟩
  cases X <;>
    simp_all [releaseDecoder, flushing, getDecoder, callsOn, executed, clearFlushComplete,
      decoderGeneration, clientNotifications]
/-- Claim C12, counterexample: in the playing session (both decoders present,
both statuses `NONE`, queue empty) a current-generation error `-19` of the audio
decoder enqueues and executes nothing, the state being unchanged; and when the
error is not dropped, the status of the track after the shutdown-completed
notification has been handled is `NONE`, not `SHUT_DOWN`. -/
theorem error_scenario_dropped :
    playing.mAudioDecoder = some ⟨1, false⟩ ∧ playing.mVideoDecoder = some ⟨1, false⟩ ∧
    playing.mFlushingAudio = .NONE ∧ playing.mFlushingVideo = .NONE ∧
    playing.mDeferredActions = [] ∧ playing.mAudioDecoderGeneration = 1 ∧
    step exampleEnv (decoderNotify true 1 none (.kWhatError (some (-19)))) playing
      = .ok playing ∧
    run errorShutdownRun playing = .ok afterErrorShutdown ∧
    afterErrorShutdown.mFlushingAudio = .NONE ∧ afterErrorShutdown.mAudioDecoder = none :=
  ⟨rfl, rfl, rfl, rfl, rfl, rfl, rfl, rfl, rfl, rfl⟩

/-- Claim C12, amended: with both decoders present, both statuses `NONE` and an
empty queue, a current-generation error of the decoder of track `X` that is not
dropped (the code is not `-19`, or no native window is set, or the surface of
the window is `mNewSurface`) enqueues the shutdown-only flush of `X` and executes
it at once: `X` goes to `FLUSHING_DECODER_SHUTDOWN`; each acknowledgement keeps
that status until the pair is complete, which makes it `SHUTTING_DOWN_DECODER`
with `initiateShutdown` called; the shutdown-completed notification sets
`SHUT_DOWN`, releases the decoder and runs `finishFlushIfPossible`, which resets
the status to `NONE`.  At every step the status of the other track is `NONE`, its
decoder is present and no call at all is made on it. -/
theorem error_shutdown_scenario (env : Env) (X : Bool) (reply : Option Nat)
    (err : Option Int) (s : Player) (hd : ¬ errorDropped err s)
    (ha : s.mAudioDecoder ≠ none) (hv : s.mVideoDecoder ≠ none)
    (hfa : s.mFlushingAudio = .NONE) (hfv : s.mFlushingVideo = .NONE)
    (hq : s.mDeferredActions = []) :
    (script env (decoderNotify X (decoderGeneration X s) reply (.kWhatError err)) s).pushed
      = [shutdownOnly X] ∧
    ∃ t, step env (decoderNotify X (decoderGeneration X s) reply (.kWhatError err)) s = .ok t ∧
      executed t = executed s ++ [shutdownOnly X] ∧ t.mDeferredActions = [] ∧
      flushing X t = .FLUSHING_DECODER_SHUTDOWN ∧ callsOn X t = callsOn X s ++ [.signalFlush] ∧
      flushing (!X) t = .NONE ∧ callsOn (!X) t = callsOn (!X) s ∧
      getDecoder (!X) t = getDecoder (!X) s ∧ getDecoder (!X) s ≠ none ∧
      ∀ (env2 env3 env4 : Env) (d : Bool),
        ∃ w, step env2 (ackMsg t X d) t = .ok w ∧
          (flushing X w = (if t.mFlushComplete.get X (!d) then .SHUTTING_DOWN_DECODER
            else .FLUSHING_DECODER_SHUTDOWN)) ∧
          flushing (!X) w = .NONE ∧ callsOn (!X) w = callsOn (!X) s ∧
          getDecoder (!X) w = getDecoder (!X) s ∧
          ∃ x, (if t.mFlushComplete.get X (!d) then x = w
              else step env3 (ackMsg w X (!d)) w = .ok x) ∧
            flushing X x = .SHUTTING_DOWN_DECODER ∧
            callsOn X x = callsOn X s ++ [.signalFlush, .initiateShutdown] ∧
            flushing (!X) x = .NONE ∧ callsOn (!X) x = callsOn (!X) s ∧
            getDecoder (!X) x = getDecoder (!X) s ∧
            ∃ x1 y, flushing X x1 = .SHUT_DOWN ∧ flushing (!X) x1 = .NONE ∧
              step env4 (decoderNotify X (decoderGeneration X x) none .kWhatShutdownCompleted) x
                = finishFlushIfPossible env4 x1 ∧
              finishFlushIfPossible env4 x1 = .ok y ∧
              flushing X y = .NONE ∧ getDecoder X y = none ∧
              decoderGeneration X y = inc32 (decoderGeneration X s) ∧
              callsOn X y = callsOn X s ++ [.signalFlush, .initiateShutdown] ∧
              flushing (!X) y = .NONE ∧ callsOn (!X) y = callsOn (!X) s ∧
              getDecoder (!X) y = getDecoder (!X) s ∧ y.mDeferredActions = [] := by
  have hdropS := hd
  unfold errorDropped at hdropS
  have hfX : flushing X s = .NONE := by cases X <;> simp [flushing, hfa, hfv]
  have hdX : getDecoder X s ≠ none := by cases X <;> simp [getDecoder, ha, hv]
  have hdO : getDecoder (!X) s ≠ none := by cases X <;> simp [getDecoder, ha, hv]
  refine ⟨?_, ?_⟩
  · cases X <;>
      simp [script, decoderNotify, decoderScript, decoderGeneration, hdropS, flushing, hfa, hfv,
        Script.pushed]
  obtain ⟨s0, hstep, hs0⟩ := step_decoderError env X reply err s
  obtain ⟨fc, fcalls, fdrop, ffl, fdec, -, -, -, fga, fgv, -⟩ := autoSwitch_frame hs0
  have f1 := congrArg FlushCore.mFlushingAudio fc
  have f2 := congrArg FlushCore.mFlushingVideo fc
  have f3 := congrArg FlushCore.mDeferredActions fc
  have f4 := congrArg FlushCore.executed fc
  simp only [core] at f1 f2 f3 f4
  obtain ⟨t, t1, t2, t3, t4, t5, t6, t7, t8, t9, t10, t11, t12, t13⟩ :=
    onDecoderError_none env X err s0 (fun h => hd ((fdrop err).1 h))
      (by rw [fdec]; exact hdX) (f1.trans hfa) (f2.trans hfv) (f3.trans hq)
  have tgen : decoderGeneration X t = decoderGeneration X s := by
    cases X <;> simp [decoderGeneration, t11, t12, fga, fgv]
  refine ⟨t, hstep.trans t1, t2.trans (by rw [f4]), t3, t4, t6.trans (by rw [fcalls]), t5,
    t7.trans (fcalls _), (t8 _).trans (fdec _), hdO, fun env2 env3 env4 d => ?_⟩
  have tdX : getDecoder X t ≠ none := by
    rw [t8, fdec]
    exact hdX
  have tcO : callsOn (!X) t = callsOn (!X) s := t7.trans (fcalls _)
  have tcX : callsOn X t = callsOn X s ++ [.signalFlush] := t6.trans (by rw [fcalls])
  have tdO : getDecoder (!X) t = getDecoder (!X) s := (t8 _).trans (fdec _)
  obtain ⟨w, w1, w2, w3, w4, w5, w6, w7, w8, w9, w10, w11, w12, w13, w14⟩ :=
    shutdown_ack env2 X d t t4 tdX
  have wdec : ∀ a, getDecoder a w = getDecoder a t := by
    intro a
    cases a <;> simp [getDecoder, w5, w6]
  have wgen : decoderGeneration X w = decoderGeneration X t := by
    cases X <;> simp [decoderGeneration, w7, w8]
  have wfX : flushing X w = (if t.mFlushComplete.get X (!d) then .SHUTTING_DOWN_DECODER
      else .FLUSHING_DECODER_SHUTDOWN) := by
    cases hm : t.mFlushComplete.get X (!d)
    · simpa using (w14 hm).1
    · simpa using (w13 hm).1
  refine ⟨w, w1, wfX, w3.trans t5, w4.trans tcO, (wdec _).trans tdO, ?_⟩
  -- the state in which the pair of acknowledgements is complete
  have hx : ∃ x, (if t.mFlushComplete.get X (!d) then x = w
        else step env3 (ackMsg w X (!d)) w = .ok x) ∧
      flushing X x = .SHUTTING_DOWN_DECODER ∧
      callsOn X x = callsOn X s ++ [.signalFlush, .initiateShutdown] ∧
      flushing (!X) x = .NONE ∧ callsOn (!X) x = callsOn (!X) s ∧
      (∀ a, getDecoder a x = getDecoder a s0) ∧ x.mDeferredActions = [] ∧
      decoderGeneration X x = decoderGeneration X s := by
    cases hm : t.mFlushComplete.get X (!d)
    · obtain ⟨wf, wc⟩ := w14 hm
      have wdX : getDecoder X w ≠ none := by
        rw [wdec]
        exact tdX
      obtain ⟨x, x1, x2, x3, x4, x5, x6, x7, x8, x9, x10, x11, x12, x13, x14⟩ :=
        shutdown_ack env3 X (!d) w wf wdX
      have hrec : w.mFlushComplete.get X (!(!d)) = true := by
        rw [w2, FlushComplete.get_set]
        simp
      have xdec : ∀ a, getDecoder a x = getDecoder a w := by
        intro a
        cases a <;> simp [getDecoder, x5, x6]
      refine ⟨x, by simpa using x1, (x13 hrec).1, ?_, x3.trans (w3.trans t5),
        x4.trans (w4.trans tcO), fun a => (xdec a).trans ((wdec a).trans (t8 a)),
        x10.trans (w10.trans t3), ?_⟩
      · rw [(x13 hrec).2, wc, tcX]
        simp
      · have : decoderGeneration X x = decoderGeneration X w := by
          cases X <;> simp [decoderGeneration, x7, x8]
        rw [this, wgen, tgen]
    · obtain ⟨wf, wc⟩ := w13 hm
      refine ⟨w, by simp, wf, ?_, w3.trans t5, w4.trans tcO,
        fun a => (wdec a).trans (t8 a), w10.trans t3, wgen.trans tgen⟩
      rw [wc, tcX]
      simp
  obtain ⟨x, x1, x2, x3, x4, x5, x6, x7, x8⟩ := hx
  refine ⟨x, x1, x2, x3, x4, x5, (x6 _).trans (fdec _), ?_⟩
  obtain ⟨x0, hsc, hx0⟩ := step_shutdownCompleted env4 X none x x2
  obtain ⟨gc, gcalls, -, gfl, gdec, -, -, -, gga, ggv, -⟩ := autoSwitch_frame hx0
  have g3 := congrArg FlushCore.mDeferredActions gc
  simp only [core] at g3
  obtain ⟨y, y1, y2, y3, y4, y5, y6, y7, y8, y9, y10, y11, y12, y13, y14⟩ :=
    finish_released env4 X x0 ((gfl _).trans x4) (g3.trans x7)
  have ggen : decoderGeneration X x0 = decoderGeneration X x := by
    cases X <;> simp [decoderGeneration, gga, ggv]
  refine ⟨releaseDecoder X x0, y, y2, y3, hsc, y1, y4, y6, ?_, ?_, y5, ?_, ?_, y11⟩
  · rw [y9, ggen, x8]
  · rw [y8, gcalls, x3]
  · rw [y8, gcalls, x5]
  · rw [y7, gdec, x6, fdec]

theorem error_shutdown_scenario_witness :
    ¬ errorDropped (some (-5)) playing ∧
    (script exampleEnv (decoderNotify true (decoderGeneration true playing) none
      (.kWhatError (some (-5)))) playing).pushed = [shutdownOnly true] ∧
    ∃ t, step exampleEnv (decoderNotify true (decoderGeneration true playing) none
        (.kWhatError (some (-5)))) playing = .ok t ∧
      executed t = executed playing ++ [shutdownOnly true] ∧ t.mDeferredActions = [] ∧
      flushing true t = .FLUSHING_DECODER_SHUTDOWN ∧
      callsOn true t = callsOn true playing ++ [.signalFlush] ∧
      flushing (!true) t = .NONE ∧ callsOn (!true) t = callsOn (!true) playing :=
  let ⟨t, h1, h2, h3, h4, h5, h6, h7, _⟩ :=
    (error_shutdown_scenario exampleEnv true none (some (-5)) playing (by decide) (by decide)
      (by decide) rfl rfl rfl).2
  ⟨by decide,
    (error_shutdown_scenario exampleEnv true none (some (-5)) playing (by decide) (by decide)
      (by decide) rfl rfl rfl).1,
    t, h1, h2, h3, h4, h5, h6, h7⟩
/-! ## The notification of a completed seek -/

/-- While a seek is pending, a flush acknowledgement sends nothing to the client;
the last of the four sets `mResumePending` when the seek asks for a notification
(the video decoder being present). -/
theorem ack_step_quiet (env : Env) (T : Int) (n : Bool) (t u : Player) (a d : Bool)
    (hp : SeekPending T n t u) (hm : u.mFlushComplete.get a d = false) :
    ∃ w, step env (ackMsg t a d) u = .ok w ∧
      clientNotifications w = clientNotifications u ∧
      w.mVideoDecoderGeneration = u.mVideoDecoderGeneration ∧
      w.mAudioDecoderGeneration = u.mAudioDecoderGeneration ∧
      w.mDriver = u.mDriver ∧
      (u.mFlushComplete.set a d true = ⟨true, true, true, true⟩ →
        w.mResumePending = (n || u.mResumePending)) := by
  obtain ⟨hsrc, ha, hv, ga, gv, gr, hq, hfa, hfv, hl, he⟩ := hp
  rcases hM : u.mFlushComplete with ⟨m1, m2, m3, m4⟩
  rw [hM] at hfa hfv hm
  simp only [] at hfa hfv
  cases a <;> cases d <;> cases m1 <;> cases m2 <;> cases m3 <;> cases m4 <;>
    simp only [FlushComplete.get, Bool.false_eq_true, reduceCtorEq] at hm <;>
    simp [step, ackMsg, onMessageReceived, onDecoderNotify, onRendererNotify, ga, gv, gr,
      handleFlushComplete, hM, FlushComplete.get, FlushComplete.set, flushing, setFlushing,
      finishFlushIfPossible, hfa, hfv, processDeferredActions, clearFlushComplete, hq,
      processDeferredActionsLoop, nextDeferredAction, Action.execute, performSeek, hsrc,
      performResumeDecoders, Except.bind, emit, thread_interrupt, thread_uninterrupt, ha, hv,
      clientNotifications] <;>
    (try (split_ifs <;> simp [clientNotifications]))

theorem acks_quiet (T : Int) (n : Bool) (t : Player) (acks : List (Env × Bool × Bool)) :
    ∀ u : Player, SeekPending T n t u → (acks.map Prod.snd).Nodup →
      (∀ a d, u.mFlushComplete.get a d = false ↔ (a, d) ∈ acks.map Prod.snd) → acks ≠ [] →
      (∀ k, k < acks.length →
        ∃ w, run (ackInputs t (acks.take k)) u = .ok w ∧
          clientNotifications w = clientNotifications u) ∧
      ∃ w, run (ackInputs t acks) u = .ok w ∧
        clientNotifications w = clientNotifications u ∧
        w.mVideoDecoderGeneration = u.mVideoDecoderGeneration ∧
        w.mAudioDecoderGeneration = u.mAudioDecoderGeneration ∧
        w.mDriver = u.mDriver ∧
        (n = true → w.mResumePending = true) := by
  induction acks with
  | nil => intro u _ _ _ h; exact absurd rfl h
  | cons x rest ih =>
    obtain ⟨env, a, d⟩ := x
    intro u hp hnd hmem _
    simp only [List.map_cons, List.nodup_cons] at hnd
    obtain ⟨hnot, hnd⟩ := hnd
    have hm : u.mFlushComplete.get a d = false := (hmem a d).2 (by simp)
    obtain ⟨w, hw, _, hpend⟩ := ack_step env T n t u a d hp hm
    obtain ⟨w0, hw0, hc, hgv, hga, hdr, hres⟩ := ack_step_quiet env T n t u a d hp hm
    have hww : w0 = w := by
      rw [hw0] at hw
      exact Except.ok.inj hw
    subst hww
    by_cases hrest : rest = []
    · subst hrest
      have hall : u.mFlushComplete.set a d true = ⟨true, true, true, true⟩ := by
        apply FlushComplete.all_true
        intro a2 d2
        rw [FlushComplete.get_set]
        split_ifs with h
        · rfl
        · by_contra hc
          have := (hmem a2 d2).1 (by simpa using hc)
          simp only [List.map_cons, List.map_nil, List.mem_singleton, Prod.mk.injEq] at this
          exact h this
      refine ⟨fun k hk => ?_, w0, ?_, hc, hgv, hga, hdr, fun hn => ?_⟩
      · simp only [List.length_singleton, Nat.lt_one_iff] at hk
        subst hk
        exact ⟨u, rfl, rfl⟩
      · simp only [ackInputs, List.map_cons, List.map_nil, run, hw0]
        rfl
      · rw [hres hall, hn]
        rfl
    · have hne : u.mFlushComplete.set a d true ≠ ⟨true, true, true, true⟩ := by
        obtain ⟨y, hy⟩ := List.exists_mem_of_ne_nil _ hrest
        obtain ⟨e2, a2, d2⟩ := y
        have hin : (a2, d2) ∈ rest.map Prod.snd := List.mem_map_of_mem Prod.snd hy
        have hf : u.mFlushComplete.get a2 d2 = false :=
          (hmem a2 d2).2 (List.mem_cons_of_mem _ hin)
        intro hc
        have hg := FlushComplete.get_set u.mFlushComplete a d true a2 d2
        rw [hc] at hg
        have hx : ¬ (a2 = a ∧ d2 = d) := by
          rintro ⟨rfl, rfl⟩
          exact hnot hin
        rw [if_neg hx, hf] at hg
        cases a2 <;> cases d2 <;> simp [FlushComplete.get] at hg
      obtain ⟨hpw, hmw⟩ := hpend hne
      have hmem2 : ∀ a2 d2, w0.mFlushComplete.get a2 d2 = false ↔
          (a2, d2) ∈ rest.map Prod.snd := by
        intro a2 d2
        rw [hmw, FlushComplete.get_set]
        split_ifs with h
        · obtain ⟨rfl, rfl⟩ := h
          simp only [Bool.true_eq_false, false_iff]
          exact hnot
        · rw [hmem a2 d2]
          simp only [List.map_cons, List.mem_cons, Prod.mk.injEq]
          constructor
          · rintro (h2 | h2)
            · exact absurd h2 h
            · exact h2
          · exact fun h2 => .inr h2
      obtain ⟨ih1, w2, hw2, hc2, hgv2, hga2, hdr2, hres2⟩ := ih w0 hpw hnd hmem2 hrest
      refine ⟨fun k hk => ?_, w2, ?_, hc2.trans hc, hgv2.trans hgv, hga2.trans hga,
        hdr2.trans hdr, hres2⟩
      · cases k with
        | zero => exact ⟨u, rfl, rfl⟩
        | succ k =>
          simp only [List.length_cons, Nat.add_lt_add_iff_right] at hk
          obtain ⟨w3, hw3, hc3⟩ := ih1 k hk
          refine ⟨w3, ?_, hc3.trans hc⟩
          simp only [ackInputs, List.take_succ_cons, List.map_cons, run, hw0]
          exact hw3
      · simp only [ackInputs, List.map_cons, run, hw0]
        exact hw2
theorem seek_request_quiet (env : Env) (T : Int) (n : Bool) (s : Player)
    (hr : s.mRenderer ≠ none)
    (ha : s.mAudioDecoder ≠ none) (hv : s.mVideoDecoder ≠ none)
    (hfa : s.mFlushingAudio = .NONE) (hfv : s.mFlushingVideo = .NONE)
    (hq : s.mDeferredActions = []) :
    ∃ t, step env (.message (.kWhatSeek T n)) s = .ok t ∧
      clientNotifications t = clientNotifications s ∧ t.mDriver = s.mDriver ∧
      t.mResumePending = s.mResumePending := by
  obtain ⟨ad, had⟩ := Option.ne_none_iff_exists.1 ha
  obtain ⟨vd, hvd⟩ := Option.ne_none_iff_exists.1 hv
  obtain ⟨rd, hrd⟩ := Option.ne_none_iff_exists.1 hr
  simp [step, onMessageReceived, pushAction, processDeferredActions, hq,
    processDeferredActionsLoop, nextDeferredAction, Action.execute, performDecoderFlush,
    flushDecoder, getDecoder, ← had, ← hvd, ← hrd, hfa, hfv, Except.bind, emit,
    FlushComplete.get, FlushComplete.set, clientNotifications]
  split_ifs <;>
    simp [hq, processDeferredActionsLoop, nextDeferredAction, Action.execute,
      performDecoderFlush, flushDecoder, getDecoder, ← had, ← hvd, ← hrd, hfa, hfv, Except.bind,
      emit, FlushComplete.get, FlushComplete.set, clientNotifications]

/-- A current-generation resume-completed notification of either decoder runs
`finishResume`: a pending notification of the seek is sent and the flag is
cleared; without a pending one nothing is sent. -/
theorem resume_completed (env : Env) (X : Bool) (reply : Option Nat) (u : Player) :
    ∃ w, step env (decoderNotify X (decoderGeneration X u) reply .kWhatResumeCompleted) u
        = .ok w ∧
      clientNotifications w = clientNotifications u ++
        (if u.mResumePending then delivered env u .notifySeekComplete else []) ∧
      w.mResumePending = false ∧ w.mDriver = u.mDriver := by
  cases X
  · by_cases h : u.mEnableFrameRate = true ∧ u.mAutoSwitch > 0 <;>
      cases hp : u.mResumePending <;> cases hd : u.mDriver <;> cases he : env.driverAlive <;>
      simp [step, decoderNotify, decoderGeneration, onMessageReceived, onDecoderNotify, h,
        finishResume, callDriver, delivered, emit, clientNotifications, hp, hd, he]
  · cases hp : u.mResumePending <;> cases hd : u.mDriver <;> cases he : env.driverAlive <;>
      simp [step, decoderNotify, decoderGeneration, onMessageReceived, onDecoderNotify,
        finishResume, callDriver, delivered, emit, clientNotifications, hp, hd, he]

theorem performResumeDecoders_notify (env : Env) (needNotify : Bool) (s : Player) :
    clientNotifications (performResumeDecoders env needNotify s) = clientNotifications s ++
      (if needNotify = true ∧ s.mVideoDecoder = none
        then delivered env s .notifySeekComplete else []) ∧
    (performResumeDecoders env needNotify s).mResumePending =
      (if needNotify then decide (s.mVideoDecoder ≠ none) else s.mResumePending) := by
  cases needNotify <;> cases hv : s.mVideoDecoder <;> cases ha : s.mAudioDecoder <;>
    cases hd : s.mDriver <;> cases he : env.driverAlive <;>
    simp [performResumeDecoders, finishResume, callDriver, delivered, emit, clientNotifications,
      hv, ha, hd, he]

/-- Claim C11: a seek with `needNotify = true`, requested while both decoders, the
renderer and the source exist, no flush is in progress and the queue is empty,
yields exactly one seek-complete notification: nothing is sent to the client by
the request or by any of the four flush acknowledgements (in any order), after
which `mResumePending` is set; the resume-completed notification of the video
decoder then sends `notifySeekComplete` once (to an attached, live driver), and
a further resume-completed notification of either decoder sends nothing.  In
general a resume-completed notification sends the notification exactly when
`mResumePending` is set, and clears it; `performResumeDecoders` with
`needNotify = true` and no video decoder sends the one notification itself and
leaves `mResumePending` cleared, with a video decoder it sends nothing and sets
`mResumePending`; with `needNotify = false` it sends nothing and leaves
`mResumePending` as it is. -/
theorem seek_complete_once (env : Env) (T : Int) (s : Player)
    (hsrc : s.mSource ≠ none) (hr : s.mRenderer ≠ none)
    (ha : s.mAudioDecoder ≠ none) (hv : s.mVideoDecoder ≠ none)
    (hfa : s.mFlushingAudio = .NONE) (hfv : s.mFlushingVideo = .NONE)
    (hq : s.mDeferredActions = []) :
    (∃ t, step env (.message (.kWhatSeek T true)) s = .ok t ∧
      clientNotifications t = clientNotifications s ∧
      ∀ acks : List (Env × Bool × Bool), (acks.map Prod.snd).Perm fourAcks →
        (∀ k, k < 4 →
          ∃ u, run (ackInputs t (acks.take k)) t = .ok u ∧
            clientNotifications u = clientNotifications s) ∧
        ∃ u, run (ackInputs t acks) t = .ok u ∧
          clientNotifications u = clientNotifications s ∧ u.mResumePending = true ∧
          ∀ (env2 : Env) (reply : Option Nat),
            ∃ w, step env2 (decoderNotify false (decoderGeneration false u) reply
                .kWhatResumeCompleted) u = .ok w ∧
              clientNotifications w
                = clientNotifications s ++ delivered env2 s .notifySeekComplete ∧
              (s.mDriver = true → env2.driverAlive = true →
                clientNotifications w = clientNotifications s ++ [.notifySeekComplete]) ∧
              ∀ (env3 : Env) (X : Bool) (reply2 : Option Nat),
                ∃ x, step env3 (decoderNotify X (decoderGeneration X w) reply2
                    .kWhatResumeCompleted) w = .ok x ∧
                  clientNotifications x = clientNotifications w) ∧
    (∀ (env2 : Env) (X : Bool) (reply : Option Nat) (u : Player),
      ∃ w, step env2 (decoderNotify X (decoderGeneration X u) reply .kWhatResumeCompleted) u
          = .ok w ∧
        clientNotifications w = clientNotifications u ++
          (if u.mResumePending then delivered env2 u .notifySeekComplete else []) ∧
        w.mResumePending = false) ∧
    (∀ (env2 : Env) (u : Player), u.mVideoDecoder = none →
      clientNotifications (performResumeDecoders env2 true u)
        = clientNotifications u ++ delivered env2 u .notifySeekComplete ∧
      (performResumeDecoders env2 true u).mResumePending = false) ∧
    (∀ (env2 : Env) (u : Player), u.mVideoDecoder ≠ none →
      clientNotifications (performResumeDecoders env2 true u) = clientNotifications u ∧
      (performResumeDecoders env2 true u).mResumePending = true) ∧
    (∀ (env2 : Env) (u : Player),
      clientNotifications (performResumeDecoders env2 false u) = clientNotifications u ∧
      (performResumeDecoders env2 false u).mResumePending = u.mResumePending) := by
  refine ⟨?_, ?_, ?_, ?_, ?_⟩
  · obtain ⟨t, ht, hp, hm, -, -⟩ := seek_request env T true s hsrc hr ha hv hfa hfv hq
    obtain ⟨t0, ht0, hc, hdr, -⟩ := seek_request_quiet env T true s hr ha hv hfa hfv hq
    have htt : t0 = t := by
      rw [ht0] at ht
      exact Except.ok.inj ht
    subst htt
    refine ⟨t0, ht0, hc, fun acks hperm => ?_⟩
    have hnd : (acks.map Prod.snd).Nodup := hperm.nodup_iff.2 (by decide)
    have hlen : acks.length = 4 := by
      have := hperm.length_eq
      simpa [fourAcks] using this
    have hmem : ∀ a d, t0.mFlushComplete.get a d = false ↔ (a, d) ∈ acks.map Prod.snd := by
      intro a d
      rw [hm]
      constructor
      · intro _
        exact hperm.mem_iff.2 (fourAcks_mem a d)
      · intro _
        cases a <;> cases d <;> rfl
    have hne : acks ≠ [] := by
      intro h
      rw [h] at hlen
      cases hlen
    obtain ⟨h1, u, hu, huc, -, -, hud, hures⟩ := acks_quiet T true t0 acks t0 hp hnd hmem hne
    refine ⟨fun k hk => ?_, u, hu, huc.trans hc, hures rfl, fun env2 reply => ?_⟩
    · obtain ⟨w, hw, hwc⟩ := h1 k (by rw [hlen]; exact hk)
      exact ⟨w, hw, hwc.trans hc⟩
    · obtain ⟨w, hw, hwc, hwp, hwd⟩ := resume_completed env2 false reply u
      have hdel : delivered env2 u .notifySeekComplete = delivered env2 s .notifySeekComplete := by
        simp [delivered, hud, hdr]
      rw [hures rfl, if_pos rfl, hdel, huc, hc] at hwc
      refine ⟨w, hw, hwc, fun h1 h2 => ?_, fun env3 X reply2 => ?_⟩
      · rw [hwc]
        simp [delivered, h1, h2]
      · obtain ⟨x, hx, hxc, -, -⟩ := resume_completed env3 X reply2 w
        refine ⟨x, hx, ?_⟩
        rw [hxc, hwp]
        simp
  · intro env2 X reply u
    obtain ⟨w, hw, hwc, hwp, -⟩ := resume_completed env2 X reply u
    exact ⟨w, hw, hwc, hwp⟩
  · intro env2 u hu
    have h := performResumeDecoders_notify env2 true u
    simpa [hu] using h
  · intro env2 u hu
    have h := performResumeDecoders_notify env2 true u
    simpa [hu] using h
  · intro env2 u
    have h := performResumeDecoders_notify env2 false u
    simpa using h

theorem seek_complete_once_witness :
    ∃ t, step exampleEnv (.message (.kWhatSeek 5 true)) playing = .ok t ∧
      clientNotifications t = clientNotifications playing ∧
      ∃ u, run (ackInputs t [(exampleEnv, true, false), (exampleEnv, false, true),
          (exampleEnv, true, true), (exampleEnv, false, false)]) t = .ok u ∧
        clientNotifications u = clientNotifications playing ∧ u.mResumePending = true ∧
        ∃ w, step exampleEnv (decoderNotify false (decoderGeneration false u) none
            .kWhatResumeCompleted) u = .ok w ∧
          clientNotifications w = clientNotifications playing ++ [.notifySeekComplete] ∧
          ∃ x, step exampleEnv (decoderNotify false (decoderGeneration false w) none
              .kWhatResumeCompleted) w = .ok x ∧
            clientNotifications x = clientNotifications w :=
  let ⟨t, h1, h2, h3⟩ :=
    (seek_complete_once exampleEnv 5 playing (by decide) (by decide) (by decide) (by decide)
      rfl rfl rfl).1
  let ⟨u, u1, u2, u3, u4⟩ := (h3 [(exampleEnv, true, false), (exampleEnv, false, true),
    (exampleEnv, true, true), (exampleEnv, false, false)] (by decide)).2
  let ⟨w, w1, _, w3, w4⟩ := u4 exampleEnv none
  let ⟨x, x1, x2⟩ := w4 exampleEnv false none
  ⟨t, h1, h2, u, u1, u2, u3, w, w1, w3 rfl rfl, x, x1, x2⟩

/-! ## The effect of `flushDecoder` -/

/-- Claim C21: `flushDecoder(audio, needShutdown)` with the decoder of the track
present makes one call, `signalFlush` on that decoder, sets the status of the
track to `FLUSHING_DECODER_SHUTDOWN` for `needShutdown` and to
`FLUSHING_DECODER` otherwise, increments the scan-sources generation (`int32_t`
increment, `+ 1` below `INT32_MAX`), clears `mScanSourcesPending` and leaves the
status of the other track unchanged; with no decoder for the track it returns
the state unchanged, history included. -/
theorem flushDecoder_effect (audio needShutdown : Bool) (s : Player) :
    (getDecoder audio s ≠ none →
      callsOn audio (flushDecoder audio needShutdown s) = callsOn audio s ++ [.signalFlush] ∧
      callsOn (!audio) (flushDecoder audio needShutdown s) = callsOn (!audio) s ∧
      collaboratorCalls (flushDecoder audio needShutdown s)
        = collaboratorCalls s ++ [.decoder audio .signalFlush] ∧
      flushing audio (flushDecoder audio needShutdown s)
        = (if needShutdown then .FLUSHING_DECODER_SHUTDOWN else .FLUSHING_DECODER) ∧
      (flushDecoder audio needShutdown s).mScanSourcesGeneration
        = inc32 s.mScanSourcesGeneration ∧
      (flushDecoder audio needShutdown s).mScanSourcesPending = false ∧
      flushing (!audio) (flushDecoder audio needShutdown s) = flushing (!audio) s) ∧
    (getDecoder audio s = none → flushDecoder audio needShutdown s = s) ∧
    (∀ g : Int, -2147483648 ≤ g → g < 2147483647 → inc32 g = g + 1) := by
  refine ⟨fun h => ?_, fun h => ?_, inc32_succ⟩
  · obtain ⟨d, hd⟩ := Option.ne_none_iff_exists.1 h
    cases audio <;> cases needShutdown <;>
      simp [flushDecoder, ← hd, emit, callsOn, collaboratorCalls, flushing] <;>
      split_ifs <;> simp [callsOn, collaboratorCalls]
  · simp [flushDecoder, h]

theorem flushDecoder_effect_witness :
    callsOn true (flushDecoder true true playing) = callsOn true playing ++ [.signalFlush] ∧
    flushing true (flushDecoder true true playing) = .FLUSHING_DECODER_SHUTDOWN ∧
    (flushDecoder true true playing).mScanSourcesGeneration = 1 ∧
    flushing false (flushDecoder true true playing) = .NONE ∧
    flushDecoder false false decodersGone = decodersGone :=
  ⟨((flushDecoder_effect true true playing).1 (by decide)).1,
    ((flushDecoder_effect true true playing).1 (by decide)).2.2.2.1,
    by decide,
    ((flushDecoder_effect true true playing).1 (by decide)).2.2.2.2.2.2,
    (flushDecoder_effect false false decodersGone).2.1 rfl⟩
/-! ## End of stream -/

theorem clientNotifications_notifyListener (env : Env) (m : ListenerMsg) (s : Player) :
    clientNotifications (notifyListener env m s)
      = clientNotifications s ++ delivered env s (.notifyListener m) := by
  cases hd : s.mDriver <;> cases he : env.driverAlive <;>
    simp [notifyListener, delivered, emit, clientNotifications, hd, he]

theorem notifyListener_fields (env : Env) (m : ListenerMsg) (s : Player) :
    (notifyListener env m s).mAudioEOS = s.mAudioEOS ∧
    (notifyListener env m s).mVideoEOS = s.mVideoEOS ∧
    (notifyListener env m s).mAudioDecoder = s.mAudioDecoder ∧
    (notifyListener env m s).mVideoDecoder = s.mVideoDecoder ∧
    (notifyListener env m s).mDriver = s.mDriver := by
  cases hd : s.mDriver <;> cases he : env.driverAlive <;>
    simp [notifyListener, emit, hd, he]

/-- Claim C26: a current-generation end-of-stream notification of the renderer
records the end of the track and is handled without abort; `MEDIA_PLAYBACK_COMPLETE`
is sent (to an attached, live driver: `delivered`) if and only if, the flag of
this track being set, every track whose decoder is present has its flag set;
when a track with a decoder has not reported its end, nothing but the error
notification of a `finalResult` other than `ERROR_END_OF_STREAM` is sent. -/
theorem renderer_eos (env : Env) (audio : Bool) (finalResult : Int) (s : Player) :
    ∃ t, step env (rendererEOS s audio finalResult) s = .ok t ∧
      t.mAudioEOS = (audio || s.mAudioEOS) ∧ t.mVideoEOS = (!audio || s.mVideoEOS) ∧
      t.mAudioDecoder = s.mAudioDecoder ∧ t.mVideoDecoder = s.mVideoDecoder ∧
      clientNotifications t = clientNotifications s ++
        (if finalResult = ERROR_END_OF_STREAM then []
          else delivered env s (.notifyListener (.MEDIA_ERROR_UNKNOWN finalResult))) ++
        (if allTracksEnded t then delivered env s (.notifyListener .MEDIA_PLAYBACK_COMPLETE)
          else []) ∧
      (s.mDriver = true → env.driverAlive = true →
        (allTracksEnded t → playbackCompletes t = playbackCompletes s + 1) ∧
        (¬ allTracksEnded t → playbackCompletes t = playbackCompletes s)) := by
  -- the state after the flag is set and an error, if any, is reported
  obtain ⟨u, hu, u1, u2, u3, u4, u5, u6⟩ : ∃ u : Player,
      step env (rendererEOS s audio finalResult) s
        = .ok (if allTracksEnded u then notifyListener env .MEDIA_PLAYBACK_COMPLETE u else u) ∧
      u.mAudioEOS = (audio || s.mAudioEOS) ∧ u.mVideoEOS = (!audio || s.mVideoEOS) ∧
      u.mAudioDecoder = s.mAudioDecoder ∧ u.mVideoDecoder = s.mVideoDecoder ∧
      u.mDriver = s.mDriver ∧
      clientNotifications u = clientNotifications s ++
        (if finalResult = ERROR_END_OF_STREAM then []
          else delivered env s (.notifyListener (.MEDIA_ERROR_UNKNOWN finalResult))) := by
    by_cases hr : finalResult = ERROR_END_OF_STREAM
    · refine ⟨if audio then { s with mAudioEOS := true } else { s with mVideoEOS := true },
        ?_, ?_, ?_, ?_, ?_, ?_, ?_⟩ <;>
        cases audio <;>
        simp [step, rendererEOS, onMessageReceived, onRendererNotify, hr, allTracksEnded,
          clientNotifications]
      all_goals split_ifs <;> rfl
    · refine ⟨notifyListener env (.MEDIA_ERROR_UNKNOWN finalResult)
          (if audio then { s with mAudioEOS := true } else { s with mVideoEOS := true }),
        ?_, ?_, ?_, ?_, ?_, ?_, ?_⟩
      · cases audio <;>
          simp [step, rendererEOS, onMessageReceived, onRendererNotify, hr, allTracksEnded]
        all_goals split_ifs <;> rfl
      all_goals
        cases audio <;>
        simp [(notifyListener_fields _ _ _).1, (notifyListener_fields _ _ _).2.1,
          (notifyListener_fields _ _ _).2.2.1, (notifyListener_fields _ _ _).2.2.2.1,
          (notifyListener_fields _ _ _).2.2.2.2, clientNotifications_notifyListener, hr,
          delivered]
      all_goals rfl
  have hdel : ∀ c, delivered env u c = delivered env s c := by
    intro c
    simp [delivered, u5]
  by_cases hc : allTracksEnded u
  · have hct : allTracksEnded (notifyListener env .MEDIA_PLAYBACK_COMPLETE u) := by
      unfold allTracksEnded at hc ⊢
      obtain ⟨f1, f2, f3, f4, -⟩ := notifyListener_fields env .MEDIA_PLAYBACK_COMPLETE u
      rw [f1, f2, f3, f4]
      exact hc
    obtain ⟨f1, f2, f3, f4, -⟩ := notifyListener_fields env .MEDIA_PLAYBACK_COMPLETE u
    refine ⟨_, by rw [hu, if_pos hc], f1.trans u1, f2.trans u2, f3.trans u3, f4.trans u4, ?_,
      fun h1 h2 => ⟨fun _ => ?_, fun h => absurd hct h⟩⟩
    · rw [if_pos hct, clientNotifications_notifyListener, u6, hdel]
    · rw [playbackCompletes, playbackCompletes, clientNotifications_notifyListener, hdel, u6]
      simp only [delivered, h1, h2, Bool.and_self, if_true, List.count_append]
      split_ifs <;> simp [List.count_cons]
  · refine ⟨u, by rw [hu, if_neg hc], u1, u2, u3, u4, ?_,
      fun h1 h2 => ⟨fun h => absurd h hc, fun _ => ?_⟩⟩
    · rw [if_neg hc, u6]
      simp
    · rw [playbackCompletes, playbackCompletes, u6]
      simp only [delivered, h1, h2, Bool.and_self, if_true, List.count_append]
      split_ifs <;> simp [List.count_cons]

theorem renderer_eos_witness :
    (∃ t, step exampleEnv (rendererEOS playing true ERROR_END_OF_STREAM) playing = .ok t ∧
      t.mAudioEOS = true ∧ t.mVideoEOS = false ∧
      playbackCompletes t = playbackCompletes playing) ∧
    (∃ t, step exampleEnv (rendererEOS audioEnded false ERROR_END_OF_STREAM) audioEnded = .ok t ∧
      t.mAudioEOS = true ∧ t.mVideoEOS = true ∧
      playbackCompletes t = playbackCompletes audioEnded + 1) := by
  constructor
  · obtain ⟨t, h1, h2, h3, h4, h5, _, h7⟩ :=
      renderer_eos exampleEnv true ERROR_END_OF_STREAM playing
    refine ⟨t, h1, h2, h3, (h7 rfl rfl).2 ?_⟩
    unfold allTracksEnded
    rw [h2, h3, h4, h5]
    decide
  · obtain ⟨t, h1, h2, h3, h4, h5, _, h7⟩ :=
      renderer_eos exampleEnv false ERROR_END_OF_STREAM audioEnded
    refine ⟨t, h1, h2, h3, (h7 rfl rfl).1 ?_⟩
    unfold allTracksEnded
    rw [h2, h3, h4, h5]
    decide
/-! ## A change of the video surface -/

/-- Claim C28: with a source that has a video format, the handling of
`kWhatSetVideoNativeWindow` appends to the queue, in this order, the flush
(audio flushed, video shut down), the setting of the surface, for a non-null
surface a repositioning to the current position without notification (when
started and the position is available) and a scan of the sources, and the
resumption without notification, three to five actions, and then runs
`processDeferredActions`; statuses, matrix and native window are as before at
that moment.  Without a source, or without a video format, the surface is set at
once and nothing is enqueued or executed. -/
theorem surface_change_actions (env : Env) (w : Option Nat) (s : Player) :
    (s.mSource ≠ none → env.videoFormat ≠ none →
      ∃ s1, step env (.message (.kWhatSetVideoNativeWindow w)) s
          = processDeferredActions env s1 ∧
        s1.mDeferredActions = s.mDeferredActions ++ surfaceChangeActions env w s ∧
        s1.mFlushingAudio = s.mFlushingAudio ∧ s1.mFlushingVideo = s.mFlushingVideo ∧
        s1.mFlushComplete = s.mFlushComplete ∧ executed s1 = executed s ∧
        s1.mNativeWindow = s.mNativeWindow) ∧
    3 ≤ (surfaceChangeActions env w s).length ∧ (surfaceChangeActions env w s).length ≤ 5 ∧
    (w = none → surfaceChangeActions env w s =
      [.FlushDecoderAction .FLUSH_CMD_FLUSH .FLUSH_CMD_SHUTDOWN, .SetSurfaceAction none,
        .ResumeDecoderAction false]) ∧
    (s.mSource = none ∨ env.videoFormat = none →
      step env (.message (.kWhatSetVideoNativeWindow w)) s = .ok (performSetSurface env w s) ∧
      (performSetSurface env w s).mNativeWindow = w ∧
      (performSetSurface env w s).mDeferredActions = s.mDeferredActions ∧
      executed (performSetSurface env w s) = executed s) := by
  refine ⟨fun h1 h2 => ?_, ?_, ?_, ?_, fun h => ?_⟩
  · have h : ¬ (s.mSource = none ∨ env.videoFormat = none) := by
      push_neg
      exact ⟨h1, h2⟩
    have hexec : ∀ x, executed (getCurrentPosition env x).2.2 = executed x :=
      fun x => congrArg FlushCore.executed (core_getCurrentPosition env x)
    have hfa : ∀ x, (getCurrentPosition env x).2.2.mFlushingAudio = x.mFlushingAudio :=
      fun x => congrArg FlushCore.mFlushingAudio (core_getCurrentPosition env x)
    have hfv : ∀ x, (getCurrentPosition env x).2.2.mFlushingVideo = x.mFlushingVideo :=
      fun x => congrArg FlushCore.mFlushingVideo (core_getCurrentPosition env x)
    have hm : ∀ x, (getCurrentPosition env x).2.2.mFlushComplete = x.mFlushComplete :=
      fun x => congrArg FlushCore.mFlushComplete (core_getCurrentPosition env x)
    have hq : ∀ x, (getCurrentPosition env x).2.2.mDeferredActions = x.mDeferredActions :=
      fun x => congrArg FlushCore.mDeferredActions (core_getCurrentPosition env x)
    have hw : ∀ x, (getCurrentPosition env x).2.2.mNativeWindow = x.mNativeWindow := by
      intro x
      unfold getCurrentPosition
      split_ifs <;>
        simp [dtsCheckHpsHint, dtsCheckMulAssetHint, dtsCheckStreamType, dtsCheckTotalApre,
          notifyListener, emit]
    have e1 : ∀ a x, (pushAction a x).mStarted = x.mStarted := fun _ _ => rfl
    have e2 : ∀ a x, (pushAction a x).mRenderer = x.mRenderer := fun _ _ => rfl
    have e3 : ∀ a (x : Player), (pushAction a x).mDeferredActions = x.mDeferredActions ++ [a] :=
      fun _ _ => rfl
    have e4 : ∀ a (x : Player), executed (pushAction a x) = executed x := fun _ _ => rfl
    have e5 : ∀ a (x : Player), (pushAction a x).mFlushingAudio = x.mFlushingAudio ∧
        (pushAction a x).mFlushingVideo = x.mFlushingVideo ∧
        (pushAction a x).mFlushComplete = x.mFlushComplete ∧
        (pushAction a x).mNativeWindow = x.mNativeWindow := fun _ _ => ⟨rfl, rfl, rfl, rfl⟩
    simp only [step, onMessageReceived, onSetVideoNativeWindow, if_neg h]
    refine ⟨_, rfl, ?_⟩
    cases w with
    | none => simp [e3, e4, e5, surfaceChangeActions]
    | some x =>
      by_cases hs : s.mStarted = true <;> by_cases hr : s.mRenderer = none <;>
        by_cases he : env.rendererPosition.1 = OK <;>
        simp [e1, e2, e3, e4, e5, surfaceChangeActions, hs, hr, he, hexec, hfa, hfv, hm, hq, hw,
          getCurrentPosition_fst, getCurrentPosition_snd_fst, NO_INIT_ne_OK]
  · unfold surfaceChangeActions
    split_ifs <;> simp
  · unfold surfaceChangeActions
    split_ifs <;> simp
  · intro hw
    simp [surfaceChangeActions, hw]
  · refine ⟨by simp only [step, onMessageReceived, onSetVideoNativeWindow, if_pos h],
      ?_, ?_, ?_⟩ <;>
      simp [performSetSurface, setVideoScalingMode, callDriver, emit, executed] <;>
      split_ifs <;> simp

theorem surface_change_actions_witness :
    (∃ s1, step exampleEnv (.message (.kWhatSetVideoNativeWindow (some 2))) playing
        = processDeferredActions exampleEnv s1 ∧
      s1.mDeferredActions = playing.mDeferredActions ++
        [.FlushDecoderAction .FLUSH_CMD_FLUSH .FLUSH_CMD_SHUTDOWN, .SetSurfaceAction (some 2),
          .SeekAction 0 false, .SimpleAction .performScanSources, .ResumeDecoderAction false]) ∧
    step exampleEnv (.message (.kWhatSetVideoNativeWindow (some 2))) (initial 10 [])
      = .ok (performSetSurface exampleEnv (some 2) (initial 10 [])) := by
  constructor
  · obtain ⟨s1, h1, h2, -⟩ :=
      (surface_change_actions exampleEnv (some 2) playing).1 (by decide) (by decide)
    exact ⟨s1, h1, h2⟩
  · exact ((surface_change_actions exampleEnv (some 2) (initial 10 [])).2.2.2.2
      (Or.inl rfl)).1
/-! ## Pause and resume -/

/-- Claim C29: the handling of `kWhatPause` and of `kWhatStart` (which runs
`onPause`, respectively `onResume` or, before the first start, `onStart`) leaves
the deferred-action queue, both flush statuses, the completion matrix and the
execution log as they are, and `kWhatPause` always returns; `onPause` in a paused
state and `onResume` in a state that is not paused return the state unchanged,
history included, so that no call is made on the source or the renderer. -/
theorem pause_resume_frame (env : Env) (s : Player) :
    (∃ t, step env (.message .kWhatPause) s = .ok t ∧
      t.mDeferredActions = s.mDeferredActions ∧ t.mFlushingAudio = s.mFlushingAudio ∧
      t.mFlushingVideo = s.mFlushingVideo ∧ t.mFlushComplete = s.mFlushComplete ∧
      executed t = executed s) ∧
    (∀ t, step env (.message .kWhatStart) s = .ok t →
      t.mDeferredActions = s.mDeferredActions ∧ t.mFlushingAudio = s.mFlushingAudio ∧
      t.mFlushingVideo = s.mFlushingVideo ∧ t.mFlushComplete = s.mFlushComplete ∧
      executed t = executed s) ∧
    (∀ t, onResume env s = .ok t →
      t.mDeferredActions = s.mDeferredActions ∧ t.mFlushingAudio = s.mFlushingAudio ∧
      t.mFlushingVideo = s.mFlushingVideo ∧ t.mFlushComplete = s.mFlushComplete) ∧
    ((onPause s).mDeferredActions = s.mDeferredActions ∧
      (onPause s).mFlushingAudio = s.mFlushingAudio ∧
      (onPause s).mFlushingVideo = s.mFlushingVideo ∧
      (onPause s).mFlushComplete = s.mFlushComplete) ∧
    (s.mPaused = true → onPause s = s ∧
      step env (.message .kWhatPause) s = .ok { s with mPausedByClient := true }) ∧
    (s.mPaused = false → onResume env s = .ok s ∧
      (s.mStarted = true →
        step env (.message .kWhatStart) s = .ok { s with mPausedByClient := false })) := by
  have hproj : ∀ {a b : Player}, core a = core b →
      a.mDeferredActions = b.mDeferredActions ∧ a.mFlushingAudio = b.mFlushingAudio ∧
      a.mFlushingVideo = b.mFlushingVideo ∧ a.mFlushComplete = b.mFlushComplete ∧
      executed a = executed b := fun h =>
    ⟨congrArg FlushCore.mDeferredActions h, congrArg FlushCore.mFlushingAudio h,
      congrArg FlushCore.mFlushingVideo h, congrArg FlushCore.mFlushComplete h,
      congrArg FlushCore.executed h⟩
  refine ⟨?_, fun t h => ?_, fun t h => ?_, ?_, fun h => ?_, fun h => ?_⟩
  · have h : step env (.message .kWhatPause) s = .ok { onPause s with mPausedByClient := true } :=
      rfl
    exact ⟨_, h, hproj (step_script env (.message .kWhatPause) s _ h)⟩
  · exact hproj (step_script env (.message .kWhatStart) s t h)
  · obtain ⟨h1, h2, h3, h4, -⟩ := hproj (frame_onResume env s t h)
    exact ⟨h1, h2, h3, h4⟩
  · obtain ⟨h1, h2, h3, h4, -⟩ := hproj (core_onPause s)
    exact ⟨h1, h2, h3, h4⟩
  · have e : onPause s = s := by simp [onPause, h]
    refine ⟨e, ?_⟩
    simp only [step, onMessageReceived, e]
  · have e : onResume env s = .ok s := by simp [onResume, h]
    refine ⟨e, fun hs => ?_⟩
    simp only [step, onMessageReceived]
    rw [if_pos hs, e]
    rfl

theorem pause_resume_frame_witness :
    (∃ t, step exampleEnv (.message .kWhatPause) seeking = .ok t ∧
      t.mDeferredActions = seeking.mDeferredActions ∧
      t.mFlushingAudio = .FLUSHING_DECODER ∧ t.mFlushingVideo = .FLUSHING_DECODER) ∧
    onResume exampleEnv playing = .ok playing ∧
    step exampleEnv (.message .kWhatStart) playing
      = .ok { playing with mPausedByClient := false } := by
  refine ⟨?_, ((pause_resume_frame exampleEnv playing).2.2.2.2.2 rfl).1,
    ((pause_resume_frame exampleEnv playing).2.2.2.2.2 rfl).2 rfl⟩
  obtain ⟨t, h1, h2, h3, h4, -⟩ := (pause_resume_frame exampleEnv seeking).1
  exact ⟨t, h1, h2, h3, h4⟩
/-! ## Scanning the sources -/

theorem creations_emit (e : Event) (s : Player) :
    creations (emit e s) = creations s ++
      (match e with
        | .decoder audio (.create _ _) => [audio]
        | _ => []) := by
  simp only [creations, emit, List.filterMap_append]
  congr 1
  cases e with
  | decoder a c => cases c <;> rfl
  | _ => rfl

theorem scanPosts_emit (e : Event) (s : Player) :
    scanPosts (emit e s) = scanPosts s ++
      (match e with
        | .post (.scanSources g n d) => [(g, n, d)]
        | _ => []) := by
  simp only [scanPosts, emit, List.filterMap_append]
  congr 1
  cases e with
  | post p => cases p <;> rfl
  | _ => rfl

/-- What an attempt to instantiate a decoder does to the observations of a scan. -/
theorem instantiateDecoder_scan (env : Env) (audio : Bool) (s : Player) :
    okThen (instantiateDecoder env audio s) (fun r =>
      creations r.2 = creations s ++
        (if getDecoder audio s = none ∧ getDecoder audio r.2 ≠ none then [audio] else []) ∧
      scanPosts r.2 = scanPosts s ∧ getDecoder (!audio) r.2 = getDecoder (!audio) s ∧
      (getDecoder audio s ≠ none → getDecoder audio r.2 = getDecoder audio s) ∧
      r.2.mAudioSink = s.mAudioSink ∧ r.2.mNativeWindow = s.mNativeWindow ∧
      r.2.mScanSourcesPending = s.mScanSourcesPending ∧
      r.2.mSourceFlags = s.mSourceFlags ∧ r.2.mSource = s.mSource) := by
  cases h : env.videoFormat <;> cases audio <;>
    simp [instantiateDecoder, emit, h, getDecoder]
  all_goals (split_ifs <;> simp_all [creations, scanPosts])

theorem tryOpenAudioSinkForOffload_scan (env : Env) (hasVideo : Bool) (s : Player) :
    okThen (tryOpenAudioSinkForOffload env hasVideo s) (fun t =>
      creations t = creations s ∧ scanPosts t = scanPosts s ∧
      t.mAudioDecoder = s.mAudioDecoder ∧ t.mVideoDecoder = s.mVideoDecoder ∧
      t.mAudioSink = s.mAudioSink ∧ t.mNativeWindow = s.mNativeWindow ∧
      t.mScanSourcesPending = s.mScanSourcesPending ∧
      t.mSourceFlags = s.mSourceFlags ∧ t.mSource = s.mSource) := by
  simp only [tryOpenAudioSinkForOffload]
  split_ifs <;> simp [emit, creations, scanPosts]

theorem scanSourcesAudio_scan (env : Env) (s : Player) :
    okThen (scanSourcesAudio env s) (fun t =>
      creations t = creations s ++
        (if s.mAudioDecoder = none ∧ t.mAudioDecoder ≠ none then [true] else []) ∧
      scanPosts t = scanPosts s ∧ t.mVideoDecoder = s.mVideoDecoder ∧
      (s.mAudioDecoder ≠ none → t.mAudioDecoder = s.mAudioDecoder) ∧
      t.mAudioSink = s.mAudioSink ∧ t.mNativeWindow = s.mNativeWindow ∧
      t.mScanSourcesPending = s.mScanSourcesPending ∧
      t.mSourceFlags = s.mSourceFlags ∧ t.mSource = s.mSource) := by
  have key : ∀ u : Player, creations u = creations s → scanPosts u = scanPosts s →
      u.mAudioDecoder = s.mAudioDecoder → u.mVideoDecoder = s.mVideoDecoder →
      u.mAudioSink = s.mAudioSink → u.mNativeWindow = s.mNativeWindow →
      u.mScanSourcesPending = s.mScanSourcesPending → u.mSourceFlags = s.mSourceFlags →
      u.mSource = s.mSource →
      okThen ((instantiateDecoder env true u).bind fun r => .ok r.2) (fun t =>
        creations t = creations s ++
          (if s.mAudioDecoder = none ∧ t.mAudioDecoder ≠ none then [true] else []) ∧
        scanPosts t = scanPosts s ∧ t.mVideoDecoder = s.mVideoDecoder ∧
        (s.mAudioDecoder ≠ none → t.mAudioDecoder = s.mAudioDecoder) ∧
        t.mAudioSink = s.mAudioSink ∧ t.mNativeWindow = s.mNativeWindow ∧
        t.mScanSourcesPending = s.mScanSourcesPending ∧
        t.mSourceFlags = s.mSourceFlags ∧ t.mSource = s.mSource) := by
    intro u h1 h2 h3 h4 h5 h6 h7 h8 h9
    simp only [okThen_bind, okThen_ok]
    refine okThen_mono (instantiateDecoder_scan env true u) fun r hr => ?_
    obtain ⟨r1, r2, r3, r4, r5, r6, r7, r8, r9⟩ := hr
    simp only [getDecoder, if_true, Bool.not_true, Bool.false_eq_true, if_false] at r1 r3 r4
    rw [h3] at r1 r4
    exact ⟨r1.trans (by rw [h1]), r2.trans h2, r3.trans h4, r4,
      r5.trans h5, r6.trans h6, r7.trans h7, r8.trans h8, r9.trans h9⟩
  unfold scanSourcesAudio
  by_cases c1 : s.mAudioSink ≠ none ∧ s.mAudioDecoder = none
  · rw [if_pos c1]
    by_cases c2 : s.mSource = none
    · rw [if_pos c2]
      simp
    · rw [if_neg c2]
      simp only [okThen_bind]
      have hx : okThen (if env.canOffloadStream = true then
            if (!s.mOffloadAudio) = true ∧ s.mRenderer = none then .error .nullDeref
            else tryOpenAudioSinkForOffload env env.videoFormat.isSome
              (if (!s.mOffloadAudio) = true then emit (.renderer .signalEnableOffloadAudio) s
                else s)
          else .ok s) (fun q : Player =>
          creations q = creations s ∧ scanPosts q = scanPosts s ∧
          q.mAudioDecoder = s.mAudioDecoder ∧ q.mVideoDecoder = s.mVideoDecoder ∧
          q.mAudioSink = s.mAudioSink ∧ q.mNativeWindow = s.mNativeWindow ∧
          q.mScanSourcesPending = s.mScanSourcesPending ∧
          q.mSourceFlags = s.mSourceFlags ∧ q.mSource = s.mSource) := by
        split_ifs
        · simp
        · refine okThen_mono (tryOpenAudioSinkForOffload_scan env _ _) fun q hq => ?_
          simpa [emit, creations, scanPosts] using hq
        · refine okThen_mono (tryOpenAudioSinkForOffload_scan env _ _) fun q hq => ?_
          simpa using hq
        · simp
      refine okThen_mono hx fun q hq => ?_
      obtain ⟨q1, q2, q3, q4, q5, q6, q7, q8, q9⟩ := hq
      have := key q q1 q2 q3 q4 q5 q6 q7 q8 q9
      simpa only [okThen_bind] using this
  · rw [if_neg c1]
    intro t ht
    cases ht
    refine ⟨?_, rfl, rfl, fun _ => rfl, rfl, rfl, rfl, rfl, rfl⟩
    split_ifs with h
    · exact absurd h.1 h.2
    · simp

theorem scanSourcesFeed_scan (env : Env) (g : Int) (n : Option Int) (s : Player)
    (hfeed : env.feedMoreTSDataErr = OK) :
    okThen (scanSourcesFeed env g n s) (fun t =>
      (t.mScanSourcesPending = true ↔ (s.mScanSourcesPending = true ∨ decoderMissing s)) ∧
      scanPosts t = scanPosts s ++ (if decoderMissing s then [(g, n, 100000)] else []) ∧
      creations t = creations s ∧
      t.mAudioDecoder = s.mAudioDecoder ∧ t.mVideoDecoder = s.mVideoDecoder ∧
      t.mAudioSink = s.mAudioSink ∧ t.mNativeWindow = s.mNativeWindow) := by
  have e : decoderMissing (emit (.source .feedMoreTSData) s) ↔ decoderMissing s := Iff.rfl
  unfold scanSourcesFeed
  by_cases hs : s.mSource = none
  · rw [if_pos hs]
    simp
  · rw [if_neg hs]
    simp only [hfeed, ne_eq, not_true_eq_false, if_false]
    by_cases hm : decoderMissing s
    · have hm2 := hm
      unfold decoderMissing at hm2
      rw [if_pos hm]
      split_ifs with c
      · simp [emit, scanPosts, creations, hm]
      · exact absurd hm2 c
    · have hm2 := hm
      unfold decoderMissing at hm2
      rw [if_neg hm]
      split_ifs with c
      · exact absurd c hm2
      · simp [emit, scanPosts, creations, hm]

theorem bind_ok {α β : Type} {x : Except Abort α} {k : α → Except Abort β} {b : β}
    (h : x.bind k = .ok b) : ∃ a, x = .ok a ∧ k a = .ok b := by
  cases x with
  | error e => cases h
  | ok a => exact ⟨a, rfl, h⟩

/-- Claim C30: a current-generation `kWhatScanSources` message that is not
deferred for the frame rate and whose `feedMoreTSData` returns `OK`, when it has
been handled: the decoders created by it are created video first, audio second
(the video decoder only with a native window set, the audio decoder only with an
audio sink set); the message is posted again, with its scan number and a delay of
100 ms, and `mScanSourcesPending` is set, exactly when a decoder is missing whose
output is set (audio decoder absent with an audio sink, or video decoder absent
with a native window); otherwise `mScanSourcesPending` is false and nothing is
posted. -/
theorem scan_sources_end (env : Env) (scanNum : Option Int) (s t : Player)
    (hw : ¬ scanWaits scanNum s) (hfeed : env.feedMoreTSDataErr = OK)
    (h : step env (.message (.kWhatScanSources s.mScanSourcesGeneration scanNum)) s = .ok t) :
    (t.mScanSourcesPending = true ↔ decoderMissing t) ∧
    scanPosts t = scanPosts s ++
      (if decoderMissing t then [(s.mScanSourcesGeneration, scanNum, 100000)] else []) ∧
    creations t = creations s ++
      (if s.mVideoDecoder = none ∧ t.mVideoDecoder ≠ none then [false] else []) ++
      (if s.mAudioDecoder = none ∧ t.mAudioDecoder ≠ none then [true] else []) ∧
    (s.mNativeWindow = none → t.mVideoDecoder = s.mVideoDecoder) ∧
    (s.mAudioSink = none → t.mAudioDecoder = s.mAudioDecoder) ∧
    t.mAudioSink = s.mAudioSink ∧ t.mNativeWindow = s.mNativeWindow := by
  unfold scanWaits at hw
  simp only [step, onMessageReceived, onScanSources, ne_eq, not_true_eq_false, if_false,
    if_neg hw] at h
  -- the attempt on the video decoder
  obtain ⟨r, hr, h⟩ := bind_ok h
  obtain ⟨q, hq, h⟩ := bind_ok h
  have hr2 : creations r.2 = creations s ++
        (if s.mVideoDecoder = none ∧ r.2.mVideoDecoder ≠ none then [false] else []) ∧
      scanPosts r.2 = scanPosts s ∧ r.2.mAudioDecoder = s.mAudioDecoder ∧
      (s.mNativeWindow = none → r.2.mVideoDecoder = s.mVideoDecoder) ∧
      (s.mVideoDecoder ≠ none → r.2.mVideoDecoder = s.mVideoDecoder) ∧
      r.2.mAudioSink = s.mAudioSink ∧ r.2.mNativeWindow = s.mNativeWindow ∧
      r.2.mScanSourcesPending = false := by
    by_cases hn : s.mNativeWindow = none
    · simp only [hn, not_true_eq_false, if_false] at hr
      cases hr
      simp [hn, creations, scanPosts]
    · simp only [hn, not_false_eq_true, if_true] at hr
      obtain ⟨r1, r2, r3, r4, r5, r6, r7, -, -⟩ := instantiateDecoder_scan env false _ r hr
      simp only [getDecoder, Bool.false_eq_true, if_false, Bool.not_false, if_true] at r1 r3 r4
      exact ⟨r1, r2, r3, fun h => absurd h hn, r4, r5, r6, r7⟩
  obtain ⟨r1, r2, r3, r4, r5, r6, r7, r8⟩ := hr2
  obtain ⟨q1, q2, q3, q4, q5, q6, q7, -, -⟩ := scanSourcesAudio_scan env r.2 q hq
  obtain ⟨u, hu1, hu2, hu3, hu4, hu5, hu6, hu7, hfeedu⟩ : ∃ u : Player,
      creations u = creations q ∧ scanPosts u = scanPosts q ∧
      u.mAudioDecoder = q.mAudioDecoder ∧ u.mVideoDecoder = q.mVideoDecoder ∧
      u.mAudioSink = q.mAudioSink ∧ u.mNativeWindow = q.mNativeWindow ∧
      u.mScanSourcesPending = q.mScanSourcesPending ∧
      scanSourcesFeed env s.mScanSourcesGeneration scanNum u = .ok t := by
    refine ⟨_, ?_, ?_, ?_, ?_, ?_, ?_, ?_, h⟩ <;>
      split_ifs <;> simp [schedulePollDuration, emit, creations, scanPosts]
  obtain ⟨t1, t2, t3, t4, t5, t6, t7⟩ :=
    scanSourcesFeed_scan env s.mScanSourcesGeneration scanNum u hfeed t hfeedu
  have hmiss : decoderMissing t ↔ decoderMissing u := by
    unfold decoderMissing
    rw [t4, t5, t6, t7]
  have hpend : u.mScanSourcesPending = false := by rw [hu7, q7, r8]
  have tA : t.mAudioDecoder = q.mAudioDecoder := t4.trans hu3
  have tV : t.mVideoDecoder = r.2.mVideoDecoder := (t5.trans hu4).trans q3
  refine ⟨?_, ?_, ?_, ?_, ?_, ?_, ?_⟩
  · rw [t1, hpend, hmiss]
    simp
  · rw [t2, hu2, q2, r2]
    by_cases hm : decoderMissing u
    · rw [if_pos hm, if_pos (hmiss.2 hm)]
    · rw [if_neg hm, if_neg (fun h => hm (hmiss.1 h))]
  · rw [t3, hu1, q1, r1, tA, tV, r3]
  · intro hn
    rw [tV]
    exact r4 hn
  · intro hn
    rw [tA]
    by_cases ha : s.mAudioDecoder = none
    · have hq0 : scanSourcesAudio env r.2 = .ok r.2 := by
        unfold scanSourcesAudio
        rw [if_neg]
        rw [r6, hn]
        simp
      rw [hq0] at hq
      cases hq
      exact r3
    · rw [q4 (by rw [r3]; exact ha), r3]
  · rw [t6, hu5, q5, r6]
  · rw [t7, hu6, q6, r7]

theorem scan_sources_end_witness :
    (playing.mScanSourcesPending = true ↔ decoderMissing playing) ∧
    scanPosts playing = scanPosts started ++
      (if decoderMissing playing then [(started.mScanSourcesGeneration, none, 100000)] else []) ∧
    creations playing = creations started ++
      (if started.mVideoDecoder = none ∧ playing.mVideoDecoder ≠ none then [false] else []) ++
      (if started.mAudioDecoder = none ∧ playing.mAudioDecoder ≠ none then [true] else []) ∧
    creations playing = [false, true] :=
  ⟨(scan_sources_end exampleEnv none started playing (by decide) rfl rfl).1,
    (scan_sources_end exampleEnv none started playing (by decide) rfl rfl).2.1,
    (scan_sources_end exampleEnv none started playing (by decide) rfl rfl).2.2.1,
    by decide⟩

/-! ## Track selection of the live source -/

/-- Claim C27: `HTTPLiveSource::selectTrack`, for every track index.  Without a
live session it returns `INVALID_OPERATION` and changes nothing.  With a session,
a redundant selection returns `OK`, leaves `mMetadataSelected`, `mHasSub` and both
fetch generations unchanged and posts no fetch message: this is so when the
session reports `BAD_VALUE` for a track other than the metadata track, and when,
for the metadata track, `mMetadataSelected` already equals the requested value
(then nothing at all changes).  An error of the session other than `BAD_VALUE` is
returned as it is, with the same members unchanged. -/
theorem selectTrack_redundant (env : LiveEnv) (trackIndex : Nat) (select : Bool)
    (s : HTTPLiveSource) :
    (s.mLiveSession = false →
      HTTPLiveSource.selectTrack env trackIndex select s = (INVALID_OPERATION, s)) ∧
    (s.mLiveSession = true → (s.mHasMetadata = false ∨ trackIndex ≠ env.lastTrack) →
      env.selectTrackErr ≠ OK →
      (HTTPLiveSource.selectTrack env trackIndex select s).1
        = (if env.selectTrackErr = BAD_VALUE then OK else env.selectTrackErr) ∧
      (HTTPLiveSource.selectTrack env trackIndex select s).2
        = s.emit (.sessionSelectTrack trackIndex select) ∧
      (HTTPLiveSource.selectTrack env trackIndex select s).2.fetchPosts = s.fetchPosts) ∧
    (s.mLiveSession = true → s.mHasMetadata = true → trackIndex = env.lastTrack →
      s.mMetadataSelected = select →
      HTTPLiveSource.selectTrack env trackIndex select s = (OK, s)) := by
  refine ⟨fun h => ?_, fun h1 h2 h3 => ?_, fun h1 h2 h3 h4 => ?_⟩
  · simp [HTTPLiveSource.selectTrack, h]
  · have hc : (!s.mHasMetadata) = true ∨ trackIndex ≠ env.lastTrack := by
      rcases h2 with h2 | h2
      · exact Or.inl (by simp [h2])
      · exact Or.inr h2
    simp only [HTTPLiveSource.selectTrack, h1, Bool.not_true, Bool.false_eq_true, if_false,
      if_pos hc, if_neg h3]
    refine ⟨?_, trivial, ?_⟩
    · by_cases hb : env.selectTrackErr = BAD_VALUE
      · simp [hb]
      · simp [hb, h3]
    · simp [HTTPLiveSource.fetchPosts, HTTPLiveSource.emit]
  · subst h4
    cases hm : s.mMetadataSelected <;>
      simp [HTTPLiveSource.selectTrack, h1, h2, h3, hm, BAD_VALUE, OK]
    all_goals
      cases s
      simp_all

theorem selectTrack_redundant_witness :
    HTTPLiveSource.selectTrack liveRedundant 0 true HTTPLiveSource.initial
      = (INVALID_OPERATION, HTTPLiveSource.initial) ∧
    (HTTPLiveSource.selectTrack liveRedundant 1 true liveWithMetadata).1 = OK ∧
    (HTTPLiveSource.selectTrack liveRedundant 1 true liveWithMetadata).2.fetchPosts = [] ∧
    HTTPLiveSource.selectTrack liveRedundant 2 true liveWithMetadata = (OK, liveWithMetadata) :=
  ⟨(selectTrack_redundant liveRedundant 0 true HTTPLiveSource.initial).1 rfl,
    ((selectTrack_redundant liveRedundant 1 true liveWithMetadata).2.1 rfl
      (Or.inr (by decide)) (by decide)).1,
    ((selectTrack_redundant liveRedundant 1 true liveWithMetadata).2.1 rfl
      (Or.inr (by decide)) (by decide)).2.2,
    (selectTrack_redundant liveRedundant 2 true liveWithMetadata).2.2 rfl rfl rfl rfl⟩

/-! ## The completion of a shutdown -/

/-- Claim C22, on the code: the handler of a current-generation
`kWhatShutdownCompleted` fails its own check exactly when the status of the track
is not `SHUTTING_DOWN_DECODER`; with that status it releases the decoder of the
track, advances its generation by one (`inc32`, which is `+ 1` below the largest
`int32_t`) and sets the status to `SHUT_DOWN`, leaving the decoder and the
generation of the other track alone, and then runs `finishFlushIfPossible`. The
run of `finishFlushIfPossible` can still end in a fatal check: in the session
`resetRaceState` the status of the video track is `SHUTTING_DOWN_DECODER`, and
the notification aborts in the `CHECK` of `performReset`. -/
theorem shutdownCompleted_check :
    (∀ (env : Env) (X : Bool) (reply : Option Nat) (s : Player),
      flushing X s ≠ .SHUTTING_DOWN_DECODER →
      step env (decoderNotify X (decoderGeneration X s) reply .kWhatShutdownCompleted) s
        = .error .check) ∧
    (∀ (env : Env) (X : Bool) (reply : Option Nat) (s : Player),
      flushing X s = .SHUTTING_DOWN_DECODER →
      ∃ s0, step env (decoderNotify X (decoderGeneration X s) reply .kWhatShutdownCompleted) s
          = finishFlushIfPossible env (releaseDecoder X s0) ∧
        getDecoder X (releaseDecoder X s0) = none ∧
        decoderGeneration X (releaseDecoder X s0) = inc32 (decoderGeneration X s) ∧
        flushing X (releaseDecoder X s0) = .SHUT_DOWN ∧
        getDecoder (!X) (releaseDecoder X s0) = getDecoder (!X) s ∧
        decoderGeneration (!X) (releaseDecoder X s0) = decoderGeneration (!X) s ∧
        flushing (!X) (releaseDecoder X s0) = flushing (!X) s) ∧
    (∀ g : Int, -2147483648 ≤ g → g < 2147483647 → inc32 g = g + 1) ∧
    (flushing false resetRaceState = .SHUTTING_DOWN_DECODER ∧
      decoderGeneration false resetRaceState = 1 ∧
      step exampleEnv (decoderNotify false 1 none .kWhatShutdownCompleted) resetRaceState
        = .error .check) := by
  refine ⟨?_, ?_, ?_, by decide, by decide, rfl⟩
  · intro env X reply s hf
    cases X
    · have hf2 : s.mFlushingVideo ≠ .SHUTTING_DOWN_DECODER := hf
      simp only [step, decoderNotify, decoderGeneration, onMessageReceived, onDecoderNotify,
        Bool.false_eq_true, if_false, ne_eq, not_true_eq_false]
      split_ifs <;> simp_all [emit]
    · have hf2 : s.mFlushingAudio ≠ .SHUTTING_DOWN_DECODER := hf
      simp only [step, decoderNotify, decoderGeneration, onMessageReceived, onDecoderNotify,
        if_true, ne_eq, not_true_eq_false]
      split_ifs <;> simp_all
  · intro env X reply s hf
    obtain ⟨s0, h1, h2⟩ := step_shutdownCompleted env X reply s hf
    obtain ⟨-, -, -, f4, f5, -, -, -, f9, f10, -⟩ := autoSwitch_frame h2
    refine ⟨s0, h1, ?_, ?_, ?_, ?_, ?_, ?_⟩
    · cases X <;> rfl
    · cases X
      · exact congrArg inc32 f10
      · exact congrArg inc32 f9
    · cases X <;> rfl
    · rw [← f5 (!X)]
      cases X <;> rfl
    · cases X
      · exact f9
      · exact f10
    · rw [← f4 (!X)]
      cases X <;> rfl
  · intro g h0 h1
    unfold inc32 wrap32
    omega

/-! ## The order of the flush statuses -/

theorem ack_rank (c : FlushCore) (a d X : Bool) :
    (c.ack a d).flushing X = c.flushing X ∨
      (c.flushing X).rank < ((c.ack a d).flushing X).rank := by
  unfold FlushCore.ack
  dsimp only
  split_ifs with h1 h2
  · exact .inl rfl
  · cases X <;> cases hfa : c.mFlushingAudio <;>
      simp [FlushCore.flushing, hfa, FlushStatus.rank]
  · cases X <;> cases hfv : c.mFlushingVideo <;>
      simp [FlushCore.flushing, hfv, FlushStatus.rank]

theorem drained_rank {s t : Player} (h : Drained s t) (X : Bool) :
    flushing X t = flushing X s ∨ (flushing X s).rank < (flushing X t).rank := by
  obtain ⟨done, _, _, _, _, h5, h6⟩ := h
  by_cases hd : done = []
  · rw [h5 hd]
    exact .inl rfl
  · obtain ⟨sa, sv, ha, hv, _⟩ := h6 hd
    unfold FlushStatus.freshlyFlushing at ha hv
    have ha2 : t.mFlushingAudio = s.mFlushingAudio ∨
        s.mFlushingAudio.rank < t.mFlushingAudio.rank := by
      rw [sa]
      rcases ha with e | e | e <;> rw [e] <;> decide
    have hv2 : t.mFlushingVideo = s.mFlushingVideo ∨
        s.mFlushingVideo.rank < t.mFlushingVideo.rank := by
      rw [sv]
      rcases hv with e | e | e <;> rw [e] <;> decide
    cases X
    · exact hv2
    · exact ha2

theorem finish_rank (env : Env) (s t : Player) (h : finishFlushIfPossible env s = .ok t) :
    t = s ∨ ((s.mFlushingAudio.midFlush = false ∧ s.mFlushingVideo.midFlush = false) ∧
      ∀ Y, (flushing Y t).freshlyFlushing) := by
  by_cases hm : s.mFlushingAudio.midFlush = true ∨ s.mFlushingVideo.midFlush = true
  · rw [finishFlushIfPossible_mid env s hm] at h
    cases h
    exact .inl rfl
  · push_neg at hm
    have ha : s.mFlushingAudio.midFlush = false := by simpa using hm.1
    have hv : s.mFlushingVideo.midFlush = false := by simpa using hm.2
    rw [finishFlushIfPossible_terminal env s ha hv] at h
    refine .inr ⟨⟨ha, hv⟩, fun Y => ?_⟩
    obtain ⟨done, _, _, _, _, h5, h6⟩ := processDeferredActions_drained env _ t h
    by_cases hd : done = []
    · rw [h5 hd]
      cases Y <;> exact .inl rfl
    · obtain ⟨_, _, fa, fv, _⟩ := h6 hd
      cases Y
      · exact fv
      · exact fa

theorem script_inputs (env : Env) (input : Input) (s : Player) :
    match script env input s with
    | .ackFinish _ _ => input.callsFinish = true
    | .errorFinish => input.callsFinish = true
    | .shutdownCompleted _ => input.callsFinish = true
    | .errorShutdown X => input.isErrorOf X = true
    | _ => True := by
  cases input with
  | call api => simp [script]
  | message msg =>
    cases msg with
    | kWhatVideoNotify g r what =>
      cases what <;> simp only [script, decoderScript] <;> split_ifs <;>
        (try (cases flushing false s)) <;> simp [Input.callsFinish, Input.isErrorOf]
    | kWhatAudioNotify g r what =>
      cases what <;> simp only [script, decoderScript] <;> split_ifs <;>
        (try (cases flushing true s)) <;> simp [Input.callsFinish, Input.isErrorOf]
    | kWhatRendererNotify g what =>
      cases what <;> simp only [script] <;> split_ifs <;> simp [Input.callsFinish]
    | kWhatSourceNotify what =>
      cases what <;> simp only [script]
      all_goals (try split_ifs)
      all_goals simp
    | kWhatSetVideoNativeWindow obj =>
      simp only [script]
      split_ifs <;> simp
    | _ => simp [script]

theorem flushing_of_core {s t : Player} (h : core t = core s) (X : Bool) :
    flushing X t = flushing X s := by
  rw [← core_flushing, h, core_flushing]

theorem setFlushing_flushing (c : FlushCore) (A X : Bool) (v : FlushStatus) :
    (c.setFlushing A v).flushing X = if X = A then v else c.flushing X := by
  cases A <;> cases X <;> rfl

/-- The statuses after `finishFlushIfPossible`, seen from the state `s` before
the handler, when the handler has moved the statuses forward on its way to the
state `s1` in which `finishFlushIfPossible` is called. -/
theorem finish_step (env : Env) (input : Input) (s s1 t1 t : Player)
    (hc : input.callsFinish = true)
    (h1 : ∀ X, flushing X s1 = flushing X s ∨ (flushing X s).rank < (flushing X s1).rank)
    (hf : finishFlushIfPossible env s1 = .ok t1) (ht : core t = core t1) :
    (∀ X, flushing X t = flushing X s ∨ (flushing X s).rank < (flushing X t).rank ∨
        (input.isErrorOf X = true ∧ flushing X s = .FLUSHED ∧
          flushing X t = .SHUTTING_DOWN_DECODER)) ∨
      (input.callsFinish = true ∧ ∀ Y, (flushing Y t).freshlyFlushing) := by
  rcases finish_rank env s1 t1 hf with e | ⟨-, e⟩
  · left
    intro X
    rw [flushing_of_core ht, e]
    rcases h1 X with a | a
    · exact .inl a
    · exact .inr (.inl a)
  · right
    refine ⟨hc, fun Y => ?_⟩
    rw [flushing_of_core ht]
    exact e Y

/-- Claim C23, counterexample: in the session in which the flush of the audio
track is complete (`FLUSHED`) while the video track is still flushing, an error of
the audio decoder moves the audio track to `SHUTTING_DOWN_DECODER`, which stands
before `FLUSHED` in the order; `finishFlushIfPossible` has no part in it, the
status is not `NONE` afterwards. -/
theorem flushed_error_moves_back :
    flushing true audioFlushed = .FLUSHED ∧
    ∃ t, step exampleEnv (decoderNotify true 1 none (.kWhatError (some (-5)))) audioFlushed
        = .ok t ∧
      flushing true t = .SHUTTING_DOWN_DECODER ∧
      (flushing true t).rank < (flushing true audioFlushed).rank ∧
      flushing true t ≠ .NONE :=
  ⟨by decide, _, rfl, by decide, by decide, by decide⟩

/-- Claim C23, amended: across the handling of one input, either every track keeps
its status, moves strictly forward in the order `NONE`, `FLUSHING_DECODER`,
`FLUSHING_DECODER_SHUTDOWN`, `SHUTTING_DOWN_DECODER`, `FLUSHED`, `SHUT_DOWN`, or
is moved from `FLUSHED` to `SHUTTING_DOWN_DECODER` by its own decoder error; or
the handler is one that calls `finishFlushIfPossible`, which has reset both
tracks to `NONE` (from where the deferred actions may have started a new flush).
So a status is set back to `NONE` only by `finishFlushIfPossible`, for both tracks
in the same step. The operations themselves: `handleFlushComplete` and
`processDeferredActions` keep a status or move it forward, and
`finishFlushIfPossible` either changes nothing or, with no track mid-flush, sets
both statuses to `NONE` and runs the deferred actions. -/
theorem status_moves (env : Env) (input : Input) (s t : Player)
    (h : step env input s = .ok t) :
    ((∀ X, flushing X t = flushing X s ∨ (flushing X s).rank < (flushing X t).rank ∨
        (input.isErrorOf X = true ∧ flushing X s = .FLUSHED ∧
          flushing X t = .SHUTTING_DOWN_DECODER)) ∨
      (input.callsFinish = true ∧ ∀ Y, (flushing Y t).freshlyFlushing)) ∧
    (∀ X, flushing X s ≠ .NONE → flushing X t = .NONE →
      input.callsFinish = true ∧ ∀ Y, (flushing Y t).freshlyFlushing) ∧
    (∀ (a d : Bool) (s1 t1 : Player), handleFlushComplete a d s1 = .ok t1 →
      ∀ X, flushing X t1 = flushing X s1 ∨ (flushing X s1).rank < (flushing X t1).rank) ∧
    (∀ s1 t1 : Player, processDeferredActions env s1 = .ok t1 →
      ∀ X, flushing X t1 = flushing X s1 ∨ (flushing X s1).rank < (flushing X t1).rank) ∧
    (∀ s1 t1 : Player, finishFlushIfPossible env s1 = .ok t1 →
      t1 = s1 ∨
        (s1.mFlushingAudio.midFlush = false ∧ s1.mFlushingVideo.midFlush = false ∧
          processDeferredActions env
            (clearFlushComplete { s1 with mFlushingAudio := .NONE, mFlushingVideo := .NONE })
            = .ok t1)) := by
  have hack : ∀ (a d : Bool) (s1 t1 : Player), handleFlushComplete a d s1 = .ok t1 →
      ∀ X, flushing X t1 = flushing X s1 ∨ (flushing X s1).rank < (flushing X t1).rank := by
    intro a d s1 t1 h1 X
    have hc := frame_handleFlushComplete a d s1 t1 h1
    have := ack_rank (core s1) a d X
    rw [← hc, core_flushing, core_flushing] at this
    exact this
  have hdrain : ∀ s1 t1 : Player, processDeferredActions env s1 = .ok t1 →
      ∀ X, flushing X t1 = flushing X s1 ∨ (flushing X s1).rank < (flushing X t1).rank :=
    fun s1 t1 h1 X => drained_rank (processDeferredActions_drained env s1 t1 h1) X
  have main : (∀ X, flushing X t = flushing X s ∨ (flushing X s).rank < (flushing X t).rank ∨
        (input.isErrorOf X = true ∧ flushing X s = .FLUSHED ∧
          flushing X t = .SHUTTING_DOWN_DECODER)) ∨
      (input.callsFinish = true ∧ ∀ Y, (flushing Y t).freshlyFlushing) := by
    have hr := step_script env input s t h
    have hi := script_inputs env input s
    generalize script env input s = sc at hr hi
    cases sc with
    | frame =>
      exact .inl fun X => .inl (flushing_of_core hr X)
    | pushDrain actions =>
      obtain ⟨s1, t1, c1, hd, c2⟩ := hr
      left
      intro X
      have e1 : flushing X s1 = flushing X s := by
        rw [← core_flushing, c1]
        cases X <;> rfl
      rw [flushing_of_core c2, ← e1]
      rcases hdrain s1 t1 hd X with a | a
      · exact .inl a
      · exact .inr (.inl a)
    | ackFinish a d =>
      obtain ⟨s1, s2, t1, c1, ha, hf, c2⟩ := hr
      refine finish_step env input s s2 t1 t hi (fun X => ?_) hf c2
      rw [← flushing_of_core c1 X]
      exact hack a d s1 s2 ha X
    | errorUpgrade A =>
      obtain ⟨e1, e2⟩ := hr
      left
      intro X
      rw [← core_flushing X t, e2, setFlushing_flushing, core_flushing]
      by_cases hx : X = A
      · rw [if_pos hx]
        rw [hx, ← core_flushing, e1]
        exact .inr (.inl (by decide))
      · rw [if_neg hx]
        exact .inl rfl
    | errorShutdown A =>
      obtain ⟨e1, e2⟩ := hr
      left
      intro X
      rw [← core_flushing X t, e2, setFlushing_flushing, core_flushing]
      by_cases hx : X = A
      · rw [if_pos hx]
        rw [hx, ← core_flushing, e1]
        exact .inr (.inr ⟨hi, rfl, rfl⟩)
      · rw [if_neg hx]
        exact .inl rfl
    | errorFinish =>
      obtain ⟨s1, t1, c1, hf, c2⟩ := hr
      exact finish_step env input s s1 t1 t hi (fun X => .inl (flushing_of_core c1 X)) hf c2
    | shutdownCompleted A =>
      obtain ⟨e1, s1, t1, c1, hf, c2⟩ := hr
      refine finish_step env input s s1 t1 t hi (fun X => ?_) hf c2
      rw [← core_flushing X s1, c1, setFlushing_flushing, core_flushing]
      by_cases hx : X = A
      · rw [if_pos hx]
        rw [hx, ← core_flushing, e1]
        exact .inr (by decide)
      · rw [if_neg hx]
        exact .inl rfl
  refine ⟨main, ?_, hack, hdrain, ?_⟩
  · intro X hs ht
    rcases main with m | m
    · rcases m X with a | a | ⟨-, -, a⟩
      · exact absurd (a ▸ ht) hs
      · rw [ht] at a
        exact absurd a (Nat.not_lt_zero _)
      · rw [ht] at a
        cases a
    · exact m
  · intro s1 t1 h1
    by_cases hm : s1.mFlushingAudio.midFlush = true ∨ s1.mFlushingVideo.midFlush = true
    · rw [finishFlushIfPossible_mid env s1 hm] at h1
      cases h1
      exact .inl rfl
    · push_neg at hm
      have ha : s1.mFlushingAudio.midFlush = false := by simpa using hm.1
      have hv : s1.mFlushingVideo.midFlush = false := by simpa using hm.2
      rw [finishFlushIfPossible_terminal env s1 ha hv] at h1
      exact .inr ⟨ha, hv, h1⟩

theorem status_moves_witness :
    step exampleEnv (.message (.kWhatSeek 5 true)) playing = .ok seeking ∧
    flushing true playing = .NONE ∧ flushing true seeking = .FLUSHING_DECODER ∧
    ∀ X, flushing X seeking = flushing X playing ∨
      (flushing X playing).rank < (flushing X seeking).rank := by
  have hst : step exampleEnv (.message (.kWhatSeek 5 true)) playing = .ok seeking := rfl
  obtain ⟨h1, -⟩ := status_moves exampleEnv (.message (.kWhatSeek 5 true)) playing seeking hst
  refine ⟨hst, by decide, by decide, fun X => ?_⟩
  rcases h1 with m | ⟨c, -⟩
  · rcases m X with a | a | ⟨e, -⟩
    · exact .inl a
    · exact .inr a
    · cases X <;> cases e
  · cases c

/-! ## Generation counters -/

theorem within_refl (n : Nat) (a : Int) : Within n a a := ⟨0, Nat.zero_le _, rfl⟩

theorem within_inc (n : Nat) (a : Int) (h : 0 < n) : Within n a (inc32 a) := ⟨1, h, rfl⟩

theorem within_trans {n m : Nat} {a b c : Int} (h1 : Within n a b) (h2 : Within m b c) :
    Within (n + m) a c := by
  obtain ⟨k1, hk1, rfl⟩ := h1
  obtain ⟨k2, hk2, rfl⟩ := h2
  refine ⟨k2 + k1, by omega, ?_⟩
  rw [Function.iterate_add_apply]

theorem within_mono {n m : Nat} {a b : Int} (h : n ≤ m) (h1 : Within n a b) : Within m a b := by
  obtain ⟨k, hk, e⟩ := h1
  exact ⟨k, le_trans hk h, e⟩

theorem tracked_refl {α : Type} (tag : α → Int) (n : Nat) (g : Int) (d : Option α) :
    Tracked tag n g d g d :=
  ⟨0, Nat.zero_le _, rfl, fun _ => rfl, fun h => absurd h (lt_irrefl 0)⟩

theorem tracked_clear {α : Type} (tag : α → Int) (n : Nat) (g : Int) (d : Option α) (h : 0 < n) :
    Tracked tag n g d (inc32 g) none :=
  ⟨1, h, rfl, fun h => absurd h one_ne_zero, fun _ x hx => by cases hx⟩

theorem tracked_create {α : Type} (tag : α → Int) (n : Nat) (g : Int) (d : Option α) (x : α)
    (h : 0 < n) (hx : tag x = inc32 g) : Tracked tag n g d (inc32 g) (some x) :=
  ⟨1, h, rfl, fun h => absurd h one_ne_zero, fun _ y hy => by cases hy; exact hx⟩

theorem tracked_trans {α : Type} {tag : α → Int} {n m : Nat} {g g2 g3 : Int}
    {d d2 d3 : Option α} (h1 : Tracked tag n g d g2 d2) (h2 : Tracked tag m g2 d2 g3 d3) :
    Tracked tag (n + m) g d g3 d3 := by
  obtain ⟨k1, hk1, rfl, a1, b1⟩ := h1
  obtain ⟨k2, hk2, rfl, a2, b2⟩ := h2
  refine ⟨k2 + k1, by omega, ?_, fun h => ?_, fun h x hx => ?_⟩
  · rw [Function.iterate_add_apply]
  · rw [a2 (by omega), a1 (by omega)]
  · by_cases h0 : k2 = 0
    · subst h0
      rw [a2 rfl] at hx
      simpa using b1 (by omega) x hx
    · exact b2 (Nat.pos_of_ne_zero h0) x hx

theorem tracked_mono {α : Type} {tag : α → Int} {n m : Nat} {g g2 : Int} {d d2 : Option α}
    (h : n ≤ m) (h1 : Tracked tag n g d g2 d2) : Tracked tag m g d g2 d2 := by
  obtain ⟨k, hk, e, a, b⟩ := h1
  exact ⟨k, le_trans hk h, e, a, b⟩

theorem tracked_within {α : Type} {tag : α → Int} {n : Nat} {g g2 : Int} {d d2 : Option α}
    (h : Tracked tag n g d g2 d2) : Within n g g2 := by
  obtain ⟨k, hk, e, -, -⟩ := h
  exact ⟨k, hk, e⟩

theorem genStep_refl (m n : Nat) (s : Player) : GenStep m n s s :=
  ⟨tracked_refl _ _ _ _, tracked_refl _ _ _ _, tracked_refl _ _ _ _, within_refl _ _,
    within_refl _ _, within_refl _ _⟩

theorem genStep_trans {m1 n1 m2 n2 : Nat} {a b c : Player} (h1 : GenStep m1 n1 a b)
    (h2 : GenStep m2 n2 b c) : GenStep (m1 + m2) (n1 + n2) a c :=
  ⟨tracked_trans h1.1 h2.1, tracked_trans h1.2.1 h2.2.1, tracked_trans h1.2.2.1 h2.2.2.1,
    within_trans h1.2.2.2.1 h2.2.2.2.1, within_trans h1.2.2.2.2.1 h2.2.2.2.2.1,
    within_trans h1.2.2.2.2.2 h2.2.2.2.2.2⟩

theorem genStep_mono {m1 n1 m2 n2 : Nat} {a b : Player} (hm : m1 ≤ m2) (hn : n1 ≤ n2)
    (h : GenStep m1 n1 a b) : GenStep m2 n2 a b :=
  ⟨tracked_mono hm h.1, tracked_mono hm h.2.1, tracked_mono hn h.2.2.1,
    within_mono hn h.2.2.2.1, within_mono hn h.2.2.2.2.1, within_mono hn h.2.2.2.2.2⟩

/-- An operation that leaves the counters, the decoders and the renderer as they
are. -/
theorem genStep_of_eq {s t : Player} (m n : Nat)
    (h1 : t.mAudioDecoderGeneration = s.mAudioDecoderGeneration)
    (h2 : t.mAudioDecoder = s.mAudioDecoder)
    (h3 : t.mVideoDecoderGeneration = s.mVideoDecoderGeneration)
    (h4 : t.mVideoDecoder = s.mVideoDecoder)
    (h5 : t.mRendererGeneration = s.mRendererGeneration)
    (h6 : t.mRenderer = s.mRenderer)
    (h7 : t.mScanSourcesGeneration = s.mScanSourcesGeneration)
    (h8 : t.mPollDurationGeneration = s.mPollDurationGeneration)
    (h9 : t.mTimedTextGeneration = s.mTimedTextGeneration) : GenStep m n s t := by
  unfold GenStep
  rw [h1, h2, h3, h4, h5, h6, h7, h8, h9]
  exact genStep_refl m n s

/-- The part of the state the generation counters are about. -/
theorem genStep_emit (m n : Nat) (e : Event) (s : Player) : GenStep m n s (emit e s) :=
  genStep_of_eq m n rfl rfl rfl rfl rfl rfl rfl rfl rfl
theorem genStep_callDriver (m n : Nat) (env : Env) (c : DriverCall) (s : Player) :
    GenStep m n s (callDriver env c s) := by
  unfold callDriver
  split_ifs
  · exact genStep_emit _ _ _ _
  · exact genStep_refl _ _ _

theorem genStep_notifyListener (m n : Nat) (env : Env) (c : ListenerMsg) (s : Player) :
    GenStep m n s (notifyListener env c s) := by
  unfold notifyListener
  split_ifs
  · exact genStep_refl _ _ _
  · exact genStep_refl _ _ _
  · exact genStep_emit _ _ _ _

theorem genStep_flushDecoder (audio needShutdown : Bool) (s : Player) :
    GenStep 0 1 s (flushDecoder audio needShutdown s) := by
  cases h : getDecoder audio s with
  | none =>
    have : flushDecoder audio needShutdown s = s := by simp [flushDecoder, h]
    rw [this]
    exact genStep_refl _ _ _
  | some d =>
    cases audio <;>
      simp [flushDecoder, h, emit, GenStep, tracked_refl, within_refl, within_inc]

theorem genStep_performDecoderFlush (a v : FlushCommand) (s : Player) :
    GenStep 0 2 s (performDecoderFlush a v s) := by
  unfold performDecoderFlush
  by_cases c : (a = .FLUSH_CMD_NONE ∨ s.mAudioDecoder = none)
      ∧ (v = .FLUSH_CMD_NONE ∨ s.mVideoDecoder = none)
  · rw [if_pos c]
    exact genStep_refl _ _ _
  · rw [if_neg c]
    have h1 : GenStep 0 1 s (if a ≠ .FLUSH_CMD_NONE ∧ s.mAudioDecoder ≠ none then
        flushDecoder true (a = .FLUSH_CMD_SHUTDOWN) s else s) := by
      split_ifs
      · exact genStep_flushDecoder _ _ _
      · exact genStep_refl _ _ _
    have h2 : ∀ u : Player, GenStep 0 1 u (if v ≠ .FLUSH_CMD_NONE ∧ u.mVideoDecoder ≠ none then
        flushDecoder false (v = .FLUSH_CMD_SHUTDOWN) u else u) := by
      intro u
      split_ifs
      · exact genStep_flushDecoder _ _ _
      · exact genStep_refl _ _ _
    exact genStep_trans h1 (h2 _)

theorem genStep_thread_interrupt (m n : Nat) (env : Env) (s : Player) :
    GenStep m n s (thread_interrupt env s) := by
  apply genStep_of_eq <;> simp only [thread_interrupt] <;> split_ifs <;> rfl

theorem genStep_thread_uninterrupt (m n : Nat) (env : Env) (s : Player) :
    GenStep m n s (thread_uninterrupt env s) :=
  genStep_of_eq m n rfl rfl rfl rfl rfl rfl rfl rfl rfl

theorem gen_performSeek (env : Env) (T : Int) (n : Bool) (s : Player) :
    okThen (performSeek env T n s) (fun t => GenStep 0 1 s t) := by
  simp only [performSeek]
  split_ifs
  · simp
  · simp [genStep_refl]
  · simp only [okThen_ok]
    have h4 : ∀ u : Player, GenStep 0 1 u
        { u with mTimedTextGeneration := inc32 u.mTimedTextGeneration } := fun u =>
      ⟨tracked_refl _ _ _ _, tracked_refl _ _ _ _, tracked_refl _ _ _ _, within_refl _ _,
        within_refl _ _, within_inc _ _ (by decide)⟩
    exact genStep_trans (genStep_trans (genStep_trans (genStep_thread_interrupt 0 0 env s)
      (genStep_emit 0 0 _ _)) (genStep_thread_uninterrupt 0 0 env _)) (h4 _)

theorem gen_performReset (env : Env) (s : Player) :
    okThen (performReset env s) (fun t => GenStep 0 1 s t) := by
  by_cases ha : s.mAudioDecoder = none
  · by_cases hv : s.mVideoDecoder = none
    · simp only [performReset, ha, hv, ne_eq, not_true_eq_false, if_false, okThen_ok]
      -- the counters and the renderer
      have h1 : GenStep 0 1 s
          { cancelPollDuration s with
            mScanSourcesGeneration := inc32 s.mScanSourcesGeneration,
            mRenderer := none, mRendererGeneration := inc32 s.mRendererGeneration } :=
        ⟨tracked_refl _ _ _ _, tracked_refl _ _ _ _, tracked_clear _ _ _ _ (by decide),
          within_inc _ _ (by decide), within_inc _ _ (by decide), within_refl _ _⟩
      refine genStep_trans h1 (genStep_of_eq 0 0 ?_ ?_ ?_ ?_ ?_ ?_ ?_ ?_ ?_) <;>
        simp [cancelPollDuration, callDriver, emit, thread_interrupt, thread_uninterrupt]
    · simp [performReset, ha, hv]
  · simp [performReset, ha]

theorem genStep_performScanSources (s : Player) : GenStep 0 0 s (performScanSources s) := by
  simp only [performScanSources, postScanSources]
  split_ifs <;> exact genStep_refl _ _ _

theorem genStep_performSetSurface (env : Env) (w : Option Nat) (s : Player) :
    GenStep 0 0 s (performSetSurface env w s) := by
  apply genStep_of_eq <;>
    simp [performSetSurface, setVideoScalingMode, callDriver, emit] <;> split_ifs <;> rfl

theorem genStep_finishResume (env : Env) (s : Player) : GenStep 0 0 s (finishResume env s) := by
  apply genStep_of_eq <;> simp [finishResume, callDriver, emit]

theorem genStep_performResumeDecoders (env : Env) (n : Bool) (s : Player) :
    GenStep 0 0 s (performResumeDecoders env n s) := by
  apply genStep_of_eq <;>
    simp [performResumeDecoders, finishResume, callDriver, emit]

theorem gen_execute (env : Env) (a : Action) (s : Player) :
    okThen (a.execute env s) (fun t => GenStep 0 2 s t) := by
  cases a with
  | SeekAction T n =>
    exact okThen_mono (gen_performSeek env T n s) fun t ht =>
      genStep_mono (le_refl _) (by omega) ht
  | ResumeDecoderAction n =>
    simp only [Action.execute, okThen_ok]
    exact genStep_mono (le_refl _) (by omega) (genStep_performResumeDecoders env n s)
  | SetSurfaceAction w =>
    simp only [Action.execute, okThen_ok]
    exact genStep_mono (le_refl _) (by omega) (genStep_performSetSurface env w s)
  | FlushDecoderAction x y =>
    simp only [Action.execute, okThen_ok]
    exact genStep_performDecoderFlush x y s
  | PostMessageAction m =>
    simp only [Action.execute, okThen_ok]
    exact genStep_emit _ _ _ _
  | SimpleAction f =>
    cases f with
    | performReset =>
      exact okThen_mono (gen_performReset env s) fun t ht =>
        genStep_mono (le_refl _) (by omega) ht
    | performScanSources =>
      simp only [Action.execute, okThen_ok]
      exact genStep_mono (le_refl _) (by omega) (genStep_performScanSources s)

theorem loop_gens (env : Env) (fuel : Nat) (s : Player) :
    okThen (processDeferredActionsLoop env fuel s) (DrainGens s) := by
  induction fuel generalizing s with
  | zero => simp [processDeferredActionsLoop]
  | succ n ih =>
    unfold processDeferredActionsLoop
    cases hn : nextDeferredAction s with
    | none =>
      simp only [okThen_ok]
      exact ⟨[], by simp, genStep_refl _ _ _⟩
    | some p =>
      obtain ⟨a, s1⟩ := p
      obtain ⟨_, _, _, hs1⟩ := nextDeferredAction_some hn
      simp only [okThen_bind]
      intro t1 h1 t h2
      have g1 := gen_execute env a _ t1 h1
      obtain ⟨-, c1, -⟩ := execute_core env a _ t1 h1
      obtain ⟨done, hd, hg⟩ := ih t1 t h2
      have e0 : GenStep 0 0 s (emit (.actionExecute a) s1) := by
        rw [hs1]
        exact genStep_of_eq 0 0 rfl rfl rfl rfl rfl rfl rfl rfl rfl
      have x1 : executed (emit (.actionExecute a) s1) = executed s ++ [a] := by
        rw [hs1]
        simp [executed, emit]
      refine ⟨a :: done, ?_, ?_⟩
      · rw [hd, c1, x1]
        simp
      · refine genStep_mono (le_refl _) ?_ (genStep_trans (genStep_trans e0 g1) hg)
        simp only [List.length_cons]
        omega

theorem processDeferredActions_gens (env : Env) (s : Player) :
    okThen (processDeferredActions env s) (DrainGens s) :=
  loop_gens env _ s

theorem finishFlushIfPossible_gens (env : Env) (s : Player) :
    okThen (finishFlushIfPossible env s) (DrainGens s) := by
  by_cases h : s.mFlushingAudio.midFlush = true ∨ s.mFlushingVideo.midFlush = true
  · rw [finishFlushIfPossible_mid env s h]
    simp only [okThen_ok]
    exact ⟨[], by simp, genStep_refl _ _ _⟩
  · push_neg at h
    rw [finishFlushIfPossible_terminal env s (by simpa using h.1) (by simpa using h.2)]
    intro t ht
    obtain ⟨done, hd, hg⟩ := processDeferredActions_gens env _ t ht
    exact ⟨done, hd, hg⟩

/-- A handler that increments each counter at most twice and executes no deferred
action. -/
theorem stepGens_of {m n : Nat} {s t : Player} (hm : m ≤ 2) (hn : n ≤ 2)
    (h : GenStep m n s t) : StepGens s t :=
  genStep_mono hm (by omega) h

/-- A handler that, after at most two increments of each counter, runs the
deferred actions. -/
theorem stepGens_drain {m n : Nat} {s s1 t : Player} (hm : m ≤ 2) (hn : n ≤ 2)
    (h1 : GenStep m n s s1) (he : executed s1 = executed s) (h2 : DrainGens s1 t) :
    StepGens s t := by
  obtain ⟨done, hd, hg⟩ := h2
  unfold StepGens
  refine genStep_mono (by omega) ?_ (genStep_trans h1 hg)
  rw [hd, he]
  simp only [List.length_append]
  omega

/-- A step that is followed by an operation that leaves counters, instances and
execution log as they are. -/
theorem stepGens_then {s t u : Player} (h : StepGens s t) (hg : GenStep 0 0 t u)
    (he : executed u = executed t) : StepGens s u := by
  unfold StepGens at h ⊢
  rw [he]
  exact genStep_mono (by omega) (by omega) (genStep_trans h hg)
theorem gen_instantiateDecoder (env : Env) (audio : Bool) (s : Player) :
    okThen (instantiateDecoder env audio s) (fun r => GenStep 1 0 s r.2) := by
  cases h : env.videoFormat <;> cases audio <;>
    simp [instantiateDecoder, emit, h, getDecoder]
  all_goals
    split_ifs <;>
    simp [GenStep, tracked_refl, within_refl, tracked_create, genStep_refl]

theorem gen_tryOpenAudioSinkForOffload (env : Env) (hv : Bool) (s : Player) :
    okThen (tryOpenAudioSinkForOffload env hv s) (fun t => GenStep 0 0 s t) := by
  simp only [tryOpenAudioSinkForOffload]
  split_ifs <;> simp [GenStep, emit, tracked_refl, within_refl]

theorem gen_closeAudioSink (s : Player) :
    okThen (closeAudioSink s) (fun t => GenStep 0 0 s t) := by
  simp only [closeAudioSink]
  split_ifs <;> simp [GenStep, emit, tracked_refl, within_refl]

theorem genStep_ite_emit (c : Prop) [Decidable c] (e : Event) {m n : Nat} {s u : Player}
    (h : GenStep m n s u) : GenStep m n s (if c then emit e u else u) := by
  split_ifs
  · exact genStep_mono (Nat.le_refl _) (Nat.le_refl _) (genStep_trans h (genStep_emit 0 0 e u))
  · exact h

theorem gen_ite_instantiate (c : Prop) [Decidable c] (env : Env) (audio : Bool) (u : Player)
    (r : Int × Player)
    (h : (if c then instantiateDecoder env audio u else .ok (OK, u)) = .ok r) :
    GenStep 1 0 u r.2 := by
  by_cases hc : c
  · rw [if_pos hc] at h
    exact gen_instantiateDecoder env audio u r h
  · rw [if_neg hc] at h
    cases h
    exact genStep_refl _ _ _

theorem gen_onResume (env : Env) (s : Player) :
    okThen (onResume env s) (fun t => GenStep 1 0 s t) := by
  intro t ht
  unfold onResume at ht
  by_cases hp : (!s.mPaused) = true
  · rw [if_pos hp] at ht
    cases ht
    exact genStep_refl _ _ _
  · rw [if_neg hp] at ht
    obtain ⟨r, hr, ht⟩ := bind_ok ht
    cases ht
    have g1 := gen_ite_instantiate _ _ _ _ _ hr
    have g0 : GenStep 0 0 s ({ s with mPaused := false } : Player) :=
      genStep_of_eq 0 0 rfl rfl rfl rfl rfl rfl rfl rfl rfl
    exact genStep_ite_emit _ _
      (genStep_mono (Nat.le_refl _) (Nat.le_refl _)
        (genStep_trans (genStep_ite_emit _ (.source .resume) g0) g1))

theorem genStep_onPause (s : Player) : GenStep 0 0 s (onPause s) := by
  apply genStep_of_eq <;> simp only [onPause, emit] <;> split_ifs <;> rfl

theorem gen_onInstantiateSecureDecoders (env : Env) (s : Player) :
    okThen (onInstantiateSecureDecoders env s) (fun r => GenStep 2 0 s r.2) := by
  intro t ht
  unfold onInstantiateSecureDecoders at ht
  by_cases h1 : (!s.mSourceFlags.FLAG_SECURE) = true
  · rw [if_pos h1] at ht
    cases ht
    exact genStep_refl _ _ _
  rw [if_neg h1] at ht
  by_cases h2 : s.mRenderer ≠ none
  · rw [if_pos h2] at ht
    cases ht
    exact genStep_refl _ _ _
  rw [if_neg h2] at ht
  obtain ⟨r, hr, ht⟩ := bind_ok ht
  have g1 := gen_ite_instantiate _ _ _ _ _ hr
  by_cases h3 : r.1 ≠ OK
  · rw [if_pos h3] at ht
    cases ht
    exact genStep_mono (by omega) (Nat.le_refl _) g1
  rw [if_neg h3] at ht
  obtain ⟨q, hq, ht⟩ := bind_ok ht
  have g2 := gen_ite_instantiate _ _ _ _ _ hq
  have g := genStep_trans g1 g2
  dsimp only at ht
  split_ifs at ht <;> cases ht <;> exact g

theorem gen_onStart (env : Env) (s : Player) :
    okThen (onStart env s) (fun t => GenStep 0 1 s t) := by
  cases h : env.fileMetaFrameRate <;> simp [onStart, h, postScanSources, emit]
  all_goals
    split_ifs <;>
    simp [GenStep, tracked_refl, within_refl, tracked_create]
@[simp] theorem gens_emit (e : Event) (s : Player) : gens (emit e s) = gens s := rfl

@[simp] theorem gens_pushAction (a : Action) (s : Player) : gens (pushAction a s) = gens s := rfl

@[simp] theorem gens_callDriver (env : Env) (c : DriverCall) (s : Player) :
    gens (callDriver env c s) = gens s := by
  simp only [callDriver]
  split_ifs <;> rfl

@[simp] theorem gens_notifyListener (env : Env) (m : ListenerMsg) (s : Player) :
    gens (notifyListener env m s) = gens s := by
  simp only [notifyListener]
  split_ifs <;> simp

@[simp] theorem gens_schedulePollDuration (s : Player) :
    gens (schedulePollDuration s) = gens s := rfl

theorem genStep_of_gens {s t : Player} (m n : Nat) (h : gens t = gens s) : GenStep m n s t := by
  simp only [gens, Prod.mk.injEq] at h
  obtain ⟨⟨h1, h2⟩, ⟨h3, h4⟩, ⟨h5, h6⟩, h7, h8, h9⟩ := h
  exact genStep_of_eq m n h1 h2 h3 h4 h5 h6 h7 h8 h9

theorem genStep_congr {s t u : Player} {m n : Nat} (h : gens u = gens t)
    (g : GenStep m n s t) : GenStep m n s u :=
  genStep_mono (Nat.le_refl _) (Nat.le_refl _) (genStep_trans g (genStep_of_gens 0 0 h))

theorem genStep_congr_left {s t u : Player} {m n : Nat} (h : gens u = gens s)
    (g : GenStep m n u t) : GenStep m n s t := by
  have := genStep_trans (genStep_of_gens 0 0 h) g
  simpa using this

theorem gens_updateVideoSize (env : Env) (i o : Option Format) (s : Player) :
    okThen (updateVideoSize env i o s) (fun t => gens t = gens s) := by
  unfold updateVideoSize
  split
  · simp
  · simp only [okThen_bind]
    intro a _ b _
    split_ifs <;> simp

@[simp] theorem gens_dtsCheckTotalApre (env : Env) (s : Player) :
    gens (dtsCheckTotalApre env s) = gens s := by
  have h : ∀ (u : Player) (x : Int), gens { u with DtshdApreTotal := x } = gens u :=
    fun _ _ => rfl
  simp only [dtsCheckTotalApre]
  split_ifs <;> simp [h]

@[simp] theorem gens_dtsCheckStreamType (env : Env) (s : Player) :
    gens (dtsCheckStreamType env s) = gens s := by
  have h : ∀ (u : Player) (x : Int), gens { u with DtsHdStreamType := x } = gens u :=
    fun _ _ => rfl
  simp only [dtsCheckStreamType]
  split_ifs <;> simp [h]

@[simp] theorem gens_dtsCheckMulAssetHint (env : Env) (s : Player) :
    gens (dtsCheckMulAssetHint env s) = gens s := by
  have h : ∀ (u : Player) (x : Int), gens { u with DtsHdMulAssetHint := x } = gens u :=
    fun _ _ => rfl
  simp only [dtsCheckMulAssetHint]
  split_ifs <;> simp [h]

@[simp] theorem gens_dtsCheckHpsHint (env : Env) (s : Player) :
    gens (dtsCheckHpsHint env s) = gens s := by
  have h : ∀ (u : Player) (x : Int), gens { u with DtsHdHpsHint := x } = gens u :=
    fun _ _ => rfl
  simp only [dtsCheckHpsHint]
  split_ifs <;> simp [h]

@[simp] theorem gens_getCurrentPosition (env : Env) (s : Player) :
    gens (getCurrentPosition env s).2.2 = gens s := by
  unfold getCurrentPosition
  split_ifs <;> simp

theorem gens_writeTrackInfo (f : TrackInfo) (s : Player) :
    okThen (writeTrackInfo f s) (fun t => gens t = gens s) := by
  unfold writeTrackInfo
  split
  · simp
  · simp only [okThen_bind]
    intro a _
    split
    · simp
    · split_ifs
      · split <;> simp
      · simp

theorem gens_writeTrackInfos (l : List TrackInfo) (s : Player) :
    okThen (writeTrackInfos l s) (fun t => gens t = gens s) := by
  induction l generalizing s with
  | nil => simp [writeTrackInfos]
  | cons f rest ih =>
    simp only [writeTrackInfos, okThen_bind]
    refine okThen_mono (gens_writeTrackInfo f s) fun t ht => ?_
    exact okThen_mono (ih t) fun u hu => hu.trans ht

theorem gens_sendSubtitleData (env : Env) (b : Buffer) (i : Int) (s : Player) :
    okThen (sendSubtitleData env b i s) (fun t => gens t = gens s) := by
  unfold sendSubtitleData
  split <;> simp

theorem gens_sendTimedMetaData (env : Env) (b : Buffer) (s : Player) :
    okThen (sendTimedMetaData env b s) (fun t => gens t = gens s) := by
  unfold sendTimedMetaData
  split <;> simp

theorem gens_sendTimedTextData (env : Env) (b : Buffer) (s : Player) :
    okThen (sendTimedTextData env b s) (fun t => gens t = gens s) := by
  unfold sendTimedTextData
  split
  · simp
  · split_ifs <;> simp

theorem gens_onClosedCaptionNotify (env : Env) (w : CCWhat) (s : Player) :
    okThen (onClosedCaptionNotify env w s) (fun t => gens t = gens s) := by
  unfold onClosedCaptionNotify
  split
  · exact gens_sendSubtitleData _ _ _ _
  · simp
  · simp

@[simp] theorem gens_onPause (s : Player) : gens (onPause s) = gens s := by
  simp only [onPause]
  split_ifs <;> rfl

@[simp] theorem gens_setVideoScalingMode (env : Env) (m : Int) (s : Player) :
    gens (setVideoScalingMode env m s).2 = gens s := by
  simp only [setVideoScalingMode]
  split_ifs <;> rfl

@[simp] theorem gens_onApi (env : Env) (c : Api) (s : Player) :
    gens (onApi env c s) = gens s := by
  cases c <;> simp only [onApi]
  all_goals (try split)
  all_goals (try split_ifs)
  all_goals (first | rfl | simp)

theorem gens_scanSourcesFeed (env : Env) (g : Int) (n : Option Int) (s : Player) :
    okThen (scanSourcesFeed env g n s) (fun t => gens t = gens s) := by
  simp only [scanSourcesFeed]
  split_ifs
  all_goals (first | (simp; done) | rfl | simp [emit, gens])

theorem gens_tryOpenAudioSinkForOffload (env : Env) (hv : Bool) (s : Player) :
    okThen (tryOpenAudioSinkForOffload env hv s) (fun t => gens t = gens s) := by
  simp only [tryOpenAudioSinkForOffload]
  split_ifs <;> simp [gens, emit]

theorem gens_setFlushing (audio : Bool) (v : FlushStatus) (s : Player) :
    gens (setFlushing audio v s) = gens s := by
  cases audio <;> rfl

theorem gens_handleFlushComplete (audio isDecoder : Bool) (s : Player) :
    okThen (handleFlushComplete audio isDecoder s) (fun t => gens t = gens s) := by
  cases audio
  · cases isDecoder <;> cases hv : s.mFlushingVideo <;>
      simp [handleFlushComplete, flushing, setFlushing, getDecoder, emit, hv,
        FlushComplete.get, FlushComplete.set] <;>
      (try split_ifs) <;>
      simp [gens]
  · cases isDecoder <;> cases ha : s.mFlushingAudio <;>
      simp [handleFlushComplete, flushing, setFlushing, getDecoder, emit, ha,
        FlushComplete.get, FlushComplete.set] <;>
      (try split_ifs) <;>
      simp [gens]

theorem executed_handleFlushComplete (audio isDecoder : Bool) (s : Player) :
    okThen (handleFlushComplete audio isDecoder s) (fun t => executed t = executed s) := by
  intro t ht
  have h := frame_handleFlushComplete audio isDecoder s t ht
  have h2 := congrArg FlushCore.executed h
  have h3 : ((core s).ack audio isDecoder).executed = executed s := by
    unfold FlushCore.ack
    dsimp only
    split_ifs <;> (try split) <;> rfl
  exact h2.trans h3

theorem stepGens_pre {s s1 t : Player} (hg : gens s1 = gens s)
    (he : executed s1 = executed s) (h2 : DrainGens s1 t) : StepGens s t :=
  stepGens_drain (Nat.zero_le 2) (Nat.zero_le 2) (genStep_of_gens 0 0 hg) he h2

theorem stepGens_post {s t u : Player} (h : StepGens s t) (hg : gens u = gens t)
    (he : executed u = executed t) : StepGens s u :=
  stepGens_then h (genStep_of_gens 0 0 hg) he

theorem executed_notifyListener (env : Env) (m : ListenerMsg) (s : Player) :
    executed (notifyListener env m s) = executed s :=
  congrArg FlushCore.executed (core_notifyListener env m s)

theorem executed_callDriver (env : Env) (c : DriverCall) (s : Player) :
    executed (callDriver env c s) = executed s :=
  congrArg FlushCore.executed (core_callDriver env c s)

theorem executed_getCurrentPosition (env : Env) (s : Player) :
    executed (getCurrentPosition env s).2.2 = executed s :=
  congrArg FlushCore.executed (core_getCurrentPosition env s)

theorem gen_queueDecoderShutdown (env : Env) (audio video : Bool) (reply : Nat) (s : Player) :
    okThen (queueDecoderShutdown env audio video reply s) (StepGens s) := by
  intro t ht
  unfold queueDecoderShutdown at ht
  refine stepGens_pre ?_ ?_ (processDeferredActions_gens env _ t ht) <;> rfl

theorem gen_onSetVideoNativeWindow (env : Env) (obj : Option Nat) (s : Player) :
    okThen (onSetVideoNativeWindow env obj s) (StepGens s) := by
  intro t ht
  unfold onSetVideoNativeWindow at ht
  by_cases h : s.mSource = none ∨ env.videoFormat = none
  · rw [if_pos h] at ht
    cases ht
    exact stepGens_of (Nat.zero_le 2) (Nat.zero_le 2) (genStep_performSetSurface env obj s)
  · rw [if_neg h] at ht
    refine stepGens_pre ?_ ?_ (processDeferredActions_gens env _ t ht)
    · dsimp only
      split_ifs <;> simp
    · have e1 : ∀ a x, executed (pushAction a x) = executed x := fun _ _ => rfl
      dsimp only
      split_ifs <;> simp only [e1, executed_getCurrentPosition]

theorem gen_scanSourcesAudio (env : Env) (s : Player) :
    okThen (scanSourcesAudio env s) (fun t => GenStep 1 0 s t) := by
  intro t ht
  unfold scanSourcesAudio at ht
  by_cases c1 : s.mAudioSink ≠ none ∧ s.mAudioDecoder = none
  · rw [if_pos c1] at ht
    by_cases c2 : s.mSource = none
    · rw [if_pos c2] at ht
      cases ht
    · rw [if_neg c2] at ht
      obtain ⟨u, hu, ht⟩ := bind_ok ht
      obtain ⟨r, hr, ht⟩ := bind_ok ht
      cases ht
      have gu : gens u = gens s := by
        by_cases c3 : env.canOffloadStream = true
        · rw [if_pos c3] at hu
          by_cases c4 : (!s.mOffloadAudio) = true ∧ s.mRenderer = none
          · rw [if_pos c4] at hu
            cases hu
          · rw [if_neg c4] at hu
            rw [gens_tryOpenAudioSinkForOffload env _ _ u hu]
            split_ifs <;> rfl
        · rw [if_neg c3] at hu
          cases hu
          rfl
      exact genStep_congr_left gu (gen_instantiateDecoder env true u r hr)
  · rw [if_neg c1] at ht
    cases ht
    exact genStep_refl _ _ _

theorem gen_onScanSources (env : Env) (g : Int) (n : Option Int) (s : Player) :
    okThen (onScanSources env g n s) (fun t => GenStep 2 0 s t) := by
  intro t ht
  unfold onScanSources at ht
  by_cases c1 : g ≠ s.mScanSourcesGeneration
  · rw [if_pos c1] at ht
    cases ht
    exact genStep_refl _ _ _
  rw [if_neg c1] at ht
  by_cases c2 : s.mEnableFrameRate = true ∧ s.mFrameRate = .negative
      ∧ n.getD 0 < wrap32 (s.mWaitSeconds * 100)
  · rw [if_pos c2] at ht
    cases ht
    exact genStep_emit _ _ _ _
  rw [if_neg c2] at ht
  obtain ⟨r, hr, ht⟩ := bind_ok ht
  obtain ⟨u, hu, ht⟩ := bind_ok ht
  have g1 := gen_ite_instantiate _ _ _ _ _ hr
  have g2 := gen_scanSourcesAudio env _ u hu
  have g3 := gens_scanSourcesFeed env _ _ _ t ht
  have g0 : GenStep 0 0 s ({ s with mScanSourcesPending := false } : Player) :=
    genStep_of_gens 0 0 rfl
  refine genStep_congr ?_ (genStep_trans (genStep_trans g0 g1) g2)
  rw [g3]
  split_ifs <;> rfl
theorem stepGens_gens {s t : Player} (h : gens t = gens s) : StepGens s t :=
  stepGens_of (Nat.zero_le 2) (Nat.zero_le 2) (genStep_of_gens 0 0 h)

theorem genStep_cancelPollDuration (s : Player) : GenStep 0 1 s (cancelPollDuration s) :=
  ⟨tracked_refl _ _ _ _, tracked_refl _ _ _ _, tracked_refl _ _ _ _, within_refl _ _,
    within_inc _ _ Nat.one_pos, within_refl _ _⟩

theorem gen_onSourceNotify (env : Env) (what : SourceWhat) (s : Player) :
    okThen (onSourceNotify env what s) (StepGens s) := by
  intro t ht
  cases what with
  | kWhatInstantiateSecureDecoders reply =>
    simp only [onSourceNotify] at ht
    split_ifs at ht
    · cases ht
      exact stepGens_gens rfl
    · obtain ⟨r, hr, ht⟩ := bind_ok ht
      cases ht
      exact stepGens_of (Nat.le_refl 2) (Nat.zero_le 2)
        (genStep_congr (gens_emit _ _) (gen_onInstantiateSecureDecoders env s r hr))
  | kWhatPrepared err =>
    simp only [onSourceNotify] at ht
    by_cases c1 : s.mSource = none
    · rw [if_pos c1] at ht
      cases ht
      exact stepGens_gens rfl
    · rw [if_neg c1] at ht
      obtain ⟨u, hu, ht⟩ := bind_ok ht
      cases ht
      have hsu : StepGens s u := by
        by_cases c2 : err ≠ OK
        · rw [if_pos c2] at hu
          refine stepGens_pre ?_ ?_ (processDeferredActions_gens env _ u hu) <;> rfl
        · rw [if_neg c2] at hu
          cases hu
          exact stepGens_gens rfl
      refine stepGens_post hsu ?_ ?_
      · rw [gens_callDriver]
        split <;> simp
      · rw [executed_callDriver]
        split <;> simp [executed_callDriver]
  | kWhatFlagsChanged flags =>
    simp only [onSourceNotify] at ht
    cases ht
    refine stepGens_of (Nat.zero_le 2) (by omega : 1 ≤ 2) ?_
    refine genStep_congr (t := if _ then cancelPollDuration _ else if _ then schedulePollDuration _ else _) rfl ?_
    have h0 : ∀ u : Player, gens u = gens s → GenStep 0 1 s
        (if u.mSourceFlags.FLAG_DYNAMIC_DURATION = true ∧ (!flags.FLAG_DYNAMIC_DURATION) = true
          then cancelPollDuration u
          else if (!u.mSourceFlags.FLAG_DYNAMIC_DURATION) = true
              ∧ flags.FLAG_DYNAMIC_DURATION = true
              ∧ (u.mAudioDecoder ≠ none ∨ u.mVideoDecoder ≠ none) then
            schedulePollDuration u
          else u) := by
      intro u hu
      split_ifs
      · exact genStep_congr_left hu (genStep_cancelPollDuration u)
      · exact genStep_of_gens 0 1 (by rw [gens_schedulePollDuration, hu])
      · exact genStep_of_gens 0 1 hu
    apply h0
    simp only [gens_callDriver]
    split_ifs <;> simp
  | kWhatVideoSizeChanged format =>
    have ht2 : updateVideoSize env (some format) none s = .ok t := ht
    exact stepGens_gens (gens_updateVideoSize _ _ _ _ t ht2)
  | kWhatBufferingUpdate percentage =>
    cases ht
    exact stepGens_gens (gens_notifyListener _ _ _)
  | kWhatPauseOnBufferingStart =>
    simp only [onSourceNotify] at ht
    cases ht
    refine stepGens_gens ?_
    rw [gens_notifyListener]
    split_ifs <;> simp
  | kWhatBufferingStart =>
    cases ht
    exact stepGens_gens (gens_notifyListener _ _ _)
  | kWhatResumeOnBufferingEnd =>
    simp only [onSourceNotify] at ht
    obtain ⟨u, hu, ht⟩ := bind_ok ht
    cases ht
    refine stepGens_of (by omega : 1 ≤ 2) (Nat.zero_le 2)
      (genStep_congr (gens_notifyListener _ _ _) ?_)
    by_cases c : s.mStarted = true ∧ (!s.mPausedByClient) = true
    · rw [if_pos c] at hu
      exact gen_onResume env s u hu
    · rw [if_neg c] at hu
      cases hu
      exact genStep_refl _ _ _
  | kWhatBufferingEnd =>
    cases ht
    exact stepGens_gens (gens_notifyListener _ _ _)
  | kWhatCacheStats kbps =>
    cases ht
    exact stepGens_gens (gens_notifyListener _ _ _)
  | kWhatSubtitleData buffer =>
    have ht2 : sendSubtitleData env buffer 0 s = .ok t := ht
    exact stepGens_gens (gens_sendSubtitleData _ _ _ _ t ht2)
  | kWhatTimedMetaData buffer =>
    cases buffer with
    | none =>
      cases ht
      exact stepGens_gens (gens_notifyListener _ _ _)
    | some b =>
      have ht2 : sendTimedMetaData env b s = .ok t := ht
      exact stepGens_gens (gens_sendTimedMetaData _ _ _ t ht2)
  | kWhatTimedTextData generation buffer =>
    simp only [onSourceNotify] at ht
    by_cases c1 : generation.isSome = true ∧ generation ≠ some s.mTimedTextGeneration
    · rw [if_pos c1] at ht
      cases ht
      exact stepGens_gens rfl
    rw [if_neg c1] at ht
    by_cases c2 : ¬ (s.mDriver = true ∧ env.driverAlive = true)
    · rw [if_pos c2] at ht
      cases ht
      exact stepGens_gens rfl
    rw [if_neg c2] at ht
    cases hb : buffer.timeUs with
    | none =>
      rw [hb] at ht
      cases ht
    | some timeUs =>
      rw [hb] at ht
      dsimp only at ht
      by_cases c3 : wrap32 (env.driverPositionMs * 1000) < timeUs
      · rw [if_pos c3] at ht
        cases ht
        exact stepGens_gens rfl
      · rw [if_neg c3] at ht
        exact stepGens_gens (gens_sendTimedTextData _ _ _ t ht)
  | kWhatQueueDecoderShutdown audio video reply =>
    have ht2 : queueDecoderShutdown env audio video reply s = .ok t := ht
    exact gen_queueDecoderShutdown env audio video reply s t ht2
  | kWhatDrmNoLicense =>
    cases ht
    exact stepGens_gens (gens_notifyListener _ _ _)
  | kWhatSourceReady err =>
    cases ht
    exact stepGens_gens (gens_notifyListener _ _ _)
  | kWhatFrameRate frameRate =>
    cases ht
    exact stepGens_gens rfl
  | unhandled => cases ht

theorem gen_onDecoderError (env : Env) (audio : Bool) (err : Option Int) (s : Player) :
    okThen (onDecoderError env audio err s) (StepGens s) := by
  intro t ht
  unfold onDecoderError at ht
  dsimp only at ht
  by_cases c1 : s.mNativeWindow ≠ none ∧ s.mNativeWindow ≠ s.mNewSurface
      ∧ decoderErrorCode err = -19
  · rw [if_pos c1] at ht
    cases ht
    exact stepGens_gens rfl
  rw [if_neg c1] at ht
  obtain ⟨u, hu, ht⟩ := bind_ok ht
  cases ht
  refine stepGens_post ?_ (gens_notifyListener _ _ _) (executed_notifyListener _ _ _)
  cases hf : flushing audio s <;> rw [hf] at hu <;> dsimp only at hu
  · refine stepGens_pre ?_ ?_ (processDeferredActions_gens env _ u hu) <;> rfl
  · cases hu
    exact stepGens_gens (gens_setFlushing _ _ _)
  · cases hu
    exact stepGens_gens rfl
  · cases hu
    exact stepGens_gens rfl
  · by_cases c2 : getDecoder audio (if (!audio) = true ∧ s.mSource ≠ none
        ∧ s.mSourceFlags.FLAG_SECURE = true then emit (.source .stop) s else s) = none
    · rw [if_pos c2] at hu
      cases hu
    · rw [if_neg c2] at hu
      cases hu
      refine stepGens_gens ?_
      rw [gens_setFlushing, gens_emit]
      split_ifs <;> rfl
  · exact stepGens_pre rfl rfl (finishFlushIfPossible_gens env s u hu)

theorem gen_onDecoderNotify (env : Env) (audio : Bool) (g : Int) (reply : Option Nat)
    (what : DecoderWhat) (s : Player) :
    okThen (onDecoderNotify env audio g reply what s) (StepGens s) := by
  intro t ht
  unfold onDecoderNotify at ht
  dsimp only at ht
  by_cases c1 : g ≠ (if audio = true then s.mAudioDecoderGeneration
      else s.mVideoDecoderGeneration)
  · rw [if_pos c1] at ht
    cases reply <;> cases ht <;> exact stepGens_gens rfl
  rw [if_neg c1] at ht
  obtain ⟨s0, hs0, hg0, he0⟩ : ∃ s0 : Player, s0 = (if s.mEnableFrameRate = true
      ∧ (!audio) = true ∧ s.mAutoSwitch > 0 then
        { emit (.sysfsSetAutoSwitch s.mAutoSwitch) s with mAutoSwitch := -1 } else s)
      ∧ gens s0 = gens s ∧ executed s0 = executed s := by
    refine ⟨_, rfl, ?_, ?_⟩ <;> split_ifs <;> first | rfl | simp [executed, emit]
  rw [← hs0] at ht
  cases what with
  | kWhatInputDiscontinuity formatChange =>
    dsimp only at ht
    refine stepGens_pre ?_ ?_ (processDeferredActions_gens env _ t ht)
    · rw [gens_pushAction]
      split_ifs <;> simp [hg0]
    · have e1 : ∀ a x, executed (pushAction a x) = executed x := fun _ _ => rfl
      rw [e1]
      split_ifs <;> simp [e1, he0]
  | kWhatEOS err =>
    dsimp only at ht
    split_ifs at ht
    cases ht
    exact stepGens_gens (by rw [gens_emit, hg0])
  | kWhatFlushCompleted =>
    dsimp only at ht
    obtain ⟨u, hu, ht⟩ := bind_ok ht
    exact stepGens_pre ((gens_handleFlushComplete _ _ _ u hu).trans hg0)
      ((executed_handleFlushComplete _ _ _ u hu).trans he0)
      (finishFlushIfPossible_gens env u t ht)
  | kWhatVideoSizeChanged format =>
    dsimp only at ht
    split_ifs at ht
    exact stepGens_gens ((gens_updateVideoSize _ _ _ _ t ht).trans hg0)
  | kWhatShutdownCompleted =>
    dsimp only at ht
    cases audio
    · simp only [Bool.false_eq_true, if_false] at ht
      split_ifs at ht
      refine stepGens_drain (by omega : 1 ≤ 2) (Nat.zero_le 2) ?_ ?_
        (finishFlushIfPossible_gens env _ t ht)
      · refine genStep_congr_left hg0 ?_
        exact ⟨tracked_refl _ _ _ _, tracked_clear _ _ _ _ Nat.one_pos, tracked_refl _ _ _ _,
          within_refl _ _, within_refl _ _, within_refl _ _⟩
      · exact he0
    · simp only [if_true] at ht
      split_ifs at ht
      refine stepGens_drain (by omega : 1 ≤ 2) (Nat.zero_le 2) ?_ ?_
        (finishFlushIfPossible_gens env _ t ht)
      · refine genStep_congr_left hg0 ?_
        exact ⟨tracked_clear _ _ _ _ Nat.one_pos, tracked_refl _ _ _ _, tracked_refl _ _ _ _,
          within_refl _ _, within_refl _ _, within_refl _ _⟩
      · exact he0
  | kWhatResumeCompleted =>
    cases ht
    exact stepGens_of (Nat.zero_le 2) (Nat.zero_le 2)
      (genStep_congr_left hg0 (genStep_finishResume env s0))
  | kWhatError err =>
    have h := gen_onDecoderError env audio err s0 t ht
    unfold StepGens at h ⊢
    rw [he0] at h
    exact genStep_congr_left hg0 h
  | unhandled =>
    cases ht
    exact stepGens_gens hg0
theorem gen_onRendererNotify (env : Env) (g : Int) (what : RendererWhat) (s : Player) :
    okThen (onRendererNotify env g what s) (StepGens s) := by
  intro t ht
  unfold onRendererNotify at ht
  by_cases c1 : g ≠ s.mRendererGeneration
  · rw [if_pos c1] at ht
    cases ht
    exact stepGens_gens rfl
  rw [if_neg c1] at ht
  cases what with
  | kWhatEOS audio finalResult =>
    dsimp only at ht
    refine stepGens_gens ?_
    split_ifs at ht <;> cases ht <;> first | rfl | (simp only [gens_notifyListener]; rfl)
  | kWhatFlushComplete audio =>
    dsimp only at ht
    obtain ⟨u, hu, ht⟩ := bind_ok ht
    exact stepGens_pre (gens_handleFlushComplete _ _ _ u hu)
      (executed_handleFlushComplete _ _ _ u hu) (finishFlushIfPossible_gens env u t ht)
  | kWhatVideoRenderingStart =>
    cases ht
    exact stepGens_gens (gens_notifyListener _ _ _)
  | kWhatMediaRenderingStart =>
    cases ht
    exact stepGens_gens (gens_notifyListener _ _ _)
  | kWhatAudioOffloadTearDown positionUs dueToError =>
    dsimp only at ht
    obtain ⟨u, hu, ht⟩ := bind_ok ht
    obtain ⟨v, hv, ht⟩ := bind_ok ht
    have g1 : GenStep 0 0 s u := gen_closeAudioSink s u hu
    have g2 : GenStep 1 0 u (if u.mVideoDecoder ≠ none then
        emit (.renderer (.flush false false)) (emit (.renderer (.flush true false))
          { u with mAudioDecoder := none,
                   mAudioDecoderGeneration := inc32 u.mAudioDecoderGeneration })
        else emit (.renderer (.flush true false))
          { u with mAudioDecoder := none,
                   mAudioDecoderGeneration := inc32 u.mAudioDecoderGeneration }) := by
      have h0 : GenStep 1 0 u
          { u with mAudioDecoder := none,
                   mAudioDecoderGeneration := inc32 u.mAudioDecoderGeneration } :=
        ⟨tracked_clear _ _ _ _ Nat.one_pos, tracked_refl _ _ _ _, tracked_refl _ _ _ _,
          within_refl _ _, within_refl _ _, within_refl _ _⟩
      split_ifs
      · exact genStep_congr rfl h0
      · exact genStep_congr rfl h0
    have g3 := gen_performSeek env positionUs false _ v hv
    have g123 := genStep_trans (genStep_trans g1 g2) g3
    by_cases c2 : dueToError = true
    · rw [if_pos c2] at ht
      obtain ⟨r, hr, ht⟩ := bind_ok ht
      cases ht
      have g4 := gen_instantiateDecoder env true _ r hr
      have g0 : GenStep 0 0 v { emit (.renderer .signalDisableOffloadAudio) v with
          mOffloadAudio := false } := genStep_of_gens 0 0 rfl
      exact stepGens_of (by omega : 0 + 1 + 0 + 0 + 1 ≤ 2) (by omega : 0 + 0 + 1 + 0 + 0 ≤ 2)
        (genStep_trans (genStep_trans g123 g0) g4)
    · rw [if_neg c2] at ht
      cases ht
      exact stepGens_of (by omega : 0 + 1 + 0 ≤ 2) (by omega : 0 + 0 + 1 ≤ 2) g123
  | unhandled =>
    cases ht
    exact stepGens_gens rfl

theorem gen_onSelectTrack (env : Env) (i : Nat) (b : Bool) (ts : Int) (s : Player) :
    okThen (onSelectTrack env i b ts s) (fun t => GenStep 0 1 s t) := by
  have h0 : ∀ e : Event, GenStep 0 1 s { emit e s with
      mTimedTextGeneration := inc32 s.mTimedTextGeneration } := fun e =>
    ⟨tracked_refl _ _ _ _, tracked_refl _ _ _ _, tracked_refl _ _ _ _, within_refl _ _,
      within_refl _ _, within_inc _ _ Nat.one_pos⟩
  simp only [onSelectTrack, okThen_ok]
  refine genStep_congr (gens_emit _ _) ?_
  split_ifs
  all_goals (try split)
  all_goals (try split_ifs)
  all_goals (first | exact h0 _ | exact genStep_of_gens 0 1 rfl)

theorem gen_onMessageReceived (env : Env) (msg : Msg) (s : Player) :
    okThen (onMessageReceived env msg s) (StepGens s) := by
  intro t ht
  cases msg with
  | kWhatSetDataSource obj =>
    simp only [onMessageReceived] at ht
    refine stepGens_gens ?_
    cases obj <;> dsimp only at ht <;> split_ifs at ht <;> cases ht <;>
      (rw [gens_callDriver]; try rfl)
  | kWhatPrepare =>
    simp only [onMessageReceived] at ht
    split_ifs at ht
    cases ht
    exact stepGens_gens rfl
  | kWhatGetTrackInfo =>
    simp only [onMessageReceived] at ht
    obtain ⟨u, hu, ht⟩ := bind_ok ht
    obtain ⟨v, hv, ht⟩ := bind_ok ht
    cases ht
    refine stepGens_gens ?_
    rw [gens_emit, gens_writeTrackInfos _ _ v hv, gens_writeTrackInfos _ _ u hu, gens_emit]
  | kWhatGetSelectedTrack type =>
    simp only [onMessageReceived] at ht
    split_ifs at ht <;> cases ht <;> exact stepGens_gens rfl
  | kWhatSelectTrack trackIndex select timeUs =>
    have ht2 : onSelectTrack env trackIndex select timeUs s = .ok t := ht
    exact stepGens_of (Nat.zero_le 2) (by omega : 1 ≤ 2) (gen_onSelectTrack _ _ _ _ _ t ht2)
  | kWhatPollDuration generation =>
    simp only [onMessageReceived] at ht
    split_ifs at ht
    · cases ht
      exact stepGens_gens rfl
    · cases ht
      refine stepGens_gens ?_
      rw [gens_emit]
      split <;> simp
  | kWhatSetVideoNativeWindow obj =>
    have ht2 : onSetVideoNativeWindow env obj s = .ok t := ht
    exact gen_onSetVideoNativeWindow env obj s t ht2
  | kWhatSetAudioSink obj =>
    cases ht
    exact stepGens_gens rfl
  | kWhatStart =>
    simp only [onMessageReceived] at ht
    obtain ⟨u, hu, ht⟩ := bind_ok ht
    cases ht
    have h0 : GenStep 1 1 s u := by
      by_cases c : s.mStarted = true
      · rw [if_pos c] at hu
        exact genStep_mono (Nat.le_refl _) (Nat.zero_le _) (gen_onResume env s u hu)
      · rw [if_neg c] at hu
        exact genStep_mono (Nat.zero_le _) (Nat.le_refl _) (gen_onStart env s u hu)
    exact stepGens_of (by omega : 1 ≤ 2) (by omega : 1 ≤ 2) (genStep_congr rfl h0)
  | kWhatScanSources generation scanNum =>
    have ht2 : onScanSources env generation scanNum s = .ok t := ht
    exact stepGens_of (Nat.le_refl 2) (Nat.zero_le 2) (gen_onScanSources _ _ _ _ t ht2)
  | kWhatVideoNotify generation reply what =>
    have ht2 : onDecoderNotify env false generation reply what s = .ok t := ht
    exact gen_onDecoderNotify _ _ _ _ _ _ t ht2
  | kWhatAudioNotify generation reply what =>
    have ht2 : onDecoderNotify env true generation reply what s = .ok t := ht
    exact gen_onDecoderNotify _ _ _ _ _ _ t ht2
  | kWhatRendererNotify generation what =>
    have ht2 : onRendererNotify env generation what s = .ok t := ht
    exact gen_onRendererNotify _ _ _ _ t ht2
  | kWhatMoreDataQueued =>
    cases ht
    exact stepGens_gens rfl
  | kWhatReset =>
    simp only [onMessageReceived] at ht
    refine stepGens_pre ?_ ?_ (processDeferredActions_gens env _ t ht) <;> rfl
  | kWhatSeek seekTimeUs needNotify =>
    simp only [onMessageReceived] at ht
    refine stepGens_pre ?_ ?_ (processDeferredActions_gens env _ t ht)
    · simp only [gens_pushAction]
      split_ifs <;> rfl
    · have e1 : ∀ a x, executed (pushAction a x) = executed x := fun _ _ => rfl
      simp only [e1]
      split_ifs <;> first | rfl | simp [executed, emit]
  | kWhatPause =>
    cases ht
    exact stepGens_gens (gens_onPause s)
  | kWhatSourceNotify what =>
    have ht2 : onSourceNotify env what s = .ok t := ht
    exact gen_onSourceNotify _ _ _ t ht2
  | kWhatClosedCaptionNotify what =>
    have ht2 : onClosedCaptionNotify env what s = .ok t := ht
    exact stepGens_gens (gens_onClosedCaptionNotify _ _ _ t ht2)
  | unhandled => cases ht

/-- Every input the controller handles increments each decoder counter at most
twice and each other counter at most `2 + 2 * j` times, `j` the number of deferred
actions executed; an instance changes only together with its counter. -/
theorem step_gens (env : Env) (input : Input) (s : Player) :
    okThen (step env input s) (StepGens s) := by
  intro t ht
  cases input with
  | message msg => exact gen_onMessageReceived env msg s t ht
  | call api =>
    cases ht
    exact stepGens_gens (gens_onApi env api s)

theorem wrap32_inc32 (x : Int) : inc32 (wrap32 x) = wrap32 (x + 1) := by
  unfold inc32 wrap32
  omega

theorem iterate_inc32 (k : Nat) (g : Int) :
    Nat.iterate inc32 (k + 1) g = wrap32 (g + (k + 1 : Nat)) := by
  induction k with
  | zero => simp [inc32]
  | succ n ih =>
    rw [Function.iterate_succ_apply', ih, wrap32_inc32]
    push_cast
    ring_nf

/-- Fewer than `2 ^ 32` increments, and at least one, never lead back to the
value the counter had. -/
theorem iterate_inc32_ne (k : Nat) (g : Int) (h0 : 0 < k) (h1 : k < 4294967296) :
    Nat.iterate inc32 k g ≠ g := by
  obtain ⟨n, rfl⟩ : ∃ n, k = n + 1 := ⟨k - 1, by omega⟩
  rw [iterate_inc32]
  unfold wrap32
  push_cast
  omega

/-- Below the wrap-around the counter has grown by the number of increments. -/
theorem iterate_inc32_eq (k : Nat) (g : Int) (h0 : -2147483648 ≤ g)
    (h1 : g + k < 2147483648) : Nat.iterate inc32 k g = g + k := by
  cases k with
  | zero => simp
  | succ n =>
    rw [iterate_inc32]
    unfold wrap32
    push_cast at h1 ⊢
    omega

theorem tracked_cases {α : Type} {tag : α → Int} {n : Nat} {g g2 : Int} {d d2 : Option α}
    (h : Tracked tag n g d g2 d2) :
    (g2 = g ∧ d2 = d) ∨
      (∃ k, 0 < k ∧ k ≤ n ∧ g2 = Nat.iterate inc32 k g ∧ ∀ x, d2 = some x → tag x = g2) := by
  obtain ⟨k, hk, e, a, b⟩ := h
  cases k with
  | zero => exact .inl ⟨by simpa using e, a rfl⟩
  | succ j => exact .inr ⟨j + 1, Nat.succ_pos _, hk, e, b (Nat.succ_pos _)⟩

theorem tagged_step {m n : Nat} {s t : Player} (h : GenStep m n s t) (hs : Tagged s) :
    Tagged t := by
  obtain ⟨ha, hv, hr, -, -, -⟩ := h
  obtain ⟨sa, sv, sr⟩ := hs
  refine ⟨?_, ?_, ?_⟩
  · rcases tracked_cases ha with ⟨e1, e2⟩ | ⟨k, -, -, -, b⟩
    · rw [e1, e2]
      exact sa
    · exact b
  · rcases tracked_cases hv with ⟨e1, e2⟩ | ⟨k, -, -, -, b⟩
    · rw [e1, e2]
      exact sv
    · exact b
  · rcases tracked_cases hr with ⟨e1, e2⟩ | ⟨k, -, -, -, b⟩
    · rw [e1, e2]
      exact sr
    · exact b

theorem reachable_tagged {s : Player} (h : Reachable s) : Tagged s := by
  induction h with
  | init w th =>
    refine ⟨?_, ?_, ?_⟩ <;> intro d hd <;> cases hd
  | step env input _ hst ih => exact tagged_step (step_gens env input _ _ hst) ih

theorem genStep_decoder {m n : Nat} {s t : Player} (h : GenStep m n s t) (audio : Bool) :
    Tracked DecoderObj.generation m (decoderGeneration audio s) (getDecoder audio s)
      (decoderGeneration audio t) (getDecoder audio t) := by
  cases audio
  · exact h.2.1
  · exact h.1

theorem run_decoderGeneration (inputs : List (Env × Input)) (audio : Bool) (s : Player) :
    okThen (run inputs s) (fun t =>
      Within (2 * inputs.length) (decoderGeneration audio s) (decoderGeneration audio t)) := by
  induction inputs generalizing s with
  | nil =>
    simp only [run, okThen_ok]
    exact within_refl _ _
  | cons p rest ih =>
    obtain ⟨env, input⟩ := p
    simp only [run, okThen_bind]
    intro u hu t ht
    have h1 := tracked_within (genStep_decoder (step_gens env input s u hu) audio)
    have h2 := ih u t ht
    refine within_mono ?_ (within_trans h1 h2)
    simp only [List.length_cons]
    omega

theorem stale_rejected (env : Env) (audio : Bool) (g : Int) (reply : Option Nat)
    (what : DecoderWhat) (s : Player) (h : decoderGeneration audio s ≠ g) :
    step env (decoderNotify audio g reply what) s = .ok (rejectedAsStale reply s) := by
  cases audio
  · have hg : g ≠ s.mVideoDecoderGeneration := fun e => h e.symm
    cases reply <;>
      simp only [step, decoderNotify, onMessageReceived, onDecoderNotify, rejectedAsStale,
        Bool.false_eq_true, if_false, if_pos hg]
  · have hg : g ≠ s.mAudioDecoderGeneration := fun e => h e.symm
    cases reply <;>
      simp only [step, decoderNotify, onMessageReceived, onDecoderNotify, rejectedAsStale,
        if_true, if_pos hg]

/-- Claim C24: in every reachable state a decoder that is present carries the
current generation of its track in its notifications. Once a step has cleared it
(the completion of its shutdown, or the audio offload tear-down) or replaced it,
the generation of the track differs from the one the decoder carried, also after
any further run of fewer than `2 ^ 31 - 1` inputs, and every notification tagged
with the generation of the decoder is rejected as stale: it is dropped, and a
reply it carries is answered with `INFO_DISCONTINUITY`. -/
theorem decoder_generation_current (s : Player) (hs : Reachable s) (audio : Bool)
    (d : DecoderObj) (hd : getDecoder audio s = some d) :
    d.generation = decoderGeneration audio s ∧
    ∀ (env : Env) (input : Input) (t : Player), step env input s = .ok t →
      getDecoder audio t ≠ some d →
      ∀ (inputs : List (Env × Input)) (u : Player), run inputs t = .ok u →
        inputs.length < 2147483647 →
        decoderGeneration audio u ≠ d.generation ∧
        ∀ (env2 : Env) (reply : Option Nat) (what : DecoderWhat),
          step env2 (decoderNotify audio d.generation reply what) u
            = .ok (rejectedAsStale reply u) := by
  have htag : d.generation = decoderGeneration audio s := by
    obtain ⟨ha, hv, -⟩ := reachable_tagged hs
    cases audio
    · exact hv d hd
    · exact ha d hd
  refine ⟨htag, ?_⟩
  intro env input t hst hne inputs u hrun hlen
  have hne2 : decoderGeneration audio u ≠ d.generation := by
    rw [htag]
    rcases tracked_cases (genStep_decoder (step_gens env input s t hst) audio) with
      ⟨-, e2⟩ | ⟨k, hk0, hk2, e, -⟩
    · exact absurd (e2.trans hd) hne
    · obtain ⟨k2, hk2l, e2⟩ := run_decoderGeneration inputs audio t u hrun
      rw [e2, e, ← Function.iterate_add_apply]
      exact iterate_inc32_ne _ _ (by omega) (by omega)
  exact ⟨hne2, fun env2 reply what => stale_rejected env2 audio _ reply what u hne2⟩

theorem decoder_generation_current_witness :
    getDecoder true shutdownPending = some ⟨1, false⟩ ∧
    step exampleEnv (.message (.kWhatAudioNotify 1 none .kWhatShutdownCompleted))
      shutdownPending = .ok afterErrorShutdown ∧
    getDecoder true afterErrorShutdown = none ∧
    decoderGeneration true afterErrorShutdown = 2 ∧
    step exampleEnv (decoderNotify true 1 (some 7) .kWhatFlushCompleted) afterErrorShutdown
      = .ok (rejectedAsStale (some 7) afterErrorShutdown) := by
  have hd : getDecoder true shutdownPending = some ⟨1, false⟩ := by decide
  have hst : step exampleEnv (.message (.kWhatAudioNotify 1 none .kWhatShutdownCompleted))
      shutdownPending = .ok afterErrorShutdown := rfl
  have hn : getDecoder true afterErrorShutdown = none := by decide
  obtain ⟨-, h⟩ := decoder_generation_current shutdownPending (reachable_after _) true
    ⟨1, false⟩ hd
  obtain ⟨-, h2⟩ := h exampleEnv _ afterErrorShutdown hst (by rw [hn]; exact fun e => by cases e)
    [] afterErrorShutdown rfl (by decide)
  exact ⟨hd, hst, hn, by decide, h2 exampleEnv (some 7) .kWhatFlushCompleted⟩

theorem within_bounds {n : Nat} {a b : Int} (h : Within n a b) (h0 : -2147483648 ≤ a)
    (h1 : a + n < 2147483648) : a ≤ b ∧ b ≤ a + n := by
  obtain ⟨k, hk, rfl⟩ := h
  rw [iterate_inc32_eq k a h0 (by omega)]
  omega

theorem tracked_changed {α : Type} {tag : α → Int} {n : Nat} {g g2 : Int} {d d2 : Option α}
    (h : Tracked tag n g d g2 d2) (hne : d2 ≠ d) :
    ∃ k, 0 < k ∧ k ≤ n ∧ g2 = Nat.iterate inc32 k g := by
  rcases tracked_cases h with ⟨-, e⟩ | ⟨k, h0, h1, e, -⟩
  · exact absurd e hne
  · exact ⟨k, h0, h1, e⟩

/-- Claim C25: the six generation counters start at 0, and a freshly constructed
player has no decoder and no renderer. The handling of one input changes each
counter only by increments of the `int32_t` (`StepGens`: at most two of each
decoder counter, at most `2 + 2 * j` of each other counter when `j` deferred
actions are executed), and so does the execution of one deferred action (no
increment of a decoder counter, at most two of each other counter); below the
wrap-around a counter that was incremented at most `n` times is unchanged or
larger, by at most `n`. A decoder or a renderer that is created or cleared has
had the counter of its role incremented in the same step, for a decoder to a
different value; a deferred action leaves the decoders alone. -/
theorem generations_monotone (env : Env) (input : Input) (s t : Player)
    (h : step env input s = .ok t) :
    (∀ (w : Int) (th : List Nat),
      gens (initial w th) = ((0, none), (0, none), (0, none), 0, 0, 0)) ∧
    StepGens s t ∧
    (∀ (a : Action) (s1 t1 : Player), a.execute env s1 = .ok t1 → GenStep 0 2 s1 t1) ∧
    (∀ (n : Nat) (a b : Int), Within n a b → -2147483648 ≤ a → a + n < 2147483648 →
      a ≤ b ∧ b ≤ a + n) ∧
    (∀ audio : Bool, getDecoder audio t ≠ getDecoder audio s →
      (∃ k, 0 < k ∧ k ≤ 2 ∧
        decoderGeneration audio t = Nat.iterate inc32 k (decoderGeneration audio s)) ∧
      decoderGeneration audio t ≠ decoderGeneration audio s) ∧
    (t.mRenderer ≠ s.mRenderer →
      ∃ k, 0 < k ∧ k ≤ 2 + 2 * ((executed t).length - (executed s).length) ∧
        t.mRendererGeneration = Nat.iterate inc32 k s.mRendererGeneration) ∧
    (∀ (a : Action) (s1 t1 : Player), a.execute env s1 = .ok t1 →
      (∀ audio : Bool, getDecoder audio t1 = getDecoder audio s1 ∧
        decoderGeneration audio t1 = decoderGeneration audio s1) ∧
      (t1.mRenderer ≠ s1.mRenderer →
        (∃ k, 0 < k ∧ k ≤ 2 ∧
          t1.mRendererGeneration = Nat.iterate inc32 k s1.mRendererGeneration) ∧
        t1.mRendererGeneration ≠ s1.mRendererGeneration)) := by
  have hst := step_gens env input s t h
  refine ⟨fun _ _ => rfl, hst, fun a s1 t1 h1 => gen_execute env a s1 t1 h1,
    fun n a b hw h0 h1 => within_bounds hw h0 h1, ?_, ?_, ?_⟩
  · intro audio hne
    obtain ⟨k, h0, h1, e⟩ := tracked_changed (genStep_decoder hst audio) hne
    exact ⟨⟨k, h0, h1, e⟩, by rw [e]; exact iterate_inc32_ne _ _ h0 (by omega)⟩
  · intro hne
    exact tracked_changed hst.2.2.1 hne
  · intro a s1 t1 h1
    have hg := gen_execute env a s1 t1 h1
    refine ⟨fun audio => ?_, fun hne => ?_⟩
    · rcases tracked_cases (genStep_decoder hg audio) with ⟨e1, e2⟩ | ⟨k, h0, h1, -, -⟩
      · exact ⟨e2, e1⟩
      · omega
    · obtain ⟨k, h0, h1, e⟩ := tracked_changed hg.2.2.1 hne
      exact ⟨⟨k, h0, h1, e⟩, by rw [e]; exact iterate_inc32_ne _ _ h0 (by omega)⟩

theorem generations_monotone_witness :
    step exampleEnv (.message (.kWhatScanSources 0 none)) started = .ok playing ∧
    getDecoder true started = none ∧ getDecoder true playing = some ⟨1, false⟩ ∧
    decoderGeneration true started = 0 ∧ decoderGeneration true playing = 1 ∧
    StepGens started playing ∧
    decoderGeneration true playing ≠ decoderGeneration true started := by
  have hst : step exampleEnv (.message (.kWhatScanSources 0 none)) started = .ok playing := rfl
  obtain ⟨-, h2, -, -, h5, -, -⟩ :=
    generations_monotone exampleEnv (.message (.kWhatScanSources 0 none)) started playing hst
  exact ⟨hst, by decide, by decide, by decide, by decide, h2, (h5 true (by decide)).2⟩

/-! # Registry, frame-rate wait, stranded actions, gate, video size, live source -/

/-! ## The registry of interruptible threads -/

theorem thread_interrupt_registry (env : Env) (s : Player) :
    (thread_interrupt env s).mThreadId
      = if env.threadId ∈ s.mThreadId then s.mThreadId else s.mThreadId ++ [env.threadId] := by
  unfold thread_interrupt
  cases h : s.mThreadId with
  | nil => simp
  | cons a l =>
    have hne : (a :: l).isEmpty = false := rfl
    simp only [hne, Bool.false_eq_true, if_false]
    by_cases hm : env.threadId ∈ a :: l
    · rw [if_pos hm, if_neg (Nat.ne_of_lt (List.indexOf_lt_length.2 hm))]
      exact h
    · rw [if_neg hm, if_pos (List.indexOf_eq_length.2 hm)]

theorem thread_uninterrupt_registry (env : Env) (s : Player) :
    (thread_uninterrupt env s).mThreadId = s.mThreadId.erase env.threadId := by
  unfold thread_uninterrupt
  exact List.eraseIdx_indexOf_eq_erase _ _

theorem interrupt_callback_registry (id : Nat) (s : Player) :
    interrupt_callback id s = if id ∈ s.mThreadId then 1 else 0 := by
  unfold interrupt_callback
  cases h : s.mThreadId with
  | nil => simp
  | cons a l =>
    have hne : (a :: l).isEmpty = false := rfl
    simp only [hne, Bool.false_eq_true, if_false, List.indexOf_lt_length]

theorem thread_interrupt_nodup (env : Env) (s : Player) (h : s.mThreadId.Nodup) :
    (thread_interrupt env s).mThreadId.Nodup := by
  rw [thread_interrupt_registry]
  split_ifs with hm
  · exact h
  · exact List.Nodup.append h (List.nodup_singleton _) (by simpa using hm)

theorem thread_interrupt_iterate (env : Env) (k : Nat) (s : Player) :
    (s.mThreadId.Nodup → (Nat.iterate (thread_interrupt env) k s).mThreadId.Nodup) ∧
    (0 < k → env.threadId ∈ (Nat.iterate (thread_interrupt env) k s).mThreadId) := by
  induction k generalizing s with
  | zero => exact ⟨fun h => h, fun h => absurd h (Nat.lt_irrefl 0)⟩
  | succ n ih =>
    rw [Function.iterate_succ_apply']
    refine ⟨fun h => thread_interrupt_nodup env _ ((ih s).1 h), fun _ => ?_⟩
    rw [thread_interrupt_registry]
    split_ifs with hm
    · exact hm
    · simp


/-! ## Members no handler assigns -/

theorem steady_refl (s : Player) : Steady s s := ⟨rfl, fun h => h⟩

theorem steady_trans {a b c : Player} (h1 : Steady a b) (h2 : Steady b c) : Steady a c :=
  ⟨h2.1.trans h1.1, fun h => h2.2 (h1.2 h)⟩

theorem steady_of_statics {s t : Player} (h : statics t = statics s) : Steady s t := by
  simp only [statics, Prod.mk.injEq] at h
  exact ⟨h.1, fun hn => h.2 ▸ hn⟩

theorem steady_congr {s t u : Player} (h : statics u = statics t) (g : Steady s t) :
    Steady s u :=
  steady_trans g (steady_of_statics h)

theorem steady_congr_left {s t u : Player} (h : statics u = statics s) (g : Steady u t) :
    Steady s t :=
  steady_trans (steady_of_statics h) g

@[simp] theorem statics_emit (e : Event) (s : Player) : statics (emit e s) = statics s := rfl

@[simp] theorem statics_pushAction (a : Action) (s : Player) :
    statics (pushAction a s) = statics s := rfl

@[simp] theorem statics_ite (c : Prop) [Decidable c] (a b : Player) :
    statics (if c then a else b) = if c then statics a else statics b := apply_ite _ _ _ _

@[simp] theorem statics_callDriver (env : Env) (c : DriverCall) (s : Player) :
    statics (callDriver env c s) = statics s := by
  simp only [callDriver]
  split_ifs <;> rfl

@[simp] theorem statics_notifyListener (env : Env) (m : ListenerMsg) (s : Player) :
    statics (notifyListener env m s) = statics s := by
  simp only [notifyListener]
  split_ifs <;> rfl

@[simp] theorem statics_postScanSources (s : Player) :
    statics (postScanSources s) = statics s := by
  simp only [postScanSources]
  split_ifs <;> rfl

@[simp] theorem statics_schedulePollDuration (s : Player) :
    statics (schedulePollDuration s) = statics s := rfl

@[simp] theorem statics_cancelPollDuration (s : Player) :
    statics (cancelPollDuration s) = statics s := rfl

@[simp] theorem statics_clearFlushComplete (s : Player) :
    statics (clearFlushComplete s) = statics s := rfl

@[simp] theorem statics_setFlushing (audio : Bool) (v : FlushStatus) (s : Player) :
    statics (setFlushing audio v s) = statics s := by
  cases audio <;> rfl

@[simp] theorem statics_flushDecoder (audio needShutdown : Bool) (s : Player) :
    statics (flushDecoder audio needShutdown s) = statics s := by
  unfold flushDecoder
  split
  · rfl
  · cases audio
    · simp only [Bool.false_eq_true, if_false]
      split_ifs <;> rfl
    · simp only [if_true]
      split_ifs <;> rfl

@[simp] theorem statics_performDecoderFlush (a v : FlushCommand) (s : Player) :
    statics (performDecoderFlush a v s) = statics s := by
  unfold performDecoderFlush
  split_ifs <;> simp

@[simp] theorem statics_performScanSources (s : Player) :
    statics (performScanSources s) = statics s := by
  simp only [performScanSources]
  split_ifs <;> simp

@[simp] theorem statics_setVideoScalingMode (env : Env) (mode : Int) (s : Player) :
    statics (setVideoScalingMode env mode s).2 = statics s := by
  simp only [setVideoScalingMode]
  split_ifs <;> rfl

@[simp] theorem statics_performSetSurface (env : Env) (w : Option Nat) (s : Player) :
    statics (performSetSurface env w s) = statics s := by
  simp only [performSetSurface, statics_callDriver, statics_setVideoScalingMode]
  rfl

@[simp] theorem statics_finishResume (env : Env) (s : Player) :
    statics (finishResume env s) = statics s := by
  simp only [finishResume]
  split_ifs
  · rw [statics_callDriver]
    rfl
  · rfl

@[simp] theorem statics_performResumeDecoders (env : Env) (n : Bool) (s : Player) :
    statics (performResumeDecoders env n s) = statics s := by
  have h : ∀ u : Player, statics ({ u with mResumePending := true } : Player) = statics u :=
    fun _ => rfl
  simp only [performResumeDecoders]
  split_ifs <;> simp only [statics_emit, statics_finishResume, h]

theorem steady_thread_interrupt (env : Env) (s : Player) : Steady s (thread_interrupt env s) :=
  ⟨by simp only [thread_interrupt]; split_ifs <;> rfl, thread_interrupt_nodup env s⟩

theorem steady_thread_uninterrupt (env : Env) (s : Player) :
    Steady s (thread_uninterrupt env s) := by
  refine ⟨rfl, fun h => ?_⟩
  rw [thread_uninterrupt_registry]
  exact h.erase _

/-- A call made between `thread_interrupt` and `thread_uninterrupt`. -/
theorem steady_section (env : Env) (f : Player → Player)
    (hf : ∀ x, statics (f x) = statics x) (u : Player) :
    Steady u (thread_uninterrupt env (f (thread_interrupt env u))) :=
  steady_trans (steady_trans (steady_thread_interrupt env u) (steady_of_statics (hf _)))
    (steady_thread_uninterrupt env _)

theorem steady_performSeek (env : Env) (T : Int) (n : Bool) (s : Player) :
    okThen (performSeek env T n s) (Steady s) := by
  intro t ht
  unfold performSeek at ht
  split_ifs at ht
  · cases ht
    exact steady_refl _
  · cases ht
    have h := steady_section env (emit (.source (.seekTo T))) (fun _ => rfl) s
    exact steady_trans h (steady_of_statics rfl)

theorem steady_performReset (env : Env) (s : Player) :
    okThen (performReset env s) (Steady s) := by
  intro t ht
  unfold performReset at ht
  by_cases ha : s.mAudioDecoder ≠ none
  · rw [if_pos ha] at ht
    cases ht
  rw [if_neg ha] at ht
  by_cases hv : s.mVideoDecoder ≠ none
  · rw [if_pos hv] at ht
    cases ht
  rw [if_neg hv] at ht
  cases ht
  constructor
  · simp only [callDriver, thread_uninterrupt, thread_interrupt, cancelPollDuration, emit]
    split_ifs <;> rfl
  · intro hn
    have e : ∀ u : Player, u.mThreadId = s.mThreadId →
        (thread_uninterrupt env
          { emit (.source .stop) (thread_interrupt env u) with mSource := none }).mThreadId.Nodup := by
      intro u hu
      have := (steady_section env (fun x => { emit (.source .stop) x with mSource := none })
        (fun _ => rfl) u).2
      exact this (hu ▸ hn)
    simp only [callDriver, ite_mThreadId, emit]
    split_ifs
    all_goals
      first
      | exact hn
      | exact e _ rfl
theorem steady_execute (env : Env) (a : Action) (s : Player) :
    okThen (a.execute env s) (Steady s) := by
  cases a with
  | SeekAction T n => exact steady_performSeek env T n s
  | ResumeDecoderAction n =>
    simp only [Action.execute, okThen_ok]
    exact steady_of_statics (by simp)
  | SetSurfaceAction w =>
    simp only [Action.execute, okThen_ok]
    exact steady_of_statics (by simp)
  | FlushDecoderAction x y =>
    simp only [Action.execute, okThen_ok]
    exact steady_of_statics (by simp)
  | PostMessageAction m =>
    simp only [Action.execute, okThen_ok]
    exact steady_of_statics rfl
  | SimpleAction f =>
    cases f with
    | performReset => exact steady_performReset env s
    | performScanSources =>
      simp only [Action.execute, okThen_ok]
      exact steady_of_statics (by simp)

theorem steady_loop (env : Env) (fuel : Nat) (s : Player) :
    okThen (processDeferredActionsLoop env fuel s) (Steady s) := by
  induction fuel generalizing s with
  | zero => simp [processDeferredActionsLoop]
  | succ n ih =>
    unfold processDeferredActionsLoop
    cases hn : nextDeferredAction s with
    | none =>
      simp only [okThen_ok]
      exact steady_refl _
    | some p =>
      obtain ⟨a, s1⟩ := p
      obtain ⟨_, _, _, hs1⟩ := nextDeferredAction_some hn
      simp only [okThen_bind]
      intro t1 h1 t h2
      have e0 : Steady s (emit (.actionExecute a) s1) := by
        rw [hs1]
        exact steady_of_statics rfl
      exact steady_trans (steady_trans e0 (steady_execute env a _ t1 h1)) (ih t1 t h2)

theorem steady_processDeferredActions (env : Env) (s : Player) :
    okThen (processDeferredActions env s) (Steady s) :=
  steady_loop env _ s

theorem steady_finishFlushIfPossible (env : Env) (s : Player) :
    okThen (finishFlushIfPossible env s) (Steady s) := by
  by_cases h : s.mFlushingAudio.midFlush = true ∨ s.mFlushingVideo.midFlush = true
  · rw [finishFlushIfPossible_mid env s h]
    simp only [okThen_ok]
    exact steady_refl _
  · push_neg at h
    rw [finishFlushIfPossible_terminal env s (by simpa using h.1) (by simpa using h.2)]
    intro t ht
    have h1 : Steady s
        (clearFlushComplete { s with mFlushingAudio := .NONE, mFlushingVideo := .NONE }) :=
      steady_of_statics rfl
    exact steady_trans h1 (steady_processDeferredActions env _ t ht)

theorem statics_handleFlushComplete (audio isDecoder : Bool) (s : Player) :
    okThen (handleFlushComplete audio isDecoder s) (fun t => statics t = statics s) := by
  cases audio <;> cases isDecoder <;> cases hv : s.mFlushingVideo <;> cases ha : s.mFlushingAudio <;>
    simp [handleFlushComplete, flushing, setFlushing, getDecoder, emit, hv, ha,
      FlushComplete.get, FlushComplete.set] <;>
    (try split_ifs) <;> (try simp [statics])

theorem statics_instantiateDecoder (env : Env) (audio : Bool) (s : Player) :
    okThen (instantiateDecoder env audio s) (fun r => statics r.2 = statics s) := by
  cases h : env.videoFormat <;> cases audio <;>
    simp [instantiateDecoder, emit, h, getDecoder]
  all_goals
    split_ifs <;>
    simp [statics]

theorem statics_closeAudioSink (s : Player) :
    okThen (closeAudioSink s) (fun t => statics t = statics s) := by
  simp only [closeAudioSink]
  split_ifs <;> simp [statics, emit]

theorem statics_ite_instantiate (c : Prop) [Decidable c] (env : Env) (audio : Bool) (u : Player)
    (r : Int × Player)
    (h : (if c then instantiateDecoder env audio u else .ok (OK, u)) = .ok r) :
    statics r.2 = statics u := by
  by_cases hc : c
  · rw [if_pos hc] at h
    exact statics_instantiateDecoder env audio u r h
  · rw [if_neg hc] at h
    cases h
    rfl

theorem statics_onResume (env : Env) (s : Player) :
    okThen (onResume env s) (fun t => statics t = statics s) := by
  intro t ht
  unfold onResume at ht
  by_cases hp : (!s.mPaused) = true
  · rw [if_pos hp] at ht
    cases ht
    rfl
  · rw [if_neg hp] at ht
    obtain ⟨r, hr, ht⟩ := bind_ok ht
    cases ht
    have g1 := statics_ite_instantiate _ _ _ _ _ hr
    rw [statics_ite, statics_emit, ite_self, g1, statics_ite, statics_emit, ite_self]
    rfl

theorem statics_onInstantiateSecureDecoders (env : Env) (s : Player) :
    okThen (onInstantiateSecureDecoders env s) (fun r => statics r.2 = statics s) := by
  intro t ht
  unfold onInstantiateSecureDecoders at ht
  by_cases h1 : (!s.mSourceFlags.FLAG_SECURE) = true
  · rw [if_pos h1] at ht
    cases ht
    rfl
  rw [if_neg h1] at ht
  by_cases h2 : s.mRenderer ≠ none
  · rw [if_pos h2] at ht
    cases ht
    rfl
  rw [if_neg h2] at ht
  obtain ⟨r, hr, ht⟩ := bind_ok ht
  have g1 := statics_ite_instantiate _ _ _ _ _ hr
  by_cases h3 : r.1 ≠ OK
  · rw [if_pos h3] at ht
    cases ht
    exact g1
  rw [if_neg h3] at ht
  obtain ⟨q, hq, ht⟩ := bind_ok ht
  have g2 := statics_ite_instantiate _ _ _ _ _ hq
  have g := g2.trans g1
  dsimp only at ht
  split_ifs at ht <;> cases ht <;> exact g

theorem statics_onStart (env : Env) (s : Player) :
    okThen (onStart env s) (fun t => statics t = statics s) := by
  cases h : env.fileMetaFrameRate <;> simp [onStart, h, postScanSources, emit]
  all_goals
    split_ifs <;>
    simp [statics]

theorem statics_updateVideoSize (env : Env) (i o : Option Format) (s : Player) :
    okThen (updateVideoSize env i o s) (fun t => statics t = statics s) := by
  unfold updateVideoSize
  split
  · simp
  · simp only [okThen_bind]
    intro a _ b _
    split_ifs <;> simp

@[simp] theorem statics_dtsCheckTotalApre (env : Env) (s : Player) :
    statics (dtsCheckTotalApre env s) = statics s := by
  have h : ∀ (u : Player) (x : Int), statics { u with DtshdApreTotal := x } = statics u :=
    fun _ _ => rfl
  simp only [dtsCheckTotalApre]
  split_ifs <;> simp [h]

@[simp] theorem statics_dtsCheckStreamType (env : Env) (s : Player) :
    statics (dtsCheckStreamType env s) = statics s := by
  have h : ∀ (u : Player) (x : Int), statics { u with DtsHdStreamType := x } = statics u :=
    fun _ _ => rfl
  simp only [dtsCheckStreamType]
  split_ifs <;> simp [h]

@[simp] theorem statics_dtsCheckMulAssetHint (env : Env) (s : Player) :
    statics (dtsCheckMulAssetHint env s) = statics s := by
  have h : ∀ (u : Player) (x : Int), statics { u with DtsHdMulAssetHint := x } = statics u :=
    fun _ _ => rfl
  simp only [dtsCheckMulAssetHint]
  split_ifs <;> simp [h]

@[simp] theorem statics_dtsCheckHpsHint (env : Env) (s : Player) :
    statics (dtsCheckHpsHint env s) = statics s := by
  have h : ∀ (u : Player) (x : Int), statics { u with DtsHdHpsHint := x } = statics u :=
    fun _ _ => rfl
  simp only [dtsCheckHpsHint]
  split_ifs <;> simp [h]

@[simp] theorem statics_getCurrentPosition (env : Env) (s : Player) :
    statics (getCurrentPosition env s).2.2 = statics s := by
  unfold getCurrentPosition
  split_ifs <;> simp

theorem statics_writeTrackInfo (f : TrackInfo) (s : Player) :
    okThen (writeTrackInfo f s) (fun t => statics t = statics s) := by
  unfold writeTrackInfo
  split
  · simp
  · simp only [okThen_bind]
    intro a _
    split
    · simp
    · split_ifs
      · split <;> simp
      · simp

theorem statics_writeTrackInfos (l : List TrackInfo) (s : Player) :
    okThen (writeTrackInfos l s) (fun t => statics t = statics s) := by
  induction l generalizing s with
  | nil => simp [writeTrackInfos]
  | cons f rest ih =>
    simp only [writeTrackInfos, okThen_bind]
    refine okThen_mono (statics_writeTrackInfo f s) fun t ht => ?_
    exact okThen_mono (ih t) fun u hu => hu.trans ht

theorem statics_sendSubtitleData (env : Env) (b : Buffer) (i : Int) (s : Player) :
    okThen (sendSubtitleData env b i s) (fun t => statics t = statics s) := by
  unfold sendSubtitleData
  split <;> simp

theorem statics_sendTimedMetaData (env : Env) (b : Buffer) (s : Player) :
    okThen (sendTimedMetaData env b s) (fun t => statics t = statics s) := by
  unfold sendTimedMetaData
  split <;> simp

theorem statics_sendTimedTextData (env : Env) (b : Buffer) (s : Player) :
    okThen (sendTimedTextData env b s) (fun t => statics t = statics s) := by
  unfold sendTimedTextData
  split
  · simp
  · split_ifs <;> simp

theorem statics_onClosedCaptionNotify (env : Env) (w : CCWhat) (s : Player) :
    okThen (onClosedCaptionNotify env w s) (fun t => statics t = statics s) := by
  unfold onClosedCaptionNotify
  split
  · exact statics_sendSubtitleData _ _ _ _
  · simp
  · simp

@[simp] theorem statics_onPause (s : Player) : statics (onPause s) = statics s := by
  simp only [onPause]
  split_ifs <;> rfl


@[simp] theorem statics_onApi (env : Env) (c : Api) (s : Player) :
    statics (onApi env c s) = statics s := by
  cases c <;> simp only [onApi]
  all_goals (try split)
  all_goals (try split_ifs)
  all_goals (first | rfl | simp)

theorem statics_scanSourcesFeed (env : Env) (g : Int) (n : Option Int) (s : Player) :
    okThen (scanSourcesFeed env g n s) (fun t => statics t = statics s) := by
  simp only [scanSourcesFeed]
  split_ifs
  all_goals (first | (simp; done) | rfl | simp [emit, statics])

theorem statics_tryOpenAudioSinkForOffload (env : Env) (hv : Bool) (s : Player) :
    okThen (tryOpenAudioSinkForOffload env hv s) (fun t => statics t = statics s) := by
  simp only [tryOpenAudioSinkForOffload]
  split_ifs <;> simp [statics, emit]



theorem steady_queueDecoderShutdown (env : Env) (audio video : Bool) (reply : Nat)
    (s : Player) : okThen (queueDecoderShutdown env audio video reply s) (Steady s) := by
  intro t ht
  unfold queueDecoderShutdown at ht
  have h1 := steady_processDeferredActions env _ t ht
  exact steady_congr_left rfl h1

theorem steady_onSetVideoNativeWindow (env : Env) (obj : Option Nat) (s : Player) :
    okThen (onSetVideoNativeWindow env obj s) (Steady s) := by
  intro t ht
  unfold onSetVideoNativeWindow at ht
  by_cases h : s.mSource = none ∨ env.videoFormat = none
  · rw [if_pos h] at ht
    cases ht
    exact steady_of_statics (by simp)
  · rw [if_neg h] at ht
    have h1 := steady_processDeferredActions env _ t ht
    refine steady_congr_left ?_ h1
    dsimp only
    split_ifs <;> simp

theorem statics_scanSourcesAudio (env : Env) (s : Player) :
    okThen (scanSourcesAudio env s) (fun t => statics t = statics s) := by
  intro t ht
  unfold scanSourcesAudio at ht
  by_cases c1 : s.mAudioSink ≠ none ∧ s.mAudioDecoder = none
  · rw [if_pos c1] at ht
    by_cases c2 : s.mSource = none
    · rw [if_pos c2] at ht
      cases ht
    · rw [if_neg c2] at ht
      obtain ⟨u, hu, ht⟩ := bind_ok ht
      obtain ⟨r, hr, ht⟩ := bind_ok ht
      cases ht
      have gu : statics u = statics s := by
        by_cases c3 : env.canOffloadStream = true
        · rw [if_pos c3] at hu
          by_cases c4 : (!s.mOffloadAudio) = true ∧ s.mRenderer = none
          · rw [if_pos c4] at hu
            cases hu
          · rw [if_neg c4] at hu
            rw [statics_tryOpenAudioSinkForOffload env _ _ u hu]
            split_ifs <;> rfl
        · rw [if_neg c3] at hu
          cases hu
          rfl
      exact (statics_instantiateDecoder env true u r hr).trans gu
  · rw [if_neg c1] at ht
    cases ht
    rfl

theorem statics_onScanSources (env : Env) (g : Int) (n : Option Int) (s : Player) :
    okThen (onScanSources env g n s) (fun t => statics t = statics s) := by
  intro t ht
  unfold onScanSources at ht
  by_cases c1 : g ≠ s.mScanSourcesGeneration
  · rw [if_pos c1] at ht
    cases ht
    rfl
  rw [if_neg c1] at ht
  by_cases c2 : s.mEnableFrameRate = true ∧ s.mFrameRate = .negative
      ∧ n.getD 0 < wrap32 (s.mWaitSeconds * 100)
  · rw [if_pos c2] at ht
    cases ht
    rfl
  rw [if_neg c2] at ht
  obtain ⟨r, hr, ht⟩ := bind_ok ht
  obtain ⟨u, hu, ht⟩ := bind_ok ht
  have g1 := statics_ite_instantiate _ _ _ _ _ hr
  have g2 := statics_scanSourcesAudio env _ u hu
  have g3 := statics_scanSourcesFeed env _ _ _ t ht
  rw [g3, statics_ite, statics_ite, statics_schedulePollDuration, ite_self, ite_self, g2, g1]
  rfl

theorem steady_pre {s u t : Player} (g : Steady u t) (h : statics u = statics s) : Steady s t :=
  steady_trans (steady_of_statics h) g

theorem steady_onSourceNotify (env : Env) (what : SourceWhat) (s : Player) :
    okThen (onSourceNotify env what s) (Steady s) := by
  intro t ht
  cases what with
  | kWhatInstantiateSecureDecoders reply =>
    simp only [onSourceNotify] at ht
    split_ifs at ht
    · cases ht
      exact steady_of_statics rfl
    · obtain ⟨r, hr, ht⟩ := bind_ok ht
      cases ht
      exact steady_of_statics
        ((statics_emit _ _).trans (statics_onInstantiateSecureDecoders env s r hr))
  | kWhatPrepared err =>
    simp only [onSourceNotify] at ht
    by_cases c1 : s.mSource = none
    · rw [if_pos c1] at ht
      cases ht
      exact steady_of_statics rfl
    · rw [if_neg c1] at ht
      obtain ⟨u, hu, ht⟩ := bind_ok ht
      cases ht
      have hsu : Steady s u := by
        by_cases c2 : err ≠ OK
        · rw [if_pos c2] at hu
          exact steady_pre (steady_processDeferredActions env _ u hu) rfl
        · rw [if_neg c2] at hu
          cases hu
          exact steady_of_statics rfl
      refine steady_congr ?_ hsu
      rw [statics_callDriver]
      split <;> simp
  | kWhatFlagsChanged flags =>
    simp only [onSourceNotify] at ht
    cases ht
    refine steady_of_statics ?_
    have h0 : ∀ u : Player, statics u = statics s → statics
        (if u.mSourceFlags.FLAG_DYNAMIC_DURATION = true ∧ (!flags.FLAG_DYNAMIC_DURATION) = true
          then cancelPollDuration u
          else if (!u.mSourceFlags.FLAG_DYNAMIC_DURATION) = true
              ∧ flags.FLAG_DYNAMIC_DURATION = true
              ∧ (u.mAudioDecoder ≠ none ∨ u.mVideoDecoder ≠ none) then
            schedulePollDuration u
          else u) = statics s := by
      intro u hu
      split_ifs
      · exact hu
      · exact hu
      · exact hu
    have h1 : ∀ (u : Player) (f : SourceFlags),
        statics ({ u with mSourceFlags := f } : Player) = statics u := fun _ _ => rfl
    rw [h1]
    apply h0
    simp only [statics_callDriver]
    split_ifs <;> simp
  | kWhatVideoSizeChanged format =>
    have ht2 : updateVideoSize env (some format) none s = .ok t := ht
    exact steady_of_statics (statics_updateVideoSize _ _ _ _ t ht2)
  | kWhatBufferingUpdate percentage =>
    cases ht
    exact steady_of_statics (statics_notifyListener _ _ _)
  | kWhatPauseOnBufferingStart =>
    simp only [onSourceNotify] at ht
    cases ht
    refine steady_of_statics ?_
    rw [statics_notifyListener]
    split_ifs <;> simp
  | kWhatBufferingStart =>
    cases ht
    exact steady_of_statics (statics_notifyListener _ _ _)
  | kWhatResumeOnBufferingEnd =>
    simp only [onSourceNotify] at ht
    obtain ⟨u, hu, ht⟩ := bind_ok ht
    cases ht
    refine steady_of_statics ((statics_notifyListener _ _ _).trans ?_)
    by_cases c : s.mStarted = true ∧ (!s.mPausedByClient) = true
    · rw [if_pos c] at hu
      exact statics_onResume env s u hu
    · rw [if_neg c] at hu
      cases hu
      rfl
  | kWhatBufferingEnd =>
    cases ht
    exact steady_of_statics (statics_notifyListener _ _ _)
  | kWhatCacheStats kbps =>
    cases ht
    exact steady_of_statics (statics_notifyListener _ _ _)
  | kWhatSubtitleData buffer =>
    have ht2 : sendSubtitleData env buffer 0 s = .ok t := ht
    exact steady_of_statics (statics_sendSubtitleData _ _ _ _ t ht2)
  | kWhatTimedMetaData buffer =>
    cases buffer with
    | none =>
      cases ht
      exact steady_of_statics (statics_notifyListener _ _ _)
    | some b =>
      have ht2 : sendTimedMetaData env b s = .ok t := ht
      exact steady_of_statics (statics_sendTimedMetaData _ _ _ t ht2)
  | kWhatTimedTextData generation buffer =>
    simp only [onSourceNotify] at ht
    by_cases c1 : generation.isSome = true ∧ generation ≠ some s.mTimedTextGeneration
    · rw [if_pos c1] at ht
      cases ht
      exact steady_of_statics rfl
    rw [if_neg c1] at ht
    by_cases c2 : ¬ (s.mDriver = true ∧ env.driverAlive = true)
    · rw [if_pos c2] at ht
      cases ht
      exact steady_of_statics rfl
    rw [if_neg c2] at ht
    cases hb : buffer.timeUs with
    | none =>
      rw [hb] at ht
      cases ht
    | some timeUs =>
      rw [hb] at ht
      dsimp only at ht
      by_cases c3 : wrap32 (env.driverPositionMs * 1000) < timeUs
      · rw [if_pos c3] at ht
        cases ht
        exact steady_of_statics rfl
      · rw [if_neg c3] at ht
        exact steady_of_statics (statics_sendTimedTextData _ _ _ t ht)
  | kWhatQueueDecoderShutdown audio video reply =>
    have ht2 : queueDecoderShutdown env audio video reply s = .ok t := ht
    exact steady_queueDecoderShutdown env audio video reply s t ht2
  | kWhatDrmNoLicense =>
    cases ht
    exact steady_of_statics (statics_notifyListener _ _ _)
  | kWhatSourceReady err =>
    cases ht
    exact steady_of_statics (statics_notifyListener _ _ _)
  | kWhatFrameRate frameRate =>
    cases ht
    exact steady_of_statics rfl
  | unhandled => cases ht

theorem steady_onDecoderError (env : Env) (audio : Bool) (err : Option Int) (s : Player) :
    okThen (onDecoderError env audio err s) (Steady s) := by
  intro t ht
  unfold onDecoderError at ht
  dsimp only at ht
  by_cases c1 : s.mNativeWindow ≠ none ∧ s.mNativeWindow ≠ s.mNewSurface
      ∧ decoderErrorCode err = -19
  · rw [if_pos c1] at ht
    cases ht
    exact steady_of_statics rfl
  rw [if_neg c1] at ht
  obtain ⟨u, hu, ht⟩ := bind_ok ht
  cases ht
  refine steady_congr (statics_notifyListener _ _ _) ?_
  cases hf : flushing audio s <;> rw [hf] at hu <;> dsimp only at hu
  · exact steady_pre (steady_processDeferredActions env _ u hu) rfl
  · cases hu
    exact steady_of_statics (statics_setFlushing _ _ _)
  · cases hu
    exact steady_of_statics rfl
  · cases hu
    exact steady_of_statics rfl
  · by_cases c2 : getDecoder audio (if (!audio) = true ∧ s.mSource ≠ none
        ∧ s.mSourceFlags.FLAG_SECURE = true then emit (.source .stop) s else s) = none
    · rw [if_pos c2] at hu
      cases hu
    · rw [if_neg c2] at hu
      cases hu
      refine steady_of_statics ?_
      rw [statics_setFlushing, statics_emit]
      split_ifs <;> rfl
  · exact steady_finishFlushIfPossible env s u hu

theorem steady_onDecoderNotify (env : Env) (audio : Bool) (g : Int) (reply : Option Nat)
    (what : DecoderWhat) (s : Player) :
    okThen (onDecoderNotify env audio g reply what s) (Steady s) := by
  intro t ht
  unfold onDecoderNotify at ht
  dsimp only at ht
  by_cases c1 : g ≠ (if audio = true then s.mAudioDecoderGeneration
      else s.mVideoDecoderGeneration)
  · rw [if_pos c1] at ht
    cases reply <;> cases ht <;> exact steady_of_statics rfl
  rw [if_neg c1] at ht
  obtain ⟨s0, hs0, hg0⟩ : ∃ s0 : Player, s0 = (if s.mEnableFrameRate = true
      ∧ (!audio) = true ∧ s.mAutoSwitch > 0 then
        { emit (.sysfsSetAutoSwitch s.mAutoSwitch) s with mAutoSwitch := -1 } else s)
      ∧ statics s0 = statics s := by
    refine ⟨_, rfl, ?_⟩
    split_ifs <;> rfl
  rw [← hs0] at ht
  cases what with
  | kWhatInputDiscontinuity formatChange =>
    dsimp only at ht
    refine steady_pre (steady_processDeferredActions env _ t ht) ?_
    rw [statics_pushAction]
    split_ifs <;> simp [hg0]
  | kWhatEOS err =>
    dsimp only at ht
    split_ifs at ht
    cases ht
    exact steady_of_statics (by rw [statics_emit, hg0])
  | kWhatFlushCompleted =>
    dsimp only at ht
    obtain ⟨u, hu, ht⟩ := bind_ok ht
    exact steady_congr_left ((statics_handleFlushComplete _ _ _ u hu).trans hg0)
      (steady_finishFlushIfPossible env u t ht)
  | kWhatVideoSizeChanged format =>
    dsimp only at ht
    split_ifs at ht
    exact steady_of_statics ((statics_updateVideoSize _ _ _ _ t ht).trans hg0)
  | kWhatShutdownCompleted =>
    dsimp only at ht
    cases audio
    · simp only [Bool.false_eq_true, if_false] at ht
      split_ifs at ht
      exact steady_pre (steady_finishFlushIfPossible env _ t ht) hg0
    · simp only [if_true] at ht
      split_ifs at ht
      exact steady_pre (steady_finishFlushIfPossible env _ t ht) hg0
  | kWhatResumeCompleted =>
    cases ht
    exact steady_of_statics ((statics_finishResume env s0).trans hg0)
  | kWhatError err =>
    exact steady_congr_left hg0 (steady_onDecoderError env audio err s0 t ht)
  | unhandled =>
    cases ht
    exact steady_of_statics hg0

theorem steady_onRendererNotify (env : Env) (g : Int) (what : RendererWhat) (s : Player) :
    okThen (onRendererNotify env g what s) (Steady s) := by
  intro t ht
  unfold onRendererNotify at ht
  by_cases c1 : g ≠ s.mRendererGeneration
  · rw [if_pos c1] at ht
    cases ht
    exact steady_of_statics rfl
  rw [if_neg c1] at ht
  cases what with
  | kWhatEOS audio finalResult =>
    dsimp only at ht
    refine steady_of_statics ?_
    split_ifs at ht <;> cases ht <;> first | rfl | (simp only [statics_notifyListener]; rfl)
  | kWhatFlushComplete audio =>
    dsimp only at ht
    obtain ⟨u, hu, ht⟩ := bind_ok ht
    exact steady_congr_left (statics_handleFlushComplete _ _ _ u hu)
      (steady_finishFlushIfPossible env u t ht)
  | kWhatVideoRenderingStart =>
    cases ht
    exact steady_of_statics (statics_notifyListener _ _ _)
  | kWhatMediaRenderingStart =>
    cases ht
    exact steady_of_statics (statics_notifyListener _ _ _)
  | kWhatAudioOffloadTearDown positionUs dueToError =>
    dsimp only at ht
    obtain ⟨u, hu, ht⟩ := bind_ok ht
    obtain ⟨v, hv, ht⟩ := bind_ok ht
    have g1 : statics u = statics s := statics_closeAudioSink s u hu
    have g2 : statics (if u.mVideoDecoder ≠ none then
        emit (.renderer (.flush false false)) (emit (.renderer (.flush true false))
          { u with mAudioDecoder := none,
                   mAudioDecoderGeneration := inc32 u.mAudioDecoderGeneration })
        else emit (.renderer (.flush true false))
          { u with mAudioDecoder := none,
                   mAudioDecoderGeneration := inc32 u.mAudioDecoderGeneration }) = statics u := by
      split_ifs <;> rfl
    have g3 := steady_performSeek env positionUs false _ v hv
    have g123 : Steady s v := steady_congr_left (g2.trans g1) g3
    by_cases c2 : dueToError = true
    · rw [if_pos c2] at ht
      obtain ⟨r, hr, ht⟩ := bind_ok ht
      cases ht
      have g4 := statics_instantiateDecoder env true _ r hr
      exact steady_congr (g4.trans rfl) g123
    · rw [if_neg c2] at ht
      cases ht
      exact g123
  | unhandled =>
    cases ht
    exact steady_of_statics rfl

theorem statics_onSelectTrack (env : Env) (i : Nat) (b : Bool) (ts : Int) (s : Player) :
    okThen (onSelectTrack env i b ts s) (fun t => statics t = statics s) := by
  simp only [onSelectTrack, okThen_ok]
  rw [statics_emit]
  split_ifs
  all_goals (try split)
  all_goals (try split_ifs)
  all_goals rfl

theorem steady_onMessageReceived (env : Env) (msg : Msg) (s : Player) :
    okThen (onMessageReceived env msg s) (Steady s) := by
  intro t ht
  cases msg with
  | kWhatSetDataSource obj =>
    simp only [onMessageReceived] at ht
    refine steady_of_statics ?_
    cases obj <;> dsimp only at ht <;> split_ifs at ht <;> cases ht <;>
      (rw [statics_callDriver]; try rfl)
  | kWhatPrepare =>
    simp only [onMessageReceived] at ht
    split_ifs at ht
    cases ht
    exact steady_of_statics rfl
  | kWhatGetTrackInfo =>
    simp only [onMessageReceived] at ht
    obtain ⟨u, hu, ht⟩ := bind_ok ht
    obtain ⟨v, hv, ht⟩ := bind_ok ht
    cases ht
    refine steady_of_statics ?_
    rw [statics_emit, statics_writeTrackInfos _ _ v hv, statics_writeTrackInfos _ _ u hu,
      statics_emit]
  | kWhatGetSelectedTrack type =>
    simp only [onMessageReceived] at ht
    split_ifs at ht <;> cases ht <;> exact steady_of_statics rfl
  | kWhatSelectTrack trackIndex select timeUs =>
    have ht2 : onSelectTrack env trackIndex select timeUs s = .ok t := ht
    exact steady_of_statics (statics_onSelectTrack _ _ _ _ _ t ht2)
  | kWhatPollDuration generation =>
    simp only [onMessageReceived] at ht
    split_ifs at ht
    · cases ht
      exact steady_of_statics rfl
    · cases ht
      refine steady_of_statics ?_
      rw [statics_emit]
      split <;> simp
  | kWhatSetVideoNativeWindow obj =>
    have ht2 : onSetVideoNativeWindow env obj s = .ok t := ht
    exact steady_onSetVideoNativeWindow env obj s t ht2
  | kWhatSetAudioSink obj =>
    cases ht
    exact steady_of_statics rfl
  | kWhatStart =>
    simp only [onMessageReceived] at ht
    obtain ⟨u, hu, ht⟩ := bind_ok ht
    cases ht
    have h0 : statics u = statics s := by
      by_cases c : s.mStarted = true
      · rw [if_pos c] at hu
        exact statics_onResume env s u hu
      · rw [if_neg c] at hu
        exact statics_onStart env s u hu
    exact steady_of_statics (Eq.trans rfl h0)
  | kWhatScanSources generation scanNum =>
    have ht2 : onScanSources env generation scanNum s = .ok t := ht
    exact steady_of_statics (statics_onScanSources _ _ _ _ t ht2)
  | kWhatVideoNotify generation reply what =>
    have ht2 : onDecoderNotify env false generation reply what s = .ok t := ht
    exact steady_onDecoderNotify _ _ _ _ _ _ t ht2
  | kWhatAudioNotify generation reply what =>
    have ht2 : onDecoderNotify env true generation reply what s = .ok t := ht
    exact steady_onDecoderNotify _ _ _ _ _ _ t ht2
  | kWhatRendererNotify generation what =>
    have ht2 : onRendererNotify env generation what s = .ok t := ht
    exact steady_onRendererNotify _ _ _ _ t ht2
  | kWhatMoreDataQueued =>
    cases ht
    exact steady_of_statics rfl
  | kWhatReset =>
    simp only [onMessageReceived] at ht
    exact steady_pre (steady_processDeferredActions env _ t ht) rfl
  | kWhatSeek seekTimeUs needNotify =>
    simp only [onMessageReceived] at ht
    refine steady_pre (steady_processDeferredActions env _ t ht) ?_
    simp only [statics_pushAction]
    split_ifs <;> rfl
  | kWhatPause =>
    cases ht
    exact steady_of_statics (statics_onPause s)
  | kWhatSourceNotify what =>
    have ht2 : onSourceNotify env what s = .ok t := ht
    exact steady_onSourceNotify _ _ _ t ht2
  | kWhatClosedCaptionNotify what =>
    have ht2 : onClosedCaptionNotify env what s = .ok t := ht
    exact steady_of_statics (statics_onClosedCaptionNotify _ _ _ t ht2)
  | unhandled => cases ht

/-- No input changes `mWaitSeconds`, and no input brings a duplicate into the
registry of interrupted threads. -/
theorem step_steady (env : Env) (input : Input) (s : Player) :
    okThen (step env input s) (Steady s) := by
  intro t ht
  cases input with
  | message msg => exact steady_onMessageReceived env msg s t ht
  | call api =>
    cases ht
    exact steady_of_statics (statics_onApi env api s)

theorem run_steady (inputs : List (Env × Input)) (s : Player) :
    okThen (run inputs s) (Steady s) := by
  induction inputs generalizing s with
  | nil =>
    intro t ht
    cases ht
    exact steady_refl _
  | cons p rest ih =>
    obtain ⟨env, input⟩ := p
    intro t ht
    obtain ⟨u, hu, ht⟩ := bind_ok ht
    exact steady_trans (step_steady env input s u hu) (ih u t ht)

/-- In every state reached from a player constructed with `waitSeconds` and a
registry without duplicates, `mWaitSeconds` is `waitSeconds` and the registry has
no duplicates. -/
theorem reachable_steady {s : Player} (h : Reachable s) :
    ∃ (w : Int) (th : List Nat), Steady (initial w th) s := by
  induction h with
  | init w th => exact ⟨w, th, steady_refl _⟩
  | step env input _ hstep ih =>
    obtain ⟨w, th, hs⟩ := ih
    exact ⟨w, th, steady_trans hs (step_steady env input _ _ hstep)⟩

/-! ## The frame-rate wait -/

/-- The case `kWhatScanSources` is the generation test, the frame-rate wait and
the scan proper. -/
theorem onScanSources_cases (env : Env) (g : Int) (n : Option Int) (s : Player) :
    onScanSources env g n s =
      if g ≠ s.mScanSourcesGeneration then .ok s
      else if scanWaits n s then
        .ok (emit (.post (.scanSources g (some (inc32 (n.getD 0))) 10000)) s)
      else scanSourcesBody env g n s := by
  unfold onScanSources
  by_cases hg : g ≠ s.mScanSourcesGeneration
  · rw [if_pos hg, if_pos hg]
  · rw [if_neg hg, if_neg hg]
    by_cases hw : scanWaits n s
    · rw [if_pos hw]
      unfold scanWaits at hw
      rw [if_pos hw]
    · rw [if_neg hw]
      unfold scanWaits at hw
      rw [if_neg hw]
      rfl

theorem scanPosts_notifyListener (env : Env) (m : ListenerMsg) (s : Player) :
    scanPosts (notifyListener env m s) = scanPosts s := by
  unfold notifyListener
  split_ifs <;> simp [scanPosts, emit, callDriver]

theorem scanSourcesFeed_posts (env : Env) (g : Int) (n : Option Int) (s : Player) :
    okThen (scanSourcesFeed env g n s) (fun t =>
      scanPosts t = scanPosts s ∨ scanPosts t = scanPosts s ++ [(g, n, 100000)]) := by
  intro t ht
  unfold scanSourcesFeed at ht
  by_cases hs : s.mSource = none
  · rw [if_pos hs] at ht
    cases ht
  · rw [if_neg hs] at ht
    dsimp only at ht
    by_cases hf : env.feedMoreTSDataErr ≠ OK
    · rw [if_pos hf] at ht
      split_ifs at ht
      all_goals cases ht
      · left
        rw [scanPosts_notifyListener]
        simp [scanPosts, emit]
      · left
        rw [scanPosts_notifyListener]
        simp [scanPosts, emit]
      · left
        simp [scanPosts, emit]
    · rw [if_neg hf] at ht
      split_ifs at ht
      all_goals cases ht
      · right
        simp [scanPosts, emit]
      · left
        simp [scanPosts, emit]

theorem scanSourcesBody_posts (env : Env) (g : Int) (n : Option Int) (s : Player) :
    okThen (scanSourcesBody env g n s) (fun t =>
      scanPosts t = scanPosts s ∨ scanPosts t = scanPosts s ++ [(g, n, 100000)]) := by
  intro t h
  unfold scanSourcesBody at h
  dsimp only at h
  obtain ⟨r, hr, h⟩ := bind_ok h
  obtain ⟨q, hq, h⟩ := bind_ok h
  have hr2 : scanPosts r.2 = scanPosts s := by
    by_cases hn : s.mNativeWindow = none
    · simp only [hn, ne_eq, not_true_eq_false, if_false] at hr
      cases hr
      rfl
    · simp only [hn, ne_eq, not_false_eq_true, if_true] at hr
      exact (instantiateDecoder_scan env false _ r hr).2.1
  have hq2 : scanPosts q = scanPosts r.2 := (scanSourcesAudio_scan env r.2 q hq).2.1
  obtain ⟨u, hu, hfeed⟩ : ∃ u : Player, scanPosts u = scanPosts q ∧
      scanSourcesFeed env g n u = .ok t := by
    refine ⟨_, ?_, h⟩
    split_ifs <;> simp [schedulePollDuration, emit, scanPosts]
  have := scanSourcesFeed_posts env g n u t hfeed
  rw [hu, hq2, hr2] at this
  exact this

theorem wrap32_le (x : Int) (h : 0 ≤ x) : wrap32 x ≤ x := by
  unfold wrap32
  omega

theorem wrap32_lt (x : Int) : wrap32 x < 2147483648 := by
  unfold wrap32
  omega

theorem wrap32_id (x : Int) (h0 : -2147483648 ≤ x) (h1 : x < 2147483648) : wrap32 x = x := by
  unfold wrap32
  omega

/-- The counter of a message deferred `k` times is `k`, below the wrap of an
`int32_t`. -/
theorem scanNumAfter_val (k : Nat) (h : (k : Int) < 2147483648) :
    (scanNumAfter k).getD 0 = k := by
  induction k with
  | zero => rfl
  | succ n ih =>
    have h1 := ih (by omega)
    show (some (inc32 ((scanNumAfter n).getD 0))).getD 0 = _
    rw [Option.getD_some, h1, inc32_succ _ (by omega) (by omega)]
    push_cast
    rfl

/-- A chain of deferrals is no longer than `mWaitSeconds * 100`. -/
theorem scan_chain_bound (W : Int) (hW : 0 ≤ W) (σ : Nat → Player) (k : Nat)
    (hσ : ∀ i, i < k → (σ i).mWaitSeconds = W)
    (hd : ∀ i, i < k → scanWaits (scanNumAfter i) (σ i)) : (k : Int) ≤ W * 100 := by
  have hp : 0 ≤ W * 100 := by omega
  by_cases hk : (k : Int) ≤ 2147483648
  · cases k with
    | zero => simpa using hp
    | succ m =>
      have h1 := (hd m (Nat.lt_succ_self _)).2.2
      rw [hσ m (Nat.lt_succ_self _), scanNumAfter_val m (by omega)] at h1
      have := wrap32_le _ hp
      push_cast
      omega
  · exfalso
    obtain ⟨j, hj⟩ : ∃ j : Nat, (j : Int) = 2147483647 := ⟨2147483647, rfl⟩
    have h1 := (hd j (by omega)).2.2
    rw [scanNumAfter_val j (by omega)] at h1
    have := wrap32_lt ((σ j).mWaitSeconds * 100)
    omega

/-- Claim C31: with the frame-rate detection enabled and no frame rate received
(`scanWaits`), a current-generation `kWhatScanSources` message is deferred: the
handler only posts the message again after 10 ms with the counter `scan-num`
incremented by one, so no decoder is instantiated and the state is otherwise
unchanged. A message that is not deferred runs the scan proper, which posts
nothing after 10 ms and leaves the counter as it is. While `mWaitSeconds * 100`
does not overflow an `int32_t`, the message is deferred exactly while `scan-num`
is below `mWaitSeconds * 100`; for every `mWaitSeconds ≥ 0` a chain of `k`
deferrals (the `i`-th message handled in the state `σ i`) has at most
`mWaitSeconds * 100` links, that is at most `mWaitSeconds` seconds of delay.
No input changes `mWaitSeconds`, so the states of a run share its value. -/
theorem scan_wait_bounded (env : Env) (s : Player) (n : Option Int) :
    (scanWaits n s →
      step env (.message (.kWhatScanSources s.mScanSourcesGeneration n)) s
        = .ok (emit (.post (.scanSources s.mScanSourcesGeneration
            (some (inc32 (n.getD 0))) 10000)) s) ∧
      (-2147483648 ≤ n.getD 0 → inc32 (n.getD 0) = n.getD 0 + 1)) ∧
    (∀ e : Event, creations (emit (.post (.scanSources s.mScanSourcesGeneration
          (some (inc32 (n.getD 0))) 10000)) s) = creations s ∧
      { emit e s with trace := s.trace } = s) ∧
    (¬ scanWaits n s →
      step env (.message (.kWhatScanSources s.mScanSourcesGeneration n)) s
        = scanSourcesBody env s.mScanSourcesGeneration n s ∧
      ∀ t, step env (.message (.kWhatScanSources s.mScanSourcesGeneration n)) s = .ok t →
        scanPosts t = scanPosts s ∨
        scanPosts t = scanPosts s ++ [(s.mScanSourcesGeneration, n, 100000)]) ∧
    (0 ≤ s.mWaitSeconds → s.mWaitSeconds * 100 < 2147483648 →
      (scanWaits n s ↔ (s.mEnableFrameRate = true ∧ s.mFrameRate = .negative
        ∧ n.getD 0 < s.mWaitSeconds * 100)) ∧
      ∀ i : Nat, (i : Int) < 2147483648 →
        (scanWaits (scanNumAfter i) s ↔ (s.mEnableFrameRate = true ∧ s.mFrameRate = .negative
          ∧ (i : Int) < s.mWaitSeconds * 100))) ∧
    (0 ≤ s.mWaitSeconds → ∀ (σ : Nat → Player) (k : Nat),
      (∀ i, i < k → (σ i).mWaitSeconds = s.mWaitSeconds) →
      (∀ i, i < k → scanWaits (scanNumAfter i) (σ i)) →
      (k : Int) ≤ s.mWaitSeconds * 100 ∧ (k : Int) * 10000 ≤ s.mWaitSeconds * 1000000) ∧
    (∀ (inputs : List (Env × Input)) (t : Player),
      run inputs s = .ok t → t.mWaitSeconds = s.mWaitSeconds) := by
  have hstep : step env (.message (.kWhatScanSources s.mScanSourcesGeneration n)) s
      = onScanSources env s.mScanSourcesGeneration n s := rfl
  refine ⟨fun hw => ⟨?_, fun h0 => ?_⟩, fun e => ⟨?_, rfl⟩, fun hw => ?_, fun h0 h1 => ⟨?_, ?_⟩,
    fun h0 σ k hσ hd => ?_, fun inputs t ht => (run_steady inputs s t ht).1⟩
  · rw [hstep, onScanSources_cases, if_neg (fun h => h rfl), if_pos hw]
  · have h2 := hw.2.2
    have := wrap32_lt (s.mWaitSeconds * 100)
    unfold inc32
    exact wrap32_id _ (by omega) (by omega)
  · simp [creations, emit]
  · have e : step env (.message (.kWhatScanSources s.mScanSourcesGeneration n)) s
        = scanSourcesBody env s.mScanSourcesGeneration n s := by
      rw [hstep, onScanSources_cases, if_neg (fun h => h rfl), if_neg hw]
    refine ⟨e, fun t ht => ?_⟩
    rw [e] at ht
    exact scanSourcesBody_posts env _ n s t ht
  · unfold scanWaits
    rw [wrap32_id _ (by omega) h1]
  · intro i hi
    unfold scanWaits
    rw [wrap32_id _ (by omega) h1, scanNumAfter_val i hi]
  · have := scan_chain_bound s.mWaitSeconds h0 σ k hσ hd
    exact ⟨this, by omega⟩

theorem scan_wait_bounded_witness :
    scanWaits none awaitingFrameRate ∧
    step exampleEnv (.message (.kWhatScanSources 0 none)) awaitingFrameRate
      = .ok (emit (.post (.scanSources 0 (some 1) 10000)) awaitingFrameRate) ∧
    (scanWaits (scanNumAfter 99) awaitingFrameRate ↔
      (awaitingFrameRate.mEnableFrameRate = true ∧ awaitingFrameRate.mFrameRate = .negative
        ∧ ((99 : Nat) : Int) < awaitingFrameRate.mWaitSeconds * 100)) ∧
    (scanWaits (scanNumAfter 100) awaitingFrameRate ↔
      (awaitingFrameRate.mEnableFrameRate = true ∧ awaitingFrameRate.mFrameRate = .negative
        ∧ ((100 : Nat) : Int) < awaitingFrameRate.mWaitSeconds * 100)) ∧
    ((1 : Nat) : Int) ≤ awaitingFrameRate.mWaitSeconds * 100 :=
  have hw : scanWaits none awaitingFrameRate := by decide
  ⟨hw,
    ((scan_wait_bounded exampleEnv awaitingFrameRate none).1 hw).1,
    ((scan_wait_bounded exampleEnv awaitingFrameRate none).2.2.2.1 (by decide) (by decide)).2 99
      (by decide),
    ((scan_wait_bounded exampleEnv awaitingFrameRate none).2.2.2.1 (by decide) (by decide)).2 100
      (by decide),
    ((scan_wait_bounded exampleEnv awaitingFrameRate none).2.2.2.2.1 (by decide)
      (fun _ => awaitingFrameRate) 1 (fun _ _ => rfl)
      (fun i hi => by
        have : i = 0 := by omega
        subst this
        exact hw)).1⟩

/-- Claim C32: the registry `mThreadId` behaves as a set of thread ids.
`thread_interrupt` appends the id of the calling thread when it is not in the
list and changes nothing otherwise, so a list without duplicates stays without
duplicates (the registry is empty when the process starts); `thread_uninterrupt`
removes the first entry equal to the id of the caller, which in a list without
duplicates is its only entry, and keeps the other ids;
`interrupt_callback(id)` returns 1 when `id` is in the list and 0 otherwise. So
the callback returns 1 for the caller after `thread_interrupt`, and 0 after a
following `thread_uninterrupt`, however many calls of `thread_interrupt` came
before. No handler writes the registry otherwise: along every run of inputs
handled from a state with a registry without duplicates the registry stays
without duplicates. -/
theorem interrupt_registry (env : Env) (s : Player) (id : Nat) :
    ((thread_interrupt env s).mThreadId
      = if env.threadId ∈ s.mThreadId then s.mThreadId else s.mThreadId ++ [env.threadId]) ∧
    (s.mThreadId.Nodup → (thread_interrupt env s).mThreadId.Nodup) ∧
    ((thread_uninterrupt env s).mThreadId = s.mThreadId.erase env.threadId) ∧
    (s.mThreadId.Nodup → (thread_uninterrupt env s).mThreadId.Nodup ∧
      env.threadId ∉ (thread_uninterrupt env s).mThreadId ∧
      ∀ x, x ≠ env.threadId → (x ∈ (thread_uninterrupt env s).mThreadId ↔ x ∈ s.mThreadId)) ∧
    (interrupt_callback id s = if id ∈ s.mThreadId then 1 else 0) ∧
    interrupt_callback env.threadId (thread_interrupt env s) = 1 ∧
    (s.mThreadId.Nodup → ∀ k : Nat,
      interrupt_callback env.threadId (Nat.iterate (thread_interrupt env) (k + 1) s) = 1 ∧
      interrupt_callback env.threadId
        (thread_uninterrupt env (Nat.iterate (thread_interrupt env) (k + 1) s)) = 0) ∧
    (∀ w : Int, (initial w []).mThreadId.Nodup) ∧
    (s.mThreadId.Nodup → ∀ (inputs : List (Env × Input)) (t : Player),
      run inputs s = .ok t → t.mThreadId.Nodup) := by
  refine ⟨thread_interrupt_registry env s, thread_interrupt_nodup env s,
    thread_uninterrupt_registry env s, fun h => ?_, interrupt_callback_registry id s, ?_,
    fun h k => ?_, fun w => List.nodup_nil, fun h inputs t ht => (run_steady inputs s t ht).2 h⟩
  · rw [thread_uninterrupt_registry]
    refine ⟨h.erase _, fun hm => ?_, fun x hx => ?_⟩
    · exact absurd rfl ((List.Nodup.mem_erase_iff h).1 hm).1
    · rw [List.Nodup.mem_erase_iff h]
      exact ⟨fun a => a.2, fun a => ⟨hx, a⟩⟩
  · rw [interrupt_callback_registry, thread_interrupt_registry]
    split_ifs with hm <;> simp_all
  · obtain ⟨nd, hm⟩ := thread_interrupt_iterate env (k + 1) s
    refine ⟨?_, ?_⟩
    · rw [interrupt_callback_registry, if_pos (hm (Nat.succ_pos k))]
    · rw [interrupt_callback_registry, thread_uninterrupt_registry, if_neg]
      exact fun hx => absurd rfl ((List.Nodup.mem_erase_iff (nd h)).1 hx).1

theorem interrupt_registry_witness :
    (thread_interrupt exampleEnv playing).mThreadId = [7] ∧
    interrupt_callback 7 (thread_interrupt exampleEnv playing) = 1 ∧
    interrupt_callback 7
      (thread_uninterrupt exampleEnv
        (thread_interrupt exampleEnv (thread_interrupt exampleEnv playing))) = 0 ∧
    interrupt_callback 7 playing = 0 ∧
    playing.mThreadId.Nodup ∧ seeking.mThreadId.Nodup := by
  obtain ⟨-, -, -, -, h5, h6, h7, -, h9⟩ := interrupt_registry exampleEnv playing 7
  exact ⟨by decide, h6, ((h7 (by decide)) 1).2, by rw [h5]; decide, by decide,
    h9 (by decide) [(exampleEnv, .message (.kWhatSeek 5 true))] seeking rfl⟩

/-! ## No deferred action is left stranded -/

theorem drained_unstranded {s t : Player} (h : Drained s t) (hs : Settled (core s)) :
    Unstranded (core t) := by
  obtain ⟨done, _, _, _, h4, h5, h6⟩ := h
  by_cases hd : done = []
  · rw [h5 hd] at h4 ⊢
    rcases h4 with e | e | e
    · exact .inl e
    · rcases hs with ⟨a, _⟩ | m
      · exact absurd a e
      · exact .inr m
    · rcases hs with ⟨_, v⟩ | m
      · exact absurd v e
      · exact .inr m
  · obtain ⟨_, _, ha, hv, _⟩ := h6 hd
    rcases h4 with e | e | e
    · exact .inl e
    · exact .inr (.inl (freshlyFlushing_mid ha e))
    · exact .inr (.inr (freshlyFlushing_mid hv e))

theorem finishFlushIfPossible_unstranded (env : Env) (s : Player) :
    okThen (finishFlushIfPossible env s) (fun t => Unstranded (core t)) := by
  by_cases h : s.mFlushingAudio.midFlush = true ∨ s.mFlushingVideo.midFlush = true
  · rw [finishFlushIfPossible_mid env s h]
    simp only [okThen_ok]
    exact .inr h
  · push_neg at h
    rw [finishFlushIfPossible_terminal env s (by simpa using h.1) (by simpa using h.2)]
    refine okThen_mono (processDeferredActions_drained env _) fun t ht => ?_
    exact drained_unstranded ht (Or.inl ⟨rfl, rfl⟩)

theorem rel_unstranded (env : Env) (sc : Script) (s t : Player) (h : sc.Rel env s t)
    (hs : Settled (core s)) (hu : Unstranded (core s)) : Unstranded (core t) := by
  cases sc with
  | frame =>
    simp only [Script.Rel] at h
    rw [h]
    exact hu
  | pushDrain actions =>
    obtain ⟨s1, t1, h1, h2, h3⟩ := h
    rw [h3]
    refine drained_unstranded (processDeferredActions_drained env s1 t1 h2) ?_
    rw [h1]
    exact hs
  | ackFinish audio isDecoder =>
    obtain ⟨s1, s2, t1, _, _, h3, h4⟩ := h
    rw [h4]
    exact finishFlushIfPossible_unstranded env s2 t1 h3
  | errorUpgrade audio =>
    obtain ⟨_, h2⟩ := h
    rw [h2]
    cases audio <;> simp [Unstranded, FlushCore.setFlushing, FlushStatus.midFlush]
  | errorShutdown audio =>
    obtain ⟨_, h2⟩ := h
    rw [h2]
    cases audio <;> simp [Unstranded, FlushCore.setFlushing, FlushStatus.midFlush]
  | errorFinish =>
    obtain ⟨s1, t1, _, h2, h3⟩ := h
    rw [h3]
    exact finishFlushIfPossible_unstranded env s1 t1 h2
  | shutdownCompleted audio =>
    obtain ⟨_, s1, t1, _, h2, h3⟩ := h
    rw [h3]
    exact finishFlushIfPossible_unstranded env s1 t1 h2

theorem reachable_unstranded {s : Player} (h : Reachable s) : Unstranded (core s) := by
  induction h with
  | init w th => exact Or.inl rfl
  | step env input hr hstep ih =>
    exact rel_unstranded env _ _ _ (step_script env input _ _ hstep) (reachable_settled hr) ih

theorem midFlush_cases {f : FlushStatus} (h : f.midFlush = true) :
    f = .FLUSHING_DECODER ∨ f = .FLUSHING_DECODER_SHUTDOWN ∨ f = .SHUTTING_DOWN_DECODER := by
  cases f <;> simp_all [FlushStatus.midFlush]

/-- Claim C33: in every state reachable from a freshly constructed player, that is
after every handled input, a non-empty deferred-action queue implies that the
status of the audio track or of the video track is `FLUSHING_DECODER`,
`FLUSHING_DECODER_SHUTDOWN` or `SHUTTING_DOWN_DECODER`; equivalently, when both
statuses are `NONE` the queue is empty. -/
theorem no_stranded_action (s : Player) (h : Reachable s) :
    (s.mDeferredActions ≠ [] →
      (s.mFlushingAudio = .FLUSHING_DECODER ∨ s.mFlushingAudio = .FLUSHING_DECODER_SHUTDOWN ∨
        s.mFlushingAudio = .SHUTTING_DOWN_DECODER) ∨
      (s.mFlushingVideo = .FLUSHING_DECODER ∨ s.mFlushingVideo = .FLUSHING_DECODER_SHUTDOWN ∨
        s.mFlushingVideo = .SHUTTING_DOWN_DECODER)) ∧
    (s.mFlushingAudio = .NONE → s.mFlushingVideo = .NONE → s.mDeferredActions = []) := by
  have hu := reachable_unstranded h
  refine ⟨fun hq => ?_, fun ha hv => ?_⟩
  · rcases hu with e | e | e
    · exact absurd e hq
    · exact .inl (midFlush_cases e)
    · exact .inr (midFlush_cases e)
  · rcases hu with e | e | e
    · exact e
    · have e2 : s.mFlushingAudio.midFlush = true := e
      rw [ha] at e2
      cases e2
    · have e2 : s.mFlushingVideo.midFlush = true := e
      rw [hv] at e2
      cases e2

theorem no_stranded_action_witness :
    seeking.mDeferredActions = [.SeekAction 5 true, .ResumeDecoderAction true] ∧
    seeking.mFlushingAudio = .FLUSHING_DECODER ∧
    (playing.mFlushingAudio = .NONE ∧ playing.mFlushingVideo = .NONE ∧
      playing.mDeferredActions = []) :=
  ⟨by decide, by decide, by decide, by decide,
    (no_stranded_action playing (reachable_after _)).2 (by decide) (by decide)⟩

/-! ## The gate of the code and the gate of the specification -/

theorem gates_agree_of (s : Player)
    (h : (s.mFlushingAudio = .NONE ∧ s.mFlushingVideo = .NONE) ∨
      s.mFlushingAudio.midFlush = true ∨ s.mFlushingVideo.midFlush = true) :
    codeGate s = specGate s := by
  unfold codeGate specGate
  rcases h with ⟨ha, hv⟩ | h | h
  · rw [ha, hv]
    rfl
  · rw [h, Bool.true_or, decide_eq_true_eq]
    left
    intro hc
    rw [hc] at h
    cases h
  · rw [h, Bool.or_true, decide_eq_true_eq]
    right
    intro hc
    rw [hc] at h
    cases h

theorem gates_agree_settled (s : Player) (h : Settled (core s)) : codeGate s = specGate s :=
  gates_agree_of s h

theorem gates_agree_fresh (s : Player)
    (ha : s.mFlushingAudio = .NONE ∨ s.mFlushingAudio = .FLUSHING_DECODER
      ∨ s.mFlushingAudio = .FLUSHING_DECODER_SHUTDOWN)
    (hv : s.mFlushingVideo = .NONE ∨ s.mFlushingVideo = .FLUSHING_DECODER
      ∨ s.mFlushingVideo = .FLUSHING_DECODER_SHUTDOWN) :
    codeGate s = specGate s := by
  apply gates_agree_of
  rcases ha with ha | ha | ha <;> rcases hv with hv | hv | hv <;>
    simp [ha, hv, FlushStatus.midFlush]

/-- The head of the loop written with `codeGate`. -/
theorem nextDeferredAction_codeGate (s : Player) :
    nextDeferredAction s =
      match s.mDeferredActions with
      | [] => none
      | action :: rest =>
        if codeGate s then none else some (action, { s with mDeferredActions := rest }) := by
  unfold nextDeferredAction codeGate
  cases s.mDeferredActions with
  | nil => rfl
  | cons a rest =>
    simp only [decide_eq_true_eq]

theorem nextDeferredActionSpec_eq (s : Player) (h : codeGate s = specGate s) :
    nextDeferredActionSpec s = nextDeferredAction s := by
  rw [nextDeferredAction_codeGate, h]
  rfl

theorem loopSpec_eq (env : Env) (fuel : Nat) (s : Player) (h : codeGate s = specGate s) :
    processDeferredActionsLoopSpec env fuel s = processDeferredActionsLoop env fuel s ∧
    GatesAgree (gateEvaluations env fuel s) := by
  induction fuel generalizing s with
  | zero => exact ⟨rfl, fun u hu => by cases hu⟩
  | succ n ih =>
    unfold processDeferredActionsLoopSpec processDeferredActionsLoop gateEvaluations
    rw [nextDeferredActionSpec_eq s h]
    cases hn : nextDeferredAction s with
    | none =>
      refine ⟨rfl, ?_⟩
      cases hq : s.mDeferredActions with
      | nil => exact fun u hu => by cases hu
      | cons a rest =>
        intro u hu
        simp only [List.mem_singleton] at hu
        rw [hu]
        exact h
    | some p =>
      obtain ⟨a, s1⟩ := p
      obtain ⟨ha, hv, hq, hs1⟩ := nextDeferredAction_some hn
      rw [hq]
      dsimp only
      cases he : a.execute env (emit (.actionExecute a) s1) with
      | error e =>
        refine ⟨rfl, ?_⟩
        intro u hu
        simp only [List.mem_singleton] at hu
        rw [hu]
        exact h
      | ok t =>
        have hs1a : s1.mFlushingAudio = .NONE := by rw [hs1]; exact ha
        have hs1v : s1.mFlushingVideo = .NONE := by rw [hs1]; exact hv
        obtain ⟨_, _, e3⟩ := execute_core env a _ t he
        obtain ⟨_, e5, e6, _⟩ := e3 hs1a hs1v
        obtain ⟨i1, i2⟩ := ih t (gates_agree_fresh t e5 e6)
        refine ⟨?_, ?_⟩
        · simp only [Except.bind]
          exact i1
        · intro u hu
          rcases List.mem_cons.1 hu with hu | hu
          · rw [hu]
            exact h
          · exact i2 u hu

theorem drainSpec_eq (env : Env) (s : Player) (h : codeGate s = specGate s) :
    processDeferredActionsSpec env s = processDeferredActions env s ∧
    GatesAgree (drainGateEvaluations env s) :=
  loopSpec_eq env _ s h

theorem finishSpec_eq (env : Env) (s : Player) :
    finishFlushIfPossibleSpec env s = finishFlushIfPossible env s ∧
    GatesAgree (finishGateEvaluations env s) := by
  by_cases h : s.mFlushingAudio.midFlush = true ∨ s.mFlushingVideo.midFlush = true
  · rw [finishFlushIfPossible_mid env s h]
    have e1 : finishFlushIfPossibleSpec env s = .ok s := by
      unfold finishFlushIfPossibleSpec
      by_cases ha : s.mFlushingAudio.midFlush = true
      · rw [if_pos ha]
      · rw [if_neg ha, if_pos (h.resolve_left ha)]
    have e2 : finishGateEvaluations env s = [] := by
      unfold finishGateEvaluations
      rcases h with h | h
      · cases ha : s.mFlushingAudio <;> simp_all [FlushStatus.midFlush]
      · cases hv : s.mFlushingVideo <;> simp_all [FlushStatus.midFlush]
    rw [e1, e2]
    exact ⟨rfl, fun u hu => by cases hu⟩
  · push_neg at h
    have ha : s.mFlushingAudio.midFlush = false := by simpa using h.1
    have hv : s.mFlushingVideo.midFlush = false := by simpa using h.2
    rw [finishFlushIfPossible_terminal env s ha hv]
    have key := drainSpec_eq env
      (clearFlushComplete { s with mFlushingAudio := .NONE, mFlushingVideo := .NONE })
      (gates_agree_of _ (Or.inl ⟨rfl, rfl⟩))
    refine ⟨?_, ?_⟩
    · rw [← key.1]
      unfold finishFlushIfPossibleSpec
      rw [ha, hv]
      rfl
    · have e : finishGateEvaluations env s = drainGateEvaluations env
          (clearFlushComplete { s with mFlushingAudio := .NONE, mFlushingVideo := .NONE }) := by
        unfold finishGateEvaluations
        cases h1 : s.mFlushingAudio <;> cases h2 : s.mFlushingVideo <;>
          simp_all [FlushStatus.midFlush]
      rw [e]
      exact key.2

theorem settled_of_core {s s1 : Player} (hs : Settled (core s))
    (ha : (core s1).mFlushingAudio = (core s).mFlushingAudio)
    (hv : (core s1).mFlushingVideo = (core s).mFlushingVideo) : Settled (core s1) := by
  unfold Settled at hs ⊢
  rw [ha, hv]
  exact hs

/-- A script relation carries over to the gate: the drains of the handler are
called in settled states or right after both statuses were reset. -/
theorem rel_gateRel (env : Env) (sc : Script) (s t : Player) (h : sc.Rel env s t)
    (hs : Settled (core s)) : sc.GateRel env s t := by
  cases sc with
  | frame => exact h
  | pushDrain actions =>
    obtain ⟨s1, t1, h1, h2, h3⟩ := h
    have hs1 : Settled (core s1) :=
      settled_of_core hs (by rw [h1]) (by rw [h1])
    obtain ⟨k1, k2⟩ := drainSpec_eq env s1 (gates_agree_settled s1 hs1)
    exact ⟨s1, t1, h1, h2, k1.trans h2, k2, h3⟩
  | ackFinish audio isDecoder =>
    obtain ⟨s1, s2, t1, h1, h2, h3, h4⟩ := h
    obtain ⟨k1, k2⟩ := finishSpec_eq env s2
    exact ⟨s1, s2, t1, h1, h2, h3, k1.trans h3, k2, h4⟩
  | errorUpgrade audio => exact h
  | errorShutdown audio => exact h
  | errorFinish =>
    obtain ⟨s1, t1, h1, h2, h3⟩ := h
    obtain ⟨k1, k2⟩ := finishSpec_eq env s1
    exact ⟨s1, t1, h1, h2, k1.trans h2, k2, h3⟩
  | shutdownCompleted audio =>
    obtain ⟨h0, s1, t1, h1, h2, h3⟩ := h
    obtain ⟨k1, k2⟩ := finishSpec_eq env s1
    exact ⟨h0, s1, t1, h1, h2, k1.trans h2, k2, h3⟩

/-- Claim C34: the gate of the code (`codeGate`: some status is not `NONE`) and
the gate of the specification (`specGate`: some track is mid-flush) decide the
same way wherever the gate is evaluated in an execution from a fresh player.
Between two messages both statuses lying in `NONE`, `FLUSHED`, `SHUT_DOWN`
implies both are `NONE`, so the gates agree there; every input is handled
according to its script with each drain returning the same state under either
gate and the gates agreeing at every evaluation during the drain
(`Script.GateRel`); `finishFlushIfPossible` is the same function under either
gate in every state. On the unreachable state `flushedIdle`, with the statuses
`FLUSHED` and `NONE`, the gates differ and so do the two drains. -/
theorem gate_refinement :
    (∀ s, Reachable s →
      (s.mFlushingAudio.midFlush = false → s.mFlushingVideo.midFlush = false →
        s.mFlushingAudio = .NONE ∧ s.mFlushingVideo = .NONE) ∧
      codeGate s = specGate s ∧
      ∀ env input t, step env input s = .ok t → (script env input s).GateRel env s t) ∧
    (∀ f : FlushStatus,
      f.midFlush = false ↔ (f = .NONE ∨ f = .FLUSHED ∨ f = .SHUT_DOWN)) ∧
    (∀ env s, codeGate s = specGate s →
      processDeferredActionsSpec env s = processDeferredActions env s ∧
      GatesAgree (drainGateEvaluations env s)) ∧
    (∀ env s, finishFlushIfPossibleSpec env s = finishFlushIfPossible env s ∧
      GatesAgree (finishGateEvaluations env s)) ∧
    (flushedIdle.mFlushingAudio = .FLUSHED ∧ flushedIdle.mFlushingVideo = .NONE ∧
      codeGate flushedIdle = true ∧ specGate flushedIdle = false ∧
      ¬ Reachable flushedIdle ∧
      processDeferredActions exampleEnv flushedIdle = .ok flushedIdle ∧
      processDeferredActionsSpec exampleEnv flushedIdle
        = .ok (performScanSources (emit (.actionExecute (.SimpleAction .performScanSources))
            { flushedIdle with mDeferredActions := [] })) ∧
      executed (performScanSources (emit (.actionExecute (.SimpleAction .performScanSources))
            { flushedIdle with mDeferredActions := [] }))
        ≠ executed flushedIdle) := by
  refine ⟨fun s hs => ⟨fun ha hv => ?_, gates_agree_settled s (reachable_settled hs),
      fun env input t ht =>
        rel_gateRel env _ s t (step_script env input s t ht) (reachable_settled hs)⟩,
    fun f => by cases f <;> simp [FlushStatus.midFlush],
    drainSpec_eq, finishSpec_eq,
    rfl, rfl, rfl, rfl, fun hr => ?_, rfl, rfl, by decide⟩
  · rcases reachable_settled hs with h | h | h
    · exact h
    · exact absurd (h.symm.trans ha) (by decide)
    · exact absurd (h.symm.trans hv) (by decide)
  · rcases reachable_settled hr with h | h | h
    · exact absurd h.1 (by decide)
    · exact absurd h (by decide)
    · exact absurd h (by decide)

theorem gate_refinement_witness :
    codeGate playing = false ∧ specGate playing = false ∧
    codeGate seeking = true ∧ specGate seeking = true ∧
    step exampleEnv (.message (.kWhatSeek 5 true)) playing = .ok seeking ∧
    (script exampleEnv (.message (.kWhatSeek 5 true)) playing).GateRel exampleEnv playing
      seeking :=
  ⟨rfl, rfl, rfl, rfl, rfl,
    (gate_refinement.1 playing (reachable_after _)).2.2 exampleEnv _ seeking rfl⟩

/-! ## An offload tear-down during a flush -/

/-- Claim C35 fails on the code. In a session in offload mode the client resets
the player, so that both tracks are flushed for shutdown, and the audio decoder
acknowledges its flush. The renderer then tears the offloaded audio down: the
handler clears `mAudioDecoder` and leaves the status of the audio track at
`FLUSHING_DECODER_SHUTDOWN`. The state is reachable, a track is mid-flush and
its decoder is absent. When the renderer acknowledges the flush of the audio
track, `handleFlushComplete` finds both acknowledgements, moves the track to
`SHUTTING_DOWN_DECODER` and calls `initiateShutdown` on the absent decoder. -/
theorem tearDown_clears_flushing_decoder :
    run (offloadStartup ++ offloadTearDownRun) (initial 10 []) = .ok tornDown ∧
    tornDown.mOffloadAudio = true ∧
    tornDown.mFlushingAudio = .FLUSHING_DECODER_SHUTDOWN ∧
    tornDown.mAudioDecoder = none ∧
    tornDown.mRenderer = some ⟨1⟩ ∧
    tornDown.mFlushComplete.get true true = true ∧
    tornDown.mFlushComplete.get true false = false ∧
    handleFlushComplete true false tornDown = .error .nullDeref ∧
    step offloadEnv (.message (.kWhatRendererNotify 1 (.kWhatFlushComplete true))) tornDown
      = .error .nullDeref :=
  ⟨rfl, rfl, rfl, rfl, rfl, rfl, rfl, rfl, rfl⟩

/-! ## `finishFlushIfPossible` while a track is mid-flush -/

/-- Claim C36: when the status of the audio track or of the video track is
`FLUSHING_DECODER`, `FLUSHING_DECODER_SHUTDOWN` or `SHUTTING_DOWN_DECODER`,
`finishFlushIfPossible` returns, and the state it returns is the state it was
called on: both statuses, the completion matrix, the queue, the list of executed
actions and the whole history are the same. -/
theorem finishFlushIfPossible_mid_frame (env : Env) (s : Player)
    (h : (s.mFlushingAudio = .FLUSHING_DECODER ∨ s.mFlushingAudio = .FLUSHING_DECODER_SHUTDOWN ∨
        s.mFlushingAudio = .SHUTTING_DOWN_DECODER) ∨
      (s.mFlushingVideo = .FLUSHING_DECODER ∨ s.mFlushingVideo = .FLUSHING_DECODER_SHUTDOWN ∨
        s.mFlushingVideo = .SHUTTING_DOWN_DECODER)) :
    ∃ t, finishFlushIfPossible env s = .ok t ∧ t = s ∧
      t.mFlushingAudio = s.mFlushingAudio ∧ t.mFlushingVideo = s.mFlushingVideo ∧
      t.mFlushComplete = s.mFlushComplete ∧ t.mDeferredActions = s.mDeferredActions ∧
      executed t = executed s ∧ t.trace = s.trace := by
  have hm : s.mFlushingAudio.midFlush = true ∨ s.mFlushingVideo.midFlush = true := by
    rcases h with (e | e | e) | (e | e | e) <;> simp [e, FlushStatus.midFlush]
  exact ⟨s, finishFlushIfPossible_mid env s hm, rfl, rfl, rfl, rfl, rfl, rfl, rfl⟩

theorem finishFlushIfPossible_mid_frame_witness :
    halfAcked.mFlushingAudio = .FLUSHING_DECODER ∧ halfAcked.mDeferredActions ≠ [] ∧
    ∃ t, finishFlushIfPossible exampleEnv halfAcked = .ok t ∧ t = halfAcked ∧
      t.mFlushingAudio = halfAcked.mFlushingAudio ∧
      t.mFlushingVideo = halfAcked.mFlushingVideo ∧
      t.mFlushComplete = halfAcked.mFlushComplete ∧
      t.mDeferredActions = halfAcked.mDeferredActions ∧
      executed t = executed halfAcked ∧ t.trace = halfAcked.trace :=
  ⟨by decide, by decide,
    finishFlushIfPossible_mid_frame exampleEnv halfAcked (.inl (.inl (by decide)))⟩

/-! ## The row of the completion matrix written by `flushDecoder` -/

/-- Claim C37: `flushDecoder(audio, needShutdown)` with the decoder of the track
present re-initialises the row of the track in the completion matrix: the
acknowledgement of the decoder is `false`, the acknowledgement of the renderer is
`true` exactly when no renderer exists, and the row of the other track is
unchanged. So without a renderer the flush-completed notification of the decoder
alone (`handleFlushComplete(audio, true)`) moves the track to `FLUSHED`, or to
`SHUTTING_DOWN_DECODER` for a flush that ends in a shutdown, whereas with a
renderer it leaves the status of the track as `flushDecoder` set it. -/
theorem flushDecoder_matrix_row (audio needShutdown : Bool) (s : Player)
    (hd : getDecoder audio s ≠ none) :
    (flushDecoder audio needShutdown s).mFlushComplete.get audio true = false ∧
    ((flushDecoder audio needShutdown s).mFlushComplete.get audio false = true
      ↔ s.mRenderer = none) ∧
    (∀ d, (flushDecoder audio needShutdown s).mFlushComplete.get (!audio) d
      = s.mFlushComplete.get (!audio) d) ∧
    (s.mRenderer = none →
      ∃ t, handleFlushComplete audio true (flushDecoder audio needShutdown s) = .ok t ∧
        flushing audio t
          = (if needShutdown then .SHUTTING_DOWN_DECODER else .FLUSHED)) ∧
    (s.mRenderer ≠ none →
      ∃ t, handleFlushComplete audio true (flushDecoder audio needShutdown s) = .ok t ∧
        flushing audio t = flushing audio (flushDecoder audio needShutdown s) ∧
        flushing audio t
          = (if needShutdown then .FLUSHING_DECODER_SHUTDOWN else .FLUSHING_DECODER)) := by
  obtain ⟨d, hd⟩ := Option.ne_none_iff_exists.1 hd
  refine ⟨?_, ?_, ?_, ?_, ?_⟩
  · cases audio <;> cases needShutdown <;>
      simp [flushDecoder, ← hd, emit, FlushComplete.get, FlushComplete.set]
  · cases audio <;> cases needShutdown <;>
      simp [flushDecoder, ← hd, emit, FlushComplete.get, FlushComplete.set]
  · intro b
    cases audio <;> cases needShutdown <;> cases b <;>
      simp [flushDecoder, ← hd, emit, FlushComplete.get, FlushComplete.set]
  · intro hr
    cases audio <;> cases needShutdown <;>
      simp [getDecoder] at hd <;>
      simp [handleFlushComplete, flushDecoder, ← hd, hr, emit, flushing, setFlushing,
        getDecoder, FlushComplete.get, FlushComplete.set]
  · intro hr
    obtain ⟨r, hr⟩ := Option.ne_none_iff_exists.1 hr
    cases audio <;> cases needShutdown <;>
      simp [getDecoder] at hd <;>
      simp [handleFlushComplete, flushDecoder, ← hd, ← hr, emit, flushing, setFlushing,
        getDecoder, FlushComplete.get, FlushComplete.set]

theorem flushDecoder_matrix_row_witness :
    noRenderer.mRenderer = none ∧
    (flushDecoder true false noRenderer).mFlushComplete.get true false = true ∧
    (∃ t, handleFlushComplete true true (flushDecoder true false noRenderer) = .ok t ∧
      flushing true t = .FLUSHED) ∧
    (flushDecoder true true playing).mFlushComplete.get true false = false ∧
    (∃ t, handleFlushComplete true true (flushDecoder true true playing) = .ok t ∧
      flushing true t = .FLUSHING_DECODER_SHUTDOWN) := by
  obtain ⟨-, a2, -, a4, -⟩ := flushDecoder_matrix_row true false noRenderer (by decide)
  obtain ⟨-, -, -, -, b5⟩ := flushDecoder_matrix_row true true playing (by decide)
  obtain ⟨t, ht, -, ht2⟩ := b5 (by decide)
  exact ⟨rfl, a2.2 rfl, a4 rfl, by decide, t, ht, ht2⟩

/-! ## Buffering and the pause of the client -/

theorem onPause_quiet (s : Player) :
    clientNotifications (onPause s) = clientNotifications s ∧ (onPause s).mDriver = s.mDriver := by
  simp only [onPause]
  split_ifs <;> simp [clientNotifications, emit]

theorem instantiateDecoder_quiet (env : Env) (audio : Bool) (s : Player) :
    okThen (instantiateDecoder env audio s) (fun r =>
      clientNotifications r.2 = clientNotifications s ∧ r.2.mDriver = s.mDriver) := by
  cases h : env.videoFormat <;> cases audio <;>
    simp [instantiateDecoder, emit, h, getDecoder]
  all_goals (split_ifs <;> simp [clientNotifications])

theorem onResume_quiet (env : Env) (s : Player) :
    okThen (onResume env s) (fun t =>
      clientNotifications t = clientNotifications s ∧ t.mDriver = s.mDriver) := by
  intro t ht
  unfold onResume at ht
  by_cases hp : (!s.mPaused) = true
  · rw [if_pos hp] at ht
    cases ht
    exact ⟨rfl, rfl⟩
  · rw [if_neg hp] at ht
    obtain ⟨r, hr, ht⟩ := bind_ok ht
    cases ht
    have h0 : ∀ (c : Prop) [Decidable c] (e : Event) (u : Player),
        (∀ x, e ≠ .driver x) →
        clientNotifications (if c then emit e u else u) = clientNotifications u ∧
          (if c then emit e u else u).mDriver = u.mDriver := by
      intro c _ e u he
      split_ifs
      · refine ⟨?_, rfl⟩
        rw [clientNotifications_emit]
        cases e <;> simp_all
      · exact ⟨rfl, rfl⟩
    have h1 : clientNotifications r.2 = clientNotifications s ∧ r.2.mDriver = s.mDriver := by
      have a := h0 (({ s with mPaused := false } : Player).mSource ≠ none) (.source .resume)
        { s with mPaused := false } (by simp)
      by_cases c : audioDecoderStillNeeded
          (if ({ s with mPaused := false } : Player).mSource ≠ none then
            emit (.source .resume) { s with mPaused := false } else { s with mPaused := false })
          = true ∧
          (if ({ s with mPaused := false } : Player).mSource ≠ none then
            emit (.source .resume) { s with mPaused := false }
            else { s with mPaused := false }).mAudioDecoder = none
      · rw [if_pos c] at hr
        obtain ⟨b1, b2⟩ := instantiateDecoder_quiet env true _ r hr
        exact ⟨b1.trans a.1, b2.trans a.2⟩
      · rw [if_neg c] at hr
        cases hr
        exact a
    obtain ⟨b1, b2⟩ := h0 (r.2.mRenderer ≠ none) (.renderer .resume) r.2 (by simp)
    exact ⟨b1.trans h1.1, b2.trans h1.2⟩

theorem instantiateDecoder_audio_returns (env : Env) (u : Player) (hs : u.mSource ≠ none)
    (hr : u.mRenderer ≠ none) : ∃ r, instantiateDecoder env true u = .ok r := by
  obtain ⟨src, hs⟩ := Option.ne_none_iff_exists.1 hs
  obtain ⟨r, hr⟩ := Option.ne_none_iff_exists.1 hr
  cases hd : u.mAudioDecoder <;> cases ha : env.audioFormat <;>
    simp [instantiateDecoder, emit, getDecoder, ← hs, ← hr, hd, ha]

theorem onResume_returns (env : Env) (s : Player) (hs : s.mSource ≠ none)
    (hr : s.mRenderer ≠ none) : ∃ t, onResume env s = .ok t := by
  unfold onResume
  by_cases hp : (!s.mPaused) = true
  · rw [if_pos hp]
    exact ⟨s, rfl⟩
  · rw [if_neg hp]
    dsimp only
    generalize hu : (if s.mSource ≠ none then
      emit (.source .resume) ({ s with mPaused := false } : Player)
      else { s with mPaused := false }) = u
    have us : u.mSource ≠ none := by
      rw [← hu, if_pos hs]
      exact hs
    have ur : u.mRenderer ≠ none := by
      rw [← hu, if_pos hs]
      exact hr
    by_cases c : audioDecoderStillNeeded u = true ∧ u.mAudioDecoder = none
    · rw [if_pos c]
      obtain ⟨r, hx⟩ := instantiateDecoder_audio_returns env u us ur
      rw [hx]
      exact ⟨_, rfl⟩
    · rw [if_neg c]
      exact ⟨_, rfl⟩

theorem notifyListener_quiet (env : Env) (m : ListenerMsg) (s : Player) :
    (notifyListener env m s).mPaused = s.mPaused ∧
    collaboratorCalls (notifyListener env m s) = collaboratorCalls s ∧
    sourceCalls (notifyListener env m s) = sourceCalls s := by
  cases hd : s.mDriver <;> cases he : env.driverAlive <;>
    simp [notifyListener, emit, hd, he, collaboratorCalls, sourceCalls]

/-- Claim C38: the source notifications `kWhatPauseOnBufferingStart` and
`kWhatResumeOnBufferingEnd`. While playback is paused by the client or has not
been started, neither `onPause` nor `onResume` runs: the handling returns the
state with the one notification sent, `mPaused` is unchanged and no call is made
on the source, a decoder or the renderer. In every case the pause notification
is handled without abort and sends `MEDIA_INFO_BUFFERING_START` once, and the
resume notification, whenever it is handled without abort (as it is with a
source and a renderer present), sends `MEDIA_INFO_BUFFERING_END` once: the
notifications of the client grow by exactly this one (`delivered`: when a driver
is attached and alive). -/
theorem buffering_keeps_client_pause (env : Env) (s : Player) :
    (∃ t, step env (.message (.kWhatSourceNotify .kWhatPauseOnBufferingStart)) s = .ok t ∧
      clientNotifications t = clientNotifications s
        ++ delivered env s (.notifyListener .MEDIA_INFO_BUFFERING_START)) ∧
    ((s.mPausedByClient = true ∨ s.mStarted = false) →
      step env (.message (.kWhatSourceNotify .kWhatPauseOnBufferingStart)) s
        = .ok (notifyListener env .MEDIA_INFO_BUFFERING_START s) ∧
      step env (.message (.kWhatSourceNotify .kWhatResumeOnBufferingEnd)) s
        = .ok (notifyListener env .MEDIA_INFO_BUFFERING_END s) ∧
      ∀ m, (notifyListener env m s).mPaused = s.mPaused ∧
        collaboratorCalls (notifyListener env m s) = collaboratorCalls s ∧
        sourceCalls (notifyListener env m s) = sourceCalls s) ∧
    (∀ t, step env (.message (.kWhatSourceNotify .kWhatResumeOnBufferingEnd)) s = .ok t →
      clientNotifications t = clientNotifications s
        ++ delivered env s (.notifyListener .MEDIA_INFO_BUFFERING_END)) ∧
    (s.mSource ≠ none → s.mRenderer ≠ none →
      ∃ t, step env (.message (.kWhatSourceNotify .kWhatResumeOnBufferingEnd)) s = .ok t) ∧
    (s.mDriver = true → env.driverAlive = true →
      ∀ c, delivered env s c = [c]) := by
  have hpause : step env (.message (.kWhatSourceNotify .kWhatPauseOnBufferingStart)) s
      = .ok (notifyListener env .MEDIA_INFO_BUFFERING_START
          (if s.mStarted = true ∧ (!s.mPausedByClient) = true then onPause s else s)) := rfl
  have hresume : step env (.message (.kWhatSourceNotify .kWhatResumeOnBufferingEnd)) s
      = (if s.mStarted = true ∧ (!s.mPausedByClient) = true then onResume env s
          else .ok s).bind fun u => .ok (notifyListener env .MEDIA_INFO_BUFFERING_END u) := rfl
  refine ⟨⟨_, hpause, ?_⟩, fun h => ?_, fun t ht => ?_, fun hs hr => ?_, fun hd he c => ?_⟩
  · rw [clientNotifications_notifyListener]
    split_ifs
    · rw [(onPause_quiet s).1, delivered, delivered, (onPause_quiet s).2]
    · rfl
  · have hc : ¬ (s.mStarted = true ∧ (!s.mPausedByClient) = true) := by
      rcases h with h | h <;> simp [h]
    rw [hpause, hresume, if_neg hc, if_neg hc]
    exact ⟨rfl, rfl, fun m => notifyListener_quiet env m s⟩
  · rw [hresume] at ht
    obtain ⟨u, hu, ht⟩ := bind_ok ht
    cases ht
    have hq : clientNotifications u = clientNotifications s ∧ u.mDriver = s.mDriver := by
      split_ifs at hu
      · exact onResume_quiet env s u hu
      · cases hu
        exact ⟨rfl, rfl⟩
    rw [clientNotifications_notifyListener, hq.1, delivered, delivered, hq.2]
  · rw [hresume]
    split_ifs
    · obtain ⟨u, hu⟩ := onResume_returns env s hs hr
      rw [hu]
      exact ⟨_, rfl⟩
    · exact ⟨_, rfl⟩
  · simp [delivered, hd, he]

theorem buffering_keeps_client_pause_witness :
    (initial 10 []).mStarted = false ∧
    step exampleEnv (.message (.kWhatSourceNotify .kWhatPauseOnBufferingStart)) (initial 10 [])
      = .ok (notifyListener exampleEnv .MEDIA_INFO_BUFFERING_START (initial 10 [])) ∧
    (∃ t, step exampleEnv (.message (.kWhatSourceNotify .kWhatResumeOnBufferingEnd)) playing
        = .ok t ∧
      clientNotifications t = clientNotifications playing
        ++ [.notifyListener .MEDIA_INFO_BUFFERING_END]) := by
  obtain ⟨-, h2, -⟩ := buffering_keeps_client_pause exampleEnv (initial 10 [])
  obtain ⟨-, -, h3, h4, h5⟩ := buffering_keeps_client_pause exampleEnv playing
  obtain ⟨t, ht⟩ := h4 (by decide) (by decide)
  refine ⟨rfl, (h2 (.inr rfl)).1, t, ht, ?_⟩
  rw [h3 t ht, h5 (by decide) (by decide)]

/-! ## The video size reported to the client -/

/-- Claim C39, on the code: `updateVideoSize` reports `(0, 0)` without an input
format. With an input format and the size `(W, H)` of `videoSizeOf`, it reports
`reportedSize` of `(W, H)` when sar-width or sar-height is missing, and of
`((W * sarWidth) / sarHeight, H)` (`int32_t` product, truncating division) when
both are present and sar-height is not 0. With both present and sar-height 0 the
division has no value and the function aborts; it also aborts in a `CHECK` when
a key of the size is missing. In the playing session the size-changed
notification of the video decoder aborts in this division when the video format
of the source carries the sample aspect ratio 1 : 0. -/
theorem updateVideoSize_report :
    (∀ (env : Env) (o : Option Format) (s : Player),
      updateVideoSize env none o s = .ok (notifyListener env (.MEDIA_SET_VIDEO_SIZE 0 0) s)) ∧
    (∀ (env : Env) (i : Format) (o : Option Format) (s : Player) (W H : Int),
      videoSizeOf i o = some (W, H) → (i.sarWidth = none ∨ i.sarHeight = none) →
      updateVideoSize env (some i) o s
        = .ok (notifyListener env
            (.MEDIA_SET_VIDEO_SIZE (reportedSize i W H).1 (reportedSize i W H).2) s)) ∧
    (∀ (env : Env) (i : Format) (o : Option Format) (s : Player) (W H sw sh : Int),
      videoSizeOf i o = some (W, H) → i.sarWidth = some sw → i.sarHeight = some sh → sh ≠ 0 →
      updateVideoSize env (some i) o s
        = .ok (notifyListener env
            (.MEDIA_SET_VIDEO_SIZE
              (reportedSize i (wrap32 ((wrap32 (W * sw)).tdiv sh)) H).1
              (reportedSize i (wrap32 ((wrap32 (W * sw)).tdiv sh)) H).2) s)) ∧
    (∀ (env : Env) (i : Format) (o : Option Format) (s : Player) (W H sw : Int),
      videoSizeOf i o = some (W, H) → i.sarWidth = some sw → i.sarHeight = some 0 →
      updateVideoSize env (some i) o s = .error .divideByZero) ∧
    (∀ (env : Env) (i : Format) (o : Option Format) (s : Player),
      videoSizeOf i o = none → updateVideoSize env (some i) o s = .error .check) ∧
    (playing.mVideoDecoderGeneration = 1 ∧
      step zeroSarEnv (.message (.kWhatVideoNotify 1 none (.kWhatVideoSizeChanged outputFormat640)))
        playing = .error .divideByZero ∧
      step zeroSarEnv
        (.message (.kWhatSourceNotify (.kWhatVideoSizeChanged
          ⟨true, some 640, some 480, none, some 1, some 0, none⟩)))
        playing = .error .divideByZero) := by
  have size : ∀ (i : Format) (o : Option Format) (W H : Int), videoSizeOf i o = some (W, H) →
      (o = none ∧ i.width = some W ∧ i.height = some H) ∨
      (∃ out w h l t r b, o = some out ∧ out.width = some w ∧ out.height = some h ∧
        out.crop = some (l, t, r, b) ∧ W = wrap32 (wrap32 (r - l) + 1) ∧
        H = wrap32 (wrap32 (b - t) + 1)) := by
    intro i o W H hs
    unfold videoSizeOf at hs
    cases o with
    | none =>
      left
      cases hw : i.width <;> cases hh : i.height <;> simp [hw, hh] at hs
      exact ⟨rfl, congrArg some hs.1, congrArg some hs.2⟩
    | some out =>
      right
      cases hw : out.width <;> cases hh : out.height <;> cases hc : out.crop <;>
        simp [hw, hh, hc] at hs
      rename_i w h c
      obtain ⟨l, t, r, b⟩ := c
      simp only [Prod.mk.injEq] at hs
      exact ⟨out, w, h, l, t, r, b, rfl, hw, hh, hc, hs.1.symm, hs.2.symm⟩
  have nosize : ∀ (i : Format) (o : Option Format), videoSizeOf i o = none →
      (o = none ∧ (i.width = none ∨ i.height = none)) ∨
      (∃ out, o = some out ∧ (out.width = none ∨ out.height = none ∨ out.crop = none)) := by
    intro i o hs
    unfold videoSizeOf at hs
    cases o with
    | none =>
      left
      cases hw : i.width <;> cases hh : i.height <;> simp [hw, hh] at hs <;> simp
    | some out =>
      right
      refine ⟨out, rfl, ?_⟩
      cases hw : out.width <;> cases hh : out.height <;> cases hc : out.crop <;>
        simp [hw, hh, hc] at hs <;> simp
  refine ⟨fun env o s => rfl, ?_, ?_, ?_, ?_, by decide, rfl, rfl⟩
  · intro env i o s W H hs hsar
    rcases size i o W H hs with ⟨rfl, hw, hh⟩ | ⟨out, w, h, l, t, r, b, rfl, hw, hh, hc, rfl, rfl⟩
    · rcases hsar with e | e
      · simp only [updateVideoSize, hw, hh, e, Except.bind, reportedSize]
        split_ifs <;> rfl
      · cases ha : i.sarWidth <;>
          simp only [updateVideoSize, hw, hh, e, ha, Except.bind, reportedSize] <;>
          split_ifs <;> rfl
    · rcases hsar with e | e
      · simp only [updateVideoSize, hw, hh, hc, e, Except.bind, reportedSize]
        split_ifs <;> rfl
      · cases ha : i.sarWidth <;>
          simp only [updateVideoSize, hw, hh, hc, e, ha, Except.bind, reportedSize] <;>
          split_ifs <;> rfl
  · intro env i o s W H sw sh hs h1 h2 h3
    rcases size i o W H hs with ⟨rfl, hw, hh⟩ | ⟨out, w, h, l, t, r, b, rfl, hw, hh, hc, rfl, rfl⟩
    · simp only [updateVideoSize, hw, hh, h1, h2, if_neg h3, Except.bind, reportedSize]
      split_ifs <;> rfl
    · simp only [updateVideoSize, hw, hh, hc, h1, h2, if_neg h3, Except.bind, reportedSize]
      split_ifs <;> rfl
  · intro env i o s W H sw hs h1 h2
    rcases size i o W H hs with ⟨rfl, hw, hh⟩ | ⟨out, w, h, l, t, r, b, rfl, hw, hh, hc, rfl, rfl⟩
    · simp only [updateVideoSize, hw, hh, h1, h2, if_true, Except.bind]
    · simp only [updateVideoSize, hw, hh, hc, h1, h2, if_true, Except.bind]
  · intro env i o s hs
    rcases nosize i o hs with ⟨rfl, hw | hh⟩ | ⟨out, rfl, hw | hh | hc⟩
    · simp only [updateVideoSize, hw, Except.bind]
    · cases hw : i.width <;> simp only [updateVideoSize, hw, hh, Except.bind]
    · simp only [updateVideoSize, hw, Except.bind]
    · cases hw : out.width <;> simp only [updateVideoSize, hw, hh, Except.bind]
    · cases hw : out.width <;> cases hh : out.height <;>
        simp only [updateVideoSize, hw, hh, hc, Except.bind]

/-! ## The metadata track of the live source -/

theorem selectTrack_members (env : LiveEnv) (trackIndex : Nat) (select : Bool)
    (s : HTTPLiveSource) :
    (s.selectTrack env trackIndex select).2.mLiveSession = s.mLiveSession ∧
    (s.selectTrack env trackIndex select).2.mHasMetadata = s.mHasMetadata ∧
    (s.selectTrack env trackIndex select).2.mMetadataSelected
      = (if s.mLiveSession = true ∧ s.mHasMetadata = true ∧ trackIndex = env.lastTrack
          then select else s.mMetadataSelected) := by
  rcases s with ⟨l, hm, ms, hs, g1, g2, tr⟩
  cases l
  · simp [HTTPLiveSource.selectTrack]
  · by_cases hc : (!hm) = true ∨ trackIndex ≠ env.lastTrack
    · have hn : ¬ (true = true ∧ hm = true ∧ trackIndex = env.lastTrack) := by
        rintro ⟨-, a, b⟩
        rcases hc with c | c
        · simp [a] at c
        · exact c b
      simp only [HTTPLiveSource.selectTrack, Bool.not_true, Bool.false_eq_true, if_false,
        if_pos hc, HTTPLiveSource.emit]
      refine ⟨?_, ?_, ?_⟩ <;> split_ifs <;>
        first | rfl | (rename_i h; exact absurd ⟨rfl, h.2.1, h.2.2⟩ hn)
    · have hp : true = true ∧ hm = true ∧ trackIndex = env.lastTrack := by
        push_neg at hc
        exact ⟨rfl, by simpa using hc.1, hc.2⟩
      simp only [HTTPLiveSource.selectTrack, Bool.not_true, Bool.false_eq_true, if_false,
        if_neg hc, HTTPLiveSource.emit]
      cases ms <;> cases select <;>
        simp only [Bool.not_true, Bool.not_false, Bool.false_eq_true, and_self, and_true,
          and_false, if_true, if_false, true_and, false_and] <;>
        refine ⟨?_, ?_, ?_⟩ <;> split_ifs <;>
        first | rfl | (rename_i h; exact absurd ⟨hp.2.1, hp.2.2⟩ h)

theorem onSessionNotify_metadata (what : SessionWhat) (s t : HTTPLiveSource)
    (h : s.onSessionNotify what = .ok t) :
    t.mMetadataSelected = s.mMetadataSelected ∧ t.mLiveSession = s.mLiveSession ∧
    (s.mHasMetadata = true → t.mHasMetadata = true) := by
  cases what <;> simp only [HTTPLiveSource.onSessionNotify] at h
  all_goals (try split_ifs at h)
  all_goals
    first
    | (cases h; exact ⟨rfl, rfl, fun a => a⟩)
    | (cases h; exact ⟨rfl, rfl, fun _ => rfl⟩)
    | cases h

theorem live_invariant {s : HTTPLiveSource} (h : LiveReachable s) :
    (s.mMetadataSelected = true → s.mHasMetadata = true) ∧
    (s.mMetadataSelected = true → s.mLiveSession = true) := by
  induction h with
  | init => exact ⟨fun a => (by cases a), fun a => (by cases a)⟩
  | step env input _ hst ih =>
    cases input with
    | prepareAsync =>
      cases hst
      exact ⟨ih.1, fun _ => rfl⟩
    | selectTrack trackIndex select =>
      cases hst
      obtain ⟨a1, a2, a3⟩ := selectTrack_members env trackIndex select _
      rw [a1, a2, a3]
      split_ifs with c
      · exact ⟨fun _ => c.2.1, fun _ => c.1⟩
      · exact ih
    | sessionNotify what =>
      obtain ⟨a1, a2, a3⟩ := onSessionNotify_metadata what _ _ hst
      rw [a1, a2]
      exact ⟨fun a => a3 (ih.1 a), ih.2⟩

/-- Claim C40: in every state of the live source reachable from construction by
`prepareAsync`, calls of `selectTrack` and notifications of the session,
`mMetadataSelected` implies `mHasMetadata` (and a live session). For a track
count that is at most half the number of values of `size_t`,
`getSelectedTrack(MEDIA_TRACK_TYPE_METADATA)` returns the track count minus 1
when the metadata track is selected and -1 when it is not. -/
theorem metadata_selected_has_metadata (s : HTTPLiveSource) (h : LiveReachable s) :
    (s.mMetadataSelected = true → s.mHasMetadata = true) ∧
    (s.mMetadataSelected = true → s.mLiveSession = true) ∧
    (∀ (env : LiveEnv) (sessionSelected : Int), 2 ≤ env.sizeModulus →
      2 * env.trackCount ≤ env.sizeModulus →
      s.getSelectedTrack env sessionSelected MEDIA_TRACK_TYPE_METADATA
        = if s.mMetadataSelected then (env.trackCount : Int) - 1 else -1) := by
  obtain ⟨i1, i2⟩ := live_invariant h
  refine ⟨i1, i2, fun env sel hm ht => ?_⟩
  have hlast : toSsize env.sizeModulus ((env.sizeModulus - 1) % env.sizeModulus) = -1 := by
    have e : (env.sizeModulus - 1) % env.sizeModulus = env.sizeModulus - 1 :=
      Nat.mod_eq_of_lt (by omega)
    rw [e, toSsize, if_neg (by omega)]
    omega
  have hcount : toSsize env.sizeModulus env.lastTrack = (env.trackCount : Int) - 1 := by
    unfold LiveEnv.lastTrack
    by_cases h0 : env.trackCount = 0
    · rw [h0, Nat.zero_add, hlast]
      rfl
    · have e : (env.trackCount + env.sizeModulus - 1) % env.sizeModulus = env.trackCount - 1 := by
        have : env.trackCount + env.sizeModulus - 1 = (env.trackCount - 1) + env.sizeModulus := by
          omega
        rw [this, Nat.add_mod_right]
        exact Nat.mod_eq_of_lt (by omega)
      rw [e, toSsize, if_pos (by omega)]
      omega
  cases hs : s.mMetadataSelected
  · cases hl : s.mLiveSession
    · simp [HTTPLiveSource.getSelectedTrack, hl]
    · simp only [HTTPLiveSource.getSelectedTrack, hl, hs, Bool.not_true, Bool.false_eq_true,
        if_false, if_true, hlast]
  · have hl := i2 hs
    simp only [HTTPLiveSource.getSelectedTrack, hl, hs, Bool.not_true, Bool.false_eq_true,
      if_false, if_true, hcount]

theorem metadata_selected_has_metadata_witness :
    LiveReachable metadataSelected ∧ metadataSelected.mMetadataSelected = true ∧
    metadataSelected.mHasMetadata = true ∧
    metadataSelected.getSelectedTrack liveMeta 0 MEDIA_TRACK_TYPE_METADATA = 2 ∧
    metadataDetected.getSelectedTrack liveMeta 0 MEDIA_TRACK_TYPE_METADATA = -1 := by
  have r1 : LiveReachable HTTPLiveSource.initial.prepareAsync :=
    .step liveMeta .prepareAsync .init rfl
  have r2 : LiveReachable metadataDetected :=
    .step liveMeta (.sessionNotify .kWhatMetadataDetected) r1 rfl
  have r3 : LiveReachable metadataSelected :=
    .step liveMeta (.selectTrack 2 true) r2 rfl
  obtain ⟨a1, -, a3⟩ := metadata_selected_has_metadata metadataSelected r3
  obtain ⟨-, -, b3⟩ := metadata_selected_has_metadata metadataDetected r2
  refine ⟨r3, by decide, a1 (by decide), ?_, ?_⟩
  · rw [a3 liveMeta 0 (by decide) (by decide)]
    decide
  · rw [b3 liveMeta 0 (by decide) (by decide)]
    decide


/-! ## A flush finds a renderer -/

theorem kept_refl (s : Player) : Kept s s := fun h => h

theorem kept_trans {a b c : Player} (h1 : Kept a b) (h2 : Kept b c) : Kept a c :=
  fun h => h2 (h1 h)

theorem rendered_of_objs {s t : Player} (h : objs t = objs s) (hs : Rendered s) :
    Rendered t := by
  simp only [objs, Prod.mk.injEq] at h
  unfold Rendered at hs ⊢
  rw [h.1, h.2.1, h.2.2]
  exact hs

theorem kept_of_objs {s t : Player} (h : objs t = objs s) : Kept s t :=
  rendered_of_objs h

theorem kept_congr {s t u : Player} (h : objs u = objs t) (g : Kept s t) : Kept s u :=
  kept_trans g (kept_of_objs h)

theorem kept_pre {s u t : Player} (g : Kept u t) (h : objs u = objs s) : Kept s t :=
  kept_trans (kept_of_objs h) g

/-- Without a decoder nothing is required of the renderer. -/
theorem rendered_of_none {t : Player} (ha : t.mAudioDecoder = none)
    (hv : t.mVideoDecoder = none) : Rendered t := by
  intro h
  rcases h with h | h
  · exact absurd ha h
  · exact absurd hv h

theorem rendered_of_some {t : Player} (hr : t.mRenderer ≠ none) : Rendered t := fun _ => hr

@[simp] theorem objs_emit (e : Event) (s : Player) : objs (emit e s) = objs s := rfl

@[simp] theorem objs_pushAction (a : Action) (s : Player) :
    objs (pushAction a s) = objs s := rfl

@[simp] theorem objs_ite (c : Prop) [Decidable c] (a b : Player) :
    objs (if c then a else b) = if c then objs a else objs b := apply_ite _ _ _ _

@[simp] theorem objs_callDriver (env : Env) (c : DriverCall) (s : Player) :
    objs (callDriver env c s) = objs s := by
  simp only [callDriver]
  split_ifs <;> rfl

@[simp] theorem objs_notifyListener (env : Env) (m : ListenerMsg) (s : Player) :
    objs (notifyListener env m s) = objs s := by
  simp only [notifyListener]
  split_ifs <;> rfl

@[simp] theorem objs_postScanSources (s : Player) :
    objs (postScanSources s) = objs s := by
  simp only [postScanSources]
  split_ifs <;> rfl

@[simp] theorem objs_schedulePollDuration (s : Player) :
    objs (schedulePollDuration s) = objs s := rfl

@[simp] theorem objs_cancelPollDuration (s : Player) :
    objs (cancelPollDuration s) = objs s := rfl

@[simp] theorem objs_clearFlushComplete (s : Player) :
    objs (clearFlushComplete s) = objs s := rfl

@[simp] theorem objs_setFlushing (audio : Bool) (v : FlushStatus) (s : Player) :
    objs (setFlushing audio v s) = objs s := by
  cases audio <;> rfl

@[simp] theorem objs_flushDecoder (audio needShutdown : Bool) (s : Player) :
    objs (flushDecoder audio needShutdown s) = objs s := by
  unfold flushDecoder
  split
  · rfl
  · cases audio
    · simp only [Bool.false_eq_true, if_false]
      split_ifs <;> rfl
    · simp only [if_true]
      split_ifs <;> rfl

@[simp] theorem objs_performDecoderFlush (a v : FlushCommand) (s : Player) :
    objs (performDecoderFlush a v s) = objs s := by
  unfold performDecoderFlush
  split_ifs <;> simp

@[simp] theorem objs_performScanSources (s : Player) :
    objs (performScanSources s) = objs s := by
  simp only [performScanSources]
  split_ifs <;> simp

@[simp] theorem objs_setVideoScalingMode (env : Env) (mode : Int) (s : Player) :
    objs (setVideoScalingMode env mode s).2 = objs s := by
  simp only [setVideoScalingMode]
  split_ifs <;> rfl

@[simp] theorem objs_performSetSurface (env : Env) (w : Option Nat) (s : Player) :
    objs (performSetSurface env w s) = objs s := by
  simp only [performSetSurface, objs_callDriver, objs_setVideoScalingMode]
  rfl

@[simp] theorem objs_finishResume (env : Env) (s : Player) :
    objs (finishResume env s) = objs s := by
  simp only [finishResume]
  split_ifs
  · rw [objs_callDriver]
    rfl
  · rfl

@[simp] theorem objs_performResumeDecoders (env : Env) (n : Bool) (s : Player) :
    objs (performResumeDecoders env n s) = objs s := by
  have h : ∀ u : Player, objs ({ u with mResumePending := true } : Player) = objs u :=
    fun _ => rfl
  simp only [performResumeDecoders]
  split_ifs <;> simp only [objs_emit, objs_finishResume, h]

@[simp] theorem objs_thread_interrupt (env : Env) (s : Player) :
    objs (thread_interrupt env s) = objs s := by
  simp only [thread_interrupt]
  split_ifs <;> rfl

@[simp] theorem objs_thread_uninterrupt (env : Env) (s : Player) :
    objs (thread_uninterrupt env s) = objs s := rfl

theorem objs_performSeek (env : Env) (T : Int) (n : Bool) (s : Player) :
    okThen (performSeek env T n s) (fun t => objs t = objs s) := by
  intro t ht
  unfold performSeek at ht
  split_ifs at ht
  · cases ht
    rfl
  · cases ht
    have h : ∀ (u : Player) (x : Int),
        objs ({ u with mTimedTextGeneration := x } : Player) = objs u := fun _ _ => rfl
    rw [h, objs_thread_uninterrupt, objs_emit, objs_thread_interrupt]

theorem kept_performReset (env : Env) (s : Player) :
    okThen (performReset env s) (Kept s) := by
  intro t ht
  unfold performReset at ht
  by_cases ha : s.mAudioDecoder ≠ none
  · rw [if_pos ha] at ht
    cases ht
  rw [if_neg ha] at ht
  by_cases hv : s.mVideoDecoder ≠ none
  · rw [if_pos hv] at ht
    cases ht
  rw [if_neg hv] at ht
  cases ht
  intro _
  have ha2 : s.mAudioDecoder = none := not_not.1 ha
  have hv2 : s.mVideoDecoder = none := not_not.1 hv
  apply rendered_of_none
  · simp only [callDriver, thread_uninterrupt, thread_interrupt, cancelPollDuration, emit]
    split_ifs <;> exact ha2
  · simp only [callDriver, thread_uninterrupt, thread_interrupt, cancelPollDuration, emit]
    split_ifs <;> exact hv2

theorem kept_execute (env : Env) (a : Action) (s : Player) :
    okThen (a.execute env s) (Kept s) := by
  cases a with
  | SeekAction T n =>
    intro t ht
    exact kept_of_objs (objs_performSeek env T n s t ht)
  | ResumeDecoderAction n =>
    simp only [Action.execute, okThen_ok]
    exact kept_of_objs (by simp)
  | SetSurfaceAction w =>
    simp only [Action.execute, okThen_ok]
    exact kept_of_objs (by simp)
  | FlushDecoderAction x y =>
    simp only [Action.execute, okThen_ok]
    exact kept_of_objs (by simp)
  | PostMessageAction m =>
    simp only [Action.execute, okThen_ok]
    exact kept_of_objs rfl
  | SimpleAction f =>
    cases f with
    | performReset => exact kept_performReset env s
    | performScanSources =>
      simp only [Action.execute, okThen_ok]
      exact kept_of_objs (by simp)

theorem kept_loop (env : Env) (fuel : Nat) (s : Player) :
    okThen (processDeferredActionsLoop env fuel s) (Kept s) := by
  induction fuel generalizing s with
  | zero => simp [processDeferredActionsLoop]
  | succ n ih =>
    unfold processDeferredActionsLoop
    cases hn : nextDeferredAction s with
    | none =>
      simp only [okThen_ok]
      exact kept_refl _
    | some p =>
      obtain ⟨a, s1⟩ := p
      obtain ⟨_, _, _, hs1⟩ := nextDeferredAction_some hn
      simp only [okThen_bind]
      intro t1 h1 t h2
      have e0 : Kept s (emit (.actionExecute a) s1) := by
        rw [hs1]
        exact kept_of_objs rfl
      exact kept_trans (kept_trans e0 (kept_execute env a _ t1 h1)) (ih t1 t h2)

theorem kept_processDeferredActions (env : Env) (s : Player) :
    okThen (processDeferredActions env s) (Kept s) :=
  kept_loop env _ s

theorem kept_finishFlushIfPossible (env : Env) (s : Player) :
    okThen (finishFlushIfPossible env s) (Kept s) := by
  by_cases h : s.mFlushingAudio.midFlush = true ∨ s.mFlushingVideo.midFlush = true
  · rw [finishFlushIfPossible_mid env s h]
    simp only [okThen_ok]
    exact kept_refl _
  · push_neg at h
    rw [finishFlushIfPossible_terminal env s (by simpa using h.1) (by simpa using h.2)]
    intro t ht
    have h1 : Kept s
        (clearFlushComplete { s with mFlushingAudio := .NONE, mFlushingVideo := .NONE }) :=
      kept_of_objs rfl
    exact kept_trans h1 (kept_processDeferredActions env _ t ht)

theorem objs_handleFlushComplete (audio isDecoder : Bool) (s : Player) :
    okThen (handleFlushComplete audio isDecoder s) (fun t => objs t = objs s) := by
  cases audio <;> cases isDecoder <;> cases hv : s.mFlushingVideo <;> cases ha : s.mFlushingAudio <;>
    simp [handleFlushComplete, flushing, setFlushing, getDecoder, emit, hv, ha,
      FlushComplete.get, FlushComplete.set] <;>
    (try split_ifs) <;> (try simp [objs])

theorem kept_instantiateDecoder (env : Env) (audio : Bool) (s : Player) :
    okThen (instantiateDecoder env audio s) (fun r => Kept s r.2) := by
  intro r hr
  unfold instantiateDecoder at hr
  by_cases h1 : getDecoder audio s ≠ none
  · rw [if_pos h1] at hr
    cases hr
    exact kept_refl _
  rw [if_neg h1] at hr
  by_cases h2 : s.mSource = none
  · rw [if_pos h2] at hr
    cases hr
  rw [if_neg h2] at hr
  cases audio
  · simp only [Bool.false_eq_true, if_false] at hr
    cases hf : env.videoFormat with
    | none =>
      rw [hf] at hr
      cases hr
      exact kept_refl _
    | some format =>
      rw [hf] at hr
      dsimp only at hr
      split_ifs at hr
      all_goals cases hr
      all_goals
        intro _
        apply rendered_of_some
        simp_all [emit]
  · simp only [if_true] at hr
    split_ifs at hr with c1 c2
    · cases hr
      exact kept_refl _
    · cases hr
      intro _
      apply rendered_of_some
      simpa [emit] using c2

theorem objs_closeAudioSink (s : Player) :
    okThen (closeAudioSink s) (fun t => objs t = objs s) := by
  simp only [closeAudioSink]
  split_ifs <;> simp [objs, emit]

theorem kept_ite_instantiate (c : Prop) [Decidable c] (env : Env) (audio : Bool) (u : Player)
    (r : Int × Player)
    (h : (if c then instantiateDecoder env audio u else .ok (OK, u)) = .ok r) :
    Kept u r.2 := by
  by_cases hc : c
  · rw [if_pos hc] at h
    exact kept_instantiateDecoder env audio u r h
  · rw [if_neg hc] at h
    cases h
    exact kept_refl _

theorem kept_ite_emit (c : Prop) [Decidable c] (e : Event) {s u : Player} (h : Kept s u) :
    Kept s (if c then emit e u else u) := by
  split_ifs
  · exact kept_congr rfl h
  · exact h

theorem kept_onResume (env : Env) (s : Player) :
    okThen (onResume env s) (Kept s) := by
  intro t ht
  unfold onResume at ht
  by_cases hp : (!s.mPaused) = true
  · rw [if_pos hp] at ht
    cases ht
    exact kept_refl _
  · rw [if_neg hp] at ht
    obtain ⟨r, hr, ht⟩ := bind_ok ht
    cases ht
    have g1 := kept_ite_instantiate _ _ _ _ _ hr
    have g0 : Kept s ({ s with mPaused := false } : Player) := kept_of_objs rfl
    exact kept_ite_emit _ _ (kept_trans (kept_ite_emit _ (.source .resume) g0) g1)

theorem kept_onInstantiateSecureDecoders (env : Env) (s : Player) :
    okThen (onInstantiateSecureDecoders env s) (fun r => Kept s r.2) := by
  intro t ht
  unfold onInstantiateSecureDecoders at ht
  by_cases h1 : (!s.mSourceFlags.FLAG_SECURE) = true
  · rw [if_pos h1] at ht
    cases ht
    exact kept_refl _
  rw [if_neg h1] at ht
  by_cases h2 : s.mRenderer ≠ none
  · rw [if_pos h2] at ht
    cases ht
    exact kept_refl _
  rw [if_neg h2] at ht
  obtain ⟨r, hr, ht⟩ := bind_ok ht
  have g1 := kept_ite_instantiate _ _ _ _ _ hr
  by_cases h3 : r.1 ≠ OK
  · rw [if_pos h3] at ht
    cases ht
    exact g1
  rw [if_neg h3] at ht
  obtain ⟨q, hq, ht⟩ := bind_ok ht
  have g2 := kept_ite_instantiate _ _ _ _ _ hq
  have g := kept_trans g1 g2
  dsimp only at ht
  split_ifs at ht <;> cases ht <;> exact g

theorem renderer_onStart (env : Env) (s : Player) :
    okThen (onStart env s) (fun t => t.mRenderer ≠ none) := by
  cases h : env.fileMetaFrameRate <;> simp [onStart, h, postScanSources, emit]
  all_goals
    split_ifs <;>
    simp

theorem kept_onStart (env : Env) (s : Player) :
    okThen (onStart env s) (Kept s) :=
  fun t ht _ => rendered_of_some (renderer_onStart env s t ht)

theorem objs_updateVideoSize (env : Env) (i o : Option Format) (s : Player) :
    okThen (updateVideoSize env i o s) (fun t => objs t = objs s) := by
  unfold updateVideoSize
  split
  · simp
  · simp only [okThen_bind]
    intro a _ b _
    split_ifs <;> simp

@[simp] theorem objs_dtsCheckTotalApre (env : Env) (s : Player) :
    objs (dtsCheckTotalApre env s) = objs s := by
  have h : ∀ (u : Player) (x : Int), objs { u with DtshdApreTotal := x } = objs u :=
    fun _ _ => rfl
  simp only [dtsCheckTotalApre]
  split_ifs <;> simp [h]

@[simp] theorem objs_dtsCheckStreamType (env : Env) (s : Player) :
    objs (dtsCheckStreamType env s) = objs s := by
  have h : ∀ (u : Player) (x : Int), objs { u with DtsHdStreamType := x } = objs u :=
    fun _ _ => rfl
  simp only [dtsCheckStreamType]
  split_ifs <;> simp [h]

@[simp] theorem objs_dtsCheckMulAssetHint (env : Env) (s : Player) :
    objs (dtsCheckMulAssetHint env s) = objs s := by
  have h : ∀ (u : Player) (x : Int), objs { u with DtsHdMulAssetHint := x } = objs u :=
    fun _ _ => rfl
  simp only [dtsCheckMulAssetHint]
  split_ifs <;> simp [h]

@[simp] theorem objs_dtsCheckHpsHint (env : Env) (s : Player) :
    objs (dtsCheckHpsHint env s) = objs s := by
  have h : ∀ (u : Player) (x : Int), objs { u with DtsHdHpsHint := x } = objs u :=
    fun _ _ => rfl
  simp only [dtsCheckHpsHint]
  split_ifs <;> simp [h]

@[simp] theorem objs_getCurrentPosition (env : Env) (s : Player) :
    objs (getCurrentPosition env s).2.2 = objs s := by
  unfold getCurrentPosition
  split_ifs <;> simp

theorem objs_writeTrackInfo (f : TrackInfo) (s : Player) :
    okThen (writeTrackInfo f s) (fun t => objs t = objs s) := by
  unfold writeTrackInfo
  split
  · simp
  · simp only [okThen_bind]
    intro a _
    split
    · simp
    · split_ifs
      · split <;> simp
      · simp

theorem objs_writeTrackInfos (l : List TrackInfo) (s : Player) :
    okThen (writeTrackInfos l s) (fun t => objs t = objs s) := by
  induction l generalizing s with
  | nil => simp [writeTrackInfos]
  | cons f rest ih =>
    simp only [writeTrackInfos, okThen_bind]
    refine okThen_mono (objs_writeTrackInfo f s) fun t ht => ?_
    exact okThen_mono (ih t) fun u hu => hu.trans ht

theorem objs_sendSubtitleData (env : Env) (b : Buffer) (i : Int) (s : Player) :
    okThen (sendSubtitleData env b i s) (fun t => objs t = objs s) := by
  unfold sendSubtitleData
  split <;> simp

theorem objs_sendTimedMetaData (env : Env) (b : Buffer) (s : Player) :
    okThen (sendTimedMetaData env b s) (fun t => objs t = objs s) := by
  unfold sendTimedMetaData
  split <;> simp

theorem objs_sendTimedTextData (env : Env) (b : Buffer) (s : Player) :
    okThen (sendTimedTextData env b s) (fun t => objs t = objs s) := by
  unfold sendTimedTextData
  split
  · simp
  · split_ifs <;> simp

theorem objs_onClosedCaptionNotify (env : Env) (w : CCWhat) (s : Player) :
    okThen (onClosedCaptionNotify env w s) (fun t => objs t = objs s) := by
  unfold onClosedCaptionNotify
  split
  · exact objs_sendSubtitleData _ _ _ _
  · simp
  · simp

@[simp] theorem objs_onPause (s : Player) : objs (onPause s) = objs s := by
  simp only [onPause]
  split_ifs <;> rfl


@[simp] theorem objs_onApi (env : Env) (c : Api) (s : Player) :
    objs (onApi env c s) = objs s := by
  cases c <;> simp only [onApi]
  all_goals (try split)
  all_goals (try split_ifs)
  all_goals (first | rfl | simp)

theorem objs_scanSourcesFeed (env : Env) (g : Int) (n : Option Int) (s : Player) :
    okThen (scanSourcesFeed env g n s) (fun t => objs t = objs s) := by
  simp only [scanSourcesFeed]
  split_ifs
  all_goals (first | (simp; done) | rfl | simp [emit, objs])

theorem objs_tryOpenAudioSinkForOffload (env : Env) (hv : Bool) (s : Player) :
    okThen (tryOpenAudioSinkForOffload env hv s) (fun t => objs t = objs s) := by
  simp only [tryOpenAudioSinkForOffload]
  split_ifs <;> simp [objs, emit]



theorem kept_queueDecoderShutdown (env : Env) (audio video : Bool) (reply : Nat)
    (s : Player) : okThen (queueDecoderShutdown env audio video reply s) (Kept s) := by
  intro t ht
  unfold queueDecoderShutdown at ht
  exact kept_pre (kept_processDeferredActions env _ t ht) rfl

theorem kept_onSetVideoNativeWindow (env : Env) (obj : Option Nat) (s : Player) :
    okThen (onSetVideoNativeWindow env obj s) (Kept s) := by
  intro t ht
  unfold onSetVideoNativeWindow at ht
  by_cases h : s.mSource = none ∨ env.videoFormat = none
  · rw [if_pos h] at ht
    cases ht
    exact kept_of_objs (by simp)
  · rw [if_neg h] at ht
    refine kept_pre (kept_processDeferredActions env _ t ht) ?_
    dsimp only
    split_ifs <;> simp

theorem kept_scanSourcesAudio (env : Env) (s : Player) :
    okThen (scanSourcesAudio env s) (Kept s) := by
  intro t ht
  unfold scanSourcesAudio at ht
  by_cases c1 : s.mAudioSink ≠ none ∧ s.mAudioDecoder = none
  · rw [if_pos c1] at ht
    by_cases c2 : s.mSource = none
    · rw [if_pos c2] at ht
      cases ht
    · rw [if_neg c2] at ht
      obtain ⟨u, hu, ht⟩ := bind_ok ht
      obtain ⟨r, hr, ht⟩ := bind_ok ht
      cases ht
      have gu : objs u = objs s := by
        by_cases c3 : env.canOffloadStream = true
        · rw [if_pos c3] at hu
          by_cases c4 : (!s.mOffloadAudio) = true ∧ s.mRenderer = none
          · rw [if_pos c4] at hu
            cases hu
          · rw [if_neg c4] at hu
            rw [objs_tryOpenAudioSinkForOffload env _ _ u hu]
            split_ifs <;> rfl
        · rw [if_neg c3] at hu
          cases hu
          rfl
      exact kept_pre (kept_instantiateDecoder env true u r hr) gu
  · rw [if_neg c1] at ht
    cases ht
    exact kept_refl _

theorem kept_onScanSources (env : Env) (g : Int) (n : Option Int) (s : Player) :
    okThen (onScanSources env g n s) (Kept s) := by
  intro t ht
  unfold onScanSources at ht
  by_cases c1 : g ≠ s.mScanSourcesGeneration
  · rw [if_pos c1] at ht
    cases ht
    exact kept_refl _
  rw [if_neg c1] at ht
  by_cases c2 : s.mEnableFrameRate = true ∧ s.mFrameRate = .negative
      ∧ n.getD 0 < wrap32 (s.mWaitSeconds * 100)
  · rw [if_pos c2] at ht
    cases ht
    exact kept_of_objs rfl
  rw [if_neg c2] at ht
  obtain ⟨r, hr, ht⟩ := bind_ok ht
  obtain ⟨u, hu, ht⟩ := bind_ok ht
  have g1 := kept_ite_instantiate _ _ _ _ _ hr
  have g2 := kept_scanSourcesAudio env _ u hu
  have g3 := objs_scanSourcesFeed env _ _ _ t ht
  have g0 : Kept s ({ s with mScanSourcesPending := false } : Player) := kept_of_objs rfl
  refine kept_congr ?_ (kept_trans (kept_trans g0 g1) g2)
  rw [g3]
  split_ifs <;> rfl

theorem kept_congr_left {s t u : Player} (h : objs u = objs s) (g : Kept u t) : Kept s t :=
  kept_trans (kept_of_objs h) g

theorem kept_of_fewer {s t : Player}
    (ha : t.mAudioDecoder = s.mAudioDecoder ∨ t.mAudioDecoder = none)
    (hv : t.mVideoDecoder = s.mVideoDecoder ∨ t.mVideoDecoder = none)
    (hr : t.mRenderer = s.mRenderer) : Kept s t := by
  intro hs h
  rw [hr]
  apply hs
  rcases h with h | h
  · rcases ha with ha | ha
    · exact .inl (ha ▸ h)
    · exact absurd ha h
  · rcases hv with hv | hv
    · exact .inr (hv ▸ h)
    · exact absurd hv h

theorem kept_onSourceNotify (env : Env) (what : SourceWhat) (s : Player) :
    okThen (onSourceNotify env what s) (Kept s) := by
  intro t ht
  cases what with
  | kWhatInstantiateSecureDecoders reply =>
    simp only [onSourceNotify] at ht
    split_ifs at ht
    · cases ht
      exact kept_of_objs rfl
    · obtain ⟨r, hr, ht⟩ := bind_ok ht
      cases ht
      exact kept_congr (objs_emit _ _) (kept_onInstantiateSecureDecoders env s r hr)
  | kWhatPrepared err =>
    simp only [onSourceNotify] at ht
    by_cases c1 : s.mSource = none
    · rw [if_pos c1] at ht
      cases ht
      exact kept_of_objs rfl
    · rw [if_neg c1] at ht
      obtain ⟨u, hu, ht⟩ := bind_ok ht
      cases ht
      have hsu : Kept s u := by
        by_cases c2 : err ≠ OK
        · rw [if_pos c2] at hu
          exact kept_pre (kept_processDeferredActions env _ u hu) rfl
        · rw [if_neg c2] at hu
          cases hu
          exact kept_of_objs rfl
      refine kept_congr ?_ hsu
      rw [objs_callDriver]
      split <;> simp
  | kWhatFlagsChanged flags =>
    simp only [onSourceNotify] at ht
    cases ht
    refine kept_of_objs ?_
    have h0 : ∀ u : Player, objs u = objs s → objs
        (if u.mSourceFlags.FLAG_DYNAMIC_DURATION = true ∧ (!flags.FLAG_DYNAMIC_DURATION) = true
          then cancelPollDuration u
          else if (!u.mSourceFlags.FLAG_DYNAMIC_DURATION) = true
              ∧ flags.FLAG_DYNAMIC_DURATION = true
              ∧ (u.mAudioDecoder ≠ none ∨ u.mVideoDecoder ≠ none) then
            schedulePollDuration u
          else u) = objs s := by
      intro u hu
      split_ifs
      · exact hu
      · exact hu
      · exact hu
    have h1 : ∀ (u : Player) (f : SourceFlags),
        objs ({ u with mSourceFlags := f } : Player) = objs u := fun _ _ => rfl
    rw [h1]
    apply h0
    simp only [objs_callDriver]
    split_ifs <;> simp
  | kWhatVideoSizeChanged format =>
    have ht2 : updateVideoSize env (some format) none s = .ok t := ht
    exact kept_of_objs (objs_updateVideoSize _ _ _ _ t ht2)
  | kWhatBufferingUpdate percentage =>
    cases ht
    exact kept_of_objs (objs_notifyListener _ _ _)
  | kWhatPauseOnBufferingStart =>
    simp only [onSourceNotify] at ht
    cases ht
    refine kept_of_objs ?_
    rw [objs_notifyListener]
    split_ifs <;> simp
  | kWhatBufferingStart =>
    cases ht
    exact kept_of_objs (objs_notifyListener _ _ _)
  | kWhatResumeOnBufferingEnd =>
    simp only [onSourceNotify] at ht
    obtain ⟨u, hu, ht⟩ := bind_ok ht
    cases ht
    refine kept_congr (objs_notifyListener _ _ _) ?_
    by_cases c : s.mStarted = true ∧ (!s.mPausedByClient) = true
    · rw [if_pos c] at hu
      exact kept_onResume env s u hu
    · rw [if_neg c] at hu
      cases hu
      exact kept_refl _
  | kWhatBufferingEnd =>
    cases ht
    exact kept_of_objs (objs_notifyListener _ _ _)
  | kWhatCacheStats kbps =>
    cases ht
    exact kept_of_objs (objs_notifyListener _ _ _)
  | kWhatSubtitleData buffer =>
    have ht2 : sendSubtitleData env buffer 0 s = .ok t := ht
    exact kept_of_objs (objs_sendSubtitleData _ _ _ _ t ht2)
  | kWhatTimedMetaData buffer =>
    cases buffer with
    | none =>
      cases ht
      exact kept_of_objs (objs_notifyListener _ _ _)
    | some b =>
      have ht2 : sendTimedMetaData env b s = .ok t := ht
      exact kept_of_objs (objs_sendTimedMetaData _ _ _ t ht2)
  | kWhatTimedTextData generation buffer =>
    simp only [onSourceNotify] at ht
    by_cases c1 : generation.isSome = true ∧ generation ≠ some s.mTimedTextGeneration
    · rw [if_pos c1] at ht
      cases ht
      exact kept_of_objs rfl
    rw [if_neg c1] at ht
    by_cases c2 : ¬ (s.mDriver = true ∧ env.driverAlive = true)
    · rw [if_pos c2] at ht
      cases ht
      exact kept_of_objs rfl
    rw [if_neg c2] at ht
    cases hb : buffer.timeUs with
    | none =>
      rw [hb] at ht
      cases ht
    | some timeUs =>
      rw [hb] at ht
      dsimp only at ht
      by_cases c3 : wrap32 (env.driverPositionMs * 1000) < timeUs
      · rw [if_pos c3] at ht
        cases ht
        exact kept_of_objs rfl
      · rw [if_neg c3] at ht
        exact kept_of_objs (objs_sendTimedTextData _ _ _ t ht)
  | kWhatQueueDecoderShutdown audio video reply =>
    have ht2 : queueDecoderShutdown env audio video reply s = .ok t := ht
    exact kept_queueDecoderShutdown env audio video reply s t ht2
  | kWhatDrmNoLicense =>
    cases ht
    exact kept_of_objs (objs_notifyListener _ _ _)
  | kWhatSourceReady err =>
    cases ht
    exact kept_of_objs (objs_notifyListener _ _ _)
  | kWhatFrameRate frameRate =>
    cases ht
    exact kept_of_objs rfl
  | unhandled => cases ht

theorem kept_onDecoderError (env : Env) (audio : Bool) (err : Option Int) (s : Player) :
    okThen (onDecoderError env audio err s) (Kept s) := by
  intro t ht
  unfold onDecoderError at ht
  dsimp only at ht
  by_cases c1 : s.mNativeWindow ≠ none ∧ s.mNativeWindow ≠ s.mNewSurface
      ∧ decoderErrorCode err = -19
  · rw [if_pos c1] at ht
    cases ht
    exact kept_of_objs rfl
  rw [if_neg c1] at ht
  obtain ⟨u, hu, ht⟩ := bind_ok ht
  cases ht
  refine kept_congr (objs_notifyListener _ _ _) ?_
  cases hf : flushing audio s <;> rw [hf] at hu <;> dsimp only at hu
  · exact kept_pre (kept_processDeferredActions env _ u hu) rfl
  · cases hu
    exact kept_of_objs (objs_setFlushing _ _ _)
  · cases hu
    exact kept_of_objs rfl
  · cases hu
    exact kept_of_objs rfl
  · by_cases c2 : getDecoder audio (if (!audio) = true ∧ s.mSource ≠ none
        ∧ s.mSourceFlags.FLAG_SECURE = true then emit (.source .stop) s else s) = none
    · rw [if_pos c2] at hu
      cases hu
    · rw [if_neg c2] at hu
      cases hu
      refine kept_of_objs ?_
      rw [objs_setFlushing, objs_emit]
      split_ifs <;> rfl
  · exact kept_finishFlushIfPossible env s u hu

theorem kept_onDecoderNotify (env : Env) (audio : Bool) (g : Int) (reply : Option Nat)
    (what : DecoderWhat) (s : Player) :
    okThen (onDecoderNotify env audio g reply what s) (Kept s) := by
  intro t ht
  unfold onDecoderNotify at ht
  dsimp only at ht
  by_cases c1 : g ≠ (if audio = true then s.mAudioDecoderGeneration
      else s.mVideoDecoderGeneration)
  · rw [if_pos c1] at ht
    cases reply <;> cases ht <;> exact kept_of_objs rfl
  rw [if_neg c1] at ht
  obtain ⟨s0, hs0, hg0⟩ : ∃ s0 : Player, s0 = (if s.mEnableFrameRate = true
      ∧ (!audio) = true ∧ s.mAutoSwitch > 0 then
        { emit (.sysfsSetAutoSwitch s.mAutoSwitch) s with mAutoSwitch := -1 } else s)
      ∧ objs s0 = objs s := by
    refine ⟨_, rfl, ?_⟩
    split_ifs <;> rfl
  rw [← hs0] at ht
  cases what with
  | kWhatInputDiscontinuity formatChange =>
    dsimp only at ht
    refine kept_pre (kept_processDeferredActions env _ t ht) ?_
    rw [objs_pushAction]
    split_ifs <;> simp [hg0]
  | kWhatEOS err =>
    dsimp only at ht
    split_ifs at ht
    cases ht
    exact kept_of_objs (by rw [objs_emit, hg0])
  | kWhatFlushCompleted =>
    dsimp only at ht
    obtain ⟨u, hu, ht⟩ := bind_ok ht
    exact kept_congr_left ((objs_handleFlushComplete _ _ _ u hu).trans hg0)
      (kept_finishFlushIfPossible env u t ht)
  | kWhatVideoSizeChanged format =>
    dsimp only at ht
    split_ifs at ht
    exact kept_of_objs ((objs_updateVideoSize _ _ _ _ t ht).trans hg0)
  | kWhatShutdownCompleted =>
    dsimp only at ht
    cases audio
    · simp only [Bool.false_eq_true, if_false] at ht
      split_ifs at ht
      refine kept_trans (kept_trans (kept_of_objs hg0) ?_)
        (kept_finishFlushIfPossible env _ t ht)
      exact kept_of_fewer (.inl rfl) (.inr rfl) rfl
    · simp only [if_true] at ht
      split_ifs at ht
      refine kept_trans (kept_trans (kept_of_objs hg0) ?_)
        (kept_finishFlushIfPossible env _ t ht)
      exact kept_of_fewer (.inr rfl) (.inl rfl) rfl
  | kWhatResumeCompleted =>
    cases ht
    exact kept_of_objs ((objs_finishResume env s0).trans hg0)
  | kWhatError err =>
    exact kept_congr_left hg0 (kept_onDecoderError env audio err s0 t ht)
  | unhandled =>
    cases ht
    exact kept_of_objs hg0

theorem kept_onRendererNotify (env : Env) (g : Int) (what : RendererWhat) (s : Player) :
    okThen (onRendererNotify env g what s) (Kept s) := by
  intro t ht
  unfold onRendererNotify at ht
  by_cases c1 : g ≠ s.mRendererGeneration
  · rw [if_pos c1] at ht
    cases ht
    exact kept_of_objs rfl
  rw [if_neg c1] at ht
  cases what with
  | kWhatEOS audio finalResult =>
    dsimp only at ht
    refine kept_of_objs ?_
    split_ifs at ht <;> cases ht <;> first | rfl | (simp only [objs_notifyListener]; rfl)
  | kWhatFlushComplete audio =>
    dsimp only at ht
    obtain ⟨u, hu, ht⟩ := bind_ok ht
    exact kept_congr_left (objs_handleFlushComplete _ _ _ u hu)
      (kept_finishFlushIfPossible env u t ht)
  | kWhatVideoRenderingStart =>
    cases ht
    exact kept_of_objs (objs_notifyListener _ _ _)
  | kWhatMediaRenderingStart =>
    cases ht
    exact kept_of_objs (objs_notifyListener _ _ _)
  | kWhatAudioOffloadTearDown positionUs dueToError =>
    dsimp only at ht
    obtain ⟨u, hu, ht⟩ := bind_ok ht
    obtain ⟨v, hv, ht⟩ := bind_ok ht
    have g1 : objs u = objs s := objs_closeAudioSink s u hu
    have g2 : Kept u (if u.mVideoDecoder ≠ none then
        emit (.renderer (.flush false false)) (emit (.renderer (.flush true false))
          { u with mAudioDecoder := none,
                   mAudioDecoderGeneration := inc32 u.mAudioDecoderGeneration })
        else emit (.renderer (.flush true false))
          { u with mAudioDecoder := none,
                   mAudioDecoderGeneration := inc32 u.mAudioDecoderGeneration }) := by
      split_ifs
      · exact kept_of_fewer (.inr rfl) (.inl rfl) rfl
      · exact kept_of_fewer (.inr rfl) (.inl rfl) rfl
    have g3 := objs_performSeek env positionUs false _ v hv
    have g123 : Kept s v := kept_congr g3 (kept_trans (kept_of_objs g1) g2)
    by_cases c2 : dueToError = true
    · rw [if_pos c2] at ht
      obtain ⟨r, hr, ht⟩ := bind_ok ht
      cases ht
      have g0 : Kept v ({ emit (.renderer .signalDisableOffloadAudio) v with
          mOffloadAudio := false } : Player) := kept_of_objs rfl
      exact kept_trans (kept_trans g123 g0) (kept_instantiateDecoder env true _ r hr)
    · rw [if_neg c2] at ht
      cases ht
      exact g123
  | unhandled =>
    cases ht
    exact kept_of_objs rfl

theorem objs_onSelectTrack (env : Env) (i : Nat) (b : Bool) (ts : Int) (s : Player) :
    okThen (onSelectTrack env i b ts s) (fun t => objs t = objs s) := by
  simp only [onSelectTrack, okThen_ok]
  rw [objs_emit]
  split_ifs
  all_goals (try split)
  all_goals (try split_ifs)
  all_goals rfl

theorem kept_onMessageReceived (env : Env) (msg : Msg) (s : Player) :
    okThen (onMessageReceived env msg s) (Kept s) := by
  intro t ht
  cases msg with
  | kWhatSetDataSource obj =>
    simp only [onMessageReceived] at ht
    refine kept_of_objs ?_
    cases obj <;> dsimp only at ht <;> split_ifs at ht <;> cases ht <;>
      (rw [objs_callDriver]; try rfl)
  | kWhatPrepare =>
    simp only [onMessageReceived] at ht
    split_ifs at ht
    cases ht
    exact kept_of_objs rfl
  | kWhatGetTrackInfo =>
    simp only [onMessageReceived] at ht
    obtain ⟨u, hu, ht⟩ := bind_ok ht
    obtain ⟨v, hv, ht⟩ := bind_ok ht
    cases ht
    refine kept_of_objs ?_
    rw [objs_emit, objs_writeTrackInfos _ _ v hv, objs_writeTrackInfos _ _ u hu,
      objs_emit]
  | kWhatGetSelectedTrack type =>
    simp only [onMessageReceived] at ht
    split_ifs at ht <;> cases ht <;> exact kept_of_objs rfl
  | kWhatSelectTrack trackIndex select timeUs =>
    have ht2 : onSelectTrack env trackIndex select timeUs s = .ok t := ht
    exact kept_of_objs (objs_onSelectTrack _ _ _ _ _ t ht2)
  | kWhatPollDuration generation =>
    simp only [onMessageReceived] at ht
    split_ifs at ht
    · cases ht
      exact kept_of_objs rfl
    · cases ht
      refine kept_of_objs ?_
      rw [objs_emit]
      split <;> simp
  | kWhatSetVideoNativeWindow obj =>
    have ht2 : onSetVideoNativeWindow env obj s = .ok t := ht
    exact kept_onSetVideoNativeWindow env obj s t ht2
  | kWhatSetAudioSink obj =>
    cases ht
    exact kept_of_objs rfl
  | kWhatStart =>
    simp only [onMessageReceived] at ht
    obtain ⟨u, hu, ht⟩ := bind_ok ht
    cases ht
    have h0 : Kept s u := by
      by_cases c : s.mStarted = true
      · rw [if_pos c] at hu
        exact kept_onResume env s u hu
      · rw [if_neg c] at hu
        exact kept_onStart env s u hu
    exact kept_congr rfl h0
  | kWhatScanSources generation scanNum =>
    have ht2 : onScanSources env generation scanNum s = .ok t := ht
    exact kept_onScanSources _ _ _ _ t ht2
  | kWhatVideoNotify generation reply what =>
    have ht2 : onDecoderNotify env false generation reply what s = .ok t := ht
    exact kept_onDecoderNotify _ _ _ _ _ _ t ht2
  | kWhatAudioNotify generation reply what =>
    have ht2 : onDecoderNotify env true generation reply what s = .ok t := ht
    exact kept_onDecoderNotify _ _ _ _ _ _ t ht2
  | kWhatRendererNotify generation what =>
    have ht2 : onRendererNotify env generation what s = .ok t := ht
    exact kept_onRendererNotify _ _ _ _ t ht2
  | kWhatMoreDataQueued =>
    cases ht
    exact kept_of_objs rfl
  | kWhatReset =>
    simp only [onMessageReceived] at ht
    exact kept_pre (kept_processDeferredActions env _ t ht) rfl
  | kWhatSeek seekTimeUs needNotify =>
    simp only [onMessageReceived] at ht
    refine kept_pre (kept_processDeferredActions env _ t ht) ?_
    simp only [objs_pushAction]
    split_ifs <;> rfl
  | kWhatPause =>
    cases ht
    exact kept_of_objs (objs_onPause s)
  | kWhatSourceNotify what =>
    have ht2 : onSourceNotify env what s = .ok t := ht
    exact kept_onSourceNotify _ _ _ t ht2
  | kWhatClosedCaptionNotify what =>
    have ht2 : onClosedCaptionNotify env what s = .ok t := ht
    exact kept_of_objs (objs_onClosedCaptionNotify _ _ _ t ht2)
  | unhandled => cases ht

/-- No input leaves a decoder without a renderer. -/
theorem step_kept (env : Env) (input : Input) (s : Player) :
    okThen (step env input s) (Kept s) := by
  intro t ht
  cases input with
  | message msg => exact kept_onMessageReceived env msg s t ht
  | call api =>
    cases ht
    exact kept_of_objs (objs_onApi env api s)

/-- In every reachable state a decoder exists only together with a renderer. -/
theorem reachable_rendered {s : Player} (h : Reachable s) : Rendered s := by
  induction h with
  | init w th => exact rendered_of_none rfl rfl
  | step env input _ hstep ih => exact step_kept env input _ _ hstep ih

/-! ## A flush leaves both acknowledgements missing -/

theorem guarded_refl (s : Player) : Guarded s s := fun _ h => .inr ⟨h, rfl⟩

/-- An operation after which the flush core is as before. -/
theorem guarded_frame {s t : Player} (h : core t = core s) : Guarded s t := by
  intro a hf
  have e1 : flushing a t = flushing a s := by rw [← core_flushing, ← core_flushing, h]
  exact .inr ⟨e1 ▸ hf, congrArg FlushCore.executed h⟩

theorem guarded_post {s u t : Player} (g : Guarded s u) (h : core t = core u) :
    Guarded s t := by
  intro a hf
  have e1 : flushing a t = flushing a u := by rw [← core_flushing, ← core_flushing, h]
  have e2 : executed t = executed u := congrArg FlushCore.executed h
  rw [e1] at hf
  rcases g a hf with g1 | ⟨g1, g2⟩
  · left
    rw [h]
    exact g1
  · exact .inr ⟨g1, e2.trans g2⟩

theorem guarded_pre {s u t : Player} (g : Guarded u t) (he : executed u = executed s)
    (hf : ∀ a, (flushing a u).flushingDecoder → (flushing a s).flushingDecoder) :
    Guarded s t := by
  intro a h
  rcases g a h with g1 | ⟨g1, g2⟩
  · exact .inl g1
  · exact .inr ⟨hf a g1, g2.trans he⟩

/-- A drain is entered with the flush core of `s`, but for the queue. -/
theorem guarded_pre_core {s u t : Player} (g : Guarded u t) (q : List Action)
    (h : core u = { core s with mDeferredActions := q }) : Guarded s t := by
  refine guarded_pre g (congrArg FlushCore.executed h) fun a hf => ?_
  have e : flushing a u = flushing a s := by
    rw [← core_flushing, ← core_flushing, h]
    rfl
  exact e ▸ hf

theorem performDecoderFlush_unacked (x y : FlushCommand) (s : Player)
    (ha : s.mFlushingAudio = .NONE) (hv : s.mFlushingVideo = .NONE) (hr : Rendered s)
    (audio : Bool) (hf : (flushing audio (performDecoderFlush x y s)).flushingDecoder) :
    Unacked audio (core (performDecoderFlush x y s)) := by
  rw [← core_flushing] at hf
  rw [core_performDecoderFlush] at hf ⊢
  dsimp only at hf ⊢
  have hn : (s.mAudioDecoder ≠ none ∨ s.mVideoDecoder ≠ none) → s.mRenderer.isNone = false := by
    intro h
    cases hren : s.mRenderer with
    | none => exact absurd hren (hr h)
    | some r => rfl
  have hca : (core s).mFlushingAudio = .NONE := ha
  have hcv : (core s).mFlushingVideo = .NONE := hv
  generalize core s = c at hf hca hcv ⊢
  obtain ⟨fa, fv, ⟨m1, m2, m3, m4⟩, q, e, l⟩ := c
  simp only at hca hcv
  subst hca hcv
  by_cases hA : x ≠ .FLUSH_CMD_NONE ∧ s.mAudioDecoder ≠ none <;>
    by_cases hV : y ≠ .FLUSH_CMD_NONE ∧ s.mVideoDecoder ≠ none
  · rw [if_pos hA, if_pos hV, hn (.inl hA.2)] at hf ⊢
    cases audio <;>
      simp [Unacked, awaiting, FlushCore.flushTrack, FlushCore.flushing, FlushComplete.get,
        FlushComplete.set] <;> tauto
  · rw [if_pos hA, if_neg hV, hn (.inl hA.2)] at hf ⊢
    cases audio
    · simp [FlushCore.flushTrack, FlushCore.flushing, FlushStatus.flushingDecoder] at hf
    · simp [Unacked, awaiting, FlushCore.flushTrack, FlushCore.flushing, FlushComplete.get,
        FlushComplete.set]
      tauto
  · rw [if_neg hA, if_pos hV, hn (.inr hV.2)] at hf ⊢
    cases audio
    · simp [Unacked, awaiting, FlushCore.flushTrack, FlushCore.flushing, FlushComplete.get,
        FlushComplete.set]
      tauto
    · simp [FlushCore.flushTrack, FlushCore.flushing, FlushStatus.flushingDecoder] at hf
  · rw [if_neg hA, if_neg hV] at hf
    cases audio <;> simp [FlushCore.flushing, FlushStatus.flushingDecoder] at hf

/-- An action executed while both statuses are `NONE` and every decoder has a
renderer leaves a track either not flushing or without any acknowledgement. -/
theorem execute_unacked (env : Env) (a : Action) (s t : Player) (h : a.execute env s = .ok t)
    (ha : s.mFlushingAudio = .NONE) (hv : s.mFlushingVideo = .NONE) (hr : Rendered s)
    (audio : Bool) (hf : (flushing audio t).flushingDecoder) : Unacked audio (core t) := by
  by_cases hn : ∀ x y, a ≠ .FlushDecoderAction x y
  · exfalso
    have hc := execute_nonflush env a s hn t h
    have e : flushing audio t = flushing audio s := by
      rw [← core_flushing, ← core_flushing, hc]
    rw [e] at hf
    cases audio
    · have : flushing false s = .NONE := hv
      rw [this] at hf
      rcases hf with hf | hf <;> cases hf
    · have : flushing true s = .NONE := ha
      rw [this] at hf
      rcases hf with hf | hf <;> cases hf
  · push_neg at hn
    obtain ⟨x, y, rfl⟩ := hn
    simp only [Action.execute] at h
    cases h
    exact performDecoderFlush_unacked x y s ha hv hr audio hf

theorem guarded_loop (env : Env) (fuel : Nat) (s : Player) :
    okThen (processDeferredActionsLoop env fuel s) (fun t => Rendered s → Guarded s t) := by
  induction fuel generalizing s with
  | zero => simp [processDeferredActionsLoop]
  | succ n ih =>
    unfold processDeferredActionsLoop
    cases hn : nextDeferredAction s with
    | none =>
      simp only [okThen_ok]
      exact fun _ => guarded_refl _
    | some p =>
      obtain ⟨a, s1⟩ := p
      obtain ⟨ha, hv, _, hs1⟩ := nextDeferredAction_some hn
      simp only [okThen_bind]
      intro t1 h1 t h2 hr
      have hr0 : Rendered (emit (.actionExecute a) s1) := by
        rw [hs1]
        exact rendered_of_objs (s := s) rfl hr
      have ha0 : (emit (.actionExecute a) s1).mFlushingAudio = .NONE := by
        rw [hs1]
        exact ha
      have hv0 : (emit (.actionExecute a) s1).mFlushingVideo = .NONE := by
        rw [hs1]
        exact hv
      have hr1 : Rendered t1 := kept_execute env a _ t1 h1 hr0
      obtain ⟨done, _, d2, _, _, d5, _⟩ := processDeferredActionsLoop_drained env n t1 t h2
      intro audio hf
      rcases ih t1 t h2 hr1 audio hf with g | ⟨g1, g2⟩
      · exact .inl g
      · have hd : done = [] := by
          rw [g2] at d2
          exact List.append_right_eq_self.1 d2.symm
        have e := d5 hd
        subst e
        exact .inl (execute_unacked env a _ t h1 ha0 hv0 hr0 audio g1)

theorem guarded_processDeferredActions (env : Env) (s : Player) :
    okThen (processDeferredActions env s) (fun t => Rendered s → Guarded s t) :=
  guarded_loop env _ s

theorem guarded_finishFlushIfPossible (env : Env) (s : Player) :
    okThen (finishFlushIfPossible env s) (fun t => Rendered s → Guarded s t) := by
  by_cases h : s.mFlushingAudio.midFlush = true ∨ s.mFlushingVideo.midFlush = true
  · rw [finishFlushIfPossible_mid env s h]
    simp only [okThen_ok]
    exact fun _ => guarded_refl _
  · push_neg at h
    rw [finishFlushIfPossible_terminal env s (by simpa using h.1) (by simpa using h.2)]
    intro t ht hr
    have g := guarded_processDeferredActions env _ t ht (rendered_of_objs (s := s) rfl hr)
    intro audio hf
    rcases g audio hf with g1 | ⟨g1, _⟩
    · exact .inl g1
    · exfalso
      cases audio <;> rcases g1 with g1 | g1 <;> cases g1

theorem guarded_setFlushing {s t : Player} (a : Bool) (v : FlushStatus)
    (h : core t = (core s).setFlushing a v)
    (hv : v.flushingDecoder → (flushing a s).flushingDecoder) : Guarded s t := by
  intro b hf
  refine .inr ⟨?_, ?_⟩
  · rw [← core_flushing, h] at hf
    rw [← core_flushing] at hv ⊢
    cases a <;> cases b <;>
      simp only [FlushCore.setFlushing, FlushCore.flushing, Bool.false_eq_true, if_false,
        if_true] at hf hv ⊢ <;>
      first | exact hv hf | exact hf
  · exact (congrArg FlushCore.executed h).trans (by cases a <;> rfl)

theorem guarded_drain {env : Env} {s x t : Player} (ht : processDeferredActions env x = .ok t)
    (hr : Rendered s) (ho : objs x = objs s)
    (hc : core x = { core s with mDeferredActions := x.mDeferredActions }) : Guarded s t :=
  guarded_pre_core (guarded_processDeferredActions env x t ht (rendered_of_objs ho hr)) _ hc

theorem ack_flushing (c : FlushCore) (a d b : Bool)
    (h : ((c.ack a d).flushing b).flushingDecoder) : (c.flushing b).flushingDecoder := by
  obtain ⟨fa, fv, ⟨m1, m2, m3, m4⟩, q, e, l⟩ := c
  unfold FlushCore.ack at h
  dsimp only at h
  cases a <;> cases b <;> cases fa <;> cases fv <;>
    simp only [FlushCore.flushing, FlushStatus.flushingDecoder, Bool.false_eq_true, if_false,
      if_true] at h ⊢ <;>
    split_ifs at h <;> simp_all

/-- A flush acknowledgement followed by `finishFlushIfPossible`. -/
theorem guarded_ackFinish {env : Env} {s s0 s2 t : Player} (a d : Bool) (hr : Rendered s)
    (ho : objs s0 = objs s) (hc : core s0 = core s)
    (h2 : handleFlushComplete a d s0 = .ok s2) (ht : finishFlushIfPossible env s2 = .ok t) :
    Guarded s t := by
  have r2 : Rendered s2 :=
    rendered_of_objs ((objs_handleFlushComplete a d s0 s2 h2).trans ho) hr
  have c2 := frame_handleFlushComplete a d s0 s2 h2
  refine guarded_pre (guarded_finishFlushIfPossible env s2 t ht r2) ?_ fun b hf => ?_
  · have := congrArg FlushCore.executed c2
    rw [hc] at this
    refine Eq.trans this ?_
    unfold FlushCore.ack
    dsimp only
    split_ifs <;> (try split) <;> rfl
  · rw [← core_flushing, c2, hc] at hf
    rw [← core_flushing]
    exact ack_flushing _ a d b hf

theorem guarded_onSetVideoNativeWindow (env : Env) (obj : Option Nat) (s : Player)
    (hr : Rendered s) : okThen (onSetVideoNativeWindow env obj s) (Guarded s) := by
  intro t ht
  have hrel := script_onSetVideoNativeWindow env obj s t ht
  by_cases h1 : s.mSource = none ∨ env.videoFormat = none
  · simp only [script, if_pos h1, Script.Rel] at hrel
    exact guarded_frame hrel
  · unfold onSetVideoNativeWindow at ht
    rw [if_neg h1] at ht
    refine guarded_drain ht hr ?_ ?_
    · dsimp only
      split_ifs <;> simp
    · have e1 : ∀ a x, (pushAction a x).mStarted = x.mStarted := fun _ _ => rfl
      have e2 : ∀ a x, (pushAction a x).mRenderer = x.mRenderer := fun _ _ => rfl
      have e3 : ∀ a (x : Player), (pushAction a x).mDeferredActions
          = x.mDeferredActions ++ [a] := fun _ _ => rfl
      have e4 : ∀ x, (getCurrentPosition env x).2.2.mDeferredActions = x.mDeferredActions :=
        fun x => congrArg FlushCore.mDeferredActions (core_getCurrentPosition env x)
      cases obj with
      | none => simp [core_pushAction, e3]
      | some w =>
        by_cases hs : s.mStarted = true <;> by_cases hr : s.mRenderer = none <;>
          by_cases he : env.rendererPosition.1 = OK <;>
          simp [core_pushAction, e1, e2, e3, e4, hs, hr, he, getCurrentPosition_fst,
            getCurrentPosition_snd_fst, NO_INIT_ne_OK]

theorem guarded_onDecoderError (env : Env) (audio : Bool) (err : Option Int) (s : Player)
    (hr : Rendered s) : okThen (onDecoderError env audio err s) (Guarded s) := by
  intro t ht
  have hrel := script_onDecoderError env audio err s t ht
  by_cases h1 : s.mNativeWindow ≠ none ∧ s.mNativeWindow ≠ s.mNewSurface
      ∧ decoderErrorCode err = -19
  · rw [if_pos h1] at hrel
    exact guarded_frame hrel
  rw [if_neg h1] at hrel
  unfold onDecoderError at ht
  dsimp only at ht
  rw [if_neg h1] at ht
  obtain ⟨u, hu, ht⟩ := bind_ok ht
  cases ht
  cases hf : flushing audio s <;> rw [hf] at hrel hu <;> dsimp only at hrel hu
  · refine guarded_post (guarded_drain hu hr ?_ ?_) (core_notifyListener _ _ _)
    · rfl
    · rfl
  · exact guarded_setFlushing audio _ hrel.2 fun _ => by rw [hf]; exact .inl rfl
  · exact guarded_frame hrel
  · exact guarded_frame hrel
  · exact guarded_setFlushing audio _ hrel.2 fun h => by rcases h with h | h <;> cases h
  · exact guarded_post
      (guarded_pre (guarded_finishFlushIfPossible env s u hu hr) rfl fun _ h => h)
      (core_notifyListener _ _ _)

theorem guarded_onDecoderNotify (env : Env) (audio : Bool) (g : Int) (reply : Option Nat)
    (what : DecoderWhat) (s : Player) (hr : Rendered s) :
    okThen (onDecoderNotify env audio g reply what s) (Guarded s) := by
  intro t ht
  have hrel := script_onDecoderNotify env audio g reply what s t ht
  by_cases c1 : g ≠ (if audio = true then s.mAudioDecoderGeneration
      else s.mVideoDecoderGeneration)
  · simp only [decoderScript, if_pos c1, Script.Rel] at hrel
    exact guarded_frame hrel
  unfold onDecoderNotify at ht
  dsimp only at ht
  rw [if_neg c1] at ht
  simp only [decoderScript, if_neg c1] at hrel
  obtain ⟨s0, hs0, ho0, hc0⟩ : ∃ s0 : Player, s0 = (if s.mEnableFrameRate = true
      ∧ (!audio) = true ∧ s.mAutoSwitch > 0 then
        { emit (.sysfsSetAutoSwitch s.mAutoSwitch) s with mAutoSwitch := -1 } else s)
      ∧ objs s0 = objs s ∧ core s0 = core s := by
    refine ⟨_, rfl, ?_, ?_⟩
    · split_ifs <;> rfl
    · split_ifs <;> simp [core, executed, flushLogs, emit]
  rw [← hs0] at ht
  have hr0 : Rendered s0 := rendered_of_objs ho0 hr
  have hq : s0.mDeferredActions = s.mDeferredActions :=
    congrArg FlushCore.mDeferredActions hc0
  have e3 : ∀ a (x : Player), (pushAction a x).mDeferredActions = x.mDeferredActions ++ [a] :=
    fun _ _ => rfl
  cases what with
  | kWhatInputDiscontinuity formatChange =>
    dsimp only at ht
    refine guarded_drain ht hr ?_ ?_
    · rw [objs_pushAction]
      split_ifs <;> simp [ho0]
    · cases formatChange <;> simp [core_pushAction, hc0, hq, e3]
  | kWhatEOS err => exact guarded_frame hrel
  | kWhatFlushCompleted =>
    dsimp only at ht
    obtain ⟨u, hu, ht⟩ := bind_ok ht
    exact guarded_ackFinish audio true hr ho0 hc0 hu ht
  | kWhatVideoSizeChanged format => exact guarded_frame hrel
  | kWhatShutdownCompleted =>
    dsimp only at ht
    cases audio
    · simp only [Bool.false_eq_true, if_false] at ht
      split_ifs at ht with c2
      refine guarded_pre (guarded_finishFlushIfPossible env _ t ht ?_) ?_ fun b hf => ?_
      · refine kept_of_fewer (s := s0) ?_ ?_ ?_ hr0
        · exact .inl rfl
        · exact .inr rfl
        · rfl
      · exact congrArg FlushCore.executed hc0
      · cases b
        · rcases hf with hf | hf <;> cases hf
        · have e : flushing true s = flushing true s0 := by
            rw [← core_flushing, ← core_flushing, hc0]
          rw [e]
          exact hf
    · simp only [if_true] at ht
      split_ifs at ht with c2
      refine guarded_pre (guarded_finishFlushIfPossible env _ t ht ?_) ?_ fun b hf => ?_
      · refine kept_of_fewer (s := s0) ?_ ?_ ?_ hr0
        · exact .inr rfl
        · exact .inl rfl
        · rfl
      · exact congrArg FlushCore.executed hc0
      · cases b
        · have e : flushing false s = flushing false s0 := by
            rw [← core_flushing, ← core_flushing, hc0]
          rw [e]
          exact hf
        · rcases hf with hf | hf <;> cases hf
  | kWhatResumeCompleted => exact guarded_frame hrel
  | kWhatError err =>
    have h := guarded_onDecoderError env audio err s0 hr0 t ht
    refine guarded_pre h (congrArg FlushCore.executed hc0) fun b hf => ?_
    have e : flushing b s = flushing b s0 := by
      rw [← core_flushing, ← core_flushing, hc0]
    rw [e]
    exact hf
  | unhandled => exact guarded_frame hrel

theorem guarded_onRendererNotify (env : Env) (g : Int) (what : RendererWhat) (s : Player)
    (hr : Rendered s) : okThen (onRendererNotify env g what s) (Guarded s) := by
  intro t ht
  have hrel := script_onRendererNotify env g what s t ht
  by_cases c1 : g ≠ s.mRendererGeneration
  · simp only [script, if_pos c1, Script.Rel] at hrel
    exact guarded_frame hrel
  simp only [script, if_neg c1] at hrel
  cases what with
  | kWhatFlushComplete audio =>
    unfold onRendererNotify at ht
    rw [if_neg c1] at ht
    dsimp only at ht
    obtain ⟨u, hu, ht⟩ := bind_ok ht
    exact guarded_ackFinish audio false hr rfl rfl hu ht
  | kWhatEOS audio finalResult => exact guarded_frame hrel
  | kWhatVideoRenderingStart => exact guarded_frame hrel
  | kWhatMediaRenderingStart => exact guarded_frame hrel
  | kWhatAudioOffloadTearDown positionUs dueToError => exact guarded_frame hrel
  | unhandled => exact guarded_frame hrel

theorem guarded_queueDecoderShutdown (env : Env) (audio video : Bool) (reply : Nat)
    (s : Player) (hr : Rendered s) :
    okThen (queueDecoderShutdown env audio video reply s) (Guarded s) := by
  intro t ht
  unfold queueDecoderShutdown at ht
  exact guarded_drain ht hr rfl rfl

theorem guarded_onSourceNotify (env : Env) (what : SourceWhat) (s : Player)
    (hr : Rendered s) : okThen (onSourceNotify env what s) (Guarded s) := by
  intro t ht
  have hrel := script_onSourceNotify env what s t ht
  cases what with
  | kWhatPrepared err =>
    by_cases c1 : s.mSource = none
    · simp only [script, if_pos c1, Script.Rel] at hrel
      exact guarded_frame hrel
    by_cases c2 : err ≠ OK
    · simp only [onSourceNotify] at ht
      rw [if_neg c1] at ht
      obtain ⟨u, hu, ht⟩ := bind_ok ht
      cases ht
      rw [if_pos c2] at hu
      refine guarded_post (guarded_drain hu hr rfl rfl) ?_
      rw [core_callDriver]
      split <;> simp [core_callDriver]
    · simp only [script, if_neg c1, if_neg c2, Script.Rel] at hrel
      exact guarded_frame hrel
  | kWhatQueueDecoderShutdown audio video reply =>
    have ht2 : queueDecoderShutdown env audio video reply s = .ok t := ht
    exact guarded_queueDecoderShutdown env audio video reply s hr t ht2
  | kWhatInstantiateSecureDecoders reply => exact guarded_frame hrel
  | kWhatFlagsChanged flags => exact guarded_frame hrel
  | kWhatVideoSizeChanged format => exact guarded_frame hrel
  | kWhatBufferingUpdate percentage => exact guarded_frame hrel
  | kWhatPauseOnBufferingStart => exact guarded_frame hrel
  | kWhatBufferingStart => exact guarded_frame hrel
  | kWhatResumeOnBufferingEnd => exact guarded_frame hrel
  | kWhatBufferingEnd => exact guarded_frame hrel
  | kWhatCacheStats kbps => exact guarded_frame hrel
  | kWhatSubtitleData buffer => exact guarded_frame hrel
  | kWhatTimedMetaData buffer => exact guarded_frame hrel
  | kWhatTimedTextData generation buffer => exact guarded_frame hrel
  | kWhatDrmNoLicense => exact guarded_frame hrel
  | kWhatSourceReady err => exact guarded_frame hrel
  | kWhatFrameRate frameRate => exact guarded_frame hrel
  | unhandled => cases ht

theorem guarded_onMessageReceived (env : Env) (msg : Msg) (s : Player) (hr : Rendered s) :
    okThen (onMessageReceived env msg s) (Guarded s) := by
  intro t ht
  have hrel := script_onMessageReceived env msg s t ht
  cases msg with
  | kWhatSetVideoNativeWindow obj =>
    have ht2 : onSetVideoNativeWindow env obj s = .ok t := ht
    exact guarded_onSetVideoNativeWindow env obj s hr t ht2
  | kWhatVideoNotify generation reply what =>
    have ht2 : onDecoderNotify env false generation reply what s = .ok t := ht
    exact guarded_onDecoderNotify env false generation reply what s hr t ht2
  | kWhatAudioNotify generation reply what =>
    have ht2 : onDecoderNotify env true generation reply what s = .ok t := ht
    exact guarded_onDecoderNotify env true generation reply what s hr t ht2
  | kWhatRendererNotify generation what =>
    have ht2 : onRendererNotify env generation what s = .ok t := ht
    exact guarded_onRendererNotify env generation what s hr t ht2
  | kWhatSourceNotify what =>
    have ht2 : onSourceNotify env what s = .ok t := ht
    exact guarded_onSourceNotify env what s hr t ht2
  | kWhatReset =>
    simp only [onMessageReceived] at ht
    exact guarded_drain ht hr rfl rfl
  | kWhatSeek seekTimeUs needNotify =>
    simp only [onMessageReceived] at ht
    have e3 : ∀ a (x : Player), (pushAction a x).mDeferredActions = x.mDeferredActions ++ [a] :=
      fun _ _ => rfl
    have hc : core (if s.mEnableFrameRate ∧ s.mFrameRate = .positive then
        if env.nowUs - s.mStartTimeUs > 100000 then
          emit (.sysfsSetAutoSwitch 0) { s with mAutoSwitch := env.sysfsAutoSwitch }
        else s
      else s) = core s := by
      split_ifs <;> simp [core, executed, flushLogs, emit]
    refine guarded_drain ht hr ?_ ?_
    · simp only [objs_pushAction]
      split_ifs <;> rfl
    · simp [core_pushAction, e3, hc]
  | kWhatSetDataSource obj => exact guarded_frame hrel
  | kWhatPrepare => exact guarded_frame hrel
  | kWhatGetTrackInfo => exact guarded_frame hrel
  | kWhatGetSelectedTrack type => exact guarded_frame hrel
  | kWhatSelectTrack trackIndex select timeUs => exact guarded_frame hrel
  | kWhatPollDuration generation => exact guarded_frame hrel
  | kWhatSetAudioSink obj => exact guarded_frame hrel
  | kWhatStart => exact guarded_frame hrel
  | kWhatScanSources generation scanNum => exact guarded_frame hrel
  | kWhatMoreDataQueued => exact guarded_frame hrel
  | kWhatPause => exact guarded_frame hrel
  | kWhatClosedCaptionNotify what => exact guarded_frame hrel
  | unhandled => cases ht

/-- In a state where every decoder has a renderer, a track that is flushing after
the handling of an input either has no acknowledgement recorded, or was
flushing before the input already, and then no deferred action was executed. -/
theorem step_guarded (env : Env) (input : Input) (s : Player) (hr : Rendered s) :
    okThen (step env input s) (Guarded s) := by
  intro t ht
  cases input with
  | message msg => exact guarded_onMessageReceived env msg s hr t ht
  | call api =>
    cases ht
    exact guarded_frame (core_onApi env api s)

/-! ## Both acknowledgements of a flush -/

/-- Claim C4: in every execution from a freshly constructed player a decoder
exists only together with a renderer, so `flushDecoder` never records the
acknowledgement of the renderer itself. Hence, when the handling of an input in
a reachable state leaves a track in `FLUSHING_DECODER` or
`FLUSHING_DECODER_SHUTDOWN` and `flushDecoder` has put it there (the track was
not flushing before the input, or a deferred action was executed), neither
acknowledgement of the track is recorded; from then on, whatever inputs are
handled, the track keeps one of these two statuses as long as no
flush-completed notification of its decoder has been handled, and likewise as
long as no flush-complete notification of the renderer for it has been handled.
In every state, the handling of one acknowledgement while the other is missing
leaves the status of both tracks unchanged and initiates no decoder shutdown,
and a track that waits for an acknowledgement keeps waiting while other inputs
are handled. The handling of the inputs never stops for lack of loop
iterations. -/
theorem both_acks_needed (env : Env) (audio : Bool) (s : Player) :
    (Reachable s →
      Rendered s ∧
      ∀ input t, step env input s = .ok t → (flushing audio t).flushingDecoder →
        (¬ (flushing audio s).flushingDecoder ∨ executed t ≠ executed s) →
        (awaiting audio true (core t) ∧ awaiting audio false (core t)) ∧
        ∀ isDecoder inputs u, (∀ p ∈ inputs, p.2.isFlushAck audio isDecoder = false) →
          run inputs t = .ok u →
          (flushing audio u).flushingDecoder ∧ awaiting audio isDecoder (core u)) ∧
    (∀ needShutdown, getDecoder audio s ≠ none → s.mRenderer ≠ none →
      flushing audio (flushDecoder audio needShutdown s)
        = (if needShutdown then .FLUSHING_DECODER_SHUTDOWN else .FLUSHING_DECODER) ∧
      awaiting audio true (core (flushDecoder audio needShutdown s)) ∧
      awaiting audio false (core (flushDecoder audio needShutdown s))) ∧
    (∀ isDecoder inputs t, awaiting audio isDecoder (core s) →
      (∀ p ∈ inputs, p.2.isFlushAck audio isDecoder = false) → run inputs s = .ok t →
      awaiting audio isDecoder (core t)) ∧
    (∀ isDecoder input t, awaiting audio (!isDecoder) (core s) →
      input.isFlushAck audio isDecoder = true → step env input s = .ok t →
      t.mFlushingAudio = s.mFlushingAudio ∧ t.mFlushingVideo = s.mFlushingVideo ∧
      shutdownsInitiated t = shutdownsInitiated s) ∧
    (∀ inputs, run inputs s ≠ .error .fuel) := by
  refine ⟨fun hs => ⟨reachable_rendered hs, fun input t ht hf hn => ?_⟩,
    fun needShutdown hd hr => ?_,
    fun isDecoder inputs t hw hi ht => run_awaiting inputs audio isDecoder s hi hw t ht,
    fun isDecoder input t hw hi ht => single_ack env audio isDecoder input s hi hw t ht,
    fun inputs => run_ne_fuel inputs s⟩
  · have hu : Unacked audio (core t) := by
      rcases step_guarded env input s (reachable_rendered hs) t ht audio hf with g | ⟨g1, g2⟩
      · exact g
      · rcases hn with hn | hn
        · exact absurd g1 hn
        · exact absurd g2 hn
    refine ⟨hu, fun isDecoder inputs u hi hr => ?_⟩
    have hw : awaiting audio isDecoder (core t) := by
      cases isDecoder
      · exact hu.2
      · exact hu.1
    have h2 := run_awaiting inputs audio isDecoder t hi hw u hr
    refine ⟨?_, h2⟩
    have := h2.1
    rw [core_flushing] at this
    exact this
  · have hc := core_flushDecoder audio needShutdown s
    rw [if_neg hd] at hc
    have hn : s.mRenderer.isNone = false := by
      cases h : s.mRenderer with
      | none => exact absurd h hr
      | some r => rfl
    rw [hn] at hc
    have hf : flushing audio (flushDecoder audio needShutdown s)
        = (if needShutdown then .FLUSHING_DECODER_SHUTDOWN else .FLUSHING_DECODER) := by
      rw [← core_flushing, hc]
      cases audio <;> cases needShutdown <;> simp [FlushCore.flushTrack, FlushCore.flushing]
    refine ⟨hf, ?_, ?_⟩ <;>
      (rw [hc]
       cases audio <;> cases needShutdown <;>
         simp [awaiting, FlushCore.flushTrack, FlushCore.flushing, FlushComplete.get,
           FlushComplete.set])

theorem both_acks_needed_witness :
    (Rendered playing ∧
      step exampleEnv (.message (.kWhatSeek 5 true)) playing = .ok seeking ∧
      ¬ (flushing true playing).flushingDecoder ∧
      (awaiting true true (core seeking) ∧ awaiting true false (core seeking)) ∧
      (flushing true rendererAcked).flushingDecoder ∧
      awaiting true true (core rendererAcked)) ∧
    (flushing true (flushDecoder true false playing) = .FLUSHING_DECODER ∧
      awaiting true true (core (flushDecoder true false playing)) ∧
      awaiting true false (core (flushDecoder true false playing))) ∧
    (halfAcked.mFlushingAudio = seeking.mFlushingAudio ∧
      halfAcked.mFlushingVideo = seeking.mFlushingVideo ∧
      shutdownsInitiated halfAcked = shutdownsInitiated seeking) :=
  have h := (both_acks_needed exampleEnv true playing).1 (reachable_after _)
  have hstep : step exampleEnv (.message (.kWhatSeek 5 true)) playing = .ok seeking := rfl
  have hn : ¬ (flushing true playing).flushingDecoder := by decide
  have h2 := h.2 _ seeking hstep (.inl rfl) (.inl hn)
  ⟨⟨h.1, hstep, hn, h2.1,
      h2.2 true
        [(exampleEnv, .message (.kWhatRendererNotify 1 (.kWhatFlushComplete true))),
          (exampleEnv, .message (.kWhatVideoNotify 1 none .kWhatFlushCompleted))]
        rendererAcked (by decide) rfl⟩,
    (both_acks_needed exampleEnv true playing).2.1 false (by decide) (by decide),
    (both_acks_needed exampleEnv true seeking).2.2.2.1 true
      (.message (.kWhatAudioNotify 1 none .kWhatFlushCompleted)) halfAcked
      ⟨.inl rfl, rfl⟩ rfl rfl⟩

/-! ## Dropped and notified decoder errors -/

/-- Claim C15, amended: a current-generation decoder error that is not dropped
(the code is not `-19`, or no native window is set, or the surface of the window
is `mNewSurface`) never ends without its notification, in any flush status of the
track: whenever the handling returns, exactly one `MEDIA_ERROR_UNKNOWN`
notification carrying the error code has been added for an attached, live
driver (none without one); the handling does return when the track is
mid-flush, when it is `FLUSHED` with its decoder present, and when the queue is
empty. A dropped error (code `-19` while a native window is set whose surface is
not `mNewSurface`) is handled without abort and without any notification of the
client: the handling returns the state it began with, but for the restore of the
automatic frame-rate switch of lines 1214-1218, which precedes the handling of
every current-generation decoder notification (for the video track, with
`mEnableFrameRate` set and `mAutoSwitch` positive, the value is written to sysfs
and `mAutoSwitch` becomes `-1`). The code notified is `UNKNOWN_ERROR` when the
message has no code or the code `OK`. -/
theorem decoder_error_notified (env : Env) (audio : Bool) (reply : Option Nat)
    (err : Option Int) (s : Player) :
    (¬ errorDropped err s →
      okThen (step env (decoderNotify audio (decoderGeneration audio s) reply
          (.kWhatError err)) s)
        (fun t => errorsNotified t = errorsNotified s ++
          (if s.mDriver && env.driverAlive then [decoderErrorCode err] else [])) ∧
      (s.mDriver = true → env.driverAlive = true →
        okThen (step env (decoderNotify audio (decoderGeneration audio s) reply
            (.kWhatError err)) s)
          (fun t => errorsNotified t = errorsNotified s ++ [decoderErrorCode err])) ∧
      ((flushing audio s).midFlush = true ∨
          (flushing audio s = .FLUSHED ∧ getDecoder audio s ≠ none) ∨
          ((flushing audio s = .NONE ∨ flushing audio s = .SHUT_DOWN)
            ∧ s.mDeferredActions = []) →
        ∃ t, step env (decoderNotify audio (decoderGeneration audio s) reply
          (.kWhatError err)) s = .ok t)) ∧
    (errorDropped err s →
      step env (decoderNotify audio (decoderGeneration audio s) reply (.kWhatError err)) s
        = .ok (if s.mEnableFrameRate ∧ !audio ∧ s.mAutoSwitch > 0 then
            { emit (.sysfsSetAutoSwitch s.mAutoSwitch) s with mAutoSwitch := -1 }
          else s) ∧
      ∀ t, step env (decoderNotify audio (decoderGeneration audio s) reply
          (.kWhatError err)) s = .ok t →
        clientNotifications t = clientNotifications s ∧
        errorsNotified t = errorsNotified s) ∧
    decoderErrorCode none = UNKNOWN_ERROR ∧ decoderErrorCode (some OK) = UNKNOWN_ERROR ∧
    (∀ e, e ≠ OK → decoderErrorCode (some e) = e) := by
  obtain ⟨s0, hstep, hs0⟩ := step_decoderError env audio reply err s
  have hfr : errorsNotified s0 = errorsNotified s ∧ s0.mDriver = s.mDriver ∧
      (errorDropped err s0 ↔ errorDropped err s) ∧ flushing audio s0 = flushing audio s ∧
      getDecoder audio s0 = getDecoder audio s ∧ s0.mDeferredActions = s.mDeferredActions := by
    rcases hs0 with rfl | rfl
    · simp
    · cases audio <;> simp [errorsNotified, emit, errorDropped, flushing, getDecoder]
  obtain ⟨f1, f2, f3, f4, f5, f6⟩ := hfr
  refine ⟨fun hd => ?_, fun hd => ?_, rfl, rfl, ?_⟩
  · have main := onDecoderError_errs env audio err s0 (fun h => hd (f3.1 h))
    rw [f1, f2] at main
    rw [hstep]
    refine ⟨main, ?_, ?_⟩
    · intro h1 h2
      simpa [h1, h2] using main
    · have hr := onDecoderError_returns env audio err s0
      rw [f4, f5, f6] at hr
      rintro (h | ⟨h1, h2⟩ | ⟨h1, h2⟩)
      · exact hr.1 h
      · exact hr.2.1 h1 h2
      · exact hr.2.2 h1 h2
  · have hex : step env (decoderNotify audio (decoderGeneration audio s) reply
          (.kWhatError err)) s
        = .ok (if s.mEnableFrameRate ∧ !audio ∧ s.mAutoSwitch > 0 then
            { emit (.sysfsSetAutoSwitch s.mAutoSwitch) s with mAutoSwitch := -1 }
          else s) := by
      obtain ⟨d1, d2, d3⟩ := hd
      cases audio
      · by_cases h : s.mEnableFrameRate = true ∧ s.mAutoSwitch > 0
        · simp [step, decoderNotify, decoderGeneration, onMessageReceived, onDecoderNotify,
            onDecoderError, h, d1, d2, d3, emit]
        · simp [step, decoderNotify, decoderGeneration, onMessageReceived, onDecoderNotify,
            onDecoderError, h, d1, d2, d3]
      · simp [step, decoderNotify, decoderGeneration, onMessageReceived, onDecoderNotify,
          onDecoderError, d1, d2, d3]
    refine ⟨hex, fun t ht => ?_⟩
    rw [hex] at ht
    cases ht
    split_ifs <;> simp [clientNotifications, errorsNotified, emit]
  · intro e he
    simp [decoderErrorCode, he]

theorem decoder_error_notified_witness :
    (¬ errorDropped (some (-5)) seeking ∧
      okThen (step exampleEnv (decoderNotify true (decoderGeneration true seeking) none
          (.kWhatError (some (-5)))) seeking)
        (fun t => errorsNotified t = errorsNotified seeking ++ [decoderErrorCode (some (-5))]) ∧
      ∃ t, step exampleEnv (decoderNotify true (decoderGeneration true seeking) none
        (.kWhatError (some (-5)))) seeking = .ok t) ∧
    (errorDropped (some (-19)) autoSwitchSaved ∧
      autoSwitchSaved.mAutoSwitch = 1 ∧
      step exampleEnv (decoderNotify false (decoderGeneration false autoSwitchSaved) none
          (.kWhatError (some (-19)))) autoSwitchSaved
        = .ok { emit (.sysfsSetAutoSwitch 1) autoSwitchSaved with mAutoSwitch := -1 }) :=
  ⟨⟨by decide,
      ((decoder_error_notified exampleEnv true none (some (-5)) seeking).1 (by decide)).2.1
        rfl rfl,
      ((decoder_error_notified exampleEnv true none (some (-5)) seeking).1 (by decide)).2.2
        (Or.inl rfl)⟩,
    by decide, rfl,
    ((decoder_error_notified exampleEnv false none (some (-19)) autoSwitchSaved).2.1
      (by decide)).1.trans rfl⟩

end AmNuPlayer
